import Mathlib

/-!
# Thumb2 code-generation utilities (`src/compiler/codegen/arm/utility_arm.cc`)

A shallow embedding of the immediate encoders, the constant materializer, the
operation selector and the addressing-mode selector, followed by the
properties proved about them.

Conventions of the embedding.
* A C `uint32_t` is a `Nat` below `2^32`; arithmetic that can leave the range is
  reduced `% 2^32` explicitly.
* A C `int` is an `Int` in `[-2^31, 2^31)`.  Bitwise operators on an `int` act on
  its two's-complement pattern (`toU32`), and the result is read back by `toS32`.
* Code that aborts (`LOG(FATAL)`) returns `Except.error`.
* C `-value` on an `int` is exact except at `INT_MIN`, where it is a signed
  overflow and the behaviour of the program is undefined: a call whose outcome
  depends on that negation has the outcome `Fault.signedOverflow`.
-/

namespace Art

/-! ## Machine integers -/

/-- Two's-complement pattern of a C `int` (conversion `int -> uint32_t`). -/
def toU32 (x : Int) : Nat := (x % 4294967296).toNat

/-- The C `int` carried by a 32-bit pattern (conversion `uint32_t -> int`). -/
def toS32 (n : Nat) : Int :=
  if n % 4294967296 < 2147483648 then ((n % 4294967296 : Nat) : Int)
  else ((n % 4294967296 : Nat) : Int) - 4294967296

/-- C `a & b` on two `int`s. -/
def andI (a b : Int) : Int := toS32 (toU32 a &&& toU32 b)

/-- C `~a` on an `int`. -/
def notI (a : Int) : Int := toS32 (toU32 a ^^^ 0xFFFFFFFF)

/-- C `a + b` on two `int`s, wrapping. -/
def addI (a b : Int) : Int := toS32 (toU32 (a + b))

/-- C `a - b` on two `int`s, wrapping. -/
def subI (a b : Int) : Int := toS32 (toU32 (a - b))

/-- C `a >> k` on an `int`: the arithmetic shift. -/
def sarI (a : Int) (k : Nat) : Int := Int.shiftRight a k

/-! ## Immediate encoder -/

/-- `EncodeImmSingle` (lines 25-45).  `value` is an `int`; every mask is applied
to its bit pattern and every masked value is shifted right as a non-negative
number (the mask `0x80000000` is an unsigned literal, the others clear the sign
bit). -/
def EncodeImmSingle (value : Int) : Int :=
  let bits := toU32 value
  let bit_a := (bits &&& 0x80000000) >>> 31
  let not_bit_b := (bits &&& 0x40000000) >>> 30
  let bit_b := (bits &&& 0x20000000) >>> 29
  let b_smear := (bits &&& 0x3e000000) >>> 25
  let slice := (bits &&& 0x01f80000) >>> 19
  let zeroes := bits &&& 0x0007ffff
  if zeroes != 0 then -1
  else if bit_b != 0 then
    if not_bit_b != 0 || b_smear != 0x1f then -1
    else (((bit_a <<< 7) ||| (bit_b <<< 6) ||| slice : Nat) : Int)
  else
    if not_bit_b != 1 || b_smear != 0x0 then -1
    else (((bit_a <<< 7) ||| (bit_b <<< 6) ||| slice : Nat) : Int)

/-- One iteration of the `do ... while (count)` loop of `LeadingZeros`, on the
pair `(n, val)`. -/
def LeadingZerosStep (count : Nat) (s : Nat × Nat) : Nat × Nat :=
  let alt := s.2 >>> count
  if alt != 0 then (s.1 - count, alt) else s

/-- `LeadingZeros` (lines 66-83): `count` runs through 16, 8, 4, 2, 1 and the
result is `n - val`. -/
def LeadingZeros (val : Nat) : Nat :=
  let s := [16, 8, 4, 2, 1].foldl (fun s count => LeadingZerosStep count s) (32, val)
  s.1 - s.2

/-- `ModifiedImmediate` (lines 89-117).  `value` is a `uint32_t`; the result is
the `int` field, or `-1`. -/
def ModifiedImmediate (value : Nat) : Int :=
  let b0 := value &&& 0xff
  if value ≤ 0xFF then (b0 : Int)
  else if value = ((b0 <<< 16) ||| b0) % 4294967296 then (((0x1 <<< 8) ||| b0 : Nat) : Int)
  else if value = ((b0 <<< 24) ||| (b0 <<< 16) ||| (b0 <<< 8) ||| b0) % 4294967296 then
    (((0x3 <<< 8) ||| b0 : Nat) : Int)
  else
    let b0 := (value >>> 8) &&& 0xff
    if value = ((b0 <<< 24) ||| (b0 <<< 8)) % 4294967296 then (((0x2 <<< 8) ||| b0 : Nat) : Int)
    else
      let z_leading := LeadingZeros value
      let z_trailing := 32 - LeadingZeros ((value ^^^ 0xFFFFFFFF) &&& ((value + 4294967295) % 4294967296))
      if z_leading + z_trailing < 24 then -1
      else
        let value := (value <<< (z_leading + 1)) % 4294967296
        let value := value >>> 25
        ((value ||| ((0x8 + z_leading) <<< 7) : Nat) : Int)

/-- `EncodeImmDoubleHigh` (lines 570-590), on the pattern of the `int`. -/
def EncodeImmDoubleHigh (value : Int) : Int :=
  let bits := toU32 value
  let bit_a := (bits &&& 0x80000000) >>> 31
  let not_bit_b := (bits &&& 0x40000000) >>> 30
  let bit_b := (bits &&& 0x20000000) >>> 29
  let b_smear := (bits &&& 0x3fc00000) >>> 22
  let slice := (bits &&& 0x003f0000) >>> 16
  let zeroes := bits &&& 0x0000ffff
  if zeroes != 0 then -1
  else if bit_b != 0 then
    if not_bit_b != 0 || b_smear != 0xff then -1
    else (((bit_a <<< 7) ||| (bit_b <<< 6) ||| slice : Nat) : Int)
  else
    if not_bit_b != 1 || b_smear != 0x0 then -1
    else (((bit_a <<< 7) ||| (bit_b <<< 6) ||| slice : Nat) : Int)

/-- `EncodeImmDouble` (lines 592-598). -/
def EncodeImmDouble (val_lo val_hi : Int) : Int :=
  if val_lo = 0 then EncodeImmDoubleHigh val_hi else -1

/-- Loop invariant of `LeadingZeros` before the iteration with a given `count`:
`k` bounds the bits still to be examined. -/
def LZInv (orig k : Nat) (s : Nat × Nat) : Prop :=
  s.2 < 2 ^ k ∧ k ≤ s.1 ∧ s.1 ≤ 32 ∧ s.2 = orig / 2 ^ (32 - s.1) ∧
    (orig ≠ 0 → s.2 ≠ 0) ∧ (orig = 0 → s.1 = 32)

/-! ## Architecture decode rules used to state the encoder contracts -/

/-- Rotation of a 32-bit word to the right by `n` (with `n ≤ 32`). -/
def ror32 (x n : Nat) : Nat := ((x >>> n) ||| (x <<< (32 - n))) % 4294967296

/-- Decode rule of a Thumb2 modified immediate, as the contract of
`ModifiedImmediate` words it: with `b = f[7:0]`, when `f[11:10] = 00` the value
is selected by `f[9:8]` among `b`, `b | b<<16`, `b<<8 | b<<24` and `b` in all
four bytes; otherwise it is `0x80 | f[6:0]` rotated right by `f[11:7]`. -/
def ThumbExpandImm (f : Nat) : Nat :=
  let b := f % 256
  if (f / 1024) % 4 = 0 then
    match (f / 256) % 4 with
    | 0 => b
    | 1 => b ||| (b <<< 16)
    | 2 => (b <<< 8) ||| (b <<< 24)
    | _ => b ||| (b <<< 8) ||| (b <<< 16) ||| (b <<< 24)
  else ror32 (0x80 ||| (f % 128)) ((f / 128) % 32)

/-- The computation of `z_trailing` inside `ModifiedImmediate` (line 107). -/
def zTrailing (value : Nat) : Nat :=
  32 - LeadingZeros ((value ^^^ 0xFFFFFFFF) &&& ((value + 4294967295) % 4294967296))

/-- Expansion of an 8-bit single-precision float immediate `abcdefgh`, as the
contract of `EncodeImmSingle` words it: `a : NOT(b) : bbbbb : cdefgh` followed
by nineteen zero bits. -/
def VFPExpandImm32 (e : Nat) : Nat :=
  let a := e / 128 % 2
  let b := e / 64 % 2
  let cdefgh := e % 64
  a * 2 ^ 31 + (1 - b) * 2 ^ 30 + (b * 31) * 2 ^ 25 + cdefgh * 2 ^ 19

/-- Expansion of an 8-bit double-precision float immediate `abcdefgh` into the
high word, as the contract of `EncodeImmDouble` words it:
`a : NOT(b) : bbbbbbbb : cdefgh` followed by sixteen zero bits (the low word is
zero). -/
def VFPExpandImm64High (e : Nat) : Nat :=
  let a := e / 128 % 2
  let b := e / 64 % 2
  let cdefgh := e % 64
  a * 2 ^ 31 + (1 - b) * 2 ^ 30 + (b * 255) * 2 ^ 22 + cdefgh * 2 ^ 16

/-! ## Data model

The enumerations, the instruction record and the compilation context are
declared in headers that are not part of `utility_arm.cc`; they are given here
with the names this file uses. -/

/-- Abstract operation kinds (`OpKind`): the kinds named in `utility_arm.cc`,
and the conditional branch of the operation set. -/
inductive OpKind where
  | kOpMov | kOpMvn | kOpCmp | kOpLsl | kOpLsr | kOpAsr | kOpRor | kOpAnd | kOpOr | kOpXor
  | kOpNeg | kOpAdd | kOpAdc | kOpSub | kOpSbc | kOpRsub | kOpMul | kOpBic | kOpCmn | kOpTst
  | kOpBlx | kOp2Char | kOp2Short | kOp2Byte | kOpCondBr | kOpUncondBr
  deriving DecidableEq

/-- Access sizes (`OpSize`). -/
inductive OpSize where
  | kWord | kLong | kSingle | kDouble | kUnsignedHalf | kSignedHalf | kUnsignedByte
  | kSignedByte
  deriving DecidableEq

/-- Concrete opcodes (`ArmOpcode`): every opcode named in `utility_arm.cc`. -/
inductive ArmOpcode where
  | kThumbBkpt | kThumb2AdcRRI8 | kThumb2AdcRRR | kThumb2AddRRI12 | kThumb2AddRRI8
  | kThumb2AddRRR | kThumb2AndRRI8 | kThumb2AndRRR | kThumb2AsrRRI5 | kThumb2AsrRRR
  | kThumb2BCond | kThumb2BicRRR | kThumb2CmnRR | kThumb2CmpRI8 | kThumb2CmpRR | kThumb2EorRRI8
  | kThumb2EorRRR | kThumb2Fmrs | kThumb2Fmsr | kThumb2LdrPcRel12 | kThumb2LdrRRI12
  | kThumb2LdrRRR | kThumb2LdrbRRI12 | kThumb2LdrbRRR | kThumb2LdrhRRI12 | kThumb2LdrhRRR
  | kThumb2LdrsbRRI12 | kThumb2LdrsbRRR | kThumb2LdrshRRI12 | kThumb2LdrshRRR | kThumb2LslRRI5
  | kThumb2LslRRR | kThumb2LsrRRI5 | kThumb2LsrRRR | kThumb2MnvRR | kThumb2MovImm16
  | kThumb2MovImmShift | kThumb2MulRRR | kThumb2MvnImm12 | kThumb2NegRR | kThumb2OrrRRI8
  | kThumb2OrrRRR | kThumb2RorRRI5 | kThumb2RorRRR | kThumb2RsubRRR | kThumb2SbcRRI8
  | kThumb2SbcRRR | kThumb2Sbfx | kThumb2StrRRI12 | kThumb2StrRRR | kThumb2StrbRRI12
  | kThumb2StrbRRR | kThumb2StrhRRI12 | kThumb2StrhRRR | kThumb2SubRRI12 | kThumb2SubRRI8
  | kThumb2SubRRR | kThumb2TstRR | kThumb2Ubfx | kThumb2Vldrd | kThumb2Vldrs | kThumb2Vmovd
  | kThumb2Vmovd_IMM8 | kThumb2Vmovs | kThumb2Vmovs_IMM8 | kThumb2Vstrd | kThumb2Vstrs
  | kThumbAdcRR | kThumbAddPcRel | kThumbAddRI8 | kThumbAddRRI3 | kThumbAddRRR | kThumbAddSpI7
  | kThumbAddSpRel | kThumbAndRR | kThumbAsrRR | kThumbAsrRRI5 | kThumbBUncond | kThumbBicRR
  | kThumbBlxR | kThumbCmnRR | kThumbCmpHH | kThumbCmpHL | kThumbCmpLH | kThumbCmpRI8
  | kThumbCmpRR | kThumbEorRR | kThumbLdrPcRel | kThumbLdrRRI5 | kThumbLdrRRR | kThumbLdrSpRel
  | kThumbLdrbRRI5 | kThumbLdrbRRR | kThumbLdrhRRI5 | kThumbLdrhRRR | kThumbLdrsbRRR
  | kThumbLdrshRRR | kThumbLslRR | kThumbLslRRI5 | kThumbLsrRR | kThumbLsrRRI5 | kThumbMovImm
  | kThumbMovRR | kThumbMovRR_H2H | kThumbMovRR_H2L | kThumbMovRR_L2H | kThumbMul | kThumbMvn
  | kThumbNeg | kThumbOrr | kThumbRorRR | kThumbSbc | kThumbStrRRI5 | kThumbStrRRR
  | kThumbStrbRRI5 | kThumbStrbRRR | kThumbStrhRRI5 | kThumbStrhRRR | kThumbSubRI8
  | kThumbSubRRI3 | kThumbSubRRR | kThumbSubSpI7 | kThumbTst
  deriving DecidableEq

/-- Memory-reference kinds passed to `SetMemRefType`; only `kLiteral` is used. -/
inductive MemRefType where
  | kLiteral
  deriving DecidableEq

/-- What `utility_arm.cc` reads of an `EncodingMap` entry: the operand-count
flags and whether `field_loc[2].kind` is `kFmtShift`. -/
structure ArmEncodingMap where
  IS_BINARY_OP : Bool
  IS_TERTIARY_OP : Bool
  IS_QUAD_OP : Bool
  field2_kFmtShift : Bool

/-- Modelled from the spec: the declarations of `arm_lir.h` and of the build
that `utility_arm.cc` uses and that are not under `src/`: the register-class
predicates of a register handle, the stack-pointer and program-counter handles,
the pairing `S2d` of two single registers into a double, the shift code
`kArmLsl`, the read-only opcode metadata registry, and whether `DCHECK`
assertions are compiled in.  They are parameters of the embedding. -/
structure ArmEnv where
  ARM_FPREG : Int → Bool
  ARM_LOWREG : Int → Bool
  ARM_SINGLEREG : Int → Bool
  ARM_DOUBLEREG : Int → Bool
  S2d : Int → Int → Int
  r13sp : Int
  r15pc : Int
  rARM_SP : Int
  kArmLsl : Int
  EncodingMap : ArmOpcode → ArmEncodingMap
  kIsDebugBuild : Bool

/-- A literal-pool entry as seen through a `LIR* data_target`: `index` is the
identity (address) of the entry, `word` is `operands[0]`. -/
structure Literal where
  index : Nat
  word : Int
  deriving DecidableEq

/-- Annotation written by `AnnotateDalvikRegAccess`. -/
structure DalvikRegAccess where
  reg_id : Int
  is_load : Bool
  is64bit : Bool
  deriving DecidableEq

/-- Instruction record (`LIR`).  `id` is the allocation serial of the record and
stands for its address. -/
structure LIR where
  id : Nat
  dalvik_offset : Int
  opcode : ArmOpcode
  operands : List Int
  target : Option Literal
  is_nop : Bool
  mem_ref : Option (Bool × MemRefType)
  alias_info : Option Literal
  dalvik_reg_access : Option DalvikRegAccess
  deriving DecidableEq

/-- Acquire and release events of the temporary-register pool. -/
inductive TempEvent where
  | acquire (r : Int)
  | release (r : Int)
  deriving DecidableEq

/-- Compilation context (`CompilationUnit`): the instruction stream in emission
order, the allocation counter, the literal pool, the source-position marker,
the optimization-disable mask, and the temporary-register pool with the trace of
its acquire and release events. -/
structure CompilationUnit where
  code : List LIR
  next_id : Nat
  literal_list : List Int
  current_dalvik_offset : Int
  disable_opt : Nat
  free_temps : List Int
  temp_trace : List TempEvent
  deriving DecidableEq

/-- Ways in which a call has no result: the aborts of the code, lack of
unfolding depth in the embedding, and `signedOverflow`, which is not an abort:
it marks a call whose outcome depends on `-value` for `value = INT_MIN`, a
signed overflow, where the behaviour of the C program is undefined and nothing
is stated about what the call does. -/
inductive Fault where
  | badOpcode
  | badSize
  | unexpectedOperandCount
  | dcheckFailed
  | noFreeTemp
  | outOfFuel
  | signedOverflow
  deriving DecidableEq

/-- `DCHECK(cond)`: fatal when assertions are compiled in and `cond` fails. -/
def DCHECK (env : ArmEnv) (cond : Bool) : Except Fault Unit :=
  if env.kIsDebugBuild && !cond then Except.error Fault.dcheckFailed else Except.ok ()

/-! ## External collaborators -/

/-- Modelled from the spec: `RawLIR` of the instruction-stream builder, absent
from `src/`: allocates a record holding the opcode, up to five operands and an
optional literal-pool reference, without appending it. -/
def RawLIR (cu : CompilationUnit) (dalvik_offset : Int) (opcode : ArmOpcode)
    (op0 op1 op2 op3 op4 : Int) (target : Option Literal) : LIR × CompilationUnit :=
  ({ id := cu.next_id, dalvik_offset := dalvik_offset, opcode := opcode,
     operands := [op0, op1, op2, op3, op4], target := target, is_nop := false,
     mem_ref := none, alias_info := none, dalvik_reg_access := none },
   { cu with next_id := cu.next_id + 1 })

/-- Modelled from the spec: `AppendLIR` of the instruction-stream builder, absent
from `src/`: appends a record to the instruction stream. -/
def AppendLIR (cu : CompilationUnit) (lir : LIR) : CompilationUnit :=
  { cu with code := cu.code ++ [lir] }

/-- Modelled from the spec: `NewLIR1`, absent from `src/`: allocates and appends. -/
def NewLIR1 (cu : CompilationUnit) (opcode : ArmOpcode) (dest : Int) :
    LIR × CompilationUnit :=
  let r := RawLIR cu cu.current_dalvik_offset opcode dest 0 0 0 0 none
  (r.1, AppendLIR r.2 r.1)

/-- Modelled from the spec: `NewLIR2`, absent from `src/`: allocates and appends. -/
def NewLIR2 (cu : CompilationUnit) (opcode : ArmOpcode) (dest src1 : Int) :
    LIR × CompilationUnit :=
  let r := RawLIR cu cu.current_dalvik_offset opcode dest src1 0 0 0 none
  (r.1, AppendLIR r.2 r.1)

/-- Modelled from the spec: `NewLIR3`, absent from `src/`: allocates and appends. -/
def NewLIR3 (cu : CompilationUnit) (opcode : ArmOpcode) (dest src1 src2 : Int) :
    LIR × CompilationUnit :=
  let r := RawLIR cu cu.current_dalvik_offset opcode dest src1 src2 0 0 none
  (r.1, AppendLIR r.2 r.1)

/-- Modelled from the spec: `NewLIR4`, absent from `src/`: allocates and appends. -/
def NewLIR4 (cu : CompilationUnit) (opcode : ArmOpcode) (dest src1 src2 info : Int) :
    LIR × CompilationUnit :=
  let r := RawLIR cu cu.current_dalvik_offset opcode dest src1 src2 info 0 none
  (r.1, AppendLIR r.2 r.1)

/-- Modelled from the spec: `SetMemRefType`, absent from `src/`: marks a record
as a memory reference of a kind. -/
def SetMemRefType (lir : LIR) (is_load : Bool) (mem_type : MemRefType) : LIR :=
  { lir with mem_ref := some (is_load, mem_type) }

/-- Modelled from the spec: `AnnotateDalvikRegAccess` of the spill/frame
annotator, absent from `src/`: tags the record with that identity, also where it
already sits in the instruction stream, and gives the tagged record back. -/
def AnnotateDalvikRegAccess (cu : CompilationUnit) (lir : LIR) (reg_id : Int)
    (is_load is64bit : Bool) : LIR × CompilationUnit :=
  let tag : LIR → LIR := fun l =>
    { l with dalvik_reg_access := some { reg_id := reg_id, is_load := is_load,
                                         is64bit := is64bit } }
  (tag lir, { cu with code := cu.code.map (fun l => if l.id = lir.id then tag l else l) })

/-- Search of `ScanLiteralPool` from position `i` on. -/
def ScanLiteralPoolFrom (i : Nat) : List Int → Int → Nat → Option Literal
  | [], _, _ => none
  | w :: rest, value, delta =>
    if 0 ≤ value - w ∧ value - w ≤ (delta : Int) then some { index := i, word := w }
    else ScanLiteralPoolFrom (i + 1) rest value delta

/-- Modelled from the spec: `ScanLiteralPool(pool, value, delta)` of the literal
pool, absent from `src/`: the first entry whose word is at most `delta` below
`value` (an exact match for the `delta = 0` that `utility_arm.cc` passes), or
none. -/
def ScanLiteralPool (pool : List Int) (value : Int) (delta : Nat) : Option Literal :=
  ScanLiteralPoolFrom 0 pool value delta

/-- Modelled from the spec: `AddWordData` of the literal pool, absent from
`src/`: inserts a word as a new entry and returns it; entries keep their place
for the rest of the compilation. -/
def AddWordData (cu : CompilationUnit) (value : Int) : Literal × CompilationUnit :=
  ({ index := cu.literal_list.length, word := value },
   { cu with literal_list := cu.literal_list ++ [value] })

/-- The lookup-or-insert idiom of lines 54-57 and 157-160:
`data_target = ScanLiteralPool(cu->literal_list, value, 0)`, and
`AddWordData(cu, &cu->literal_list, value)` when that is `NULL`. -/
def poolEntry (cu : CompilationUnit) (value : Int) : Literal × CompilationUnit :=
  match ScanLiteralPool cu.literal_list value 0 with
  | some t => (t, cu)
  | none => AddWordData cu value

/-- Modelled from the spec: `AllocTemp` of the temporary-register pool, absent
from `src/`: hands out a free temporary register, and is fatal when the finite
pool is exhausted. -/
def AllocTemp (cu : CompilationUnit) : Except Fault (Int × CompilationUnit) :=
  match cu.free_temps with
  | [] => Except.error Fault.noFreeTemp
  | r :: rest =>
    Except.ok (r, { cu with free_temps := rest,
                            temp_trace := cu.temp_trace ++ [TempEvent.acquire r] })

/-- Modelled from the spec: `FreeTemp` of the temporary-register pool, absent
from `src/`: gives a register back to the pool. -/
def FreeTemp (cu : CompilationUnit) (r : Int) : CompilationUnit :=
  { cu with free_temps := r :: cu.free_temps,
            temp_trace := cu.temp_trace ++ [TempEvent.release r] }

/-- C `a | b` on two `int`s. -/
def orI (a b : Int) : Int := toS32 (toU32 a ||| toU32 b)

/-- C `a << k` on an `int`, wrapping. -/
def shlI (a : Int) (k : Nat) : Int := toS32 (toU32 a <<< k)

/-! ## Constant materializer -/

/-- `LoadFPConstantValue` (lines 47-64). -/
def LoadFPConstantValue (env : ArmEnv) (cu : CompilationUnit) (r_dest value : Int) :
    Except Fault (LIR × CompilationUnit) := do
  let encoded_imm := EncodeImmSingle value
  DCHECK env (env.ARM_SINGLEREG r_dest)
  if encoded_imm ≥ 0 then
    pure (NewLIR2 cu ArmOpcode.kThumb2Vmovs_IMM8 r_dest encoded_imm)
  else
    let dt := poolEntry cu value
    let r := RawLIR dt.2 dt.2.current_dalvik_offset ArmOpcode.kThumb2Vldrs r_dest env.r15pc
      0 0 0 (some dt.1)
    let load_pc_rel := { SetMemRefType r.1 true MemRefType.kLiteral with
      alias_info := some dt.1 }
    pure (load_pc_rel, AppendLIR r.2 load_pc_rel)

/-- Body of `LoadConstantNoClobber` (lines 127-176).  The call
`OpRegImm(cu, kOpAdd, r_dest, value - data_target->operands[0])` at line 173 is
the argument `followUpAdd`, through which the function reaches itself again
(`OpRegImm` calls `OpRegRegImm`, which calls `LoadConstant`). -/
def LoadConstantNoClobberBody (env : ArmEnv)
    (followUpAdd : CompilationUnit → Int → Int → Except Fault (LIR × CompilationUnit))
    (cu : CompilationUnit) (r_dest value : Int) : Except Fault (LIR × CompilationUnit) :=
  if env.ARM_FPREG r_dest then
    LoadFPConstantValue env cu r_dest value
  else if env.ARM_LOWREG r_dest ∧ value ≥ 0 ∧ value ≤ 255 then
    pure (NewLIR2 cu ArmOpcode.kThumbMovImm r_dest value)
  else
    let mod_imm := ModifiedImmediate (toU32 value)
    if mod_imm ≥ 0 then
      pure (NewLIR2 cu ArmOpcode.kThumb2MovImmShift r_dest mod_imm)
    else
      let mod_imm := ModifiedImmediate (toU32 (notI value))
      if mod_imm ≥ 0 then
        pure (NewLIR2 cu ArmOpcode.kThumb2MvnImm12 r_dest mod_imm)
      else if andI value 0xffff = value then
        pure (NewLIR2 cu ArmOpcode.kThumb2MovImm16 r_dest value)
      else
        let dt := poolEntry cu value
        let r := RawLIR dt.2 dt.2.current_dalvik_offset ArmOpcode.kThumb2LdrPcRel12 r_dest
          0 0 0 0 (some dt.1)
        let load_pc_rel := { SetMemRefType r.1 true MemRefType.kLiteral with
          alias_info := some dt.1 }
        let cu1 := AppendLIR r.2 load_pc_rel
        if dt.1.word ≠ value then do
          let r2 ← followUpAdd cu1 r_dest (subI value dt.1.word)
          pure (load_pc_rel, r2.2)
        else
          pure (load_pc_rel, cu1)

/-! ## Operation selector -/

/-- Outcome of the `switch` of `OpRegRegShift`: `break` with an opcode, or
`return` of an emitted record. -/
inductive Selected where
  | opcode (o : ArmOpcode)
  | done (r : LIR × CompilationUnit)

/-- The `switch (op)` of `OpRegRegShift` (lines 210-304). -/
def OpRegRegShiftSwitch (env : ArmEnv) (cu : CompilationUnit) (op : OpKind)
    (r_dest_src1 r_src2 shift : Int) : Except Fault Selected :=
  let thumb_form : Bool :=
    decide (shift = 0) && env.ARM_LOWREG r_dest_src1 && env.ARM_LOWREG r_src2
  match op with
  | OpKind.kOpAdc =>
    pure (Selected.opcode (if thumb_form then ArmOpcode.kThumbAdcRR else ArmOpcode.kThumb2AdcRRR))
  | OpKind.kOpAnd =>
    pure (Selected.opcode (if thumb_form then ArmOpcode.kThumbAndRR else ArmOpcode.kThumb2AndRRR))
  | OpKind.kOpBic =>
    pure (Selected.opcode (if thumb_form then ArmOpcode.kThumbBicRR else ArmOpcode.kThumb2BicRRR))
  | OpKind.kOpCmn => do
    DCHECK env (decide (shift = 0))
    pure (Selected.opcode (if thumb_form then ArmOpcode.kThumbCmnRR else ArmOpcode.kThumb2CmnRR))
  | OpKind.kOpCmp =>
    if thumb_form then pure (Selected.opcode ArmOpcode.kThumbCmpRR)
    else if shift = 0 ∧ ¬ env.ARM_LOWREG r_dest_src1 ∧ ¬ env.ARM_LOWREG r_src2 then
      pure (Selected.opcode ArmOpcode.kThumbCmpHH)
    else if shift = 0 ∧ env.ARM_LOWREG r_dest_src1 then
      pure (Selected.opcode ArmOpcode.kThumbCmpLH)
    else if shift = 0 then pure (Selected.opcode ArmOpcode.kThumbCmpHL)
    else pure (Selected.opcode ArmOpcode.kThumb2CmpRR)
  | OpKind.kOpXor =>
    pure (Selected.opcode (if thumb_form then ArmOpcode.kThumbEorRR else ArmOpcode.kThumb2EorRRR))
  | OpKind.kOpMov => do
    DCHECK env (decide (shift = 0))
    if env.ARM_LOWREG r_dest_src1 ∧ env.ARM_LOWREG r_src2 then
      pure (Selected.opcode ArmOpcode.kThumbMovRR)
    else if ¬ env.ARM_LOWREG r_dest_src1 ∧ ¬ env.ARM_LOWREG r_src2 then
      pure (Selected.opcode ArmOpcode.kThumbMovRR_H2H)
    else if env.ARM_LOWREG r_dest_src1 then pure (Selected.opcode ArmOpcode.kThumbMovRR_H2L)
    else pure (Selected.opcode ArmOpcode.kThumbMovRR_L2H)
  | OpKind.kOpMul => do
    DCHECK env (decide (shift = 0))
    pure (Selected.opcode (if thumb_form then ArmOpcode.kThumbMul else ArmOpcode.kThumb2MulRRR))
  | OpKind.kOpMvn =>
    pure (Selected.opcode (if thumb_form then ArmOpcode.kThumbMvn else ArmOpcode.kThumb2MnvRR))
  | OpKind.kOpNeg => do
    DCHECK env (decide (shift = 0))
    pure (Selected.opcode (if thumb_form then ArmOpcode.kThumbNeg else ArmOpcode.kThumb2NegRR))
  | OpKind.kOpOr =>
    pure (Selected.opcode (if thumb_form then ArmOpcode.kThumbOrr else ArmOpcode.kThumb2OrrRRR))
  | OpKind.kOpSbc =>
    pure (Selected.opcode (if thumb_form then ArmOpcode.kThumbSbc else ArmOpcode.kThumb2SbcRRR))
  | OpKind.kOpTst =>
    pure (Selected.opcode (if thumb_form then ArmOpcode.kThumbTst else ArmOpcode.kThumb2TstRR))
  | OpKind.kOpLsl => do
    DCHECK env (decide (shift = 0))
    pure (Selected.opcode (if thumb_form then ArmOpcode.kThumbLslRR else ArmOpcode.kThumb2LslRRR))
  | OpKind.kOpLsr => do
    DCHECK env (decide (shift = 0))
    pure (Selected.opcode (if thumb_form then ArmOpcode.kThumbLsrRR else ArmOpcode.kThumb2LsrRRR))
  | OpKind.kOpAsr => do
    DCHECK env (decide (shift = 0))
    pure (Selected.opcode (if thumb_form then ArmOpcode.kThumbAsrRR else ArmOpcode.kThumb2AsrRRR))
  | OpKind.kOpRor => do
    DCHECK env (decide (shift = 0))
    pure (Selected.opcode (if thumb_form then ArmOpcode.kThumbRorRR else ArmOpcode.kThumb2RorRRR))
  | OpKind.kOpAdd =>
    pure (Selected.opcode (if thumb_form then ArmOpcode.kThumbAddRRR else ArmOpcode.kThumb2AddRRR))
  | OpKind.kOpSub =>
    pure (Selected.opcode (if thumb_form then ArmOpcode.kThumbSubRRR else ArmOpcode.kThumb2SubRRR))
  | OpKind.kOp2Byte => do
    DCHECK env (decide (shift = 0))
    pure (Selected.done (NewLIR4 cu ArmOpcode.kThumb2Sbfx r_dest_src1 r_src2 0 8))
  | OpKind.kOp2Short => do
    DCHECK env (decide (shift = 0))
    pure (Selected.done (NewLIR4 cu ArmOpcode.kThumb2Sbfx r_dest_src1 r_src2 0 16))
  | OpKind.kOp2Char => do
    DCHECK env (decide (shift = 0))
    pure (Selected.done (NewLIR4 cu ArmOpcode.kThumb2Ubfx r_dest_src1 r_src2 0 16))
  | _ => Except.error Fault.badOpcode

/-- `OpRegRegShift` (lines 205-319): the `switch`, then the operand layout read
from the opcode metadata.  `DCHECK_GE(opcode, 0)` holds of every opcode and is
left out. -/
def OpRegRegShift (env : ArmEnv) (cu : CompilationUnit) (op : OpKind)
    (r_dest_src1 r_src2 shift : Int) : Except Fault (LIR × CompilationUnit) := do
  let sel ← OpRegRegShiftSwitch env cu op r_dest_src1 r_src2 shift
  match sel with
  | Selected.done r => pure r
  | Selected.opcode opcode =>
    if (env.EncodingMap opcode).IS_BINARY_OP then
      pure (NewLIR2 cu opcode r_dest_src1 r_src2)
    else if (env.EncodingMap opcode).IS_TERTIARY_OP then
      if (env.EncodingMap opcode).field2_kFmtShift then
        pure (NewLIR3 cu opcode r_dest_src1 r_src2 shift)
      else
        pure (NewLIR3 cu opcode r_dest_src1 r_dest_src1 r_src2)
    else if (env.EncodingMap opcode).IS_QUAD_OP then
      pure (NewLIR4 cu opcode r_dest_src1 r_dest_src1 r_src2 shift)
    else Except.error Fault.unexpectedOperandCount

/-- `OpRegReg` (lines 321-324). -/
def OpRegReg (env : ArmEnv) (cu : CompilationUnit) (op : OpKind) (r_dest_src1 r_src2 : Int) :
    Except Fault (LIR × CompilationUnit) :=
  OpRegRegShift env cu op r_dest_src1 r_src2 0

/-- The `switch (op)` of `OpRegRegRegShift` (lines 332-383). -/
def OpRegRegRegShiftSwitch (env : ArmEnv) (op : OpKind) (r_dest r_src1 r_src2 shift : Int) :
    Except Fault ArmOpcode :=
  let thumb_form : Bool := decide (shift = 0) && env.ARM_LOWREG r_dest &&
    env.ARM_LOWREG r_src1 && env.ARM_LOWREG r_src2
  match op with
  | OpKind.kOpAdd => pure (if thumb_form then ArmOpcode.kThumbAddRRR else ArmOpcode.kThumb2AddRRR)
  | OpKind.kOpSub => pure (if thumb_form then ArmOpcode.kThumbSubRRR else ArmOpcode.kThumb2SubRRR)
  | OpKind.kOpRsub => pure ArmOpcode.kThumb2RsubRRR
  | OpKind.kOpAdc => pure ArmOpcode.kThumb2AdcRRR
  | OpKind.kOpAnd => pure ArmOpcode.kThumb2AndRRR
  | OpKind.kOpBic => pure ArmOpcode.kThumb2BicRRR
  | OpKind.kOpXor => pure ArmOpcode.kThumb2EorRRR
  | OpKind.kOpMul => do
    DCHECK env (decide (shift = 0))
    pure ArmOpcode.kThumb2MulRRR
  | OpKind.kOpOr => pure ArmOpcode.kThumb2OrrRRR
  | OpKind.kOpSbc => pure ArmOpcode.kThumb2SbcRRR
  | OpKind.kOpLsl => do
    DCHECK env (decide (shift = 0))
    pure ArmOpcode.kThumb2LslRRR
  | OpKind.kOpLsr => do
    DCHECK env (decide (shift = 0))
    pure ArmOpcode.kThumb2LsrRRR
  | OpKind.kOpAsr => do
    DCHECK env (decide (shift = 0))
    pure ArmOpcode.kThumb2AsrRRR
  | OpKind.kOpRor => do
    DCHECK env (decide (shift = 0))
    pure ArmOpcode.kThumb2RorRRR
  | _ => Except.error Fault.badOpcode

/-- `OpRegRegRegShift` (lines 326-391). -/
def OpRegRegRegShift (env : ArmEnv) (cu : CompilationUnit) (op : OpKind)
    (r_dest r_src1 r_src2 shift : Int) : Except Fault (LIR × CompilationUnit) := do
  let opcode ← OpRegRegRegShiftSwitch env op r_dest r_src1 r_src2 shift
  if (env.EncodingMap opcode).IS_QUAD_OP then
    pure (NewLIR4 cu opcode r_dest r_src1 r_src2 shift)
  else do
    DCHECK env (env.EncodingMap opcode).IS_TERTIARY_OP
    pure (NewLIR3 cu opcode r_dest r_src1 r_src2)

/-- `OpRegRegReg` (lines 393-397). -/
def OpRegRegReg (env : ArmEnv) (cu : CompilationUnit) (op : OpKind)
    (r_dest r_src1 r_src2 : Int) : Except Fault (LIR × CompilationUnit) :=
  OpRegRegRegShift env cu op r_dest r_src1 r_src2 0

/-- The code after the `switch` of `OpRegRegImm` (lines 506-517): the
immediate form when `mod_imm >= 0`, otherwise materialization of `value` into a
temporary and the register form `alt_opcode`. -/
def OpRegRegImmTail (env : ArmEnv)
    (LoadConstant : CompilationUnit → Int → Int → Except Fault (LIR × CompilationUnit))
    (cu : CompilationUnit) (opcode alt_opcode : ArmOpcode) (mod_imm : Int)
    (r_dest r_src1 value : Int) : Except Fault (LIR × CompilationUnit) :=
  if mod_imm ≥ 0 then
    pure (NewLIR3 cu opcode r_dest r_src1 mod_imm)
  else do
    let t ← AllocTemp cu
    let r_scratch := t.1
    let c ← LoadConstant t.2 r_scratch value
    let res :=
      if (env.EncodingMap alt_opcode).IS_QUAD_OP then
        NewLIR4 c.2 alt_opcode r_dest r_src1 r_scratch 0
      else
        NewLIR3 c.2 alt_opcode r_dest r_src1 r_scratch
    pure (res.1, FreeTemp res.2 r_scratch)

/-- The shared add/subtract path of `OpRegRegImm` (`case kOpSub`, lines 438-463,
reached from `case kOpAdd` by fallthrough), followed by the code after the
`switch`.  This path is where the locals `abs_value` (line 404) and
`mod_imm_neg` (line 409) are used; both hold `-value`, which for
`value = INT_MIN` is a signed overflow: there the outcome is `signedOverflow`.
For every other `int` the negation is exact. -/
def OpRegRegImmAddSub (env : ArmEnv)
    (LoadConstant : CompilationUnit → Int → Int → Except Fault (LIR × CompilationUnit))
    (cu : CompilationUnit) (op : OpKind) (r_dest r_src1 value : Int) :
    Except Fault (LIR × CompilationUnit) :=
  let neg : Bool := decide (value < 0)
  let abs_value : Int := if neg then -value else value
  let all_low_regs : Bool := env.ARM_LOWREG r_dest && env.ARM_LOWREG r_src1
  let mod_imm := ModifiedImmediate (toU32 value)
  let mod_imm_neg := ModifiedImmediate (toU32 (-value))
  if value = -2147483648 then Except.error Fault.signedOverflow
  else if all_low_regs ∧ andI abs_value 0x7 = abs_value then
    let opcode :=
      if op = OpKind.kOpAdd then
        (if neg then ArmOpcode.kThumbSubRRI3 else ArmOpcode.kThumbAddRRI3)
      else
        (if neg then ArmOpcode.kThumbAddRRI3 else ArmOpcode.kThumbSubRRI3)
    pure (NewLIR3 cu opcode r_dest r_src1 abs_value)
  else if andI abs_value 0xff = abs_value then
    let opcode :=
      if op = OpKind.kOpAdd then
        (if neg then ArmOpcode.kThumb2SubRRI12 else ArmOpcode.kThumb2AddRRI12)
      else
        (if neg then ArmOpcode.kThumb2AddRRI12 else ArmOpcode.kThumb2SubRRI12)
    pure (NewLIR3 cu opcode r_dest r_src1 abs_value)
  else
    let op1 : OpKind :=
      if mod_imm_neg ≥ 0 then (if op = OpKind.kOpAdd then OpKind.kOpSub else OpKind.kOpAdd)
      else op
    let mod_imm1 : Int := if mod_imm_neg ≥ 0 then mod_imm_neg else mod_imm
    if op1 = OpKind.kOpSub then
      OpRegRegImmTail env LoadConstant cu ArmOpcode.kThumb2SubRRI8 ArmOpcode.kThumb2SubRRR
        mod_imm1 r_dest r_src1 value
    else
      OpRegRegImmTail env LoadConstant cu ArmOpcode.kThumb2AddRRI8 ArmOpcode.kThumb2AddRRR
        mod_imm1 r_dest r_src1 value

/-- `OpRegRegImm` (lines 399-518), with the `LoadConstant` it calls as an
argument.  The locals `abs_value` and `mod_imm_neg` of lines 404 and 409 are
read on the shared add/subtract path only, and are bound there, in
`OpRegRegImmAddSub`. -/
def OpRegRegImmWith (env : ArmEnv)
    (LoadConstant : CompilationUnit → Int → Int → Except Fault (LIR × CompilationUnit))
    (cu : CompilationUnit) (op : OpKind) (r_dest r_src1 value : Int) :
    Except Fault (LIR × CompilationUnit) :=
  let all_low_regs : Bool := env.ARM_LOWREG r_dest && env.ARM_LOWREG r_src1
  let mod_imm := ModifiedImmediate (toU32 value)
  match op with
  | OpKind.kOpLsl =>
    if all_low_regs then pure (NewLIR3 cu ArmOpcode.kThumbLslRRI5 r_dest r_src1 value)
    else pure (NewLIR3 cu ArmOpcode.kThumb2LslRRI5 r_dest r_src1 value)
  | OpKind.kOpLsr =>
    if all_low_regs then pure (NewLIR3 cu ArmOpcode.kThumbLsrRRI5 r_dest r_src1 value)
    else pure (NewLIR3 cu ArmOpcode.kThumb2LsrRRI5 r_dest r_src1 value)
  | OpKind.kOpAsr =>
    if all_low_regs then pure (NewLIR3 cu ArmOpcode.kThumbAsrRRI5 r_dest r_src1 value)
    else pure (NewLIR3 cu ArmOpcode.kThumb2AsrRRI5 r_dest r_src1 value)
  | OpKind.kOpRor => pure (NewLIR3 cu ArmOpcode.kThumb2RorRRI5 r_dest r_src1 value)
  | OpKind.kOpAdd =>
    if env.ARM_LOWREG r_dest ∧ r_src1 = env.r13sp ∧ value ≤ 1020 ∧ andI value 0x3 = 0 then
      pure (NewLIR3 cu ArmOpcode.kThumbAddSpRel r_dest r_src1 (sarI value 2))
    else if env.ARM_LOWREG r_dest ∧ r_src1 = env.r15pc ∧ value ≤ 1020 ∧
        andI value 0x3 = 0 then
      pure (NewLIR3 cu ArmOpcode.kThumbAddPcRel r_dest r_src1 (sarI value 2))
    else
      OpRegRegImmAddSub env LoadConstant cu OpKind.kOpAdd r_dest r_src1 value
  | OpKind.kOpSub => OpRegRegImmAddSub env LoadConstant cu OpKind.kOpSub r_dest r_src1 value
  | OpKind.kOpAdc =>
    OpRegRegImmTail env LoadConstant cu ArmOpcode.kThumb2AdcRRI8 ArmOpcode.kThumb2AdcRRR
      mod_imm r_dest r_src1 value
  | OpKind.kOpSbc =>
    OpRegRegImmTail env LoadConstant cu ArmOpcode.kThumb2SbcRRI8 ArmOpcode.kThumb2SbcRRR
      mod_imm r_dest r_src1 value
  | OpKind.kOpOr =>
    OpRegRegImmTail env LoadConstant cu ArmOpcode.kThumb2OrrRRI8 ArmOpcode.kThumb2OrrRRR
      mod_imm r_dest r_src1 value
  | OpKind.kOpAnd =>
    OpRegRegImmTail env LoadConstant cu ArmOpcode.kThumb2AndRRI8 ArmOpcode.kThumb2AndRRR
      mod_imm r_dest r_src1 value
  | OpKind.kOpXor =>
    OpRegRegImmTail env LoadConstant cu ArmOpcode.kThumb2EorRRI8 ArmOpcode.kThumb2EorRRR
      mod_imm r_dest r_src1 value
  | OpKind.kOpMul =>
    OpRegRegImmTail env LoadConstant cu ArmOpcode.kThumbBkpt ArmOpcode.kThumb2MulRRR
      (-1) r_dest r_src1 value
  | OpKind.kOpCmp =>
    if mod_imm ≥ 0 then
      pure (NewLIR2 cu ArmOpcode.kThumb2CmpRI8 r_src1 mod_imm)
    else do
      let t ← AllocTemp cu
      let r_tmp := t.1
      let c ← LoadConstant t.2 r_tmp value
      let o ← OpRegReg env c.2 OpKind.kOpCmp r_src1 r_tmp
      pure (c.1, FreeTemp o.2 r_tmp)
  | _ => Except.error Fault.badOpcode

/-- Outcome of the `switch` of `OpRegImm`: `return` of an emitted record, or
`break` with the locals `opcode` and `short_form`. -/
inductive RegImmSelected where
  | done (r : LIR × CompilationUnit)
  | form (opcode : ArmOpcode) (short_form : Bool)

/-- The `switch (op)` of `OpRegImm` (lines 527-558).  The locals `abs_value` and
`short_form` (lines 524-525) hold `-value` and a test of it; where the case
taken depends on them (add, subtract, and compare of a compact register) and
`value = INT_MIN`, for which `-value` is a signed overflow, the outcome is
`signedOverflow`.  For every other `int` the negation is exact. -/
def OpRegImmSwitch (env : ArmEnv) (cu : CompilationUnit) (op : OpKind)
    (r_dest_src1 value : Int) : Except Fault RegImmSelected :=
  let neg : Bool := decide (value < 0)
  let abs_value : Int := if neg then -value else value
  let short_form : Bool := decide (andI abs_value 0xff = abs_value) && env.ARM_LOWREG r_dest_src1
  match op with
  | OpKind.kOpAdd =>
    if value = -2147483648 then Except.error Fault.signedOverflow
    else if ¬ neg ∧ r_dest_src1 = env.r13sp ∧ value ≤ 508 then do
      DCHECK env (decide (andI value 0x3 = 0))
      pure (RegImmSelected.done (NewLIR1 cu ArmOpcode.kThumbAddSpI7 (sarI value 2)))
    else if short_form then
      pure (RegImmSelected.form (if neg then ArmOpcode.kThumbSubRI8 else ArmOpcode.kThumbAddRI8)
        short_form)
    else pure (RegImmSelected.form ArmOpcode.kThumbBkpt short_form)
  | OpKind.kOpSub =>
    if value = -2147483648 then Except.error Fault.signedOverflow
    else if ¬ neg ∧ r_dest_src1 = env.r13sp ∧ value ≤ 508 then do
      DCHECK env (decide (andI value 0x3 = 0))
      pure (RegImmSelected.done (NewLIR1 cu ArmOpcode.kThumbSubSpI7 (sarI value 2)))
    else if short_form then
      pure (RegImmSelected.form (if neg then ArmOpcode.kThumbAddRI8 else ArmOpcode.kThumbSubRI8)
        short_form)
    else pure (RegImmSelected.form ArmOpcode.kThumbBkpt short_form)
  | OpKind.kOpCmp =>
    if env.ARM_LOWREG r_dest_src1 ∧ value = -2147483648 then
      Except.error Fault.signedOverflow
    else if env.ARM_LOWREG r_dest_src1 ∧ short_form then
      pure (RegImmSelected.form
        (if short_form then ArmOpcode.kThumbCmpRI8 else ArmOpcode.kThumbCmpRR) short_form)
    else if env.ARM_LOWREG r_dest_src1 then
      pure (RegImmSelected.form ArmOpcode.kThumbCmpRR short_form)
    else
      pure (RegImmSelected.form ArmOpcode.kThumbCmpHL false)
  | _ => pure (RegImmSelected.form ArmOpcode.kThumbBkpt false)

/-- `OpRegImm` (lines 521-564), with the `LoadConstant` that `OpRegRegImm` calls
as an argument. -/
def OpRegImmWith (env : ArmEnv)
    (LoadConstant : CompilationUnit → Int → Int → Except Fault (LIR × CompilationUnit))
    (cu : CompilationUnit) (op : OpKind) (r_dest_src1 value : Int) :
    Except Fault (LIR × CompilationUnit) := do
  let neg : Bool := decide (value < 0)
  let abs_value : Int := if neg then -value else value
  let sel ← OpRegImmSwitch env cu op r_dest_src1 value
  match sel with
  | RegImmSelected.done r => pure r
  | RegImmSelected.form opcode short_form =>
    if short_form then
      pure (NewLIR2 cu opcode r_dest_src1 abs_value)
    else
      OpRegRegImmWith env LoadConstant cu op r_dest_src1 r_dest_src1 value

/-- `LoadConstantNoClobber` (lines 127-176).  The argument counts how many times
the function may reach itself through the follow-up add of line 173. -/
def LoadConstantNoClobber (env : ArmEnv) :
    Nat → CompilationUnit → Int → Int → Except Fault (LIR × CompilationUnit)
  | 0 => LoadConstantNoClobberBody env (fun _ _ _ => Except.error Fault.outOfFuel)
  | fuel + 1 =>
    LoadConstantNoClobberBody env
      (fun cu r v => OpRegImmWith env (LoadConstantNoClobber env fuel) cu OpKind.kOpAdd r v)

/-- Modelled from the spec: `LoadConstant`, absent from `src/`: the constant
materializer, whose decision order is the one of `LoadConstantNoClobber`. -/
def LoadConstant (env : ArmEnv) (fuel : Nat) (cu : CompilationUnit) (r_dest value : Int) :
    Except Fault (LIR × CompilationUnit) :=
  LoadConstantNoClobber env fuel cu r_dest value

/-- `OpRegRegImm` (lines 399-518). -/
def OpRegRegImm (env : ArmEnv) (fuel : Nat) (cu : CompilationUnit) (op : OpKind)
    (r_dest r_src1 value : Int) : Except Fault (LIR × CompilationUnit) :=
  OpRegRegImmWith env (LoadConstant env fuel) cu op r_dest r_src1 value

/-- `OpRegImm` (lines 521-564). -/
def OpRegImm (env : ArmEnv) (fuel : Nat) (cu : CompilationUnit) (op : OpKind)
    (r_dest_src1 value : Int) : Except Fault (LIR × CompilationUnit) :=
  OpRegImmWith env (LoadConstant env fuel) cu op r_dest_src1 value


/-! ## `OpRegRegImm` with the context kept at an abort

The functions above drop the context when a call aborts.  The functions below
are the same lines of `OpRegRegImm` with the context kept: the result is paired
with the context left by the call when it returns and, when it aborts, with the
context in which the aborting statement was started: the `LOG(FATAL)` of the
`default` case, or the call of `AllocTemp`, `LoadConstant` or `OpRegReg` that
did not return.  Everything that `OpRegRegImm` emitted or acquired before that
statement is in that context. -/

/-- Forgets the context of an abort. -/
def dropAbortContext (x : Except Fault LIR × CompilationUnit) :
    Except Fault (LIR × CompilationUnit) :=
  match x with
  | (Except.ok res, cu) => Except.ok (res, cu)
  | (Except.error f, _) => Except.error f

/-- The code after the `switch` of `OpRegRegImm` (lines 506-517), with the
context kept at an abort. -/
def OpRegRegImmTailRun (env : ArmEnv)
    (LoadConstant : CompilationUnit → Int → Int → Except Fault (LIR × CompilationUnit))
    (cu : CompilationUnit) (opcode alt_opcode : ArmOpcode) (mod_imm : Int)
    (r_dest r_src1 value : Int) : Except Fault LIR × CompilationUnit :=
  if mod_imm ≥ 0 then
    let r := NewLIR3 cu opcode r_dest r_src1 mod_imm
    (Except.ok r.1, r.2)
  else
    match AllocTemp cu with
    | Except.error f => (Except.error f, cu)
    | Except.ok t =>
      let r_scratch := t.1
      match LoadConstant t.2 r_scratch value with
      | Except.error f => (Except.error f, t.2)
      | Except.ok c =>
        let res :=
          if (env.EncodingMap alt_opcode).IS_QUAD_OP then
            NewLIR4 c.2 alt_opcode r_dest r_src1 r_scratch 0
          else
            NewLIR3 c.2 alt_opcode r_dest r_src1 r_scratch
        (Except.ok res.1, FreeTemp res.2 r_scratch)

/-- The shared add/subtract path of `OpRegRegImm` (lines 438-463) followed by
the code after the `switch`, with the context kept at an abort. -/
def OpRegRegImmAddSubRun (env : ArmEnv)
    (LoadConstant : CompilationUnit → Int → Int → Except Fault (LIR × CompilationUnit))
    (cu : CompilationUnit) (op : OpKind) (r_dest r_src1 value : Int) :
    Except Fault LIR × CompilationUnit :=
  let neg : Bool := decide (value < 0)
  let abs_value : Int := if neg then -value else value
  let all_low_regs : Bool := env.ARM_LOWREG r_dest && env.ARM_LOWREG r_src1
  let mod_imm := ModifiedImmediate (toU32 value)
  let mod_imm_neg := ModifiedImmediate (toU32 (-value))
  if value = -2147483648 then (Except.error Fault.signedOverflow, cu)
  else if all_low_regs ∧ andI abs_value 0x7 = abs_value then
    let opcode :=
      if op = OpKind.kOpAdd then
        (if neg then ArmOpcode.kThumbSubRRI3 else ArmOpcode.kThumbAddRRI3)
      else
        (if neg then ArmOpcode.kThumbAddRRI3 else ArmOpcode.kThumbSubRRI3)
    let r := NewLIR3 cu opcode r_dest r_src1 abs_value
    (Except.ok r.1, r.2)
  else if andI abs_value 0xff = abs_value then
    let opcode :=
      if op = OpKind.kOpAdd then
        (if neg then ArmOpcode.kThumb2SubRRI12 else ArmOpcode.kThumb2AddRRI12)
      else
        (if neg then ArmOpcode.kThumb2AddRRI12 else ArmOpcode.kThumb2SubRRI12)
    let r := NewLIR3 cu opcode r_dest r_src1 abs_value
    (Except.ok r.1, r.2)
  else
    let op1 : OpKind :=
      if mod_imm_neg ≥ 0 then (if op = OpKind.kOpAdd then OpKind.kOpSub else OpKind.kOpAdd)
      else op
    let mod_imm1 : Int := if mod_imm_neg ≥ 0 then mod_imm_neg else mod_imm
    if op1 = OpKind.kOpSub then
      OpRegRegImmTailRun env LoadConstant cu ArmOpcode.kThumb2SubRRI8 ArmOpcode.kThumb2SubRRR
        mod_imm1 r_dest r_src1 value
    else
      OpRegRegImmTailRun env LoadConstant cu ArmOpcode.kThumb2AddRRI8 ArmOpcode.kThumb2AddRRR
        mod_imm1 r_dest r_src1 value

/-- `OpRegRegImm` (lines 399-518) with the context kept at an abort, and the
`LoadConstant` it calls as an argument.  The `default` case (lines 502-503) is
reached from the `switch` at line 411, before any call that emits or acquires. -/
def OpRegRegImmRunWith (env : ArmEnv)
    (LoadConstant : CompilationUnit → Int → Int → Except Fault (LIR × CompilationUnit))
    (cu : CompilationUnit) (op : OpKind) (r_dest r_src1 value : Int) :
    Except Fault LIR × CompilationUnit :=
  let all_low_regs : Bool := env.ARM_LOWREG r_dest && env.ARM_LOWREG r_src1
  let mod_imm := ModifiedImmediate (toU32 value)
  let emitted (r : LIR × CompilationUnit) : Except Fault LIR × CompilationUnit :=
    (Except.ok r.1, r.2)
  match op with
  | OpKind.kOpLsl =>
    if all_low_regs then emitted (NewLIR3 cu ArmOpcode.kThumbLslRRI5 r_dest r_src1 value)
    else emitted (NewLIR3 cu ArmOpcode.kThumb2LslRRI5 r_dest r_src1 value)
  | OpKind.kOpLsr =>
    if all_low_regs then emitted (NewLIR3 cu ArmOpcode.kThumbLsrRRI5 r_dest r_src1 value)
    else emitted (NewLIR3 cu ArmOpcode.kThumb2LsrRRI5 r_dest r_src1 value)
  | OpKind.kOpAsr =>
    if all_low_regs then emitted (NewLIR3 cu ArmOpcode.kThumbAsrRRI5 r_dest r_src1 value)
    else emitted (NewLIR3 cu ArmOpcode.kThumb2AsrRRI5 r_dest r_src1 value)
  | OpKind.kOpRor => emitted (NewLIR3 cu ArmOpcode.kThumb2RorRRI5 r_dest r_src1 value)
  | OpKind.kOpAdd =>
    if env.ARM_LOWREG r_dest ∧ r_src1 = env.r13sp ∧ value ≤ 1020 ∧ andI value 0x3 = 0 then
      emitted (NewLIR3 cu ArmOpcode.kThumbAddSpRel r_dest r_src1 (sarI value 2))
    else if env.ARM_LOWREG r_dest ∧ r_src1 = env.r15pc ∧ value ≤ 1020 ∧
        andI value 0x3 = 0 then
      emitted (NewLIR3 cu ArmOpcode.kThumbAddPcRel r_dest r_src1 (sarI value 2))
    else
      OpRegRegImmAddSubRun env LoadConstant cu OpKind.kOpAdd r_dest r_src1 value
  | OpKind.kOpSub => OpRegRegImmAddSubRun env LoadConstant cu OpKind.kOpSub r_dest r_src1 value
  | OpKind.kOpAdc =>
    OpRegRegImmTailRun env LoadConstant cu ArmOpcode.kThumb2AdcRRI8 ArmOpcode.kThumb2AdcRRR
      mod_imm r_dest r_src1 value
  | OpKind.kOpSbc =>
    OpRegRegImmTailRun env LoadConstant cu ArmOpcode.kThumb2SbcRRI8 ArmOpcode.kThumb2SbcRRR
      mod_imm r_dest r_src1 value
  | OpKind.kOpOr =>
    OpRegRegImmTailRun env LoadConstant cu ArmOpcode.kThumb2OrrRRI8 ArmOpcode.kThumb2OrrRRR
      mod_imm r_dest r_src1 value
  | OpKind.kOpAnd =>
    OpRegRegImmTailRun env LoadConstant cu ArmOpcode.kThumb2AndRRI8 ArmOpcode.kThumb2AndRRR
      mod_imm r_dest r_src1 value
  | OpKind.kOpXor =>
    OpRegRegImmTailRun env LoadConstant cu ArmOpcode.kThumb2EorRRI8 ArmOpcode.kThumb2EorRRR
      mod_imm r_dest r_src1 value
  | OpKind.kOpMul =>
    OpRegRegImmTailRun env LoadConstant cu ArmOpcode.kThumbBkpt ArmOpcode.kThumb2MulRRR
      (-1) r_dest r_src1 value
  | OpKind.kOpCmp =>
    if mod_imm ≥ 0 then
      emitted (NewLIR2 cu ArmOpcode.kThumb2CmpRI8 r_src1 mod_imm)
    else
      match AllocTemp cu with
      | Except.error f => (Except.error f, cu)
      | Except.ok t =>
        let r_tmp := t.1
        match LoadConstant t.2 r_tmp value with
        | Except.error f => (Except.error f, t.2)
        | Except.ok c =>
          match OpRegReg env c.2 OpKind.kOpCmp r_src1 r_tmp with
          | Except.error f => (Except.error f, c.2)
          | Except.ok o => (Except.ok c.1, FreeTemp o.2 r_tmp)
  | _ => (Except.error Fault.badOpcode, cu)

/-- `OpRegRegImm` (lines 399-518) with the context kept at an abort. -/
def OpRegRegImmRun (env : ArmEnv) (fuel : Nat) (cu : CompilationUnit) (op : OpKind)
    (r_dest r_src1 value : Int) : Except Fault LIR × CompilationUnit :=
  OpRegRegImmRunWith env (LoadConstant env fuel) cu op r_dest r_src1 value
/-! ## Addressing-mode selector -/

/-- `EncodeShift` (lines 629-631). -/
def EncodeShift (code amount : Int) : Int := orI (shlI (andI amount 0x1f) 2) code

/-- The leading `if (ARM_FPREG(r_dest))` block of `LoadBaseIndexed` (lines
642-657): the locals `opcode` and `size` after it. -/
def LoadBaseIndexedClass (env : ArmEnv) (r_dest : Int) (size : OpSize) :
    Except Fault (ArmOpcode × OpSize) :=
  if env.ARM_FPREG r_dest then
    if env.ARM_SINGLEREG r_dest then do
      DCHECK env (decide (size = OpSize.kWord) || decide (size = OpSize.kSingle))
      pure (ArmOpcode.kThumb2Vldrs, OpSize.kSingle)
    else do
      DCHECK env (env.ARM_DOUBLEREG r_dest)
      DCHECK env (decide (size = OpSize.kLong) || decide (size = OpSize.kDouble))
      DCHECK env (decide (andI r_dest 0x1 = 0))
      pure (ArmOpcode.kThumb2Vldrd, OpSize.kDouble)
  else
    pure (ArmOpcode.kThumbBkpt, if size = OpSize.kSingle then OpSize.kWord else size)

/-- The floating-point path shared by `LoadBaseIndexed` and `StoreBaseIndexed`
(`case kDouble`, `case kSingle`): the effective address is computed into a
temporary, then a zero-offset access is emitted and the temporary released. -/
def BaseIndexedFloat (env : ArmEnv) (cu : CompilationUnit) (opcode : ArmOpcode)
    (rBase r_index r_reg scale : Int) : Except Fault (LIR × CompilationUnit) := do
  let t ← AllocTemp cu
  let reg_ptr := t.1
  let a ←
    (if scale ≠ 0 then
      pure (NewLIR4 t.2 ArmOpcode.kThumb2AddRRR reg_ptr rBase r_index
        (EncodeShift env.kArmLsl scale))
    else
      OpRegRegReg env t.2 OpKind.kOpAdd reg_ptr rBase r_index)
  let acc := NewLIR3 a.2 opcode r_reg reg_ptr 0
  pure (acc.1, FreeTemp acc.2 reg_ptr)

/-- `LoadBaseIndexed` (lines 633-696). -/
def LoadBaseIndexed (env : ArmEnv) (cu : CompilationUnit) (rBase r_index r_dest scale : Int)
    (size : OpSize) : Except Fault (LIR × CompilationUnit) := do
  let all_low_regs : Bool :=
    env.ARM_LOWREG rBase && env.ARM_LOWREG r_index && env.ARM_LOWREG r_dest
  let thumb_form : Bool := all_low_regs && decide (scale = 0)
  let cls ← LoadBaseIndexedClass env r_dest size
  let emit : ArmOpcode → Except Fault (LIR × CompilationUnit) := fun opcode =>
    if thumb_form then pure (NewLIR3 cu opcode r_dest rBase r_index)
    else pure (NewLIR4 cu opcode r_dest rBase r_index scale)
  match cls.2 with
  | OpSize.kDouble => BaseIndexedFloat env cu cls.1 rBase r_index r_dest scale
  | OpSize.kSingle => BaseIndexedFloat env cu cls.1 rBase r_index r_dest scale
  | OpSize.kWord =>
    emit (if thumb_form then ArmOpcode.kThumbLdrRRR else ArmOpcode.kThumb2LdrRRR)
  | OpSize.kUnsignedHalf =>
    emit (if thumb_form then ArmOpcode.kThumbLdrhRRR else ArmOpcode.kThumb2LdrhRRR)
  | OpSize.kSignedHalf =>
    emit (if thumb_form then ArmOpcode.kThumbLdrshRRR else ArmOpcode.kThumb2LdrshRRR)
  | OpSize.kUnsignedByte =>
    emit (if thumb_form then ArmOpcode.kThumbLdrbRRR else ArmOpcode.kThumb2LdrbRRR)
  | OpSize.kSignedByte =>
    emit (if thumb_form then ArmOpcode.kThumbLdrsbRRR else ArmOpcode.kThumb2LdrsbRRR)
  | _ => Except.error Fault.badSize

/-- The leading `if (ARM_FPREG(r_src))` block of `StoreBaseIndexed` (lines
707-722). -/
def StoreBaseIndexedClass (env : ArmEnv) (r_src : Int) (size : OpSize) :
    Except Fault (ArmOpcode × OpSize) :=
  if env.ARM_FPREG r_src then
    if env.ARM_SINGLEREG r_src then do
      DCHECK env (decide (size = OpSize.kWord) || decide (size = OpSize.kSingle))
      pure (ArmOpcode.kThumb2Vstrs, OpSize.kSingle)
    else do
      DCHECK env (env.ARM_DOUBLEREG r_src)
      DCHECK env (decide (size = OpSize.kLong) || decide (size = OpSize.kDouble))
      DCHECK env (decide (andI r_src 0x1 = 0))
      pure (ArmOpcode.kThumb2Vstrd, OpSize.kDouble)
  else
    pure (ArmOpcode.kThumbBkpt, if size = OpSize.kSingle then OpSize.kWord else size)

/-- `StoreBaseIndexed` (lines 698-757). -/
def StoreBaseIndexed (env : ArmEnv) (cu : CompilationUnit) (rBase r_index r_src scale : Int)
    (size : OpSize) : Except Fault (LIR × CompilationUnit) := do
  let all_low_regs : Bool :=
    env.ARM_LOWREG rBase && env.ARM_LOWREG r_index && env.ARM_LOWREG r_src
  let thumb_form : Bool := all_low_regs && decide (scale = 0)
  let cls ← StoreBaseIndexedClass env r_src size
  let emit : ArmOpcode → Except Fault (LIR × CompilationUnit) := fun opcode =>
    if thumb_form then pure (NewLIR3 cu opcode r_src rBase r_index)
    else pure (NewLIR4 cu opcode r_src rBase r_index scale)
  match cls.2 with
  | OpSize.kDouble => BaseIndexedFloat env cu cls.1 rBase r_index r_src scale
  | OpSize.kSingle => BaseIndexedFloat env cu cls.1 rBase r_index r_src scale
  | OpSize.kWord =>
    emit (if thumb_form then ArmOpcode.kThumbStrRRR else ArmOpcode.kThumb2StrRRR)
  | OpSize.kUnsignedHalf =>
    emit (if thumb_form then ArmOpcode.kThumbStrhRRR else ArmOpcode.kThumb2StrhRRR)
  | OpSize.kSignedHalf =>
    emit (if thumb_form then ArmOpcode.kThumbStrhRRR else ArmOpcode.kThumb2StrhRRR)
  | OpSize.kUnsignedByte =>
    emit (if thumb_form then ArmOpcode.kThumbStrbRRR else ArmOpcode.kThumb2StrbRRR)
  | OpSize.kSignedByte =>
    emit (if thumb_form then ArmOpcode.kThumbStrbRRR else ArmOpcode.kThumb2StrbRRR)
  | _ => Except.error Fault.badSize

/-- The locals of `LoadBaseDispBody` and `StoreBaseDispBody` after their
`switch (size)`. -/
structure DispForm where
  opcode : ArmOpcode
  short_form : Bool
  encoded_disp : Int
  reg : Int
  is64bit : Bool

/-- The `switch (size)` of `LoadBaseDispBody` (lines 776-862) on every path that
leaves it by `break`; the path that returns from inside it (a long or double in
core registers) is in `LoadBaseDispBodyWith`. -/
def LoadBaseDispSwitch (env : ArmEnv) (rBase displacement r_dest r_dest_hi : Int)
    (size : OpSize) : Except Fault DispForm :=
  let thumb2Form : Bool := decide (displacement < 4092 ∧ displacement ≥ 0)
  let all_low_regs : Bool := env.ARM_LOWREG rBase && env.ARM_LOWREG r_dest
  let fpWide : Except Fault DispForm := do
    let r_dest1 ←
      (if env.ARM_SINGLEREG r_dest then do
        DCHECK env (env.ARM_FPREG r_dest_hi)
        pure (env.S2d r_dest r_dest_hi)
      else pure r_dest)
    if displacement ≤ 1020 then
      pure { opcode := ArmOpcode.kThumb2Vldrd, short_form := true,
             encoded_disp := sarI displacement 2, reg := r_dest1, is64bit := true }
    else
      pure { opcode := ArmOpcode.kThumb2Vldrd, short_form := false,
             encoded_disp := displacement, reg := r_dest1, is64bit := true }
  let word : Except Fault DispForm :=
    if env.ARM_FPREG r_dest then
      if displacement ≤ 1020 then
        pure { opcode := ArmOpcode.kThumb2Vldrs, short_form := true,
               encoded_disp := sarI displacement 2, reg := r_dest, is64bit := false }
      else
        pure { opcode := ArmOpcode.kThumb2Vldrs, short_form := false,
               encoded_disp := displacement, reg := r_dest, is64bit := false }
    else if env.ARM_LOWREG r_dest ∧ rBase = env.r15pc ∧ displacement ≤ 1020 ∧
        displacement ≥ 0 then
      pure { opcode := ArmOpcode.kThumbLdrPcRel, short_form := true,
             encoded_disp := sarI displacement 2, reg := r_dest, is64bit := false }
    else if env.ARM_LOWREG r_dest ∧ rBase = env.r13sp ∧ displacement ≤ 1020 ∧
        displacement ≥ 0 then
      pure { opcode := ArmOpcode.kThumbLdrSpRel, short_form := true,
             encoded_disp := sarI displacement 2, reg := r_dest, is64bit := false }
    else if all_low_regs ∧ displacement < 128 ∧ displacement ≥ 0 then do
      DCHECK env (decide (andI displacement 0x3 = 0))
      pure { opcode := ArmOpcode.kThumbLdrRRI5, short_form := true,
             encoded_disp := sarI displacement 2, reg := r_dest, is64bit := false }
    else if thumb2Form then
      pure { opcode := ArmOpcode.kThumb2LdrRRI12, short_form := true,
             encoded_disp := displacement, reg := r_dest, is64bit := false }
    else
      pure { opcode := ArmOpcode.kThumbBkpt, short_form := false,
             encoded_disp := displacement, reg := r_dest, is64bit := false }
  match size with
  | OpSize.kDouble => fpWide
  | OpSize.kLong => fpWide
  | OpSize.kSingle => word
  | OpSize.kWord => word
  | OpSize.kUnsignedHalf =>
    if all_low_regs ∧ displacement < 64 ∧ displacement ≥ 0 then do
      DCHECK env (decide (andI displacement 0x1 = 0))
      pure { opcode := ArmOpcode.kThumbLdrhRRI5, short_form := true,
             encoded_disp := sarI displacement 1, reg := r_dest, is64bit := false }
    else if displacement < 4092 ∧ displacement ≥ 0 then
      pure { opcode := ArmOpcode.kThumb2LdrhRRI12, short_form := true,
             encoded_disp := displacement, reg := r_dest, is64bit := false }
    else
      pure { opcode := ArmOpcode.kThumbBkpt, short_form := false,
             encoded_disp := displacement, reg := r_dest, is64bit := false }
  | OpSize.kSignedHalf =>
    if thumb2Form then
      pure { opcode := ArmOpcode.kThumb2LdrshRRI12, short_form := true,
             encoded_disp := displacement, reg := r_dest, is64bit := false }
    else
      pure { opcode := ArmOpcode.kThumbBkpt, short_form := false,
             encoded_disp := displacement, reg := r_dest, is64bit := false }
  | OpSize.kUnsignedByte =>
    if all_low_regs ∧ displacement < 32 ∧ displacement ≥ 0 then
      pure { opcode := ArmOpcode.kThumbLdrbRRI5, short_form := true,
             encoded_disp := displacement, reg := r_dest, is64bit := false }
    else if thumb2Form then
      pure { opcode := ArmOpcode.kThumb2LdrbRRI12, short_form := true,
             encoded_disp := displacement, reg := r_dest, is64bit := false }
    else
      pure { opcode := ArmOpcode.kThumbBkpt, short_form := false,
             encoded_disp := displacement, reg := r_dest, is64bit := false }
  | OpSize.kSignedByte =>
    if thumb2Form then
      pure { opcode := ArmOpcode.kThumb2LdrsbRRI12, short_form := true,
             encoded_disp := displacement, reg := r_dest, is64bit := false }
    else
      pure { opcode := ArmOpcode.kThumbBkpt, short_form := false,
             encoded_disp := displacement, reg := r_dest, is64bit := false }

/-- The code of `LoadBaseDispBody` after its `switch` (lines 864-877). -/
def LoadBaseDispTail (env : ArmEnv) (fuel : Nat) (cu : CompilationUnit)
    (rBase displacement : Int) (size : OpSize) (f : DispForm) :
    Except Fault (LIR × CompilationUnit) := do
  let l ←
    (if f.short_form then
      pure (NewLIR3 cu f.opcode f.reg rBase f.encoded_disp)
    else do
      let t ← AllocTemp cu
      let reg_offset := t.1
      let c ← LoadConstant env fuel t.2 reg_offset f.encoded_disp
      let ld ← LoadBaseIndexed env c.2 rBase reg_offset f.reg 0 size
      pure (ld.1, FreeTemp ld.2 reg_offset))
  if rBase = env.rARM_SP then
    pure (AnnotateDalvikRegAccess l.2 l.1 (sarI displacement 2) true f.is64bit)
  else
    pure l

/-- `LoadBaseDispBody` (lines 764-878), with the function it calls for the two
halves of a long or double in core registers as the argument `self`.  The
`s_reg` argument, which the body only passes on, is left out. -/
def LoadBaseDispBodyWith (env : ArmEnv) (fuel : Nat)
    (self : CompilationUnit → Int → Int → Int → Int → OpSize →
      Except Fault (LIR × CompilationUnit))
    (cu : CompilationUnit) (rBase displacement r_dest r_dest_hi : Int) (size : OpSize) :
    Except Fault (LIR × CompilationUnit) :=
  if (size = OpSize.kDouble ∨ size = OpSize.kLong) ∧ ¬ env.ARM_FPREG r_dest then do
    let res ← self cu rBase displacement r_dest (-1) OpSize.kWord
    let hi ← self res.2 rBase (addI displacement 4) r_dest_hi (-1) OpSize.kWord
    pure (res.1, hi.2)
  else do
    let f ← LoadBaseDispSwitch env rBase displacement r_dest r_dest_hi size
    LoadBaseDispTail env fuel cu rBase displacement size f

/-- `LoadBaseDispBody` (lines 764-878).  The calls it makes to itself pass
`kWord`, for which it does not call itself again, so the recursion is unfolded
once. -/
def LoadBaseDispBody (env : ArmEnv) (fuel : Nat) (cu : CompilationUnit)
    (rBase displacement r_dest r_dest_hi : Int) (size : OpSize) :
    Except Fault (LIR × CompilationUnit) :=
  LoadBaseDispBodyWith env fuel
    (LoadBaseDispBodyWith env fuel (fun _ _ _ _ _ _ => Except.error Fault.outOfFuel))
    cu rBase displacement r_dest r_dest_hi size

/-- `LoadBaseDisp` (lines 880-885). -/
def LoadBaseDisp (env : ArmEnv) (fuel : Nat) (cu : CompilationUnit)
    (rBase displacement r_dest : Int) (size : OpSize) : Except Fault (LIR × CompilationUnit) :=
  LoadBaseDispBody env fuel cu rBase displacement r_dest (-1) size

/-- `LoadBaseDispWide` (lines 887-892). -/
def LoadBaseDispWide (env : ArmEnv) (fuel : Nat) (cu : CompilationUnit)
    (rBase displacement r_dest_lo r_dest_hi : Int) : Except Fault (LIR × CompilationUnit) :=
  LoadBaseDispBody env fuel cu rBase displacement r_dest_lo r_dest_hi OpSize.kLong

/-- The `switch (size)` of `StoreBaseDispBody` (lines 905-969) on every path that
leaves it by `break`; the path that returns from inside it (a long or double in
core registers) is in `StoreBaseDispBodyWith`. -/
def StoreBaseDispSwitch (env : ArmEnv) (rBase displacement r_src r_src_hi : Int)
    (size : OpSize) : Except Fault DispForm :=
  let thumb2Form : Bool := decide (displacement < 4092 ∧ displacement ≥ 0)
  let all_low_regs : Bool := env.ARM_LOWREG rBase && env.ARM_LOWREG r_src
  let fpWide : Except Fault DispForm := do
    let r_src1 ←
      (if env.ARM_SINGLEREG r_src then do
        DCHECK env (env.ARM_FPREG r_src_hi)
        pure (env.S2d r_src r_src_hi)
      else pure r_src)
    if displacement ≤ 1020 then
      pure { opcode := ArmOpcode.kThumb2Vstrd, short_form := true,
             encoded_disp := sarI displacement 2, reg := r_src1, is64bit := true }
    else
      pure { opcode := ArmOpcode.kThumb2Vstrd, short_form := false,
             encoded_disp := displacement, reg := r_src1, is64bit := true }
  let word : Except Fault DispForm :=
    if env.ARM_FPREG r_src then do
      DCHECK env (env.ARM_SINGLEREG r_src)
      if displacement ≤ 1020 then
        pure { opcode := ArmOpcode.kThumb2Vstrs, short_form := true,
               encoded_disp := sarI displacement 2, reg := r_src, is64bit := false }
      else
        pure { opcode := ArmOpcode.kThumb2Vstrs, short_form := false,
               encoded_disp := displacement, reg := r_src, is64bit := false }
    else if all_low_regs ∧ displacement < 128 ∧ displacement ≥ 0 then do
      DCHECK env (decide (andI displacement 0x3 = 0))
      pure { opcode := ArmOpcode.kThumbStrRRI5, short_form := true,
             encoded_disp := sarI displacement 2, reg := r_src, is64bit := false }
    else if thumb2Form then
      pure { opcode := ArmOpcode.kThumb2StrRRI12, short_form := true,
             encoded_disp := displacement, reg := r_src, is64bit := false }
    else
      pure { opcode := ArmOpcode.kThumbBkpt, short_form := false,
             encoded_disp := displacement, reg := r_src, is64bit := false }
  let half : Except Fault DispForm :=
    if all_low_regs ∧ displacement < 64 ∧ displacement ≥ 0 then do
      DCHECK env (decide (andI displacement 0x1 = 0))
      pure { opcode := ArmOpcode.kThumbStrhRRI5, short_form := true,
             encoded_disp := sarI displacement 1, reg := r_src, is64bit := false }
    else if thumb2Form then
      pure { opcode := ArmOpcode.kThumb2StrhRRI12, short_form := true,
             encoded_disp := displacement, reg := r_src, is64bit := false }
    else
      pure { opcode := ArmOpcode.kThumbBkpt, short_form := false,
             encoded_disp := displacement, reg := r_src, is64bit := false }
  let byte : Except Fault DispForm :=
    if all_low_regs ∧ displacement < 32 ∧ displacement ≥ 0 then
      pure { opcode := ArmOpcode.kThumbStrbRRI5, short_form := true,
             encoded_disp := displacement, reg := r_src, is64bit := false }
    else if thumb2Form then
      pure { opcode := ArmOpcode.kThumb2StrbRRI12, short_form := true,
             encoded_disp := displacement, reg := r_src, is64bit := false }
    else
      pure { opcode := ArmOpcode.kThumbBkpt, short_form := false,
             encoded_disp := displacement, reg := r_src, is64bit := false }
  match size with
  | OpSize.kLong => fpWide
  | OpSize.kDouble => fpWide
  | OpSize.kSingle => word
  | OpSize.kWord => word
  | OpSize.kUnsignedHalf => half
  | OpSize.kSignedHalf => half
  | OpSize.kUnsignedByte => byte
  | OpSize.kSignedByte => byte

/-- The code of `StoreBaseDispBody` after its `switch` (lines 970-984).  The
function returns `res`, which is the store itself in the short form and the
first record of the constant load otherwise. -/
def StoreBaseDispTail (env : ArmEnv) (fuel : Nat) (cu : CompilationUnit)
    (rBase displacement : Int) (size : OpSize) (f : DispForm) :
    Except Fault (LIR × CompilationUnit) := do
  if f.short_form then
    let st := NewLIR3 cu f.opcode f.reg rBase f.encoded_disp
    if rBase = env.rARM_SP then
      pure (AnnotateDalvikRegAccess st.2 st.1 (sarI displacement 2) false f.is64bit)
    else
      pure st
  else do
    let t ← AllocTemp cu
    let r_scratch := t.1
    let c ← LoadConstant env fuel t.2 r_scratch f.encoded_disp
    let st ← StoreBaseIndexed env c.2 rBase r_scratch f.reg 0 size
    let cu1 := FreeTemp st.2 r_scratch
    if rBase = env.rARM_SP then
      pure (c.1, (AnnotateDalvikRegAccess cu1 st.1 (sarI displacement 2) false f.is64bit).2)
    else
      pure (c.1, cu1)

/-- `StoreBaseDispBody` (lines 895-985), with the function it calls for the two
halves of a long or double in core registers as the argument `self`. -/
def StoreBaseDispBodyWith (env : ArmEnv) (fuel : Nat)
    (self : CompilationUnit → Int → Int → Int → Int → OpSize →
      Except Fault (LIR × CompilationUnit))
    (cu : CompilationUnit) (rBase displacement r_src r_src_hi : Int) (size : OpSize) :
    Except Fault (LIR × CompilationUnit) :=
  if (size = OpSize.kLong ∨ size = OpSize.kDouble) ∧ ¬ env.ARM_FPREG r_src then do
    let res ← self cu rBase displacement r_src (-1) OpSize.kWord
    let hi ← self res.2 rBase (addI displacement 4) r_src_hi (-1) OpSize.kWord
    pure (res.1, hi.2)
  else do
    let f ← StoreBaseDispSwitch env rBase displacement r_src r_src_hi size
    StoreBaseDispTail env fuel cu rBase displacement size f

/-- `StoreBaseDispBody` (lines 895-985).  The calls it makes to itself pass
`kWord`, for which it does not call itself again, so the recursion is unfolded
once. -/
def StoreBaseDispBody (env : ArmEnv) (fuel : Nat) (cu : CompilationUnit)
    (rBase displacement r_src r_src_hi : Int) (size : OpSize) :
    Except Fault (LIR × CompilationUnit) :=
  StoreBaseDispBodyWith env fuel
    (StoreBaseDispBodyWith env fuel (fun _ _ _ _ _ _ => Except.error Fault.outOfFuel))
    cu rBase displacement r_src r_src_hi size

/-- `StoreBaseDisp` (lines 987-991). -/
def StoreBaseDisp (env : ArmEnv) (fuel : Nat) (cu : CompilationUnit)
    (rBase displacement r_src : Int) (size : OpSize) : Except Fault (LIR × CompilationUnit) :=
  StoreBaseDispBody env fuel cu rBase displacement r_src (-1) size

/-- `StoreBaseDispWide` (lines 993-997). -/
def StoreBaseDispWide (env : ArmEnv) (fuel : Nat) (cu : CompilationUnit)
    (rBase displacement r_src_lo r_src_hi : Int) : Except Fault (LIR × CompilationUnit) :=
  StoreBaseDispBody env fuel cu rBase displacement r_src_lo r_src_hi OpSize.kLong

/-! ## A registry and a context to run the embedding on -/

/-- An instance of `ArmEnv` on which the embedding is evaluated: the usual
Thumb2 register numbering (core registers `0..15` with `0..7` compact, `13` the
stack pointer and `15` the program counter; bit 5 marks a floating-point
register and bit 6 a double) and a registry in which register-register Thumb2
opcodes take four fields, the compact two-register forms two, and every other
opcode three.  The properties below are proved for every `ArmEnv`; this one
only serves to run examples. -/
def thumb2Env : ArmEnv where
  ARM_FPREG := fun x => decide (andI x 32 = 32)
  ARM_LOWREG := fun x => decide (andI x 7 = x)
  ARM_SINGLEREG := fun x => decide (andI x 32 = 32) && !decide (andI x 64 = 64)
  ARM_DOUBLEREG := fun x => decide (andI x 64 = 64)
  S2d := fun x _ => orI x 64
  r13sp := 13
  r15pc := 15
  rARM_SP := 13
  kArmLsl := 0
  EncodingMap := fun o =>
    if o ∈ [ArmOpcode.kThumb2AdcRRR, ArmOpcode.kThumb2AddRRR, ArmOpcode.kThumb2AndRRR,
        ArmOpcode.kThumb2BicRRR, ArmOpcode.kThumb2EorRRR, ArmOpcode.kThumb2OrrRRR,
        ArmOpcode.kThumb2RsubRRR, ArmOpcode.kThumb2SbcRRR, ArmOpcode.kThumb2SubRRR] then
      { IS_BINARY_OP := false, IS_TERTIARY_OP := false, IS_QUAD_OP := true,
        field2_kFmtShift := false }
    else if o ∈ [ArmOpcode.kThumbCmpRR, ArmOpcode.kThumbCmpHH, ArmOpcode.kThumbCmpLH,
        ArmOpcode.kThumbCmpHL, ArmOpcode.kThumbMovRR, ArmOpcode.kThumbMovRR_H2H,
        ArmOpcode.kThumbMovRR_H2L, ArmOpcode.kThumbMovRR_L2H, ArmOpcode.kThumbAdcRR,
        ArmOpcode.kThumbAndRR, ArmOpcode.kThumbBicRR, ArmOpcode.kThumbCmnRR,
        ArmOpcode.kThumbEorRR, ArmOpcode.kThumbMul, ArmOpcode.kThumbMvn, ArmOpcode.kThumbNeg,
        ArmOpcode.kThumbOrr, ArmOpcode.kThumbSbc, ArmOpcode.kThumbTst, ArmOpcode.kThumbLslRR,
        ArmOpcode.kThumbLsrRR, ArmOpcode.kThumbAsrRR, ArmOpcode.kThumbRorRR] then
      { IS_BINARY_OP := true, IS_TERTIARY_OP := false, IS_QUAD_OP := false,
        field2_kFmtShift := false }
    else
      { IS_BINARY_OP := false, IS_TERTIARY_OP := true, IS_QUAD_OP := false,
        field2_kFmtShift := o ∈ [ArmOpcode.kThumb2CmpRR, ArmOpcode.kThumb2CmnRR,
          ArmOpcode.kThumb2TstRR, ArmOpcode.kThumb2MnvRR, ArmOpcode.kThumb2NegRR] }
  kIsDebugBuild := true

/-- A context with an empty instruction stream, an empty literal pool and four
free temporary registers. -/
def emptyUnit : CompilationUnit where
  code := []
  next_id := 0
  literal_list := []
  current_dalvik_offset := 0
  disable_opt := 0
  free_temps := [0, 1, 2, 3]
  temp_trace := []

/-! ## Auxiliary definitions for the statements -/

/-- The record and context produced by the literal-pool path for a core
register. -/
def poolLoad (cu : CompilationUnit) (r_dest value : Int) : LIR × CompilationUnit :=
  let dt := poolEntry cu value
  let r := RawLIR dt.2 dt.2.current_dalvik_offset ArmOpcode.kThumb2LdrPcRel12 r_dest
    0 0 0 0 (some dt.1)
  let load_pc_rel := { SetMemRefType r.1 true MemRefType.kLiteral with alias_info := some dt.1 }
  (load_pc_rel, AppendLIR r.2 load_pc_rel)

/-- Destination register and 32-bit value that one record of a constant load
leaves, read per opcode as the contract of the constant materializer words it:
the compact move-immediate gives its 8-bit immediate, the
move-modified-immediate the decode of its field, the move-negated-immediate the
complement of that decode, the move-immediate-16 its immediate zero-extended,
the float move-immediate the expansion of its byte, and a PC-relative load the
word stored in the pool entry it references. -/
def loadedValue (pool : List Int) (l : LIR) : Option (Int × Nat) :=
  match l.operands with
  | r :: imm :: _ =>
    match l.opcode with
    | ArmOpcode.kThumbMovImm => some (r, toU32 imm % 256)
    | ArmOpcode.kThumb2MovImmShift => some (r, ThumbExpandImm (toU32 imm))
    | ArmOpcode.kThumb2MvnImm12 => some (r, ThumbExpandImm (toU32 imm) ^^^ 0xFFFFFFFF)
    | ArmOpcode.kThumb2MovImm16 => some (r, toU32 imm % 65536)
    | ArmOpcode.kThumb2Vmovs_IMM8 => some (r, VFPExpandImm32 (toU32 imm))
    | ArmOpcode.kThumb2LdrPcRel12 =>
      match l.target with
      | some t => (pool[t.index]?).map (fun w => (r, toU32 w))
      | none => none
    | ArmOpcode.kThumb2Vldrs =>
      match l.target with
      | some t => (pool[t.index]?).map (fun w => (r, toU32 w))
      | none => none
    | _ => none
  | _ => none

/-- The record and context produced by the literal-pool path for a
single-precision register. -/
def poolLoadFP (env : ArmEnv) (cu : CompilationUnit) (r_dest value : Int) :
    LIR × CompilationUnit :=
  let dt := poolEntry cu value
  let r := RawLIR dt.2 dt.2.current_dalvik_offset ArmOpcode.kThumb2Vldrs r_dest env.r15pc
    0 0 0 (some dt.1)
  let load_pc_rel := { SetMemRefType r.1 true MemRefType.kLiteral with alias_info := some dt.1 }
  (load_pc_rel, AppendLIR r.2 load_pc_rel)

/-- The inputs on which `LoadConstantNoClobber` takes a literal-pool path: a
float register whose value has no float immediate, or a core register for which
the four shortcuts of lines 137-155 all fail. -/
def reachesLiteralPool (env : ArmEnv) (r value : Int) : Bool :=
  if env.ARM_FPREG r then decide (EncodeImmSingle value < 0)
  else
    !(env.ARM_LOWREG r && decide (0 ≤ value) && decide (value ≤ 255)) &&
    decide (ModifiedImmediate (toU32 value) < 0) &&
    decide (ModifiedImmediate (toU32 (notI value)) < 0) &&
    !decide (andI value 0xffff = value)

/-- Replays a trace of the temporary-register pool against the registers that
are outstanding (acquired and not yet released): an acquire adds its register,
a release removes one outstanding copy of its register and is refused when
there is none. -/
def tempsOutstanding : List TempEvent → List Int → Option (List Int)
  | [], out => some out
  | TempEvent.acquire r :: es, out => tempsOutstanding es (r :: out)
  | TempEvent.release r :: es, out =>
    if r ∈ out then tempsOutstanding es (out.erase r) else none

/-- The temporary-register pool after a call is as before it, and the events
of the call are balanced: every register acquired during the call is released
exactly once afterwards within the call, and nothing else is released. -/
def TempBalanced (cu cu1 : CompilationUnit) : Prop :=
  cu1.free_temps = cu.free_temps ∧
    ∃ evs, cu1.temp_trace = cu.temp_trace ++ evs ∧ tempsOutstanding evs [] = some []

/-- The temporary-register pool and its trace are untouched. -/
def SameTemps (cu cu1 : CompilationUnit) : Prop :=
  cu1.free_temps = cu.free_temps ∧ cu1.temp_trace = cu.temp_trace

/-- The three outcomes of `LoadBaseDisp` by displacement `d` for one access
size: below `limit` the compact opcode with field `d / 2^shift`; from `limit`
to below 4092 the extended opcode with field `d`; otherwise, with a free core
temporary `t`, the synthesis path: one record that loads `d` into `t`, then the
indexed load of `(base, t)`, after which `t` is free again. -/
def LoadDispThresholds (env : ArmEnv) (fuel : Nat) (cu : CompilationUnit)
    (rBase r_dest d : Int) (size : OpSize) (limit : Int) (shift : Nat)
    (compact extended indexedCompact indexedExtended : ArmOpcode) : Prop :=
  (0 ≤ d ∧ d < limit →
    LoadBaseDisp env fuel cu rBase d r_dest size
      = Except.ok (NewLIR3 cu compact r_dest rBase (d / 2 ^ shift))) ∧
  (limit ≤ d ∧ d < 4092 →
    LoadBaseDisp env fuel cu rBase d r_dest size
      = Except.ok (NewLIR3 cu extended r_dest rBase d)) ∧
  (d < 0 ∨ 4092 ≤ d → ∀ t rest, cu.free_temps = t :: rest → env.ARM_FPREG t = false →
    ∃ c ld cu1, LoadBaseDisp env fuel cu rBase d r_dest size = Except.ok (ld, cu1) ∧
      cu1.code = cu.code ++ [c, ld] ∧
      loadedValue cu1.literal_list c = some (t, toU32 d) ∧
      ld.opcode = (if env.ARM_LOWREG t = true then indexedCompact else indexedExtended) ∧
      ld.operands = [r_dest, rBase, t, 0, 0] ∧
      cu1.free_temps = cu.free_temps)

/-- The call does not stop for lack of unfolding depth in the embedding. -/
def NoFuelFault {α : Type} (x : Except Fault α) : Prop :=
  x ≠ Except.error Fault.outOfFuel

/-! ## 64-bit constants and register copies -/

/-- Search of `ScanLiteralPoolWide` from position `i` on. -/
def ScanLiteralPoolWideFrom (i : Nat) : List Int → Int → Int → Option Literal
  | lo :: hi :: rest, val_lo, val_hi =>
    if lo = val_lo ∧ hi = val_hi then some { index := i, word := lo }
    else ScanLiteralPoolWideFrom (i + 1) (hi :: rest) val_lo val_hi
  | _, _, _ => none

/-- Modelled from the spec: `ScanLiteralPoolWide(pool, lo, hi)` of the literal
pool, absent from `src/`: the first combined entry, two adjacent words holding
`lo` then `hi`, or none. -/
def ScanLiteralPoolWide (pool : List Int) (val_lo val_hi : Int) : Option Literal :=
  ScanLiteralPoolWideFrom 0 pool val_lo val_hi

/-- Modelled from the spec: `AddWideData` of the literal pool, absent from
`src/`: inserts both words as one combined entry and returns it. -/
def AddWideData (cu : CompilationUnit) (val_lo val_hi : Int) : Literal × CompilationUnit :=
  ({ index := cu.literal_list.length, word := val_lo },
   { cu with literal_list := cu.literal_list ++ [val_lo, val_hi] })

/-- The lookup-or-insert idiom of lines 610-613:
`data_target = ScanLiteralPoolWide(cu->literal_list, val_lo, val_hi)`, and
`AddWideData(cu, &cu->literal_list, val_lo, val_hi)` when that is `NULL`. -/
def poolEntryWide (cu : CompilationUnit) (val_lo val_hi : Int) : Literal × CompilationUnit :=
  match ScanLiteralPoolWide cu.literal_list val_lo val_hi with
  | some t => (t, cu)
  | none => AddWideData cu val_lo val_hi

/-- `LoadConstantValueWide` (lines 600-627). -/
def LoadConstantValueWide (env : ArmEnv) (fuel : Nat) (cu : CompilationUnit)
    (r_dest_lo r_dest_hi val_lo val_hi : Int) : Except Fault (LIR × CompilationUnit) :=
  let encoded_imm := EncodeImmDouble val_lo val_hi
  if env.ARM_FPREG r_dest_lo then
    if encoded_imm ≥ 0 then
      pure (NewLIR2 cu ArmOpcode.kThumb2Vmovd_IMM8 (env.S2d r_dest_lo r_dest_hi) encoded_imm)
    else
      let dt := poolEntryWide cu val_lo val_hi
      let r := RawLIR dt.2 dt.2.current_dalvik_offset ArmOpcode.kThumb2Vldrd
        (env.S2d r_dest_lo r_dest_hi) env.r15pc 0 0 0 (some dt.1)
      let load_pc_rel := { SetMemRefType r.1 true MemRefType.kLiteral with
        alias_info := some dt.1 }
      pure (load_pc_rel, AppendLIR r.2 load_pc_rel)
  else do
    let res ← LoadConstantNoClobber env fuel cu r_dest_lo val_lo
    let hi ← LoadConstantNoClobber env fuel res.2 r_dest_hi val_hi
    pure (res.1, hi.2)

/-- The selection of the opcode in `FpRegCopy` (lines 1008-1017). -/
def FpRegCopyOpcode (env : ArmEnv) (r_dest r_src : Int) : Except Fault ArmOpcode :=
  if env.ARM_DOUBLEREG r_dest then
    pure ArmOpcode.kThumb2Vmovd
  else if env.ARM_SINGLEREG r_dest then
    pure (if env.ARM_SINGLEREG r_src then ArmOpcode.kThumb2Vmovs else ArmOpcode.kThumb2Fmsr)
  else do
    DCHECK env (env.ARM_SINGLEREG r_src)
    pure ArmOpcode.kThumb2Fmrs

/-- `FpRegCopy` (lines 1004-1023).  The enumerator `kSafeOptimizations`, declared
outside `src/`, is an argument; `RawLIR` is called with the two register
operands and allocates without appending. -/
def FpRegCopy (env : ArmEnv) (kSafeOptimizations : Nat) (cu : CompilationUnit)
    (r_dest r_src : Int) : Except Fault (LIR × CompilationUnit) := do
  DCHECK env (decide (env.ARM_DOUBLEREG r_dest = env.ARM_DOUBLEREG r_src))
  let opcode ← FpRegCopyOpcode env r_dest r_src
  let res := RawLIR cu cu.current_dalvik_offset opcode r_dest r_src 0 0 0 none
  if cu.disable_opt &&& (1 <<< kSafeOptimizations) = 0 ∧ r_dest = r_src then
    pure ({ res.1 with is_nop := true }, res.2)
  else
    pure res

/-! ## Auxiliary definitions for the selector statements -/

/-- The compact (16-bit, `kThumb...`) and the extended (32-bit, `kThumb2...`)
register-register opcode that `arm_lir.h` names after an operation kind, for the
kinds that have exactly one of each. -/
def regRegForms : OpKind → Option (ArmOpcode × ArmOpcode)
  | OpKind.kOpAdc => some (ArmOpcode.kThumbAdcRR, ArmOpcode.kThumb2AdcRRR)
  | OpKind.kOpAnd => some (ArmOpcode.kThumbAndRR, ArmOpcode.kThumb2AndRRR)
  | OpKind.kOpBic => some (ArmOpcode.kThumbBicRR, ArmOpcode.kThumb2BicRRR)
  | OpKind.kOpCmn => some (ArmOpcode.kThumbCmnRR, ArmOpcode.kThumb2CmnRR)
  | OpKind.kOpXor => some (ArmOpcode.kThumbEorRR, ArmOpcode.kThumb2EorRRR)
  | OpKind.kOpMul => some (ArmOpcode.kThumbMul, ArmOpcode.kThumb2MulRRR)
  | OpKind.kOpMvn => some (ArmOpcode.kThumbMvn, ArmOpcode.kThumb2MnvRR)
  | OpKind.kOpNeg => some (ArmOpcode.kThumbNeg, ArmOpcode.kThumb2NegRR)
  | OpKind.kOpOr => some (ArmOpcode.kThumbOrr, ArmOpcode.kThumb2OrrRRR)
  | OpKind.kOpSbc => some (ArmOpcode.kThumbSbc, ArmOpcode.kThumb2SbcRRR)
  | OpKind.kOpTst => some (ArmOpcode.kThumbTst, ArmOpcode.kThumb2TstRR)
  | OpKind.kOpLsl => some (ArmOpcode.kThumbLslRR, ArmOpcode.kThumb2LslRRR)
  | OpKind.kOpLsr => some (ArmOpcode.kThumbLsrRR, ArmOpcode.kThumb2LsrRRR)
  | OpKind.kOpAsr => some (ArmOpcode.kThumbAsrRR, ArmOpcode.kThumb2AsrRRR)
  | OpKind.kOpRor => some (ArmOpcode.kThumbRorRR, ArmOpcode.kThumb2RorRRR)
  | OpKind.kOpAdd => some (ArmOpcode.kThumbAddRRR, ArmOpcode.kThumb2AddRRR)
  | OpKind.kOpSub => some (ArmOpcode.kThumbSubRRR, ArmOpcode.kThumb2SubRRR)
  | _ => none

/-- The kinds of `regRegForms` whose case in `OpRegRegShift` opens with
`DCHECK_EQ(shift, 0)`. -/
def shiftAsserted : OpKind → Bool
  | OpKind.kOpCmn | OpKind.kOpMul | OpKind.kOpNeg | OpKind.kOpLsl | OpKind.kOpLsr
  | OpKind.kOpAsr | OpKind.kOpRor => true
  | _ => false

/-- The four register-class variants of a move, by whether the destination and
the source are compact registers. -/
def movVariant (dest_low src_low : Bool) : ArmOpcode :=
  match dest_low, src_low with
  | true, true => ArmOpcode.kThumbMovRR
  | false, false => ArmOpcode.kThumbMovRR_H2H
  | true, false => ArmOpcode.kThumbMovRR_H2L
  | false, true => ArmOpcode.kThumbMovRR_L2H

/-- The four register-class variants of an unshifted compare, by whether the
destination and the source are compact registers. -/
def cmpVariant (dest_low src_low : Bool) : ArmOpcode :=
  match dest_low, src_low with
  | true, true => ArmOpcode.kThumbCmpRR
  | false, false => ArmOpcode.kThumbCmpHH
  | true, false => ArmOpcode.kThumbCmpLH
  | false, true => ArmOpcode.kThumbCmpHL

/-- The kinds for which `OpRegRegImm` is specified to return an instruction. -/
def regRegImmKinds : List OpKind :=
  [OpKind.kOpLsl, OpKind.kOpLsr, OpKind.kOpAsr, OpKind.kOpRor, OpKind.kOpAdd, OpKind.kOpSub,
   OpKind.kOpAdc, OpKind.kOpSbc, OpKind.kOpOr, OpKind.kOpAnd, OpKind.kOpXor, OpKind.kOpMul,
   OpKind.kOpCmp]

/-- What an add or subtract with an immediate adds to its source register, read
per opcode from the third operand: the 3-bit and the 12-bit forms add or
subtract the operand itself, the modified-immediate forms the decode of the
operand. -/
def addSubImmEffect (opcode : ArmOpcode) (imm : Int) : Option Int :=
  match opcode with
  | ArmOpcode.kThumbAddRRI3 => some imm
  | ArmOpcode.kThumb2AddRRI12 => some imm
  | ArmOpcode.kThumbSubRRI3 => some (-imm)
  | ArmOpcode.kThumb2SubRRI12 => some (-imm)
  | ArmOpcode.kThumb2AddRRI8 => some (ThumbExpandImm (toU32 imm) : Nat)
  | ArmOpcode.kThumb2SubRRI8 => some (-((ThumbExpandImm (toU32 imm) : Nat) : Int))
  | _ => none

/-- Largest third operand that the immediate field of an add or subtract form
holds: 3 bits, the 8-bit magnitude used with the 12-bit forms, and the 12-bit
modified-immediate field. -/
def addSubImmBound (opcode : ArmOpcode) : Int :=
  match opcode with
  | ArmOpcode.kThumbAddRRI3 => 7
  | ArmOpcode.kThumbSubRRI3 => 7
  | ArmOpcode.kThumb2AddRRI12 => 255
  | ArmOpcode.kThumb2SubRRI12 => 255
  | _ => 4095

/-- The registry entry declares an operand count that `OpRegRegShift` knows how
to lay out (lines 306-317). -/
def hasOperandCount (m : ArmEncodingMap) : Bool :=
  m.IS_BINARY_OP || m.IS_TERTIARY_OP || m.IS_QUAD_OP

/-! ## Auxiliary definitions for the instruction stream -/

/-- Every record of the instruction stream was allocated by `RawLIR` before the
allocation counter reached its present value, so that a record allocated from
now on is none of them. -/
def IdsBelow (cu : CompilationUnit) : Prop :=
  ∀ l ∈ cu.code, l.id < cu.next_id

/-- Between the contexts `cu` and `cu1` the records `new` were allocated and
appended to the instruction stream, in that order, and the stream is otherwise
as it was. -/
def Emits (cu : CompilationUnit) (new : List LIR) (cu1 : CompilationUnit) : Prop :=
  cu1.code = cu.code ++ new ∧ cu.next_id ≤ cu1.next_id ∧
    ∀ l ∈ new, cu.next_id ≤ l.id ∧ l.id < cu1.next_id

/-- The frame annotation of a record: the slot index `displacement >> 2`, the
load/store flag and the width flag. -/
def FrameTagged (l : LIR) (displacement : Int) (is_load is64bit : Bool) : Prop :=
  l.dalvik_reg_access
    = some { reg_id := sarI displacement 2, is_load := is_load, is64bit := is64bit }

/-! ## Auxiliary definitions for the immediate and displacement statements -/

/-- The 8-bit-modified-immediate opcode and the three-register opcode that
`arm_lir.h` names after the kinds and, or, xor, adc and sbc. -/
def generalImmForms : OpKind → Option (ArmOpcode × ArmOpcode)
  | OpKind.kOpAnd => some (ArmOpcode.kThumb2AndRRI8, ArmOpcode.kThumb2AndRRR)
  | OpKind.kOpOr => some (ArmOpcode.kThumb2OrrRRI8, ArmOpcode.kThumb2OrrRRR)
  | OpKind.kOpXor => some (ArmOpcode.kThumb2EorRRI8, ArmOpcode.kThumb2EorRRR)
  | OpKind.kOpAdc => some (ArmOpcode.kThumb2AdcRRI8, ArmOpcode.kThumb2AdcRRR)
  | OpKind.kOpSbc => some (ArmOpcode.kThumb2SbcRRI8, ArmOpcode.kThumb2SbcRRR)
  | _ => none

/-- A general immediate operation as the specification words it: the
immediate form `imm8` when `ModifiedImmediate(value)` succeeds; otherwise the
value is materialized into a freshly acquired temporary, the operation is
dispatched again through `OpRegRegReg` on that temporary, and the temporary is
released. -/
def generalImmSpec (env : ArmEnv) (fuel : Nat) (cu : CompilationUnit) (op : OpKind)
    (imm8 : ArmOpcode) (r_dest r_src1 value : Int) : Except Fault (LIR × CompilationUnit) :=
  if ModifiedImmediate (toU32 value) ≥ 0 then
    pure (NewLIR3 cu imm8 r_dest r_src1 (ModifiedImmediate (toU32 value)))
  else do
    let t ← AllocTemp cu
    let c ← LoadConstant env fuel t.2 t.1 value
    let r ← OpRegRegReg env c.2 op r_dest r_src1 t.1
    pure (r.1, FreeTemp r.2 t.1)

/-- The synthesis of a load as the specification words it: the displacement is
materialized into a freshly acquired temporary, the access is delegated to
`LoadBaseIndexed` with that temporary as index and scale `0`, and the temporary
is released; with the stack pointer as base the load is then annotated as in
lines 873-876. -/
def loadDispSynthesis (env : ArmEnv) (fuel : Nat) (cu : CompilationUnit)
    (rBase displacement reg : Int) (size : OpSize) (is64bit : Bool) :
    Except Fault (LIR × CompilationUnit) := do
  let t ← AllocTemp cu
  let c ← LoadConstant env fuel t.2 t.1 displacement
  let ld ← LoadBaseIndexed env c.2 rBase t.1 reg 0 size
  let cu1 := FreeTemp ld.2 t.1
  if rBase = env.rARM_SP then
    pure (AnnotateDalvikRegAccess cu1 ld.1 (sarI displacement 2) true is64bit)
  else
    pure (ld.1, cu1)

/-- The synthesis of a store as the specification words it, as
`loadDispSynthesis` with `StoreBaseIndexed`; the record returned is the one of
the constant load (`res` at line 974). -/
def storeDispSynthesis (env : ArmEnv) (fuel : Nat) (cu : CompilationUnit)
    (rBase displacement reg : Int) (size : OpSize) (is64bit : Bool) :
    Except Fault (LIR × CompilationUnit) := do
  let t ← AllocTemp cu
  let c ← LoadConstant env fuel t.2 t.1 displacement
  let st ← StoreBaseIndexed env c.2 rBase t.1 reg 0 size
  let cu1 := FreeTemp st.2 t.1
  if rBase = env.rARM_SP then
    pure (c.1, (AnnotateDalvikRegAccess cu1 st.1 (sarI displacement 2) false is64bit).2)
  else
    pure (c.1, cu1)

/-! ## Leading and trailing zero counts -/

theorem LZInv_step (orig c : Nat) (s : Nat × Nat) (h : LZInv orig (c + c) s) :
    LZInv orig c (LeadingZerosStep c s) := by
  obtain ⟨n, val⟩ := s
  obtain ⟨h1, h2, h3, h4, h5, h6⟩ := h
  simp only at h1 h2 h3 h4 h5 h6
  unfold LeadingZerosStep
  simp only [Nat.shiftRight_eq_div_pow, bne_iff_ne, ne_eq, ite_not]
  have hc : 0 < 2 ^ c := Nat.pow_pos (by decide)
  by_cases halt : val / 2 ^ c = 0
  · rw [if_pos halt]
    have hlt : val < 2 ^ c := by
      exact (Nat.div_eq_zero_iff hc).mp halt
    exact ⟨hlt, by simp only; omega, h3, h4, h5, h6⟩
  · rw [if_neg halt]
    refine ⟨?_, by simp only; omega, by simp only; omega, ?_, fun _ => halt, ?_⟩
    · simp only
      apply Nat.div_lt_of_lt_mul
      rw [← pow_add]; exact h1
    · simp only
      rw [h4, Nat.div_div_eq_div_mul, ← pow_add]
      congr 2
      omega
    · intro h0
      exfalso
      apply halt
      rw [h4, h0]
      simp

theorem LeadingZeros_inv (v : Nat) (hv : v < 2 ^ 32) :
    ∃ n val, LeadingZeros v = n - val ∧ LZInv v 1 (n, val) := by
  have h0 : LZInv v (16 + 16) (32, v) :=
    ⟨hv, Nat.le_refl 32, Nat.le_refl 32, by simp, fun h => h, fun _ => rfl⟩
  have h1 := LZInv_step v 16 _ h0
  have h2 := LZInv_step v 8 _ h1
  have h3 := LZInv_step v 4 _ h2
  have h4 := LZInv_step v 2 _ h3
  have h5 := LZInv_step v 1 _ h4
  exact ⟨_, _, rfl, h5⟩

theorem LeadingZeros_zero : LeadingZeros 0 = 32 := by decide

theorem LeadingZeros_spec (v : Nat) (hv : v < 2 ^ 32) (h0 : v ≠ 0) :
    LeadingZeros v ≤ 31 ∧ 2 ^ (31 - LeadingZeros v) ≤ v ∧ v < 2 ^ (32 - LeadingZeros v) := by
  obtain ⟨n, val, hres, h1, h2, h3, h4, h5, _⟩ := LeadingZeros_inv v hv
  simp only at h1 h2 h3 h4 h5
  have hval : val = 1 := by
    have := h5 h0
    omega
  subst hval
  have hp : 0 < 2 ^ (32 - n) := Nat.pow_pos (by decide)
  have hdiv : v / 2 ^ (32 - n) = 1 := h4.symm
  have hle : 2 ^ (32 - n) ≤ v := by
    by_contra hlt
    rw [Nat.div_eq_of_lt (by omega)] at hdiv
    exact absurd hdiv (by decide)
  have hlt : v < 2 ^ (32 - n) * 2 := by
    have := Nat.lt_mul_div_succ v hp
    rw [hdiv] at this
    exact this
  rw [hres]
  refine ⟨by omega, ?_, ?_⟩
  · have : 31 - (n - 1) = 32 - n := by omega
    rw [this]; exact hle
  · have : 32 - (n - 1) = (32 - n) + 1 := by omega
    rw [this, pow_succ]; exact hlt

/-- The position of the top bit determines the leading-zero count. -/
theorem LeadingZeros_eq_of_bounds (v p : Nat) (hp : p ≤ 31) (hlo : 2 ^ p ≤ v)
    (hhi : v < 2 ^ (p + 1)) : LeadingZeros v = 31 - p := by
  have hv : v < 2 ^ 32 := lt_of_lt_of_le hhi (Nat.pow_le_pow_right (by decide) (by omega))
  have h0 : v ≠ 0 := by
    have : 0 < 2 ^ p := Nat.pow_pos (by decide)
    omega
  obtain ⟨h1, h2, h3⟩ := LeadingZeros_spec v hv h0
  have ha : p < 32 - LeadingZeros v := by
    by_contra hcon
    have : 2 ^ (32 - LeadingZeros v) ≤ 2 ^ p := Nat.pow_le_pow_right (by decide) (by omega)
    omega
  have hb : 31 - LeadingZeros v < p + 1 := by
    by_contra hcon
    have : 2 ^ (p + 1) ≤ 2 ^ (31 - LeadingZeros v) := Nat.pow_le_pow_right (by decide) (by omega)
    omega
  omega

theorem pow_le_of_mul_lt (t m : Nat) (hm : 0 < m) (hv : 2 ^ t * m < 2 ^ 32) : t < 32 := by
  by_contra hcon
  have h1 : 2 ^ 32 ≤ 2 ^ t := Nat.pow_le_pow_right (by decide) (by omega)
  have h2 : 2 ^ t ≤ 2 ^ t * m := Nat.le_mul_of_pos_right _ hm
  omega

/-- The mask `~v & (v - 1)` of a non-zero word is the run of its trailing zeros. -/
theorem trailing_mask (t k : Nat) (hv : 2 ^ t * (2 * k + 1) < 2 ^ 32) :
    ((2 ^ t * (2 * k + 1)) ^^^ 0xFFFFFFFF) &&&
      ((2 ^ t * (2 * k + 1) + 4294967295) % 4294967296) = 2 ^ t - 1 := by
  have ht : t < 32 := pow_le_of_mul_lt t _ (by omega) hv
  have hpos : 0 < 2 ^ t := Nat.pow_pos (by decide)
  have hvpos : 0 < 2 ^ t * (2 * k + 1) := Nat.mul_pos hpos (by omega)
  have hsub : (2 ^ t * (2 * k + 1) + 4294967295) % 4294967296
      = 2 ^ t * (2 * k) + (2 ^ t - 1) := by
    have e : 2 ^ t * (2 * k + 1) = 2 ^ t * (2 * k) + 2 ^ t := by ring
    have h32 : (2 : Nat) ^ 32 = 4294967296 := by norm_num
    omega
  have hmask : (0xFFFFFFFF : Nat) = 2 ^ 32 - 1 := by norm_num
  rw [hsub, hmask]
  apply Nat.eq_of_testBit_eq
  intro j
  have hb : 2 ^ t - 1 < 2 ^ t := by omega
  have hv0 : Nat.testBit (2 ^ t * (2 * k + 1)) j
      = if j < t then false else Nat.testBit (2 * k + 1) (j - t) := by
    have := Nat.testBit_mul_pow_two_add (2 * k + 1) hpos j
    simpa using this
  rw [Nat.testBit_and, Nat.testBit_xor, Nat.testBit_two_pow_sub_one,
    Nat.testBit_two_pow_sub_one, Nat.testBit_mul_pow_two_add _ hb, hv0,
    Nat.testBit_two_pow_sub_one]
  by_cases hj : j < t
  · have hj32 : j < 32 := by omega
    simp [hj, hj32]
  · simp only [hj, if_false, decide_False]
    obtain ⟨i, rfl⟩ : ∃ i, j = t + i := ⟨j - t, by omega⟩
    have e : t + i - t = i := by omega
    rw [e]
    cases i with
    | zero => simp [Nat.testBit_zero]
    | succ i =>
      rw [Nat.testBit_succ, Nat.testBit_succ]
      have e1 : (2 * k + 1) / 2 = k := by omega
      have e2 : (2 * k) / 2 = k := by omega
      rw [e1, e2]
      by_cases hk : k.testBit i = true
      · have hlt : t + (i + 1) < 32 := by
          by_contra hcon
          have hge : 2 ^ i ≤ k := Nat.testBit_implies_ge hk
          have h1 : 2 ^ (t + (i + 1)) ≤ 2 ^ t * (2 * k + 1) := by
            rw [pow_add, pow_succ]
            apply Nat.mul_le_mul_left
            omega
          have h2 : 2 ^ 32 ≤ 2 ^ (t + (i + 1)) := Nat.pow_le_pow_right (by decide) (by omega)
          omega
        simp [hk, hlt]
      · simp [hk]


theorem zTrailing_eq (t k : Nat) (hv : 2 ^ t * (2 * k + 1) < 2 ^ 32) :
    zTrailing (2 ^ t * (2 * k + 1)) = t := by
  have ht : t < 32 := pow_le_of_mul_lt t _ (by omega) hv
  unfold zTrailing
  rw [trailing_mask t k hv]
  cases t with
  | zero => simp [LeadingZeros_zero]
  | succ t =>
    have hlo : 2 ^ t ≤ 2 ^ (t + 1) - 1 := by
      have : 0 < 2 ^ t := Nat.pow_pos (by decide)
      rw [pow_succ]; omega
    have hhi : 2 ^ (t + 1) - 1 < 2 ^ (t + 1) := by
      have : 0 < 2 ^ (t + 1) := Nat.pow_pos (by decide)
      omega
    rw [LeadingZeros_eq_of_bounds _ t (by omega) hlo hhi]
    omega

theorem odd_decomp (v : Nat) (h0 : v ≠ 0) : ∃ t k, v = 2 ^ t * (2 * k + 1) := by
  obtain ⟨t, m, hm, hv⟩ := Nat.exists_eq_two_pow_mul_odd h0
  obtain ⟨k, rfl⟩ := hm
  exact ⟨t, k, hv⟩

theorem le_of_pow_dvd_odd (s t k : Nat) (h : 2 ^ s ∣ 2 ^ t * (2 * k + 1)) : s ≤ t := by
  by_contra hcon
  have h1 : 2 ^ (t + 1) ∣ 2 ^ s := Nat.pow_dvd_pow 2 (by omega)
  have h2 : 2 ^ t * 2 ∣ 2 ^ t * (2 * k + 1) := by
    rw [← pow_succ]; exact Nat.dvd_trans h1 h
  have h3 : 2 ∣ 2 * k + 1 := Nat.dvd_of_mul_dvd_mul_left (Nat.pow_pos (by decide)) h2
  omega

/-- A power of two below the trailing-zero count divides the word. -/
theorem pow_zTrailing_dvd (v : Nat) (hv : v < 2 ^ 32) (h0 : v ≠ 0) : 2 ^ zTrailing v ∣ v := by
  obtain ⟨t, k, rfl⟩ := odd_decomp v h0
  rw [zTrailing_eq t k hv]
  exact Dvd.intro _ rfl

theorem le_zTrailing (v s : Nat) (hv : v < 2 ^ 32) (h0 : v ≠ 0) (h : 2 ^ s ∣ v) :
    s ≤ zTrailing v := by
  obtain ⟨t, k, rfl⟩ := odd_decomp v h0
  rw [zTrailing_eq t k hv]
  exact le_of_pow_dvd_odd s t k h


/-! ## Bit-field arithmetic -/

theorem lor_eq_add (x y i : Nat) (hx : 2 ^ i ∣ x) (hy : y < 2 ^ i) : x ||| y = x + y := by
  obtain ⟨a, rfl⟩ := hx
  exact (Nat.mul_add_lt_is_or hy a).symm

theorem lor_eq_add_comm (x y i : Nat) (hx : 2 ^ i ∣ x) (hy : y < 2 ^ i) : y ||| x = y + x := by
  rw [Nat.lor_comm, lor_eq_add x y i hx hy, Nat.add_comm]

theorem and_ff (v : Nat) : v &&& 0xff = v % 256 := by
  have : (0xff : Nat) = 2 ^ 8 - 1 := by norm_num
  rw [this, Nat.and_pow_two_sub_one_eq_mod]

theorem shl_lor (a b i : Nat) (hb : b < 2 ^ i) : (a <<< i) ||| b = a * 2 ^ i + b := by
  rw [Nat.shiftLeft_eq]
  exact lor_eq_add _ _ i (Dvd.intro_left _ rfl) hb

theorem rep1_code (b : Nat) (hb : b < 256) : (b <<< 16) ||| b = b * 65536 + b := by
  have := shl_lor b b 16 (by omega)
  simpa using this

theorem rep2_code (b : Nat) (hb : b < 256) : (b <<< 24) ||| (b <<< 8) = b * 16777216 + b * 256 := by
  have := shl_lor b (b <<< 8) 24 (by rw [Nat.shiftLeft_eq]; omega)
  simpa [Nat.shiftLeft_eq] using this

theorem rep3_code (b : Nat) (hb : b < 256) :
    (b <<< 24) ||| (b <<< 16) ||| (b <<< 8) ||| b
      = b * 16777216 + b * 65536 + b * 256 + b := by
  simp only [Nat.shiftLeft_eq]
  norm_num
  rw [lor_eq_add (b * 16777216) (b * 65536) 24 ⟨b, by ring⟩ (by omega),
    lor_eq_add (b * 16777216 + b * 65536) (b * 256) 16 ⟨b * 256 + b, by ring⟩ (by omega),
    lor_eq_add (b * 16777216 + b * 65536 + b * 256) b 8 ⟨b * 65536 + b * 256 + b, by ring⟩
      (by omega)]

theorem rep1_spec (b : Nat) (hb : b < 256) : b ||| (b <<< 16) = b * 65536 + b := by
  rw [Nat.lor_comm, rep1_code b hb]

theorem rep2_spec (b : Nat) (hb : b < 256) : (b <<< 8) ||| (b <<< 24) = b * 16777216 + b * 256 := by
  rw [Nat.lor_comm, rep2_code b hb]

theorem rep3_spec (b : Nat) (hb : b < 256) :
    b ||| (b <<< 8) ||| (b <<< 16) ||| (b <<< 24)
      = b * 16777216 + b * 65536 + b * 256 + b := by
  simp only [Nat.shiftLeft_eq]
  norm_num
  rw [lor_eq_add_comm (b * 256) b 8 ⟨b, by ring⟩ (by omega),
    lor_eq_add_comm (b * 65536) (b + b * 256) 16 ⟨b, by ring⟩ (by omega),
    lor_eq_add_comm (b * 16777216) (b + b * 256 + b * 65536) 24 ⟨b, by ring⟩ (by omega)]
  ring


/-! ## The decode rule on each encoded shape -/

theorem ThumbExpandImm_byte (b : Nat) (hb : b < 256) : ThumbExpandImm b = b := by
  have h1 : b / 1024 % 4 = 0 := by omega
  have h2 : b / 256 % 4 = 0 := by omega
  have h3 : b % 256 = b := by omega
  simp only [ThumbExpandImm, h1, h2, h3, if_true]

theorem ThumbExpandImm_rep1 (b : Nat) (hb : b < 256) :
    ThumbExpandImm (256 + b) = b * 65536 + b := by
  have h1 : (256 + b) / 1024 % 4 = 0 := by omega
  have h2 : (256 + b) / 256 % 4 = 1 := by omega
  have h3 : (256 + b) % 256 = b := by omega
  simp only [ThumbExpandImm, h1, h2, h3, if_true]
  exact rep1_spec b hb

theorem ThumbExpandImm_rep2 (b : Nat) (hb : b < 256) :
    ThumbExpandImm (512 + b) = b * 16777216 + b * 256 := by
  have h1 : (512 + b) / 1024 % 4 = 0 := by omega
  have h2 : (512 + b) / 256 % 4 = 2 := by omega
  have h3 : (512 + b) % 256 = b := by omega
  simp only [ThumbExpandImm, h1, h2, h3, if_true]
  exact rep2_spec b hb

theorem ThumbExpandImm_rep3 (b : Nat) (hb : b < 256) :
    ThumbExpandImm (768 + b) = b * 16777216 + b * 65536 + b * 256 + b := by
  have h1 : (768 + b) / 1024 % 4 = 0 := by omega
  have h2 : (768 + b) / 256 % 4 = 3 := by omega
  have h3 : (768 + b) % 256 = b := by omega
  simp only [ThumbExpandImm, h1, h2, h3, if_true]
  exact rep3_spec b hb

theorem ror32_byte (w n : Nat) (hw : w < 256) (hn : 8 ≤ n) (hn' : n ≤ 32) :
    ror32 w n = w * 2 ^ (32 - n) := by
  unfold ror32
  have h28 : (2 : Nat) ^ 8 = 256 := by norm_num
  have hle : 2 ^ 8 ≤ 2 ^ n := Nat.pow_le_pow_right (by decide) hn
  have hz : w >>> n = 0 := by
    rw [Nat.shiftRight_eq_div_pow]
    exact Nat.div_eq_of_lt (by omega)
  have hlt : w * 2 ^ (32 - n) < 4294967296 := by
    have h1 : 2 ^ (32 - n) ≤ 2 ^ 24 := Nat.pow_le_pow_right (by decide) (by omega)
    have h2 : w * 2 ^ (32 - n) ≤ 255 * 2 ^ 24 := Nat.mul_le_mul (by omega) h1
    have h3 : (255 : Nat) * 2 ^ 24 < 4294967296 := by norm_num
    omega
  rw [hz, Nat.zero_or, Nat.shiftLeft_eq, Nat.mod_eq_of_lt hlt]

theorem ThumbExpandImm_rot (w zl : Nat) (hw1 : 128 ≤ w) (hw2 : w < 256) (hzl : zl ≤ 23) :
    ThumbExpandImm ((8 + zl) * 128 + w % 128) = w * 2 ^ (24 - zl) := by
  have h1 : ((8 + zl) * 128 + w % 128) / 1024 % 4 ≠ 0 := by omega
  have h2 : ((8 + zl) * 128 + w % 128) % 128 = w % 128 := by omega
  have h3 : ((8 + zl) * 128 + w % 128) / 128 % 32 = 8 + zl := by omega
  have h4 : 0x80 ||| (w % 128) = w := by
    have := lor_eq_add 128 (w % 128) 7 ⟨1, by norm_num⟩ (by omega)
    omega
  simp only [ThumbExpandImm, h1, h2, h3, h4, if_false]
  rw [ror32_byte w (8 + zl) hw2 (by omega) (by omega)]
  congr 2
  omega

/-- Every field decodes to a byte, to one of the three replicated shapes of a
byte, or to an 8-bit value with its top bit set shifted left by `1..24`. -/
theorem ThumbExpandImm_shape (f : Nat) :
    ThumbExpandImm f = f % 256 ∨
    ThumbExpandImm f = f % 256 * 65536 + f % 256 ∨
    ThumbExpandImm f = f % 256 * 16777216 + f % 256 * 256 ∨
    ThumbExpandImm f = f % 256 * 16777216 + f % 256 * 65536 + f % 256 * 256 + f % 256 ∨
    ∃ w s, 128 ≤ w ∧ w < 256 ∧ 1 ≤ s ∧ s ≤ 24 ∧ ThumbExpandImm f = w * 2 ^ s := by
  have hb : f % 256 < 256 := Nat.mod_lt _ (by decide)
  by_cases h1 : f / 1024 % 4 = 0
  · have hc : f / 256 % 4 = 0 ∨ f / 256 % 4 = 1 ∨ f / 256 % 4 = 2 ∨ f / 256 % 4 = 3 := by omega
    rcases hc with h2 | h2 | h2 | h2
    · left; simp only [ThumbExpandImm, h1, h2, if_true]
    · right; left; simp only [ThumbExpandImm, h1, h2, if_true]; exact rep1_spec _ hb
    · right; right; left; simp only [ThumbExpandImm, h1, h2, if_true]; exact rep2_spec _ hb
    · right; right; right; left
      simp only [ThumbExpandImm, h1, h2, if_true]; exact rep3_spec _ hb
  · right; right; right; right
    have h4 : 0x80 ||| (f % 128) = 128 + f % 128 :=
      lor_eq_add 128 (f % 128) 7 ⟨1, by norm_num⟩ (by omega)
    refine ⟨128 + f % 128, 32 - f / 128 % 32, by omega, by omega, by omega, by omega, ?_⟩
    simp only [ThumbExpandImm, h1, h4, if_false]
    exact ror32_byte _ _ (by omega) (by omega) (by omega)


/-! ## `ModifiedImmediate` -/

/-- In the rotated branch the word is an 8-bit value with its top bit set,
shifted into place, and the code extracts its low seven bits. -/
theorem ModifiedImmediate_rot_branch (v : Nat) (hv : v < 2 ^ 32) (h255 : 255 < v)
    (hz : 24 ≤ LeadingZeros v + zTrailing v) :
    ∃ w, 128 ≤ w ∧ w < 256 ∧ LeadingZeros v ≤ 23 ∧ v = w * 2 ^ (24 - LeadingZeros v) ∧
      ((v <<< (LeadingZeros v + 1)) % 4294967296) >>> 25 = w % 128 := by
  have h0 : v ≠ 0 := by omega
  obtain ⟨hz1, hlo, hhi⟩ := LeadingZeros_spec v hv h0
  have hdvd0 := pow_zTrailing_dvd v hv h0
  generalize LeadingZeros v = zl at *
  generalize zTrailing v = zt at *
  have hzl : zl ≤ 23 := by
    by_contra hcon
    have : 2 ^ (32 - zl) ≤ 2 ^ 8 := Nat.pow_le_pow_right (by decide) (by omega)
    have h28 : (2 : Nat) ^ 8 = 256 := by norm_num
    omega
  have hdvd : 2 ^ (24 - zl) ∣ v := Nat.dvd_trans (Nat.pow_dvd_pow 2 (by omega)) hdvd0
  obtain ⟨w, hw⟩ := hdvd
  have hs : 0 < 2 ^ (24 - zl) := Nat.pow_pos (by decide)
  have e1 : 2 ^ (31 - zl) = 2 ^ (24 - zl) * 128 := by
    have : 31 - zl = (24 - zl) + 7 := by omega
    rw [this, pow_add]; norm_num
  have e2 : 2 ^ (32 - zl) = 2 ^ (24 - zl) * 256 := by
    have : 32 - zl = (24 - zl) + 8 := by omega
    rw [this, pow_add]; norm_num
  have hw1 : 128 ≤ w := by
    rw [e1, hw] at hlo
    exact Nat.le_of_mul_le_mul_left hlo hs
  have hw2 : w < 256 := by
    rw [e2, hw] at hhi
    exact Nat.lt_of_mul_lt_mul_left hhi
  refine ⟨w, hw1, hw2, hzl, by rw [hw, Nat.mul_comm], ?_⟩
  have e3 : v <<< (zl + 1) = w * 33554432 := by
    rw [Nat.shiftLeft_eq, hw]
    have : 2 ^ (24 - zl) * w * 2 ^ (zl + 1) = w * (2 ^ (24 - zl) * 2 ^ (zl + 1)) := by ring
    rw [this, ← pow_add]
    have : 24 - zl + (zl + 1) = 25 := by omega
    rw [this]; norm_num
  rw [e3, Nat.shiftRight_eq_div_pow]
  norm_num
  omega

/-- Every branch of `ModifiedImmediate` but the last returns a field; the last
one fails exactly when the leading and trailing zero counts sum below 24. -/
theorem ModifiedImmediate_nonneg_of (v : Nat)
    (h : v ≤ 255 ∨ v = ((v &&& 0xff) <<< 16 ||| (v &&& 0xff)) % 4294967296 ∨
      v = ((v &&& 0xff) <<< 24 ||| (v &&& 0xff) <<< 16 ||| (v &&& 0xff) <<< 8 |||
        (v &&& 0xff)) % 4294967296 ∨
      v = (((v >>> 8) &&& 0xff) <<< 24 ||| ((v >>> 8) &&& 0xff) <<< 8) % 4294967296 ∨
      24 ≤ LeadingZeros v + zTrailing v) :
    0 ≤ ModifiedImmediate v := by
  unfold ModifiedImmediate
  simp only
  split_ifs with h1 h2 h3 h4 h5
  · exact Int.ofNat_nonneg _
  · exact Int.ofNat_nonneg _
  · exact Int.ofNat_nonneg _
  · exact Int.ofNat_nonneg _
  · exfalso
    unfold zTrailing at h
    rcases h with h | h | h | h | h
    · exact h1 h
    · exact h2 h
    · exact h3 h
    · exact h4 h
    · omega
  · exact Int.ofNat_nonneg _


/-- Result of `ModifiedImmediate`: failure, or a 12-bit field decoding to the word. -/
theorem ModifiedImmediate_result (v : Nat) (hv : v < 2 ^ 32) :
    ModifiedImmediate v = -1 ∨
      ∃ f : Nat, ModifiedImmediate v = (f : Int) ∧ f < 4096 ∧ ThumbExpandImm f = v := by
  have hb : v % 256 < 256 := Nat.mod_lt _ (by decide)
  have hb' : (v >>> 8) % 256 < 256 := Nat.mod_lt _ (by decide)
  unfold ModifiedImmediate
  simp only [and_ff]
  split_ifs with h1 h2 h3 h4 h5
  · right
    refine ⟨v % 256, rfl, by omega, ?_⟩
    rw [ThumbExpandImm_byte _ hb]; omega
  · right
    have e : (0x1 <<< 8) ||| (v % 256) = 256 + v % 256 := by
      have := shl_lor 1 (v % 256) 8 (by omega); omega
    refine ⟨256 + v % 256, by rw [e], by omega, ?_⟩
    rw [ThumbExpandImm_rep1 _ hb]
    rw [rep1_code _ hb] at h2
    omega
  · right
    have e : (0x3 <<< 8) ||| (v % 256) = 768 + v % 256 := by
      have := shl_lor 3 (v % 256) 8 (by omega); omega
    refine ⟨768 + v % 256, by rw [e], by omega, ?_⟩
    rw [ThumbExpandImm_rep3 _ hb]
    rw [rep3_code _ hb] at h3
    omega
  · right
    have e : (0x2 <<< 8) ||| ((v >>> 8) % 256) = 512 + (v >>> 8) % 256 := by
      have := shl_lor 2 ((v >>> 8) % 256) 8 (by omega); omega
    refine ⟨512 + (v >>> 8) % 256, by rw [e], by omega, ?_⟩
    rw [ThumbExpandImm_rep2 _ hb']
    rw [rep2_code _ hb'] at h4
    omega
  · left; rfl
  · right
    have hz : 24 ≤ LeadingZeros v + zTrailing v := by
      unfold zTrailing; omega
    obtain ⟨w, hw1, hw2, hzl, hvw, hm⟩ :=
      ModifiedImmediate_rot_branch v hv (by omega) hz
    have e : ((v <<< (LeadingZeros v + 1)) % 4294967296) >>> 25 ||| ((0x8 + LeadingZeros v) <<< 7)
        = (8 + LeadingZeros v) * 128 + w % 128 := by
      rw [hm, Nat.lor_comm]
      have := shl_lor (8 + LeadingZeros v) (w % 128) 7 (by omega)
      omega
    refine ⟨(8 + LeadingZeros v) * 128 + w % 128, by rw [e], by omega, ?_⟩
    rw [ThumbExpandImm_rot w _ hw1 hw2 hzl]
    exact hvw.symm


theorem ModifiedImmediate_nonneg_of_decode (f : Nat) : 0 ≤ ModifiedImmediate (ThumbExpandImm f) := by
  have hb : f % 256 < 256 := Nat.mod_lt _ (by decide)
  apply ModifiedImmediate_nonneg_of
  rcases ThumbExpandImm_shape f with h | h | h | h | ⟨w, s, hw1, hw2, hs1, hs2, h⟩
  · left; omega
  · right; left
    rw [h, and_ff]
    have e : (f % 256 * 65536 + f % 256) % 256 = f % 256 := by omega
    rw [e, rep1_code _ hb]
    omega
  · right; right; right; left
    rw [h, and_ff, Nat.shiftRight_eq_div_pow]
    have e : (f % 256 * 16777216 + f % 256 * 256) / 2 ^ 8 % 256 = f % 256 := by
      norm_num; omega
    rw [e, rep2_code _ hb]
    omega
  · right; right; left
    rw [h, and_ff]
    have e : (f % 256 * 16777216 + f % 256 * 65536 + f % 256 * 256 + f % 256) % 256
        = f % 256 := by omega
    rw [e, rep3_code _ hb]
    omega
  · right; right; right; right
    rw [h]
    have hp : 0 < 2 ^ s := Nat.pow_pos (by decide)
    have hlo : 2 ^ (s + 7) ≤ w * 2 ^ s := by
      rw [pow_add, Nat.mul_comm]
      exact Nat.mul_le_mul (by norm_num; omega) (Nat.le_refl _)
    have hhi : w * 2 ^ s < 2 ^ (s + 7 + 1) := by
      have : s + 7 + 1 = 8 + s := by omega
      rw [this, pow_add]
      exact Nat.mul_lt_mul_of_lt_of_le (by norm_num; omega) (Nat.le_refl _) hp
    have hv : w * 2 ^ s < 2 ^ 32 :=
      lt_of_lt_of_le hhi (Nat.pow_le_pow_right (by decide) (by omega))
    have h0 : w * 2 ^ s ≠ 0 := by
      have : 0 < w * 2 ^ s := Nat.mul_pos (by omega) hp
      omega
    have hzl := LeadingZeros_eq_of_bounds (w * 2 ^ s) (s + 7) (by omega) hlo hhi
    have hzt := le_zTrailing (w * 2 ^ s) s hv h0 (Dvd.intro_left _ rfl)
    omega


/-! ## Machine-integer conversions -/

theorem toU32_toS32 (v : Nat) (hv : v < 2 ^ 32) : toU32 (toS32 v) = v := by
  have h32 : (2 : Nat) ^ 32 = 4294967296 := by norm_num
  unfold toU32 toS32
  rw [Nat.mod_eq_of_lt (by omega)]
  split_ifs with h <;> omega

theorem toS32_toU32 (x : Int) (h1 : -2147483648 ≤ x) (h2 : x < 2147483648) :
    toS32 (toU32 x) = x := by
  unfold toU32 toS32
  split_ifs with h <;> omega

theorem toU32_lt (x : Int) : toU32 x < 2 ^ 32 := by
  unfold toU32
  have h32 : (2 : Nat) ^ 32 = 4294967296 := by norm_num
  omega

theorem toS32_range (n : Nat) : -2147483648 ≤ toS32 n ∧ toS32 n < 2147483648 := by
  unfold toS32
  split_ifs with h <;> omega

theorem toU32_ofNat (n : Nat) (h : n < 2 ^ 32) : toU32 (n : Int) = n := by
  unfold toU32
  have h32 : (2 : Nat) ^ 32 = 4294967296 := by norm_num
  omega

/-! ## Bit-field extraction -/

/-- Masking a field of width `w` at position `k` and shifting it down. -/
theorem field_extract (v k w : Nat) :
    (v &&& ((2 ^ w - 1) * 2 ^ k)) >>> k = (v >>> k) % 2 ^ w := by
  apply Nat.eq_of_testBit_eq
  intro j
  have hm : Nat.testBit ((2 ^ w - 1) * 2 ^ k) (k + j) = decide (j < w) := by
    have := Nat.testBit_mul_pow_two_add (2 ^ w - 1) (Nat.pow_pos (n := k) (by decide : 0 < 2))
      (k + j)
    rw [Nat.add_zero, Nat.mul_comm] at this
    rw [this]
    simp
  rw [Nat.testBit_shiftRight, Nat.testBit_and, hm, Nat.testBit_mod_two_pow,
    Nat.testBit_shiftRight, Bool.and_comm]

theorem field31 (v : Nat) : (v &&& 0x80000000) >>> 31 = v / 2147483648 % 2 := by
  have := field_extract v 31 1
  simpa [Nat.shiftRight_eq_div_pow] using this

theorem field30 (v : Nat) : (v &&& 0x40000000) >>> 30 = v / 1073741824 % 2 := by
  have := field_extract v 30 1
  simpa [Nat.shiftRight_eq_div_pow] using this

theorem field29 (v : Nat) : (v &&& 0x20000000) >>> 29 = v / 536870912 % 2 := by
  have := field_extract v 29 1
  simpa [Nat.shiftRight_eq_div_pow] using this

theorem field25_5 (v : Nat) : (v &&& 0x3e000000) >>> 25 = v / 33554432 % 32 := by
  have := field_extract v 25 5
  simpa [Nat.shiftRight_eq_div_pow] using this

theorem field19_6 (v : Nat) : (v &&& 0x01f80000) >>> 19 = v / 524288 % 64 := by
  have := field_extract v 19 6
  simpa [Nat.shiftRight_eq_div_pow] using this

theorem field0_19 (v : Nat) : v &&& 0x0007ffff = v % 524288 := by
  have := Nat.and_pow_two_sub_one_eq_mod v 19
  simpa using this

theorem field22_8 (v : Nat) : (v &&& 0x3fc00000) >>> 22 = v / 4194304 % 256 := by
  have := field_extract v 22 8
  simpa [Nat.shiftRight_eq_div_pow] using this

theorem field16_6 (v : Nat) : (v &&& 0x003f0000) >>> 16 = v / 65536 % 64 := by
  have := field_extract v 16 6
  simpa [Nat.shiftRight_eq_div_pow] using this

theorem field0_16 (v : Nat) : v &&& 0x0000ffff = v % 65536 := by
  have := Nat.and_pow_two_sub_one_eq_mod v 16
  simpa using this

/-- The packed byte `(a << 7) | (b << 6) | slice` as a sum. -/
theorem pack_byte (a b s : Nat) (hb : b < 2) (hs : s < 64) :
    (a <<< 7) ||| (b <<< 6) ||| s = a * 128 + b * 64 + s := by
  simp only [Nat.shiftLeft_eq]
  norm_num
  rw [lor_eq_add (a * 128) (b * 64) 7 ⟨a, by ring⟩ (by omega),
    lor_eq_add (a * 128 + b * 64) s 6 ⟨a * 2 + b, by ring⟩ (by omega)]


/-! ## Floating-point immediates -/

/-- `EncodeImmSingle` in terms of the bit fields of the pattern. -/
theorem EncodeImmSingle_eq (v : Nat) (hv : v < 2 ^ 32) :
    EncodeImmSingle (toS32 v) =
      if v % 524288 ≠ 0 then -1
      else if v / 33554432 % 64 = 31 ∨ v / 33554432 % 64 = 32 then
        ((v / 2147483648 % 2 * 128 + v / 536870912 % 2 * 64 + v / 524288 % 64 : Nat) : Int)
      else -1 := by
  unfold EncodeImmSingle
  simp only [toU32_toS32 v hv, field31, field30, field29, field25_5, field19_6, field0_19,
    pack_byte _ _ _ (Nat.mod_lt _ (by decide : 0 < 2)) (Nat.mod_lt _ (by decide : 0 < 64)),
    bne_iff_ne, ne_eq, Bool.or_eq_true, ite_not]
  split_ifs <;> first | rfl | omega

/-- `EncodeImmDoubleHigh` in terms of the bit fields of the pattern. -/
theorem EncodeImmDoubleHigh_eq (v : Nat) (hv : v < 2 ^ 32) :
    EncodeImmDoubleHigh (toS32 v) =
      if v % 65536 ≠ 0 then -1
      else if v / 4194304 % 512 = 255 ∨ v / 4194304 % 512 = 256 then
        ((v / 2147483648 % 2 * 128 + v / 536870912 % 2 * 64 + v / 65536 % 64 : Nat) : Int)
      else -1 := by
  unfold EncodeImmDoubleHigh
  simp only [toU32_toS32 v hv, field31, field30, field29, field22_8, field16_6, field0_16,
    pack_byte _ _ _ (Nat.mod_lt _ (by decide : 0 < 2)) (Nat.mod_lt _ (by decide : 0 < 64)),
    bne_iff_ne, ne_eq, Bool.or_eq_true, ite_not]
  split_ifs <;> first | rfl | omega


theorem VFPExpandImm32_eq (e : Nat) : VFPExpandImm32 e =
    e / 128 % 2 * 2147483648 + (1 - e / 64 % 2) * 1073741824 + e / 64 % 2 * 31 * 33554432
      + e % 64 * 524288 := by
  simp only [VFPExpandImm32]
  norm_num

theorem EncodeImmSingle_success (v : Nat) (hv : v < 2 ^ 32)
    (h : EncodeImmSingle (toS32 v) ≠ -1) :
    ∃ e : Nat, EncodeImmSingle (toS32 v) = (e : Int) ∧ e < 256 ∧
      e = ((v / 2147483648 % 2) <<< 7) ||| ((v / 536870912 % 2) <<< 6) ||| (v / 524288 % 64) ∧
      VFPExpandImm32 e = v := by
  rw [EncodeImmSingle_eq v hv] at h ⊢
  rw [pack_byte _ _ _ (Nat.mod_lt _ (by decide : 0 < 2)) (Nat.mod_lt _ (by decide : 0 < 64))]
  split_ifs at h ⊢ with h1 h2
  · exact absurd rfl h
  · refine ⟨_, rfl, by omega, rfl, ?_⟩
    rw [VFPExpandImm32_eq]
    have hb : v / 536870912 % 2 = 0 ∨ v / 536870912 % 2 = 1 := by omega
    rcases hb with hb | hb
    · have e1 : (v / 2147483648 % 2 * 128 + v / 536870912 % 2 * 64 + v / 524288 % 64) / 64 % 2
          = 0 := by omega
      rw [e1]; omega
    · have e1 : (v / 2147483648 % 2 * 128 + v / 536870912 % 2 * 64 + v / 524288 % 64) / 64 % 2
          = 1 := by omega
      rw [e1]; omega
  · exact absurd rfl h

theorem EncodeImmSingle_expand (e : Nat) (he : e < 256) :
    VFPExpandImm32 e < 2 ^ 32 ∧ EncodeImmSingle (toS32 (VFPExpandImm32 e)) = (e : Int) := by
  have hb : e / 64 % 2 = 0 ∨ e / 64 % 2 = 1 := by omega
  have hlt : VFPExpandImm32 e < 2 ^ 32 := by
    rw [VFPExpandImm32_eq]
    rcases hb with h | h <;> rw [h] <;> omega
  refine ⟨hlt, ?_⟩
  rw [EncodeImmSingle_eq _ hlt, VFPExpandImm32_eq]
  rcases hb with h | h <;> rw [h] <;> split_ifs with h1 h2 <;> omega

theorem EncodeImmSingle_accepted_card :
    (Finset.filter (fun v => EncodeImmSingle (toS32 v) ≠ -1) (Finset.range (2 ^ 32))).card
      = 256 := by
  have himg : Finset.filter (fun v => EncodeImmSingle (toS32 v) ≠ -1) (Finset.range (2 ^ 32))
      = Finset.image VFPExpandImm32 (Finset.range 256) := by
    ext v
    simp only [Finset.mem_filter, Finset.mem_range, Finset.mem_image]
    constructor
    · rintro ⟨hv, h⟩
      obtain ⟨e, _, he, _, hx⟩ := EncodeImmSingle_success v hv h
      exact ⟨e, he, hx⟩
    · rintro ⟨e, he, rfl⟩
      obtain ⟨h1, h2⟩ := EncodeImmSingle_expand e he
      refine ⟨h1, ?_⟩
      rw [h2]
      omega
  rw [himg, Finset.card_image_of_injOn, Finset.card_range]
  intro a ha b hb hab
  have ha' : a < 256 := by simpa using ha
  have hb' : b < 256 := by simpa using hb
  have h1 := (EncodeImmSingle_expand a ha').2
  have h2 := (EncodeImmSingle_expand b hb').2
  rw [hab, h2] at h1
  exact_mod_cast h1.symm


theorem toS32_eq_zero (v : Nat) (hv : v < 2 ^ 32) : toS32 v = 0 ↔ v = 0 := by
  have h32 : (2 : Nat) ^ 32 = 4294967296 := by norm_num
  unfold toS32
  rw [Nat.mod_eq_of_lt (by omega)]
  split_ifs with h <;> omega

theorem VFPExpandImm64High_eq (e : Nat) : VFPExpandImm64High e =
    e / 128 % 2 * 2147483648 + (1 - e / 64 % 2) * 1073741824 + e / 64 % 2 * 255 * 4194304
      + e % 64 * 65536 := by
  simp only [VFPExpandImm64High]
  norm_num

theorem EncodeImmDoubleHigh_success (v : Nat) (hv : v < 2 ^ 32)
    (h : EncodeImmDoubleHigh (toS32 v) ≠ -1) :
    ∃ e : Nat, EncodeImmDoubleHigh (toS32 v) = (e : Int) ∧ e < 256 ∧
      e = ((v / 2147483648 % 2) <<< 7) ||| ((v / 536870912 % 2) <<< 6) ||| (v / 65536 % 64) ∧
      VFPExpandImm64High e = v := by
  rw [EncodeImmDoubleHigh_eq v hv] at h ⊢
  rw [pack_byte _ _ _ (Nat.mod_lt _ (by decide : 0 < 2)) (Nat.mod_lt _ (by decide : 0 < 64))]
  split_ifs at h ⊢ with h1 h2
  · exact absurd rfl h
  · refine ⟨_, rfl, by omega, rfl, ?_⟩
    rw [VFPExpandImm64High_eq]
    have hb : v / 536870912 % 2 = 0 ∨ v / 536870912 % 2 = 1 := by omega
    rcases hb with hb | hb
    · have e1 : (v / 2147483648 % 2 * 128 + v / 536870912 % 2 * 64 + v / 65536 % 64) / 64 % 2
          = 0 := by omega
      rw [e1]; omega
    · have e1 : (v / 2147483648 % 2 * 128 + v / 536870912 % 2 * 64 + v / 65536 % 64) / 64 % 2
          = 1 := by omega
      rw [e1]; omega
  · exact absurd rfl h

theorem EncodeImmDoubleHigh_expand (e : Nat) (he : e < 256) :
    VFPExpandImm64High e < 2 ^ 32 ∧
      EncodeImmDoubleHigh (toS32 (VFPExpandImm64High e)) = (e : Int) := by
  have hb : e / 64 % 2 = 0 ∨ e / 64 % 2 = 1 := by omega
  have hlt : VFPExpandImm64High e < 2 ^ 32 := by
    rw [VFPExpandImm64High_eq]
    rcases hb with h | h <;> rw [h] <;> omega
  refine ⟨hlt, ?_⟩
  rw [EncodeImmDoubleHigh_eq _ hlt, VFPExpandImm64High_eq]
  rcases hb with h | h <;> rw [h] <;> split_ifs with h1 h2 <;> omega


/-! ## Literal pool -/

theorem ScanLiteralPoolFrom_some (pool : List Int) (i : Nat) (value : Int) (t : Literal)
    (h : ScanLiteralPoolFrom i pool value 0 = some t) :
    t.word = value ∧ i ≤ t.index ∧ pool[t.index - i]? = some value := by
  induction pool generalizing i with
  | nil => simp [ScanLiteralPoolFrom] at h
  | cons w rest ih =>
    unfold ScanLiteralPoolFrom at h
    split_ifs at h with hw
    · have hv : w = value := by
        have := hw.1
        have := hw.2
        omega
      cases h
      simp [hv]
    · obtain ⟨h1, h2, h3⟩ := ih (i + 1) h
      refine ⟨h1, by omega, ?_⟩
      have e : t.index - i = (t.index - (i + 1)) + 1 := by omega
      rw [e, List.getElem?_cons_succ]
      exact h3

theorem ScanLiteralPoolFrom_none (pool : List Int) (i : Nat) (value : Int)
    (h : ScanLiteralPoolFrom i pool value 0 = none) : value ∉ pool := by
  induction pool generalizing i with
  | nil => simp
  | cons w rest ih =>
    unfold ScanLiteralPoolFrom at h
    split_ifs at h with hw
    have hne : value ≠ w := by
      intro e
      apply hw
      subst e
      simp
    intro hm
    rcases List.mem_cons.mp hm with e | hm'
    · exact hne e
    · exact ih (i + 1) h hm'

/-- A hit is not disturbed by entries added after it. -/
theorem ScanLiteralPoolFrom_append_some (pool extra : List Int) (i : Nat) (value : Int)
    (t : Literal) (h : ScanLiteralPoolFrom i pool value 0 = some t) :
    ScanLiteralPoolFrom i (pool ++ extra) value 0 = some t := by
  induction pool generalizing i with
  | nil => simp [ScanLiteralPoolFrom] at h
  | cons w rest ih =>
    unfold ScanLiteralPoolFrom at h
    rw [List.cons_append]
    unfold ScanLiteralPoolFrom
    split_ifs at h ⊢ with hw
    · exact h
    · exact ih (i + 1) h

/-- After a miss, the entry added for the value is the one found from then on. -/
theorem ScanLiteralPoolFrom_append_none (pool : List Int) (i : Nat) (value : Int)
    (h : ScanLiteralPoolFrom i pool value 0 = none) :
    ScanLiteralPoolFrom i (pool ++ [value]) value 0
      = some { index := i + pool.length, word := value } := by
  induction pool generalizing i with
  | nil => simp [ScanLiteralPoolFrom]
  | cons w rest ih =>
    unfold ScanLiteralPoolFrom at h
    rw [List.cons_append]
    unfold ScanLiteralPoolFrom
    split_ifs at h ⊢ with hw
    rw [ih (i + 1) h]
    simp only [List.length_cons]
    congr 2
    omega

theorem poolEntry_word (cu : CompilationUnit) (value : Int) :
    (poolEntry cu value).1.word = value := by
  unfold poolEntry
  cases h : ScanLiteralPool cu.literal_list value 0 with
  | some t => exact (ScanLiteralPoolFrom_some _ 0 value t h).1
  | none => rfl

theorem poolEntry_scan (cu : CompilationUnit) (value : Int) :
    ScanLiteralPool (poolEntry cu value).2.literal_list value 0 = some (poolEntry cu value).1 := by
  unfold poolEntry
  cases h : ScanLiteralPool cu.literal_list value 0 with
  | some t => exact h
  | none =>
    have := ScanLiteralPoolFrom_append_none cu.literal_list 0 value h
    simpa [AddWordData, ScanLiteralPool] using this

theorem poolEntry_fixed (cu : CompilationUnit) (value : Int) :
    poolEntry (poolEntry cu value).2 value = poolEntry cu value := by
  have h := poolEntry_scan cu value
  generalize poolEntry cu value = p at h ⊢
  unfold poolEntry
  rw [h]

theorem poolEntry_get (cu : CompilationUnit) (value : Int) :
    (poolEntry cu value).2.literal_list[(poolEntry cu value).1.index]? = some value := by
  have h := poolEntry_scan cu value
  have := (ScanLiteralPoolFrom_some _ 0 value _ h).2.2
  simpa using this

theorem poolEntry_list (cu : CompilationUnit) (value : Int) :
    ((poolEntry cu value).2.literal_list = cu.literal_list ∧ value ∈ cu.literal_list) ∨
    ((poolEntry cu value).2.literal_list = cu.literal_list ++ [value] ∧
      value ∉ cu.literal_list) := by
  unfold poolEntry
  cases h : ScanLiteralPool cu.literal_list value 0 with
  | some t =>
    left
    refine ⟨rfl, ?_⟩
    have := (ScanLiteralPoolFrom_some _ 0 value t h).2.2
    exact List.getElem?_mem this
  | none =>
    right
    exact ⟨rfl, ScanLiteralPoolFrom_none _ 0 value h⟩

theorem poolEntry_rest (cu : CompilationUnit) (value : Int) :
    (poolEntry cu value).2.code = cu.code ∧ (poolEntry cu value).2.next_id = cu.next_id ∧
    (poolEntry cu value).2.current_dalvik_offset = cu.current_dalvik_offset ∧
    (poolEntry cu value).2.free_temps = cu.free_temps ∧
    (poolEntry cu value).2.temp_trace = cu.temp_trace ∧
    (poolEntry cu value).2.disable_opt = cu.disable_opt := by
  unfold poolEntry
  cases h : ScanLiteralPool cu.literal_list value 0 with
  | some t => exact ⟨rfl, rfl, rfl, rfl, rfl, rfl⟩
  | none => exact ⟨rfl, rfl, rfl, rfl, rfl, rfl⟩

/-! ## Constant materializer -/

theorem andI_ffff (value : Int) : andI value 0xffff = value ↔ 0 ≤ value ∧ value ≤ 65535 := by
  unfold andI
  have e : toU32 0xffff = 2 ^ 16 - 1 := by decide
  rw [e, Nat.and_pow_two_sub_one_eq_mod]
  have hlt : toU32 value % 2 ^ 16 < 65536 := Nat.mod_lt _ (by norm_num)
  have hs : toS32 (toU32 value % 2 ^ 16) = ((toU32 value % 2 ^ 16 : Nat) : Int) := by
    unfold toS32
    have : toU32 value % 2 ^ 16 % 4294967296 = toU32 value % 2 ^ 16 := by omega
    rw [this, if_pos (by omega)]
  rw [hs]
  constructor
  · intro h
    omega
  · rintro ⟨h1, h2⟩
    have : toU32 value = value.toNat := by
      unfold toU32
      congr 1
      omega
    rw [this]
    norm_num
    omega

/-- The follow-up add of line 173 is never reached: the pool entry used holds
the value itself. -/
theorem LoadConstantNoClobberBody_indep (env : ArmEnv)
    (f g : CompilationUnit → Int → Int → Except Fault (LIR × CompilationUnit))
    (cu : CompilationUnit) (r_dest value : Int) :
    LoadConstantNoClobberBody env f cu r_dest value
      = LoadConstantNoClobberBody env g cu r_dest value := by
  unfold LoadConstantNoClobberBody
  simp only [poolEntry_word, ne_eq, not_true_eq_false, if_false]

theorem LoadConstantNoClobber_eq_body (env : ArmEnv) (fuel : Nat) (cu : CompilationUnit)
    (r_dest value : Int) :
    LoadConstantNoClobber env fuel cu r_dest value
      = LoadConstantNoClobberBody env (fun _ _ _ => Except.error Fault.outOfFuel)
          cu r_dest value := by
  cases fuel with
  | zero => rfl
  | succ n =>
    unfold LoadConstantNoClobber
    exact LoadConstantNoClobberBody_indep env _ _ cu r_dest value

/-- `LoadConstantNoClobber` on a core register, as a cascade of outcomes. -/
theorem LoadConstantNoClobber_core (env : ArmEnv) (fuel : Nat) (cu : CompilationUnit)
    (r_dest value : Int) (hfp : env.ARM_FPREG r_dest = false) :
    LoadConstantNoClobber env fuel cu r_dest value = Except.ok (
      if env.ARM_LOWREG r_dest = true ∧ 0 ≤ value ∧ value ≤ 255 then
        NewLIR2 cu ArmOpcode.kThumbMovImm r_dest value
      else if 0 ≤ ModifiedImmediate (toU32 value) then
        NewLIR2 cu ArmOpcode.kThumb2MovImmShift r_dest (ModifiedImmediate (toU32 value))
      else if 0 ≤ ModifiedImmediate (toU32 (notI value)) then
        NewLIR2 cu ArmOpcode.kThumb2MvnImm12 r_dest (ModifiedImmediate (toU32 (notI value)))
      else if andI value 0xffff = value then
        NewLIR2 cu ArmOpcode.kThumb2MovImm16 r_dest value
      else poolLoad cu r_dest value) := by
  rw [LoadConstantNoClobber_eq_body]
  unfold LoadConstantNoClobberBody poolLoad
  simp only [hfp, poolEntry_word, ne_eq, not_true_eq_false, if_false, ge_iff_le, pure,
    Except.pure, Bool.false_eq_true]
  split_ifs <;> rfl

theorem poolLoad_facts (cu : CompilationUnit) (r_dest value : Int) :
    (poolLoad cu r_dest value).2.code = cu.code ++ [(poolLoad cu r_dest value).1] ∧
    (poolLoad cu r_dest value).1.opcode = ArmOpcode.kThumb2LdrPcRel12 ∧
    (poolLoad cu r_dest value).1.operands = [r_dest, 0, 0, 0, 0] ∧
    (poolLoad cu r_dest value).1.target = some (poolEntry cu value).1 ∧
    (poolLoad cu r_dest value).2.literal_list = (poolEntry cu value).2.literal_list ∧
    (poolLoad cu r_dest value).2.free_temps = cu.free_temps ∧
    (poolLoad cu r_dest value).2.temp_trace = cu.temp_trace := by
  have h := poolEntry_rest cu value
  refine ⟨?_, rfl, rfl, rfl, rfl, ?_, ?_⟩
  · simp only [poolLoad, RawLIR, AppendLIR, SetMemRefType, h.1]
  · simp only [poolLoad, RawLIR, AppendLIR, SetMemRefType, h.2.2.2.1]
  · simp only [poolLoad, RawLIR, AppendLIR, SetMemRefType, h.2.2.2.2.1]

theorem NewLIR2_facts (cu : CompilationUnit) (opcode : ArmOpcode) (a b : Int) :
    (NewLIR2 cu opcode a b).2.code = cu.code ++ [(NewLIR2 cu opcode a b).1] ∧
    (NewLIR2 cu opcode a b).1.opcode = opcode ∧
    (NewLIR2 cu opcode a b).1.operands = [a, b, 0, 0, 0] ∧
    (NewLIR2 cu opcode a b).1.target = none ∧
    (NewLIR2 cu opcode a b).2.literal_list = cu.literal_list ∧
    (NewLIR2 cu opcode a b).2.free_temps = cu.free_temps ∧
    (NewLIR2 cu opcode a b).2.temp_trace = cu.temp_trace :=
  ⟨rfl, rfl, rfl, rfl, rfl, rfl, rfl⟩


theorem poolLoadFP_facts (env : ArmEnv) (cu : CompilationUnit) (r_dest value : Int) :
    (poolLoadFP env cu r_dest value).2.code
      = cu.code ++ [(poolLoadFP env cu r_dest value).1] ∧
    (poolLoadFP env cu r_dest value).1.opcode = ArmOpcode.kThumb2Vldrs ∧
    (poolLoadFP env cu r_dest value).1.operands = [r_dest, env.r15pc, 0, 0, 0] ∧
    (poolLoadFP env cu r_dest value).1.target = some (poolEntry cu value).1 ∧
    (poolLoadFP env cu r_dest value).2.literal_list = (poolEntry cu value).2.literal_list ∧
    (poolLoadFP env cu r_dest value).2.free_temps = cu.free_temps ∧
    (poolLoadFP env cu r_dest value).2.temp_trace = cu.temp_trace := by
  have h := poolEntry_rest cu value
  refine ⟨?_, rfl, rfl, rfl, rfl, ?_, ?_⟩
  · simp only [poolLoadFP, RawLIR, AppendLIR, SetMemRefType, h.1]
  · simp only [poolLoadFP, RawLIR, AppendLIR, SetMemRefType, h.2.2.2.1]
  · simp only [poolLoadFP, RawLIR, AppendLIR, SetMemRefType, h.2.2.2.2.1]

/-- `LoadFPConstantValue` when its assertion holds. -/
theorem LoadFPConstantValue_eq (env : ArmEnv) (cu : CompilationUnit) (r_dest value : Int)
    (hs : env.kIsDebugBuild = true → env.ARM_SINGLEREG r_dest = true) :
    LoadFPConstantValue env cu r_dest value = Except.ok (
      if 0 ≤ EncodeImmSingle value then
        NewLIR2 cu ArmOpcode.kThumb2Vmovs_IMM8 r_dest (EncodeImmSingle value)
      else poolLoadFP env cu r_dest value) := by
  have hd : DCHECK env (env.ARM_SINGLEREG r_dest) = Except.ok () := by
    unfold DCHECK
    cases hk : env.kIsDebugBuild with
    | false => simp
    | true => simp [hs hk]
  unfold LoadFPConstantValue poolLoadFP
  simp only [hd, bind, Except.bind, ge_iff_le, pure, Except.pure]
  split_ifs <;> rfl

theorem LoadConstantNoClobber_fp (env : ArmEnv) (fuel : Nat) (cu : CompilationUnit)
    (r_dest value : Int) (hfp : env.ARM_FPREG r_dest = true)
    (hs : env.kIsDebugBuild = true → env.ARM_SINGLEREG r_dest = true) :
    LoadConstantNoClobber env fuel cu r_dest value = Except.ok (
      if 0 ≤ EncodeImmSingle value then
        NewLIR2 cu ArmOpcode.kThumb2Vmovs_IMM8 r_dest (EncodeImmSingle value)
      else poolLoadFP env cu r_dest value) := by
  rw [LoadConstantNoClobber_eq_body]
  unfold LoadConstantNoClobberBody
  rw [if_pos hfp]
  exact LoadFPConstantValue_eq env cu r_dest value hs

theorem xor_mask_lt (u : Nat) (hu : u < 2 ^ 32) : u ^^^ 0xFFFFFFFF < 2 ^ 32 :=
  Nat.xor_lt_two_pow hu (by norm_num)

theorem xor_mask_twice (u : Nat) : (u ^^^ 0xFFFFFFFF) ^^^ 0xFFFFFFFF = u := by
  rw [Nat.xor_assoc, Nat.xor_self, Nat.xor_zero]

theorem toU32_notI_xor (value : Int) : toU32 (notI value) ^^^ 0xFFFFFFFF = toU32 value := by
  unfold notI
  rw [toU32_toS32 _ (xor_mask_lt _ (toU32_lt value)), xor_mask_twice]

theorem ModifiedImmediate_decode (u : Nat) (hu : u < 2 ^ 32) (h : 0 ≤ ModifiedImmediate u) :
    ThumbExpandImm (toU32 (ModifiedImmediate u)) = u := by
  rcases ModifiedImmediate_result u hu with h1 | ⟨f, hf, hlt, hd⟩
  · rw [h1] at h
    exact absurd h (by decide)
  · rw [hf, toU32_ofNat f (by omega)]
    exact hd

theorem EncodeImmSingle_decode (value : Int) (h1 : -2147483648 ≤ value)
    (h2 : value < 2147483648) (h : 0 ≤ EncodeImmSingle value) :
    VFPExpandImm32 (toU32 (EncodeImmSingle value)) = toU32 value := by
  have e : toS32 (toU32 value) = value := toS32_toU32 value h1 h2
  have hne : EncodeImmSingle (toS32 (toU32 value)) ≠ -1 := by
    rw [e]
    intro hc
    rw [hc] at h
    exact absurd h (by decide)
  obtain ⟨b, hb1, hb2, _, hb4⟩ := EncodeImmSingle_success (toU32 value) (toU32_lt value) hne
  rw [e] at hb1
  rw [hb1, toU32_ofNat b (by omega)]
  exact hb4

theorem loadedValue_pool (pool : List Int) (l : LIR) (r x : Int) (rest : List Int)
    (t : Literal) (value : Int)
    (hop : l.opcode = ArmOpcode.kThumb2LdrPcRel12 ∨ l.opcode = ArmOpcode.kThumb2Vldrs)
    (hops : l.operands = r :: x :: rest) (ht : l.target = some t)
    (hp : pool[t.index]? = some value) :
    loadedValue pool l = some (r, toU32 value) := by
  unfold loadedValue
  rcases hop with h | h <;> simp [hops, h, ht, hp]

/-- On a literal-pool path the call emits one load that references the entry of
`poolEntry`. -/
theorem LoadConstantNoClobber_pool_path (env : ArmEnv) (fuel : Nat) (cu : CompilationUnit)
    (r value : Int) (hreg : env.ARM_FPREG r = true → env.ARM_SINGLEREG r = true)
    (hp : reachesLiteralPool env r value = true) :
    ∃ res cu1, LoadConstantNoClobber env fuel cu r value = Except.ok (res, cu1) ∧
      cu1.code = cu.code ++ [res] ∧
      res.target = some (poolEntry cu value).1 ∧
      cu1.literal_list = (poolEntry cu value).2.literal_list := by
  unfold reachesLiteralPool at hp
  cases hfp : env.ARM_FPREG r with
  | true =>
    rw [hfp] at hp
    simp only [if_true, decide_eq_true_eq] at hp
    have e := LoadConstantNoClobber_fp env fuel cu r value hfp (fun _ => hreg hfp)
    rw [if_neg (by omega)] at e
    obtain ⟨a1, _, _, a4, a5, _, _⟩ := poolLoadFP_facts env cu r value
    exact ⟨_, _, e, a1, a4, a5⟩
  | false =>
    rw [hfp] at hp
    simp only [Bool.false_eq_true, if_false, Bool.and_eq_true, Bool.not_eq_true',
      decide_eq_true_eq, decide_eq_false_iff_not, Bool.and_eq_false_iff] at hp
    obtain ⟨⟨⟨c1, c2⟩, c3⟩, c4⟩ := hp
    have e := LoadConstantNoClobber_core env fuel cu r value hfp
    have n1 : ¬ (env.ARM_LOWREG r = true ∧ 0 ≤ value ∧ value ≤ 255) := by
      rintro ⟨x1, x2, x3⟩
      rcases c1 with (c | c) | c
      · rw [x1] at c; exact absurd c (by decide)
      · exact c x2
      · exact c x3
    rw [if_neg n1, if_neg (by omega), if_neg (by omega), if_neg c4] at e
    obtain ⟨a1, _, _, a4, a5, _, _⟩ := poolLoad_facts cu r value
    exact ⟨_, _, e, a1, a4, a5⟩

/-- An entry found in a pool is the entry found in every extension of the pool. -/
theorem poolEntry_of_extension (cu cu1 : CompilationUnit) (value : Int) (t : Literal)
    (hs : ScanLiteralPool cu.literal_list value 0 = some t)
    (hpre : cu.literal_list <+: cu1.literal_list) :
    poolEntry cu1 value = (t, cu1) := by
  obtain ⟨extra, he⟩ := hpre
  have := ScanLiteralPoolFrom_append_some cu.literal_list extra 0 value t hs
  rw [he] at this
  unfold poolEntry
  unfold ScanLiteralPool
  rw [this]

theorem poolEntry_extends (cu : CompilationUnit) (value : Int) :
    cu.literal_list <+: (poolEntry cu value).2.literal_list := by
  rcases poolEntry_list cu value with h | h
  · rw [h.1]
  · rw [h.1]; exact List.prefix_append _ _

theorem getElem?_of_extension (l1 l2 : List Int) (i : Nat) (v : Int) (hpre : l1 <+: l2)
    (h : l1[i]? = some v) : l2[i]? = some v := by
  obtain ⟨extra, rfl⟩ := hpre
  have hi : i < l1.length := by
    by_contra hc
    rw [List.getElem?_eq_none (by omega)] at h
    exact absurd h (by simp)
  rw [List.getElem?_append_left hi]
  exact h

/-- One record is emitted, and read per opcode it leaves the value in the
destination. -/
theorem LoadConstantNoClobber_loads (env : ArmEnv) (fuel : Nat) (cu : CompilationUnit)
    (r value : Int) (h1 : -2147483648 ≤ value) (h2 : value < 2147483648)
    (hreg : env.ARM_FPREG r = true → env.ARM_SINGLEREG r = true) :
    ∃ res cu1, LoadConstantNoClobber env fuel cu r value = Except.ok (res, cu1) ∧
      cu1.code = cu.code ++ [res] ∧
      loadedValue cu1.literal_list res = some (r, toU32 value) := by
  have hu := toU32_lt value
  cases hfp : env.ARM_FPREG r with
  | true =>
    have e := LoadConstantNoClobber_fp env fuel cu r value hfp (fun _ => hreg hfp)
    by_cases hc : 0 ≤ EncodeImmSingle value
    · rw [if_pos hc] at e
      refine ⟨_, _, e, rfl, ?_⟩
      have := EncodeImmSingle_decode value h1 h2 hc
      simp [loadedValue, NewLIR2, RawLIR, AppendLIR, this]
    · rw [if_neg hc] at e
      obtain ⟨a1, a2, a3, a4, a5, _, _⟩ := poolLoadFP_facts env cu r value
      have g : (poolLoadFP env cu r value).2.literal_list[(poolEntry cu value).1.index]?
          = some value := by
        rw [a5]; exact poolEntry_get cu value
      exact ⟨_, _, e, a1, loadedValue_pool _ _ r env.r15pc [0, 0, 0] (poolEntry cu value).1
        value (Or.inr a2) a3 a4 g⟩
  | false =>
    have e := LoadConstantNoClobber_core env fuel cu r value hfp
    by_cases c1 : env.ARM_LOWREG r = true ∧ 0 ≤ value ∧ value ≤ 255
    · rw [if_pos c1] at e
      refine ⟨_, _, e, rfl, ?_⟩
      have : toU32 value % 256 = toU32 value := by
        unfold toU32
        omega
      simp [loadedValue, NewLIR2, RawLIR, AppendLIR, this]
    rw [if_neg c1] at e
    by_cases c2 : 0 ≤ ModifiedImmediate (toU32 value)
    · rw [if_pos c2] at e
      refine ⟨_, _, e, rfl, ?_⟩
      have := ModifiedImmediate_decode (toU32 value) hu c2
      simp [loadedValue, NewLIR2, RawLIR, AppendLIR, this]
    rw [if_neg c2] at e
    by_cases c3 : 0 ≤ ModifiedImmediate (toU32 (notI value))
    · rw [if_pos c3] at e
      refine ⟨_, _, e, rfl, ?_⟩
      have := ModifiedImmediate_decode (toU32 (notI value)) (toU32_lt _) c3
      have hx := toU32_notI_xor value
      simp only [loadedValue, NewLIR2, RawLIR, AppendLIR, this]
      rw [hx]
    rw [if_neg c3] at e
    by_cases c4 : andI value 0xffff = value
    · rw [if_pos c4] at e
      refine ⟨_, _, e, rfl, ?_⟩
      have hr := (andI_ffff value).mp c4
      have : toU32 value % 65536 = toU32 value := by
        unfold toU32
        omega
      simp [loadedValue, NewLIR2, RawLIR, AppendLIR, this]
    rw [if_neg c4] at e
    obtain ⟨a1, a2, a3, a4, a5, _, _⟩ := poolLoad_facts cu r value
    have g : (poolLoad cu r value).2.literal_list[(poolEntry cu value).1.index]?
        = some value := by
      rw [a5]; exact poolEntry_get cu value
    exact ⟨_, _, e, a1, loadedValue_pool _ _ r 0 [0, 0, 0] (poolEntry cu value).1
      value (Or.inl a2) a3 a4 g⟩


/-! ## Temporary-register balance -/

theorem bind_ok_iff {ε α β : Type} (x : Except ε α) (f : α → Except ε β) (b : β) :
    (x >>= f) = Except.ok b ↔ ∃ a, x = Except.ok a ∧ f a = Except.ok b := by
  cases x <;> simp [bind, Except.bind]

theorem tempsOutstanding_frame (evs : List TempEvent) (s s1 out : List Int)
    (h : tempsOutstanding evs s = some s1) :
    tempsOutstanding evs (s ++ out) = some (s1 ++ out) := by
  induction evs generalizing s with
  | nil =>
    simp only [tempsOutstanding] at h ⊢
    cases h; rfl
  | cons e es ih =>
    cases e with
    | acquire r =>
      simp only [tempsOutstanding] at h ⊢
      exact ih (r :: s) h
    | release r =>
      simp only [tempsOutstanding] at h ⊢
      split_ifs at h with hm
      rw [if_pos (List.mem_append_left _ hm), List.erase_append_left _ hm]
      exact ih _ h

theorem tempsOutstanding_append (e1 e2 : List TempEvent) (s s1 : List Int)
    (h : tempsOutstanding e1 s = some s1) :
    tempsOutstanding (e1 ++ e2) s = tempsOutstanding e2 s1 := by
  induction e1 generalizing s with
  | nil =>
    simp only [tempsOutstanding] at h
    cases h; rfl
  | cons e es ih =>
    cases e with
    | acquire r =>
      simp only [tempsOutstanding, List.cons_append] at h ⊢
      exact ih _ h
    | release r =>
      simp only [tempsOutstanding, List.cons_append] at h ⊢
      split_ifs at h with hm
      rw [if_pos hm]
      exact ih _ h

theorem TempBalanced_refl (cu : CompilationUnit) : TempBalanced cu cu :=
  ⟨rfl, [], by simp, rfl⟩

theorem TempBalanced_of_same (cu cu1 : CompilationUnit) (h1 : cu1.free_temps = cu.free_temps)
    (h2 : cu1.temp_trace = cu.temp_trace) : TempBalanced cu cu1 :=
  ⟨h1, [], by simp [h2], rfl⟩

theorem TempBalanced_trans (a b c : CompilationUnit) (h1 : TempBalanced a b)
    (h2 : TempBalanced b c) : TempBalanced a c := by
  obtain ⟨f1, e1, t1, b1⟩ := h1
  obtain ⟨f2, e2, t2, b2⟩ := h2
  refine ⟨f2.trans f1, e1 ++ e2, ?_, ?_⟩
  · rw [t2, t1, List.append_assoc]
  · rw [tempsOutstanding_append e1 e2 [] [] b1]
    exact b2

/-- A register acquired, a balanced stretch of work, and its release are
balanced together. -/
theorem TempBalanced_bracket (cu a b : CompilationUnit) (r : Int)
    (ha : AllocTemp cu = Except.ok (r, a)) (hb : TempBalanced a b) :
    TempBalanced cu (FreeTemp b r) := by
  unfold AllocTemp at ha
  cases hf : cu.free_temps with
  | nil => rw [hf] at ha; cases ha
  | cons r0 rest =>
    rw [hf] at ha
    simp only [Except.ok.injEq, Prod.mk.injEq] at ha
    obtain ⟨hr, hcu⟩ := ha
    subst hr
    subst hcu
    obtain ⟨f1, evs, t1, b1⟩ := hb
    simp only at f1 t1
    refine ⟨?_, TempEvent.acquire r0 :: (evs ++ [TempEvent.release r0]), ?_, ?_⟩
    · simp only [FreeTemp, f1, hf]
    · simp only [FreeTemp, t1]
      simp
    · simp only [tempsOutstanding]
      have := tempsOutstanding_frame evs [] [] [r0] b1
      simp only [List.nil_append] at this
      rw [tempsOutstanding_append evs _ [r0] [r0] this]
      simp [tempsOutstanding]


theorem SameTemps_balanced {cu cu1 : CompilationUnit} (h : SameTemps cu cu1) :
    TempBalanced cu cu1 :=
  TempBalanced_of_same cu cu1 h.1 h.2

theorem SameTemps_trans {a b c : CompilationUnit} (h1 : SameTemps a b) (h2 : SameTemps b c) :
    SameTemps a c :=
  ⟨h2.1.trans h1.1, h2.2.trans h1.2⟩

theorem SameTemps_NewLIR1 (cu : CompilationUnit) (o : ArmOpcode) (a : Int) :
    SameTemps cu (NewLIR1 cu o a).2 := ⟨rfl, rfl⟩

theorem SameTemps_NewLIR2 (cu : CompilationUnit) (o : ArmOpcode) (a b : Int) :
    SameTemps cu (NewLIR2 cu o a b).2 := ⟨rfl, rfl⟩

theorem SameTemps_NewLIR3 (cu : CompilationUnit) (o : ArmOpcode) (a b c : Int) :
    SameTemps cu (NewLIR3 cu o a b c).2 := ⟨rfl, rfl⟩

theorem SameTemps_NewLIR4 (cu : CompilationUnit) (o : ArmOpcode) (a b c d : Int) :
    SameTemps cu (NewLIR4 cu o a b c d).2 := ⟨rfl, rfl⟩

theorem SameTemps_Annotate (cu : CompilationUnit) (l : LIR) (x : Int) (a b : Bool) :
    SameTemps cu (AnnotateDalvikRegAccess cu l x a b).2 := ⟨rfl, rfl⟩

theorem SameTemps_poolLoad (cu : CompilationUnit) (r v : Int) :
    SameTemps cu (poolLoad cu r v).2 := by
  obtain ⟨_, _, _, _, _, a6, a7⟩ := poolLoad_facts cu r v
  exact ⟨a6, a7⟩

theorem SameTemps_poolLoadFP (env : ArmEnv) (cu : CompilationUnit) (r v : Int) :
    SameTemps cu (poolLoadFP env cu r v).2 := by
  obtain ⟨_, _, _, _, _, a6, a7⟩ := poolLoadFP_facts env cu r v
  exact ⟨a6, a7⟩

theorem DCHECK_cases (env : ArmEnv) (c : Bool) :
    DCHECK env c = Except.ok () ∨ DCHECK env c = Except.error Fault.dcheckFailed := by
  unfold DCHECK
  split_ifs
  · right; rfl
  · left; rfl

/-- The constant materializer does not touch the temporary-register pool. -/
theorem LoadConstantNoClobber_sameTemps (env : ArmEnv) (fuel : Nat) (cu cu1 : CompilationUnit)
    (r value : Int) (res : LIR)
    (h : LoadConstantNoClobber env fuel cu r value = Except.ok (res, cu1)) :
    SameTemps cu cu1 := by
  cases hfp : env.ARM_FPREG r with
  | false =>
    rw [LoadConstantNoClobber_core env fuel cu r value hfp] at h
    simp only [Except.ok.injEq] at h
    split_ifs at h <;> (cases h; first
      | exact SameTemps_NewLIR2 _ _ _ _
      | exact SameTemps_poolLoad _ _ _)
  | true =>
    rw [LoadConstantNoClobber_eq_body] at h
    unfold LoadConstantNoClobberBody at h
    rw [if_pos hfp] at h
    rcases DCHECK_cases env (env.ARM_SINGLEREG r) with hd | hd
    · have e : LoadFPConstantValue env cu r value = Except.ok (
          if 0 ≤ EncodeImmSingle value then
            NewLIR2 cu ArmOpcode.kThumb2Vmovs_IMM8 r (EncodeImmSingle value)
          else poolLoadFP env cu r value) := by
        unfold LoadFPConstantValue poolLoadFP
        simp only [hd, bind, Except.bind, ge_iff_le, pure, Except.pure]
        split_ifs <;> rfl
      rw [e] at h
      simp only [Except.ok.injEq] at h
      split_ifs at h <;> (cases h; first
        | exact SameTemps_NewLIR2 _ _ _ _
        | exact SameTemps_poolLoadFP _ _ _ _)
    · unfold LoadFPConstantValue at h
      simp only [hd, bind, Except.bind] at h
      cases h

theorem LoadConstant_balanced (env : ArmEnv) (fuel : Nat) (cu cu1 : CompilationUnit)
    (r value : Int) (res : LIR)
    (h : LoadConstant env fuel cu r value = Except.ok (res, cu1)) : TempBalanced cu cu1 :=
  (SameTemps_balanced (LoadConstantNoClobber_sameTemps env fuel cu cu1 r value res h))


theorem OpRegRegShiftSwitch_done (env : ArmEnv) (cu : CompilationUnit) (op : OpKind)
    (a b shift : Int) (r : LIR × CompilationUnit)
    (h : OpRegRegShiftSwitch env cu op a b shift = Except.ok (Selected.done r)) :
    SameTemps cu r.2 := by
  unfold OpRegRegShiftSwitch at h
  rcases DCHECK_cases env (decide (shift = 0)) with hd | hd <;>
  cases op <;> simp only [hd, bind, Except.bind, pure, Except.pure] at h <;>
  first
    | (cases h; done)
    | (split_ifs at h <;> cases h)
    | (simp only [Except.ok.injEq, Selected.done.injEq] at h
       subst h
       exact SameTemps_NewLIR4 _ _ _ _ _ _)

theorem OpRegRegShift_sameTemps (env : ArmEnv) (cu cu1 : CompilationUnit) (op : OpKind)
    (a b shift : Int) (res : LIR)
    (h : OpRegRegShift env cu op a b shift = Except.ok (res, cu1)) : SameTemps cu cu1 := by
  unfold OpRegRegShift at h
  rw [bind_ok_iff] at h
  obtain ⟨sel, hs, h⟩ := h
  cases sel with
  | done r =>
    simp only [pure, Except.pure, Except.ok.injEq] at h
    subst h
    exact OpRegRegShiftSwitch_done env cu op a b shift _ hs
  | opcode o =>
    simp only [pure, Except.pure] at h
    split_ifs at h <;> first
      | (cases h; done)
      | (simp only [Except.ok.injEq] at h
         first
          | (have e := congrArg Prod.snd h
             simp only at e
             rw [← e]
             first
              | exact SameTemps_NewLIR2 _ _ _ _
              | exact SameTemps_NewLIR3 _ _ _ _ _
              | exact SameTemps_NewLIR4 _ _ _ _ _ _))

theorem OpRegReg_sameTemps (env : ArmEnv) (cu cu1 : CompilationUnit) (op : OpKind)
    (a b : Int) (res : LIR)
    (h : OpRegReg env cu op a b = Except.ok (res, cu1)) : SameTemps cu cu1 :=
  OpRegRegShift_sameTemps env cu cu1 op a b 0 res h

theorem OpRegRegRegShift_sameTemps (env : ArmEnv) (cu cu1 : CompilationUnit) (op : OpKind)
    (a b c shift : Int) (res : LIR)
    (h : OpRegRegRegShift env cu op a b c shift = Except.ok (res, cu1)) :
    SameTemps cu cu1 := by
  unfold OpRegRegRegShift at h
  rw [bind_ok_iff] at h
  obtain ⟨o, _, h⟩ := h
  split_ifs at h
  · simp only [pure, Except.pure, Except.ok.injEq] at h
    have e := congrArg Prod.snd h
    simp only at e
    rw [← e]
    exact SameTemps_NewLIR4 _ _ _ _ _ _
  · rw [bind_ok_iff] at h
    obtain ⟨_, _, h⟩ := h
    simp only [pure, Except.pure, Except.ok.injEq] at h
    have e := congrArg Prod.snd h
    simp only at e
    rw [← e]
    exact SameTemps_NewLIR3 _ _ _ _ _

theorem OpRegRegReg_sameTemps (env : ArmEnv) (cu cu1 : CompilationUnit) (op : OpKind)
    (a b c : Int) (res : LIR)
    (h : OpRegRegReg env cu op a b c = Except.ok (res, cu1)) : SameTemps cu cu1 :=
  OpRegRegRegShift_sameTemps env cu cu1 op a b c 0 res h


theorem OpRegRegImmTail_balanced (env : ArmEnv)
    (lc : CompilationUnit → Int → Int → Except Fault (LIR × CompilationUnit))
    (hlc : ∀ cu r v res cu1, lc cu r v = Except.ok (res, cu1) → TempBalanced cu cu1)
    (cu cu1 : CompilationUnit) (opcode alt : ArmOpcode) (mod_imm a b value : Int) (res : LIR)
    (h : OpRegRegImmTail env lc cu opcode alt mod_imm a b value = Except.ok (res, cu1)) :
    TempBalanced cu cu1 := by
  unfold OpRegRegImmTail at h
  by_cases hm : mod_imm ≥ 0
  · rw [if_pos hm] at h
    simp only [pure, Except.pure, Except.ok.injEq] at h
    have e := congrArg Prod.snd h
    simp only at e
    rw [← e]
    exact (SameTemps_balanced (SameTemps_NewLIR3 _ _ _ _ _))
  · rw [if_neg hm, bind_ok_iff] at h
    obtain ⟨⟨r, c0⟩, ha, h⟩ := h
    rw [bind_ok_iff] at h
    obtain ⟨⟨cl, c1⟩, hc, h⟩ := h
    simp only [pure, Except.pure, Except.ok.injEq, Prod.mk.injEq] at h
    obtain ⟨_, h⟩ := h
    rw [← h]
    apply TempBalanced_bracket cu c0 _ r ha
    apply TempBalanced_trans _ c1 _ (hlc _ _ _ _ _ hc)
    split_ifs
    · exact (SameTemps_balanced (SameTemps_NewLIR4 _ _ _ _ _ _))
    · exact (SameTemps_balanced (SameTemps_NewLIR3 _ _ _ _ _))

theorem OpRegRegImmAddSub_balanced (env : ArmEnv)
    (lc : CompilationUnit → Int → Int → Except Fault (LIR × CompilationUnit))
    (hlc : ∀ cu r v res cu1, lc cu r v = Except.ok (res, cu1) → TempBalanced cu cu1)
    (cu cu1 : CompilationUnit) (op : OpKind) (a b value : Int) (res : LIR)
    (h : OpRegRegImmAddSub env lc cu op a b value = Except.ok (res, cu1)) :
    TempBalanced cu cu1 := by
  unfold OpRegRegImmAddSub at h
  simp only at h
  split_ifs at h <;> first
    | exact OpRegRegImmTail_balanced env lc hlc _ _ _ _ _ _ _ _ _ h
    | (simp only [pure, Except.pure, Except.ok.injEq] at h
       have e := congrArg Prod.snd h
       simp only at e
       rw [← e]
       exact (SameTemps_balanced (SameTemps_NewLIR3 _ _ _ _ _)))

theorem OpRegRegImmWith_balanced (env : ArmEnv)
    (lc : CompilationUnit → Int → Int → Except Fault (LIR × CompilationUnit))
    (hlc : ∀ cu r v res cu1, lc cu r v = Except.ok (res, cu1) → TempBalanced cu cu1)
    (cu cu1 : CompilationUnit) (op : OpKind) (a b value : Int) (res : LIR)
    (h : OpRegRegImmWith env lc cu op a b value = Except.ok (res, cu1)) :
    TempBalanced cu cu1 := by
  unfold OpRegRegImmWith at h
  cases op <;> simp only at h <;> first
    | (cases h; done)
    | exact OpRegRegImmTail_balanced env lc hlc _ _ _ _ _ _ _ _ _ h
    | exact OpRegRegImmAddSub_balanced env lc hlc _ _ _ _ _ _ _ h
    | (split_ifs at h <;> first
        | exact OpRegRegImmAddSub_balanced env lc hlc _ _ _ _ _ _ _ h
        | (simp only [pure, Except.pure, Except.ok.injEq] at h
           have e := congrArg Prod.snd h
           simp only at e
           rw [← e]
           first
            | exact (SameTemps_balanced (SameTemps_NewLIR2 _ _ _ _))
            | exact (SameTemps_balanced (SameTemps_NewLIR3 _ _ _ _ _)))
        | (rw [bind_ok_iff] at h
           obtain ⟨⟨r, c0⟩, ha, h⟩ := h
           rw [bind_ok_iff] at h
           obtain ⟨⟨cl, c1⟩, hc, h⟩ := h
           rw [bind_ok_iff] at h
           obtain ⟨⟨ol, c2⟩, ho, h⟩ := h
           simp only [pure, Except.pure, Except.ok.injEq, Prod.mk.injEq] at h
           obtain ⟨_, h⟩ := h
           rw [← h]
           apply TempBalanced_bracket cu c0 _ r ha
           exact TempBalanced_trans _ c1 _ (hlc _ _ _ _ _ hc)
             (SameTemps_balanced (OpRegReg_sameTemps env _ _ _ _ _ _ ho))))
    | (simp only [pure, Except.pure, Except.ok.injEq] at h
       have e := congrArg Prod.snd h
       simp only at e
       rw [← e]
       exact (SameTemps_balanced (SameTemps_NewLIR3 _ _ _ _ _)))

theorem OpRegRegImm_balanced (env : ArmEnv) (fuel : Nat) (cu cu1 : CompilationUnit)
    (op : OpKind) (a b value : Int) (res : LIR)
    (h : OpRegRegImm env fuel cu op a b value = Except.ok (res, cu1)) :
    TempBalanced cu cu1 :=
  OpRegRegImmWith_balanced env (LoadConstant env fuel)
    (fun cu r v res cu1 h => LoadConstant_balanced env fuel cu cu1 r v res h)
    cu cu1 op a b value res h


theorem BaseIndexedFloat_balanced (env : ArmEnv) (cu cu1 : CompilationUnit) (opcode : ArmOpcode)
    (rBase r_index r_reg scale : Int) (res : LIR)
    (h : BaseIndexedFloat env cu opcode rBase r_index r_reg scale = Except.ok (res, cu1)) :
    TempBalanced cu cu1 := by
  unfold BaseIndexedFloat at h
  rw [bind_ok_iff] at h
  obtain ⟨⟨r, c0⟩, ha, h⟩ := h
  rw [bind_ok_iff] at h
  obtain ⟨⟨al, c1⟩, hadd, h⟩ := h
  simp only [pure, Except.pure, Except.ok.injEq, Prod.mk.injEq] at h
  obtain ⟨_, h⟩ := h
  rw [← h]
  apply TempBalanced_bracket cu c0 _ r ha
  have hs : SameTemps c0 c1 := by
    split_ifs at hadd
    · simp only [pure, Except.pure, Except.ok.injEq] at hadd
      have e := congrArg Prod.snd hadd
      simp only at e
      rw [← e]
      exact SameTemps_NewLIR4 _ _ _ _ _ _
    · exact OpRegRegReg_sameTemps env _ _ _ _ _ _ _ hadd
  exact SameTemps_balanced (SameTemps_trans hs (SameTemps_NewLIR3 _ _ _ _ _))

theorem emit_sameTemps (cu cu1 : CompilationUnit) (c : Bool) (o : ArmOpcode)
    (a b x s : Int) (res : LIR)
    (h : (if c = true then (pure (NewLIR3 cu o a b x) : Except Fault (LIR × CompilationUnit))
      else pure (NewLIR4 cu o a b x s)) = Except.ok (res, cu1)) :
    TempBalanced cu cu1 := by
  split_ifs at h <;>
  · simp only [pure, Except.pure, Except.ok.injEq] at h
    have e := congrArg Prod.snd h
    simp only at e
    rw [← e]
    first
      | exact (SameTemps_balanced (SameTemps_NewLIR3 _ _ _ _ _))
      | exact (SameTemps_balanced (SameTemps_NewLIR4 _ _ _ _ _ _))

theorem LoadBaseIndexed_balanced (env : ArmEnv) (cu cu1 : CompilationUnit)
    (rBase r_index r_dest scale : Int) (size : OpSize) (res : LIR)
    (h : LoadBaseIndexed env cu rBase r_index r_dest scale size = Except.ok (res, cu1)) :
    TempBalanced cu cu1 := by
  unfold LoadBaseIndexed at h
  rw [bind_ok_iff] at h
  obtain ⟨⟨o, sz⟩, _, h⟩ := h
  cases sz <;> simp only at h <;> first
    | cases h
    | exact BaseIndexedFloat_balanced env _ _ _ _ _ _ _ _ h
    | exact emit_sameTemps _ _ _ _ _ _ _ _ _ h

theorem StoreBaseIndexed_balanced (env : ArmEnv) (cu cu1 : CompilationUnit)
    (rBase r_index r_src scale : Int) (size : OpSize) (res : LIR)
    (h : StoreBaseIndexed env cu rBase r_index r_src scale size = Except.ok (res, cu1)) :
    TempBalanced cu cu1 := by
  unfold StoreBaseIndexed at h
  rw [bind_ok_iff] at h
  obtain ⟨⟨o, sz⟩, _, h⟩ := h
  cases sz <;> simp only at h <;> first
    | cases h
    | exact BaseIndexedFloat_balanced env _ _ _ _ _ _ _ _ h
    | exact emit_sameTemps _ _ _ _ _ _ _ _ _ h

theorem LoadBaseDispTail_balanced (env : ArmEnv) (fuel : Nat) (cu cu1 : CompilationUnit)
    (rBase displacement : Int) (size : OpSize) (f : DispForm) (res : LIR)
    (h : LoadBaseDispTail env fuel cu rBase displacement size f = Except.ok (res, cu1)) :
    TempBalanced cu cu1 := by
  unfold LoadBaseDispTail at h
  rw [bind_ok_iff] at h
  obtain ⟨⟨l, c⟩, hl, h⟩ := h
  have hb : TempBalanced cu c := by
    by_cases hs : f.short_form = true
    · rw [if_pos hs] at hl
      simp only [pure, Except.pure, Except.ok.injEq] at hl
      have e := congrArg Prod.snd hl
      simp only at e
      rw [← e]
      exact (SameTemps_balanced (SameTemps_NewLIR3 _ _ _ _ _))
    · rw [if_neg hs, bind_ok_iff] at hl
      obtain ⟨⟨r, c0⟩, ha, hl⟩ := hl
      rw [bind_ok_iff] at hl
      obtain ⟨⟨cl, c1⟩, hc, hl⟩ := hl
      rw [bind_ok_iff] at hl
      obtain ⟨⟨ld, c2⟩, hld, hl⟩ := hl
      simp only [pure, Except.pure, Except.ok.injEq, Prod.mk.injEq] at hl
      obtain ⟨_, hl⟩ := hl
      rw [← hl]
      apply TempBalanced_bracket cu c0 _ r ha
      exact TempBalanced_trans _ c1 _ (LoadConstant_balanced env fuel _ _ _ _ _ hc)
        (LoadBaseIndexed_balanced env _ _ _ _ _ _ _ _ hld)
  split_ifs at h
  · simp only [pure, Except.pure, Except.ok.injEq] at h
    have e := congrArg Prod.snd h
    simp only at e
    rw [← e]
    exact TempBalanced_trans _ c _ hb (SameTemps_balanced (SameTemps_Annotate _ _ _ _ _))
  · simp only [pure, Except.pure, Except.ok.injEq, Prod.mk.injEq] at h
    rw [← h.2]
    exact hb

theorem LoadBaseDispBodyWith_balanced (env : ArmEnv) (fuel : Nat)
    (self : CompilationUnit → Int → Int → Int → Int → OpSize →
      Except Fault (LIR × CompilationUnit))
    (hself : ∀ cu b d r rh sz res cu1, self cu b d r rh sz = Except.ok (res, cu1) →
      TempBalanced cu cu1)
    (cu cu1 : CompilationUnit) (rBase displacement r_dest r_dest_hi : Int) (size : OpSize)
    (res : LIR)
    (h : LoadBaseDispBodyWith env fuel self cu rBase displacement r_dest r_dest_hi size
      = Except.ok (res, cu1)) :
    TempBalanced cu cu1 := by
  unfold LoadBaseDispBodyWith at h
  split_ifs at h
  · rw [bind_ok_iff] at h
    obtain ⟨⟨l1, c1⟩, h1, h⟩ := h
    rw [bind_ok_iff] at h
    obtain ⟨⟨l2, c2⟩, h2, h⟩ := h
    simp only [pure, Except.pure, Except.ok.injEq, Prod.mk.injEq] at h
    rw [← h.2]
    exact TempBalanced_trans _ c1 _ (hself _ _ _ _ _ _ _ _ h1) (hself _ _ _ _ _ _ _ _ h2)
  · rw [bind_ok_iff] at h
    obtain ⟨f, _, h⟩ := h
    exact LoadBaseDispTail_balanced env fuel _ _ _ _ _ _ _ h

theorem LoadBaseDispBody_balanced (env : ArmEnv) (fuel : Nat) (cu cu1 : CompilationUnit)
    (rBase displacement r_dest r_dest_hi : Int) (size : OpSize) (res : LIR)
    (h : LoadBaseDispBody env fuel cu rBase displacement r_dest r_dest_hi size
      = Except.ok (res, cu1)) :
    TempBalanced cu cu1 := by
  unfold LoadBaseDispBody at h
  refine LoadBaseDispBodyWith_balanced env fuel _ ?_ _ _ _ _ _ _ _ _ h
  intro cu b d r rh sz res cu1 h1
  refine LoadBaseDispBodyWith_balanced env fuel _ ?_ _ _ _ _ _ _ _ _ h1
  intro cu b d r rh sz res cu1 h2
  cases h2

theorem StoreBaseDispTail_balanced (env : ArmEnv) (fuel : Nat) (cu cu1 : CompilationUnit)
    (rBase displacement : Int) (size : OpSize) (f : DispForm) (res : LIR)
    (h : StoreBaseDispTail env fuel cu rBase displacement size f = Except.ok (res, cu1)) :
    TempBalanced cu cu1 := by
  unfold StoreBaseDispTail at h
  by_cases hs : f.short_form = true
  · rw [if_pos hs] at h
    split_ifs at h <;>
    · simp only [pure, Except.pure, Except.ok.injEq] at h
      have e := congrArg Prod.snd h
      simp only at e
      rw [← e]
      first
        | exact (SameTemps_balanced (SameTemps_NewLIR3 _ _ _ _ _))
        | exact SameTemps_balanced (SameTemps_trans (SameTemps_NewLIR3 _ _ _ _ _) (SameTemps_Annotate _ _ _ _ _))
  · rw [if_neg hs, bind_ok_iff] at h
    obtain ⟨⟨r, c0⟩, ha, h⟩ := h
    rw [bind_ok_iff] at h
    obtain ⟨⟨cl, c1⟩, hc, h⟩ := h
    rw [bind_ok_iff] at h
    obtain ⟨⟨st, c2⟩, hst, h⟩ := h
    have hb : TempBalanced cu (FreeTemp c2 r) := by
      apply TempBalanced_bracket cu c0 _ r ha
      exact TempBalanced_trans _ c1 _ (LoadConstant_balanced env fuel _ _ _ _ _ hc)
        (StoreBaseIndexed_balanced env _ _ _ _ _ _ _ _ hst)
    split_ifs at h <;>
    · simp only [pure, Except.pure, Except.ok.injEq, Prod.mk.injEq] at h
      rw [← h.2]
      exact hb

theorem StoreBaseDispBodyWith_balanced (env : ArmEnv) (fuel : Nat)
    (self : CompilationUnit → Int → Int → Int → Int → OpSize →
      Except Fault (LIR × CompilationUnit))
    (hself : ∀ cu b d r rh sz res cu1, self cu b d r rh sz = Except.ok (res, cu1) →
      TempBalanced cu cu1)
    (cu cu1 : CompilationUnit) (rBase displacement r_src r_src_hi : Int) (size : OpSize)
    (res : LIR)
    (h : StoreBaseDispBodyWith env fuel self cu rBase displacement r_src r_src_hi size
      = Except.ok (res, cu1)) :
    TempBalanced cu cu1 := by
  unfold StoreBaseDispBodyWith at h
  split_ifs at h
  · rw [bind_ok_iff] at h
    obtain ⟨⟨l1, c1⟩, h1, h⟩ := h
    rw [bind_ok_iff] at h
    obtain ⟨⟨l2, c2⟩, h2, h⟩ := h
    simp only [pure, Except.pure, Except.ok.injEq, Prod.mk.injEq] at h
    rw [← h.2]
    exact TempBalanced_trans _ c1 _ (hself _ _ _ _ _ _ _ _ h1) (hself _ _ _ _ _ _ _ _ h2)
  · rw [bind_ok_iff] at h
    obtain ⟨f, _, h⟩ := h
    exact StoreBaseDispTail_balanced env fuel _ _ _ _ _ _ _ h

theorem StoreBaseDispBody_balanced (env : ArmEnv) (fuel : Nat) (cu cu1 : CompilationUnit)
    (rBase displacement r_src r_src_hi : Int) (size : OpSize) (res : LIR)
    (h : StoreBaseDispBody env fuel cu rBase displacement r_src r_src_hi size
      = Except.ok (res, cu1)) :
    TempBalanced cu cu1 := by
  unfold StoreBaseDispBody at h
  refine StoreBaseDispBodyWith_balanced env fuel _ ?_ _ _ _ _ _ _ _ _ h
  intro cu b d r rh sz res cu1 h1
  refine StoreBaseDispBodyWith_balanced env fuel _ ?_ _ _ _ _ _ _ _ _ h1
  intro cu b d r rh sz res cu1 h2
  cases h2


/-! ## Displacement forms -/

theorem LoadBaseDisp_narrow (env : ArmEnv) (fuel : Nat) (cu : CompilationUnit)
    (rBase d r_dest : Int) (size : OpSize) (h1 : size ≠ OpSize.kDouble)
    (h2 : size ≠ OpSize.kLong) :
    LoadBaseDisp env fuel cu rBase d r_dest size =
      (LoadBaseDispSwitch env rBase d r_dest (-1) size >>=
        LoadBaseDispTail env fuel cu rBase d size) := by
  unfold LoadBaseDisp LoadBaseDispBody LoadBaseDispBodyWith
  rw [if_neg (by
    rintro ⟨h | h, _⟩
    · exact h1 h
    · exact h2 h)]

theorem LoadBaseDispTail_short (env : ArmEnv) (fuel : Nat) (cu : CompilationUnit)
    (rBase d : Int) (size : OpSize) (f : DispForm) (hs : f.short_form = true)
    (hsp : rBase ≠ env.rARM_SP) :
    LoadBaseDispTail env fuel cu rBase d size f
      = Except.ok (NewLIR3 cu f.opcode f.reg rBase f.encoded_disp) := by
  unfold LoadBaseDispTail
  simp only [hs, if_true, bind, Except.bind, pure, Except.pure, hsp, if_false]

theorem LoadBaseIndexed_core (env : ArmEnv) (cu : CompilationUnit) (rBase r_index r_dest : Int)
    (hfp : env.ARM_FPREG r_dest = false) :
    LoadBaseIndexed env cu rBase r_index r_dest 0 OpSize.kWord = Except.ok (
      if (env.ARM_LOWREG rBase && env.ARM_LOWREG r_index && env.ARM_LOWREG r_dest) = true then
        NewLIR3 cu ArmOpcode.kThumbLdrRRR r_dest rBase r_index
      else NewLIR4 cu ArmOpcode.kThumb2LdrRRR r_dest rBase r_index 0) ∧
    LoadBaseIndexed env cu rBase r_index r_dest 0 OpSize.kUnsignedHalf = Except.ok (
      if (env.ARM_LOWREG rBase && env.ARM_LOWREG r_index && env.ARM_LOWREG r_dest) = true then
        NewLIR3 cu ArmOpcode.kThumbLdrhRRR r_dest rBase r_index
      else NewLIR4 cu ArmOpcode.kThumb2LdrhRRR r_dest rBase r_index 0) ∧
    LoadBaseIndexed env cu rBase r_index r_dest 0 OpSize.kUnsignedByte = Except.ok (
      if (env.ARM_LOWREG rBase && env.ARM_LOWREG r_index && env.ARM_LOWREG r_dest) = true then
        NewLIR3 cu ArmOpcode.kThumbLdrbRRR r_dest rBase r_index
      else NewLIR4 cu ArmOpcode.kThumb2LdrbRRR r_dest rBase r_index 0) := by
  refine ⟨?_, ?_, ?_⟩ <;>
  · unfold LoadBaseIndexed LoadBaseIndexedClass
    simp only [hfp, Bool.false_eq_true, if_false, bind, Except.bind, pure, Except.pure,
      decide_True, Bool.and_true]
    split_ifs <;> simp_all


/-- The synthesis path of `LoadBaseDispTail` with a free core temporary `t`:
one record loading the displacement into `t`, then the indexed load. -/
theorem LoadBaseDispTail_synth (env : ArmEnv) (fuel : Nat) (cu : CompilationUnit)
    (rBase d : Int) (size : OpSize) (f : DispForm) (oT o2 : ArmOpcode)
    (hs : f.short_form = false) (hsp : rBase ≠ env.rARM_SP)
    (t : Int) (rest : List Int) (hfree : cu.free_temps = t :: rest)
    (ht : env.ARM_FPREG t = false)
    (h1 : -2147483648 ≤ f.encoded_disp) (h2 : f.encoded_disp < 2147483648)
    (hli : ∀ x, LoadBaseIndexed env x rBase t f.reg 0 size = Except.ok (
      if (env.ARM_LOWREG rBase && env.ARM_LOWREG t && env.ARM_LOWREG f.reg) = true then
        NewLIR3 x oT f.reg rBase t
      else NewLIR4 x o2 f.reg rBase t 0)) :
    ∃ c ld cu1, LoadBaseDispTail env fuel cu rBase d size f = Except.ok (ld, cu1) ∧
      cu1.code = cu.code ++ [c, ld] ∧
      loadedValue cu1.literal_list c = some (t, toU32 f.encoded_disp) ∧
      ld.opcode = (if (env.ARM_LOWREG rBase && env.ARM_LOWREG t && env.ARM_LOWREG f.reg) = true
        then oT else o2) ∧
      ld.operands = [f.reg, rBase, t, 0, 0] ∧
      cu1.free_temps = cu.free_temps := by
  obtain ⟨a, ha, ac, af⟩ : ∃ a, AllocTemp cu = Except.ok (t, a) ∧ a.code = cu.code ∧
      a.free_temps = rest := by
    unfold AllocTemp
    rw [hfree]
    exact ⟨_, rfl, rfl, rfl⟩
  obtain ⟨c, c1, hc, hcode, hval⟩ := LoadConstantNoClobber_loads env fuel a
    t f.encoded_disp h1 h2 (fun h => by rw [ht] at h; exact absurd h (by decide))
  have hst := LoadConstantNoClobber_sameTemps env fuel _ _ _ _ _ hc
  have hl := hli c1
  unfold LoadBaseDispTail
  simp only [hs, Bool.false_eq_true, if_false, bind, Except.bind, ha, LoadConstant, hc, hl,
    pure, Except.pure, hsp]
  rw [ac] at hcode
  have hf1 := hst.1
  rw [af] at hf1
  by_cases hlow : (env.ARM_LOWREG rBase && env.ARM_LOWREG t && env.ARM_LOWREG f.reg) = true
  · simp only [hlow, if_true]
    refine ⟨c, _, _, rfl, ?_, ?_, rfl, rfl, ?_⟩
    · simp [FreeTemp, NewLIR3, RawLIR, AppendLIR, hcode]
    · simpa [FreeTemp, NewLIR3, RawLIR, AppendLIR] using hval
    · simp [FreeTemp, NewLIR3, RawLIR, AppendLIR, hf1, hfree]
  · simp only [hlow, if_false]
    refine ⟨c, _, _, rfl, ?_, ?_, rfl, rfl, ?_⟩
    · simp [FreeTemp, NewLIR4, RawLIR, AppendLIR, hcode]
    · simpa [FreeTemp, NewLIR4, RawLIR, AppendLIR] using hval
    · simp [FreeTemp, NewLIR4, RawLIR, AppendLIR, hf1, hfree]


theorem DCHECK_true (env : ArmEnv) : DCHECK env true = Except.ok () := by
  unfold DCHECK
  simp

/-- The `switch` of `LoadBaseDispBody` for compact core registers. -/
theorem LoadBaseDispSwitch_compact (env : ArmEnv) (rBase r_dest d : Int)
    (hb : env.ARM_LOWREG rBase = true) (hd : env.ARM_LOWREG r_dest = true)
    (hcore : env.ARM_FPREG r_dest = false) (hpc : rBase ≠ env.r15pc)
    (hsp : rBase ≠ env.r13sp) :
    (andI d 0x3 = 0 → LoadBaseDispSwitch env rBase d r_dest (-1) OpSize.kWord = Except.ok (
      if 0 ≤ d ∧ d < 128 then
        { opcode := ArmOpcode.kThumbLdrRRI5, short_form := true, encoded_disp := sarI d 2,
          reg := r_dest, is64bit := false }
      else if 0 ≤ d ∧ d < 4092 then
        { opcode := ArmOpcode.kThumb2LdrRRI12, short_form := true, encoded_disp := d,
          reg := r_dest, is64bit := false }
      else
        { opcode := ArmOpcode.kThumbBkpt, short_form := false, encoded_disp := d,
          reg := r_dest, is64bit := false })) ∧
    (andI d 0x1 = 0 →
      LoadBaseDispSwitch env rBase d r_dest (-1) OpSize.kUnsignedHalf = Except.ok (
      if 0 ≤ d ∧ d < 64 then
        { opcode := ArmOpcode.kThumbLdrhRRI5, short_form := true, encoded_disp := sarI d 1,
          reg := r_dest, is64bit := false }
      else if 0 ≤ d ∧ d < 4092 then
        { opcode := ArmOpcode.kThumb2LdrhRRI12, short_form := true, encoded_disp := d,
          reg := r_dest, is64bit := false }
      else
        { opcode := ArmOpcode.kThumbBkpt, short_form := false, encoded_disp := d,
          reg := r_dest, is64bit := false })) ∧
    LoadBaseDispSwitch env rBase d r_dest (-1) OpSize.kUnsignedByte = Except.ok (
      if 0 ≤ d ∧ d < 32 then
        { opcode := ArmOpcode.kThumbLdrbRRI5, short_form := true, encoded_disp := d,
          reg := r_dest, is64bit := false }
      else if 0 ≤ d ∧ d < 4092 then
        { opcode := ArmOpcode.kThumb2LdrbRRI12, short_form := true, encoded_disp := d,
          reg := r_dest, is64bit := false }
      else
        { opcode := ArmOpcode.kThumbBkpt, short_form := false, encoded_disp := d,
          reg := r_dest, is64bit := false }) := by
  refine ⟨?_, ?_, ?_⟩
  · intro ha
    unfold LoadBaseDispSwitch
    simp only [hb, hd, hcore, hpc, hsp, ha, Bool.false_eq_true, if_false, false_and, and_false,
      Bool.and_self, true_and, decide_True, DCHECK_true, bind, Except.bind, pure, Except.pure,
      ge_iff_le, decide_eq_true_eq]
    split_ifs <;> first | rfl | omega
  · intro ha
    unfold LoadBaseDispSwitch
    simp only [hb, hd, ha, Bool.and_self, true_and, decide_True, DCHECK_true, bind,
      Except.bind, pure, Except.pure, ge_iff_le]
    split_ifs <;> first | rfl | omega
  · unfold LoadBaseDispSwitch
    simp only [hb, hd, Bool.and_self, true_and, bind, Except.bind, pure, Except.pure,
      ge_iff_le, decide_eq_true_eq]
    split_ifs <;> first | rfl | omega

theorem sarI_eq_div (a : Int) (k : Nat) : sarI a k = a / 2 ^ k := by
  unfold sarI
  have := Int.shiftRight_eq_div_pow a k
  simpa using this

/-- The three outcomes from the result of the `switch`, for one access size. -/
theorem LoadDispThresholds_of_switch (env : ArmEnv) (fuel : Nat) (cu : CompilationUnit)
    (rBase r_dest d : Int) (size : OpSize) (limit : Int) (shift : Nat)
    (oc oe ic ie : ArmOpcode)
    (hb : env.ARM_LOWREG rBase = true) (hd : env.ARM_LOWREG r_dest = true)
    (hsp : rBase ≠ env.rARM_SP) (h1 : -2147483648 ≤ d) (h2 : d < 2147483648)
    (hn1 : size ≠ OpSize.kDouble) (hn2 : size ≠ OpSize.kLong)
    (hlim0 : 0 ≤ limit) (hlim : limit ≤ 4092)
    (hsw : LoadBaseDispSwitch env rBase d r_dest (-1) size = Except.ok (
      if 0 ≤ d ∧ d < limit then
        { opcode := oc, short_form := true, encoded_disp := sarI d shift,
          reg := r_dest, is64bit := false }
      else if 0 ≤ d ∧ d < 4092 then
        { opcode := oe, short_form := true, encoded_disp := d, reg := r_dest,
          is64bit := false }
      else
        { opcode := ArmOpcode.kThumbBkpt, short_form := false, encoded_disp := d,
          reg := r_dest, is64bit := false }))
    (hli : ∀ x t, LoadBaseIndexed env x rBase t r_dest 0 size = Except.ok (
      if (env.ARM_LOWREG rBase && env.ARM_LOWREG t && env.ARM_LOWREG r_dest) = true then
        NewLIR3 x ic r_dest rBase t
      else NewLIR4 x ie r_dest rBase t 0)) :
    LoadDispThresholds env fuel cu rBase r_dest d size limit shift oc oe ic ie := by
  have hn := LoadBaseDisp_narrow env fuel cu rBase d r_dest size hn1 hn2
  refine ⟨?_, ?_, ?_⟩
  · intro hc
    rw [hn, hsw, if_pos hc]
    simp only [bind, Except.bind]
    rw [LoadBaseDispTail_short env fuel cu rBase d size _ rfl hsp]
    simp only [sarI_eq_div]
  · intro hc
    rw [hn, hsw, if_neg (by omega), if_pos (by omega)]
    simp only [bind, Except.bind]
    rw [LoadBaseDispTail_short env fuel cu rBase d size _ rfl hsp]
  · intro hc t rest hfree ht
    rw [hn, hsw, if_neg (by omega), if_neg (by omega)]
    simp only [bind, Except.bind]
    obtain ⟨c, ld, cu1, e1, e2, e3, e4, e5, e6⟩ := LoadBaseDispTail_synth env fuel cu rBase d size
      { opcode := ArmOpcode.kThumbBkpt, short_form := false, encoded_disp := d,
        reg := r_dest, is64bit := false } ic ie rfl hsp t rest hfree ht h1 h2 (fun x => hli x t)
    refine ⟨c, ld, cu1, e1, e2, e3, ?_, e5, e6⟩
    rw [e4]
    simp only [hb, hd, Bool.true_and, Bool.and_true]


/-! ## No call stops for lack of unfolding depth -/

theorem NoFuelFault_ok {α : Type} (a : α) : NoFuelFault (Except.ok a : Except Fault α) := by
  intro h; cases h

theorem NoFuelFault_pure {α : Type} (a : α) : NoFuelFault (pure a : Except Fault α) := by
  intro h; cases h

theorem NoFuelFault_bind {α β : Type} (x : Except Fault α) (f : α → Except Fault β)
    (hx : NoFuelFault x) (hf : ∀ a, x = Except.ok a → NoFuelFault (f a)) :
    NoFuelFault (x >>= f) := by
  cases x with
  | error e =>
    intro h
    apply hx
    simpa [bind, Except.bind] using h
  | ok a => exact hf a rfl

theorem NoFuelFault_DCHECK (env : ArmEnv) (c : Bool) : NoFuelFault (DCHECK env c) := by
  rcases DCHECK_cases env c with h | h <;> rw [h] <;> intro hc <;> cases hc

theorem NoFuelFault_AllocTemp (cu : CompilationUnit) : NoFuelFault (AllocTemp cu) := by
  unfold AllocTemp
  cases cu.free_temps <;> (intro h; cases h)

theorem NoFuelFault_ite {α : Type} (c : Prop) [Decidable c] (x y : Except Fault α)
    (hx : NoFuelFault x) (hy : NoFuelFault y) : NoFuelFault (if c then x else y) := by
  split_ifs
  · exact hx
  · exact hy

theorem NoFuelFault_LoadConstant (env : ArmEnv) (fuel : Nat) (cu : CompilationUnit)
    (r value : Int) : NoFuelFault (LoadConstant env fuel cu r value) := by
  unfold LoadConstant
  rw [LoadConstantNoClobber_eq_body]
  unfold LoadConstantNoClobberBody
  simp only [poolEntry_word, ne_eq, not_true_eq_false, if_false]
  split_ifs <;> try exact NoFuelFault_pure _
  unfold LoadFPConstantValue
  apply NoFuelFault_bind _ _ (NoFuelFault_DCHECK _ _)
  intro _ _
  split_ifs <;> exact NoFuelFault_pure _

theorem NoFuelFault_OpRegRegShift (env : ArmEnv) (cu : CompilationUnit) (op : OpKind)
    (a b shift : Int) : NoFuelFault (OpRegRegShift env cu op a b shift) := by
  unfold OpRegRegShift
  apply NoFuelFault_bind
  · unfold OpRegRegShiftSwitch
    cases op <;> simp only <;> first
      | exact NoFuelFault_pure _
      | (intro h; cases h)
      | (apply NoFuelFault_bind _ _ (NoFuelFault_DCHECK _ _)
         intro _ _
         first
          | exact NoFuelFault_pure _
          | (split_ifs <;> exact NoFuelFault_pure _))
      | (split_ifs <;> exact NoFuelFault_pure _)
  · intro sel _
    cases sel with
    | done r => exact NoFuelFault_pure _
    | opcode o =>
      simp only
      split_ifs <;> first
        | exact NoFuelFault_pure _
        | (intro h; cases h)

theorem NoFuelFault_OpRegRegRegShift (env : ArmEnv) (cu : CompilationUnit) (op : OpKind)
    (a b c shift : Int) : NoFuelFault (OpRegRegRegShift env cu op a b c shift) := by
  unfold OpRegRegRegShift
  apply NoFuelFault_bind
  · unfold OpRegRegRegShiftSwitch
    cases op <;> simp only <;> first
      | exact NoFuelFault_pure _
      | (intro h; cases h)
      | (apply NoFuelFault_bind _ _ (NoFuelFault_DCHECK _ _)
         intro _ _
         exact NoFuelFault_pure _)
  · intro o _
    split_ifs
    · exact NoFuelFault_pure _
    · apply NoFuelFault_bind _ _ (NoFuelFault_DCHECK _ _)
      intro _ _
      exact NoFuelFault_pure _

theorem NoFuelFault_OpRegRegImmTail (env : ArmEnv)
    (lc : CompilationUnit → Int → Int → Except Fault (LIR × CompilationUnit))
    (hlc : ∀ cu r v, NoFuelFault (lc cu r v))
    (cu : CompilationUnit) (opcode alt : ArmOpcode) (mod_imm a b value : Int) :
    NoFuelFault (OpRegRegImmTail env lc cu opcode alt mod_imm a b value) := by
  unfold OpRegRegImmTail
  apply NoFuelFault_ite
  · exact NoFuelFault_pure _
  · apply NoFuelFault_bind _ _ (NoFuelFault_AllocTemp _)
    intro t _
    apply NoFuelFault_bind _ _ (hlc _ _ _)
    intro c _
    exact NoFuelFault_pure _

theorem NoFuelFault_OpRegRegImmAddSub (env : ArmEnv)
    (lc : CompilationUnit → Int → Int → Except Fault (LIR × CompilationUnit))
    (hlc : ∀ cu r v, NoFuelFault (lc cu r v))
    (cu : CompilationUnit) (op : OpKind) (a b value : Int) :
    NoFuelFault (OpRegRegImmAddSub env lc cu op a b value) := by
  unfold OpRegRegImmAddSub
  simp only
  split_ifs <;> first
    | exact NoFuelFault_pure _
    | exact NoFuelFault_OpRegRegImmTail env lc hlc _ _ _ _ _ _ _
    | (intro h; cases h)

theorem NoFuelFault_OpRegRegImmWith (env : ArmEnv)
    (lc : CompilationUnit → Int → Int → Except Fault (LIR × CompilationUnit))
    (hlc : ∀ cu r v, NoFuelFault (lc cu r v))
    (cu : CompilationUnit) (op : OpKind) (a b value : Int) :
    NoFuelFault (OpRegRegImmWith env lc cu op a b value) := by
  unfold OpRegRegImmWith
  cases op <;> simp only <;> first
    | exact NoFuelFault_pure _
    | (intro h; cases h)
    | exact NoFuelFault_OpRegRegImmTail env lc hlc _ _ _ _ _ _ _
    | exact NoFuelFault_OpRegRegImmAddSub env lc hlc _ _ _ _ _
    | (split_ifs <;> first
        | exact NoFuelFault_pure _
        | exact NoFuelFault_OpRegRegImmAddSub env lc hlc _ _ _ _ _
        | (apply NoFuelFault_bind _ _ (NoFuelFault_AllocTemp _)
           intro t _
           apply NoFuelFault_bind _ _ (hlc _ _ _)
           intro c _
           apply NoFuelFault_bind _ _ (NoFuelFault_OpRegRegShift _ _ _ _ _ _)
           intro o _
           exact NoFuelFault_pure _))

theorem NoFuelFault_OpRegRegImm (env : ArmEnv) (fuel : Nat) (cu : CompilationUnit)
    (op : OpKind) (a b value : Int) : NoFuelFault (OpRegRegImm env fuel cu op a b value) :=
  NoFuelFault_OpRegRegImmWith env _ (NoFuelFault_LoadConstant env fuel) cu op a b value


theorem NoFuelFault_BaseIndexedFloat (env : ArmEnv) (cu : CompilationUnit) (opcode : ArmOpcode)
    (rBase r_index r_reg scale : Int) :
    NoFuelFault (BaseIndexedFloat env cu opcode rBase r_index r_reg scale) := by
  unfold BaseIndexedFloat
  apply NoFuelFault_bind _ _ (NoFuelFault_AllocTemp _)
  intro t _
  apply NoFuelFault_bind
  · apply NoFuelFault_ite
    · exact NoFuelFault_pure _
    · exact NoFuelFault_OpRegRegRegShift _ _ _ _ _ _ _
  · intro a _
    exact NoFuelFault_pure _

theorem NoFuelFault_IndexedClass (env : ArmEnv) (r : Int) (size : OpSize) :
    NoFuelFault (LoadBaseIndexedClass env r size) ∧
    NoFuelFault (StoreBaseIndexedClass env r size) := by
  constructor
  · unfold LoadBaseIndexedClass
    apply NoFuelFault_ite
    · apply NoFuelFault_ite
      · apply NoFuelFault_bind _ _ (NoFuelFault_DCHECK _ _)
        intro _ _
        exact NoFuelFault_pure _
      · apply NoFuelFault_bind _ _ (NoFuelFault_DCHECK _ _)
        intro _ _
        apply NoFuelFault_bind _ _ (NoFuelFault_DCHECK _ _)
        intro _ _
        apply NoFuelFault_bind _ _ (NoFuelFault_DCHECK _ _)
        intro _ _
        exact NoFuelFault_pure _
    · exact NoFuelFault_pure _
  · unfold StoreBaseIndexedClass
    apply NoFuelFault_ite
    · apply NoFuelFault_ite
      · apply NoFuelFault_bind _ _ (NoFuelFault_DCHECK _ _)
        intro _ _
        exact NoFuelFault_pure _
      · apply NoFuelFault_bind _ _ (NoFuelFault_DCHECK _ _)
        intro _ _
        apply NoFuelFault_bind _ _ (NoFuelFault_DCHECK _ _)
        intro _ _
        apply NoFuelFault_bind _ _ (NoFuelFault_DCHECK _ _)
        intro _ _
        exact NoFuelFault_pure _
    · exact NoFuelFault_pure _

theorem NoFuelFault_LoadBaseIndexed (env : ArmEnv) (cu : CompilationUnit)
    (rBase r_index r_dest scale : Int) (size : OpSize) :
    NoFuelFault (LoadBaseIndexed env cu rBase r_index r_dest scale size) := by
  unfold LoadBaseIndexed
  apply NoFuelFault_bind _ _ (NoFuelFault_IndexedClass env r_dest size).1
  intro cls _
  obtain ⟨o, sz⟩ := cls
  cases sz <;> simp only <;> first
    | exact NoFuelFault_BaseIndexedFloat _ _ _ _ _ _ _
    | (intro h; cases h)
    | (split_ifs <;> exact NoFuelFault_pure _)

theorem NoFuelFault_StoreBaseIndexed (env : ArmEnv) (cu : CompilationUnit)
    (rBase r_index r_src scale : Int) (size : OpSize) :
    NoFuelFault (StoreBaseIndexed env cu rBase r_index r_src scale size) := by
  unfold StoreBaseIndexed
  apply NoFuelFault_bind _ _ (NoFuelFault_IndexedClass env r_src size).2
  intro cls _
  obtain ⟨o, sz⟩ := cls
  cases sz <;> simp only <;> first
    | exact NoFuelFault_BaseIndexedFloat _ _ _ _ _ _ _
    | (intro h; cases h)
    | (split_ifs <;> exact NoFuelFault_pure _)

theorem NoFuelFault_LoadBaseDispSwitch (env : ArmEnv) (rBase d r rh : Int) (size : OpSize) :
    NoFuelFault (LoadBaseDispSwitch env rBase d r rh size) := by
  unfold LoadBaseDispSwitch
  cases size <;> simp only <;>
  first
    | (split_ifs <;> first
        | exact NoFuelFault_pure _
        | (apply NoFuelFault_bind _ _ (NoFuelFault_DCHECK _ _)
           intro _ _
           exact NoFuelFault_pure _))
    | (apply NoFuelFault_bind
       · apply NoFuelFault_ite
         · apply NoFuelFault_bind _ _ (NoFuelFault_DCHECK _ _)
           intro _ _
           exact NoFuelFault_pure _
         · exact NoFuelFault_pure _
       · intro _ _
         split_ifs <;> exact NoFuelFault_pure _)

theorem NoFuelFault_StoreBaseDispSwitch (env : ArmEnv) (rBase d r rh : Int) (size : OpSize) :
    NoFuelFault (StoreBaseDispSwitch env rBase d r rh size) := by
  unfold StoreBaseDispSwitch
  cases size <;> simp only <;>
  first
    | (split_ifs <;> first
        | exact NoFuelFault_pure _
        | (apply NoFuelFault_bind _ _ (NoFuelFault_DCHECK _ _)
           intro _ _
           exact NoFuelFault_pure _))
    | (apply NoFuelFault_bind
       · apply NoFuelFault_ite
         · apply NoFuelFault_bind _ _ (NoFuelFault_DCHECK _ _)
           intro _ _
           exact NoFuelFault_pure _
         · exact NoFuelFault_pure _
       · intro _ _
         split_ifs <;> exact NoFuelFault_pure _)

theorem NoFuelFault_LoadBaseDispTail (env : ArmEnv) (fuel : Nat) (cu : CompilationUnit)
    (rBase d : Int) (size : OpSize) (f : DispForm) :
    NoFuelFault (LoadBaseDispTail env fuel cu rBase d size f) := by
  unfold LoadBaseDispTail
  apply NoFuelFault_bind
  · apply NoFuelFault_ite
    · exact NoFuelFault_pure _
    · apply NoFuelFault_bind _ _ (NoFuelFault_AllocTemp _)
      intro t _
      apply NoFuelFault_bind _ _ (NoFuelFault_LoadConstant _ _ _ _ _)
      intro c _
      apply NoFuelFault_bind _ _ (NoFuelFault_LoadBaseIndexed _ _ _ _ _ _ _)
      intro ld _
      exact NoFuelFault_pure _
  · intro l _
    split_ifs <;> exact NoFuelFault_pure _

theorem NoFuelFault_StoreBaseDispTail (env : ArmEnv) (fuel : Nat) (cu : CompilationUnit)
    (rBase d : Int) (size : OpSize) (f : DispForm) :
    NoFuelFault (StoreBaseDispTail env fuel cu rBase d size f) := by
  unfold StoreBaseDispTail
  apply NoFuelFault_ite
  · simp only
    split_ifs <;> exact NoFuelFault_pure _
  · apply NoFuelFault_bind _ _ (NoFuelFault_AllocTemp _)
    intro t _
    apply NoFuelFault_bind _ _ (NoFuelFault_LoadConstant _ _ _ _ _)
    intro c _
    apply NoFuelFault_bind _ _ (NoFuelFault_StoreBaseIndexed _ _ _ _ _ _ _)
    intro st _
    simp only
    split_ifs <;> exact NoFuelFault_pure _

/-- The calls `LoadBaseDispBody` makes to itself pass `kWord`; it is enough that
those do not stop. -/
theorem NoFuelFault_LoadBaseDispBodyWith (env : ArmEnv) (fuel : Nat)
    (self : CompilationUnit → Int → Int → Int → Int → OpSize →
      Except Fault (LIR × CompilationUnit))
    (hself : ∀ cu b d r rh, NoFuelFault (self cu b d r rh OpSize.kWord))
    (cu : CompilationUnit) (rBase d r rh : Int) (size : OpSize) :
    NoFuelFault (LoadBaseDispBodyWith env fuel self cu rBase d r rh size) := by
  unfold LoadBaseDispBodyWith
  split_ifs
  · apply NoFuelFault_bind _ _ (hself _ _ _ _ _)
    intro _ _
    apply NoFuelFault_bind _ _ (hself _ _ _ _ _)
    intro _ _
    exact NoFuelFault_pure _
  · apply NoFuelFault_bind _ _ (NoFuelFault_LoadBaseDispSwitch _ _ _ _ _ _)
    intro f _
    exact NoFuelFault_LoadBaseDispTail _ _ _ _ _ _ _

theorem NoFuelFault_LoadBaseDispBody (env : ArmEnv) (fuel : Nat) (cu : CompilationUnit)
    (rBase d r rh : Int) (size : OpSize) :
    NoFuelFault (LoadBaseDispBody env fuel cu rBase d r rh size) := by
  unfold LoadBaseDispBody
  apply NoFuelFault_LoadBaseDispBodyWith
  intro cu b d r rh
  unfold LoadBaseDispBodyWith
  rw [if_neg (by rintro ⟨h | h, _⟩ <;> cases h)]
  apply NoFuelFault_bind _ _ (NoFuelFault_LoadBaseDispSwitch _ _ _ _ _ _)
  intro f _
  exact NoFuelFault_LoadBaseDispTail _ _ _ _ _ _ _

theorem NoFuelFault_StoreBaseDispBodyWith (env : ArmEnv) (fuel : Nat)
    (self : CompilationUnit → Int → Int → Int → Int → OpSize →
      Except Fault (LIR × CompilationUnit))
    (hself : ∀ cu b d r rh, NoFuelFault (self cu b d r rh OpSize.kWord))
    (cu : CompilationUnit) (rBase d r rh : Int) (size : OpSize) :
    NoFuelFault (StoreBaseDispBodyWith env fuel self cu rBase d r rh size) := by
  unfold StoreBaseDispBodyWith
  split_ifs
  · apply NoFuelFault_bind _ _ (hself _ _ _ _ _)
    intro _ _
    apply NoFuelFault_bind _ _ (hself _ _ _ _ _)
    intro _ _
    exact NoFuelFault_pure _
  · apply NoFuelFault_bind _ _ (NoFuelFault_StoreBaseDispSwitch _ _ _ _ _ _)
    intro f _
    exact NoFuelFault_StoreBaseDispTail _ _ _ _ _ _ _

theorem NoFuelFault_StoreBaseDispBody (env : ArmEnv) (fuel : Nat) (cu : CompilationUnit)
    (rBase d r rh : Int) (size : OpSize) :
    NoFuelFault (StoreBaseDispBody env fuel cu rBase d r rh size) := by
  unfold StoreBaseDispBody
  apply NoFuelFault_StoreBaseDispBodyWith
  intro cu b d r rh
  unfold StoreBaseDispBodyWith
  rw [if_neg (by rintro ⟨h | h, _⟩ <;> cases h)]
  apply NoFuelFault_bind _ _ (NoFuelFault_StoreBaseDispSwitch _ _ _ _ _ _)
  intro f _
  exact NoFuelFault_StoreBaseDispTail _ _ _ _ _ _ _

/-! ## Opcode selection of the register-register form -/

theorem OpRegRegShift_opcode (env : ArmEnv) (cu : CompilationUnit) (op : OpKind)
    (a b shift : Int) (o : ArmOpcode)
    (h : OpRegRegShiftSwitch env cu op a b shift = Except.ok (Selected.opcode o))
    (res : LIR) (cu1 : CompilationUnit)
    (hr : OpRegRegShift env cu op a b shift = Except.ok (res, cu1)) : res.opcode = o := by
  unfold OpRegRegShift at hr
  rw [h] at hr
  simp only [bind, Except.bind, pure, Except.pure] at hr
  split_ifs at hr <;>
    (injection hr with hr; injection hr with h1 h2; rw [← h1]; rfl)

theorem regRegForms_switch (env : ArmEnv) (cu : CompilationUnit) (op : OpKind)
    (a b shift : Int) (c e : ArmOpcode) (hk : regRegForms op = some (c, e)) :
    (∀ sel, OpRegRegShiftSwitch env cu op a b shift = Except.ok sel →
      sel = Selected.opcode
        (if shift = 0 ∧ env.ARM_LOWREG a = true ∧ env.ARM_LOWREG b = true then c else e)) ∧
    ((shift = 0 ∨ env.kIsDebugBuild = false ∨ shiftAsserted op = false) →
      OpRegRegShiftSwitch env cu op a b shift = Except.ok (Selected.opcode
        (if shift = 0 ∧ env.ARM_LOWREG a = true ∧ env.ARM_LOWREG b = true then c else e))) := by
  have hif : ∀ x y : ArmOpcode,
      (if (decide (shift = 0) && env.ARM_LOWREG a && env.ARM_LOWREG b) = true then x else y) =
      (if shift = 0 ∧ env.ARM_LOWREG a = true ∧ env.ARM_LOWREG b = true then x else y) := by
    intro x y
    by_cases h0 : shift = 0 <;> cases env.ARM_LOWREG a <;> cases env.ARM_LOWREG b <;> simp [h0]
  cases op <;> first
    | (simp [regRegForms] at hk; done)
    | (have hk2 : _ = (c, e) := Option.some.inj hk
       have hc := congrArg Prod.fst hk2
       have he := congrArg Prod.snd hk2
       simp only at hc he
       subst hc; subst he
       simp only [OpRegRegShiftSwitch, shiftAsserted, hif, pure, Except.pure, bind, Except.bind,
         DCHECK]
       constructor
       · intro sel hs
         first
           | (injection hs with hs; exact hs.symm)
           | (split at hs
              · cases hs
              · injection hs with hs; exact hs.symm)
       · intro hc
         first
           | trivial
           | rfl
           | (rcases hc with hc | hc | hc
              · simp [hc]
              · simp [hc]
              · simp [shiftAsserted] at hc))

/-- In a build with assertions, a kind whose case opens with
`DCHECK_EQ(shift, 0)` and a non-zero shift: the assertion fails, no opcode is
selected and the call does not return. -/
theorem OpRegRegShift_asserted_shift (env : ArmEnv) (cu : CompilationUnit) (op : OpKind)
    (a b shift : Int) (hs : shift ≠ 0) (hd : env.kIsDebugBuild = true)
    (ha : shiftAsserted op = true) :
    OpRegRegShiftSwitch env cu op a b shift = Except.error Fault.dcheckFailed ∧
    OpRegRegShift env cu op a b shift = Except.error Fault.dcheckFailed := by
  have h1 : OpRegRegShiftSwitch env cu op a b shift = Except.error Fault.dcheckFailed := by
    cases op <;> first
      | (simp [shiftAsserted] at ha; done)
      | simp [OpRegRegShiftSwitch, DCHECK, bind, Except.bind, hd, hs]
  refine ⟨h1, ?_⟩
  unfold OpRegRegShift
  rw [h1]
  rfl

theorem LoadConstant_outcome (env : ArmEnv) (fuel : Nat) (cu : CompilationUnit) (r v : Int) :
    (∃ p, LoadConstant env fuel cu r v = Except.ok p) ∨
    (env.ARM_FPREG r = true ∧ LoadConstant env fuel cu r v = Except.error Fault.dcheckFailed) := by
  unfold LoadConstant
  cases hfp : env.ARM_FPREG r with
  | false => exact Or.inl ⟨_, LoadConstantNoClobber_core env fuel cu r v hfp⟩
  | true =>
    by_cases hs : env.kIsDebugBuild = true → env.ARM_SINGLEREG r = true
    · exact Or.inl ⟨_, LoadConstantNoClobber_fp env fuel cu r v hfp hs⟩
    · right
      refine ⟨rfl, ?_⟩
      rw [LoadConstantNoClobber_eq_body]
      unfold LoadConstantNoClobberBody
      rw [if_pos hfp]
      unfold LoadFPConstantValue DCHECK
      have h1 : env.kIsDebugBuild = true := by
        by_contra h; exact hs (fun h2 => absurd h2 h)
      have h2 : env.ARM_SINGLEREG r = false := by
        cases h : env.ARM_SINGLEREG r with
        | false => rfl
        | true => exact absurd (fun _ => h) hs
      simp [h1, h2, bind, Except.bind]

/-- The code after the `switch` of `OpRegRegImm` returns, or aborts for lack of
a free temporary register or on the register-class assertion of the constant
load. -/
theorem OpRegRegImmTail_outcome (env : ArmEnv) (fuel : Nat) (cu : CompilationUnit)
    (opcode alt : ArmOpcode) (mod_imm a b value : Int) :
    (∃ p, OpRegRegImmTail env (LoadConstant env fuel) cu opcode alt mod_imm a b value
      = Except.ok p) ∨
    (cu.free_temps = [] ∧ OpRegRegImmTail env (LoadConstant env fuel) cu opcode alt mod_imm a b
      value = Except.error Fault.noFreeTemp) ∨
    ((∃ t rest, cu.free_temps = t :: rest ∧ env.ARM_FPREG t = true) ∧
      OpRegRegImmTail env (LoadConstant env fuel) cu opcode alt mod_imm a b value
      = Except.error Fault.dcheckFailed) := by
  unfold OpRegRegImmTail
  by_cases hm : mod_imm ≥ 0
  · rw [if_pos hm]; exact Or.inl ⟨_, rfl⟩
  · rw [if_neg hm]
    unfold AllocTemp
    cases hf : cu.free_temps with
    | nil => right; left; exact ⟨rfl, rfl⟩
    | cons t rest =>
      simp only [bind, Except.bind]
      rcases LoadConstant_outcome env fuel
        { cu with free_temps := rest, temp_trace := cu.temp_trace ++ [TempEvent.acquire t] }
        t value with ⟨p, hp⟩ | ⟨hfp, he⟩
      · rw [hp]; exact Or.inl ⟨_, rfl⟩
      · rw [he]; exact Or.inr (Or.inr ⟨⟨t, rest, rfl, hfp⟩, rfl⟩)

theorem OpRegRegImmAddSub_outcome (env : ArmEnv) (fuel : Nat) (cu : CompilationUnit)
    (op : OpKind) (a b value : Int) :
    (∃ p, OpRegRegImmAddSub env (LoadConstant env fuel) cu op a b value = Except.ok p) ∨
    (cu.free_temps = [] ∧ OpRegRegImmAddSub env (LoadConstant env fuel) cu op a b value
      = Except.error Fault.noFreeTemp) ∨
    ((∃ t rest, cu.free_temps = t :: rest ∧ env.ARM_FPREG t = true) ∧
      OpRegRegImmAddSub env (LoadConstant env fuel) cu op a b value
      = Except.error Fault.dcheckFailed) ∨
    (value = -2147483648 ∧
      OpRegRegImmAddSub env (LoadConstant env fuel) cu op a b value
      = Except.error Fault.signedOverflow) := by
  have lift : ∀ (x : Except Fault (LIR × CompilationUnit)),
      ((∃ p, x = Except.ok p) ∨ (cu.free_temps = [] ∧ x = Except.error Fault.noFreeTemp) ∨
        ((∃ t rest, cu.free_temps = t :: rest ∧ env.ARM_FPREG t = true) ∧
          x = Except.error Fault.dcheckFailed)) →
      ((∃ p, x = Except.ok p) ∨ (cu.free_temps = [] ∧ x = Except.error Fault.noFreeTemp) ∨
        ((∃ t rest, cu.free_temps = t :: rest ∧ env.ARM_FPREG t = true) ∧
          x = Except.error Fault.dcheckFailed) ∨
        (value = -2147483648 ∧ x = Except.error Fault.signedOverflow)) := by
    intro x h
    rcases h with h | h | h
    · exact Or.inl h
    · exact Or.inr (Or.inl h)
    · exact Or.inr (Or.inr (Or.inl h))
  unfold OpRegRegImmAddSub
  simp only
  by_cases hmin : value = -2147483648
  · rw [if_pos hmin]
    exact Or.inr (Or.inr (Or.inr ⟨hmin, rfl⟩))
  · rw [if_neg hmin]
    split_ifs <;> first
      | exact Or.inl ⟨_, rfl⟩
      | exact lift _ (OpRegRegImmTail_outcome env fuel cu _ _ _ a b value)

/-- An unshifted register-register compare returns, or aborts on a registry
entry without an operand count. -/
theorem OpRegReg_cmp_outcome (env : ArmEnv) (cu : CompilationUnit) (a b : Int) :
    (∃ p, OpRegReg env cu OpKind.kOpCmp a b = Except.ok p) ∨
    (hasOperandCount (env.EncodingMap (cmpVariant (env.ARM_LOWREG a) (env.ARM_LOWREG b))) = false ∧
      OpRegReg env cu OpKind.kOpCmp a b = Except.error Fault.unexpectedOperandCount) := by
  have h2 : OpRegRegShiftSwitch env cu OpKind.kOpCmp a b 0
      = Except.ok (Selected.opcode (cmpVariant (env.ARM_LOWREG a) (env.ARM_LOWREG b))) := by
    simp only [OpRegRegShiftSwitch, pure, Except.pure, cmpVariant]
    cases env.ARM_LOWREG a <;> cases env.ARM_LOWREG b <;> simp
  unfold OpRegReg OpRegRegShift
  rw [h2]
  simp only [bind, Except.bind, hasOperandCount, pure, Except.pure]
  generalize env.EncodingMap (cmpVariant (env.ARM_LOWREG a) (env.ARM_LOWREG b)) = m
  cases m.IS_BINARY_OP <;> cases m.IS_TERTIARY_OP <;> cases m.IS_QUAD_OP <;>
    cases m.field2_kFmtShift <;> simp

theorem OpRegRegImm_outcome (env : ArmEnv) (fuel : Nat) (cu : CompilationUnit) (op : OpKind)
    (r_dest r_src1 value : Int) (hop : op ∈ regRegImmKinds) :
    (∃ p, OpRegRegImm env fuel cu op r_dest r_src1 value = Except.ok p) ∨
    (cu.free_temps = [] ∧
      OpRegRegImm env fuel cu op r_dest r_src1 value = Except.error Fault.noFreeTemp) ∨
    ((∃ t rest, cu.free_temps = t :: rest ∧ env.ARM_FPREG t = true) ∧
      OpRegRegImm env fuel cu op r_dest r_src1 value = Except.error Fault.dcheckFailed) ∨
    (op = OpKind.kOpCmp ∧
      (∃ x y, hasOperandCount (env.EncodingMap (cmpVariant x y)) = false) ∧
      OpRegRegImm env fuel cu op r_dest r_src1 value
        = Except.error Fault.unexpectedOperandCount) ∨
    ((op = OpKind.kOpAdd ∨ op = OpKind.kOpSub) ∧ value = -2147483648 ∧
      OpRegRegImm env fuel cu op r_dest r_src1 value
        = Except.error Fault.signedOverflow) := by
  have lift : ∀ (x : Except Fault (LIR × CompilationUnit)) (P Q : Prop),
      ((∃ p, x = Except.ok p) ∨ (cu.free_temps = [] ∧ x = Except.error Fault.noFreeTemp) ∨
        ((∃ t rest, cu.free_temps = t :: rest ∧ env.ARM_FPREG t = true) ∧
          x = Except.error Fault.dcheckFailed)) →
      ((∃ p, x = Except.ok p) ∨ (cu.free_temps = [] ∧ x = Except.error Fault.noFreeTemp) ∨
        ((∃ t rest, cu.free_temps = t :: rest ∧ env.ARM_FPREG t = true) ∧
          x = Except.error Fault.dcheckFailed) ∨
        (P ∧ (∃ x y, hasOperandCount (env.EncodingMap (cmpVariant x y)) = false) ∧
          x = Except.error Fault.unexpectedOperandCount) ∨
        (Q ∧ value = -2147483648 ∧ x = Except.error Fault.signedOverflow)) := by
    intro x P Q h
    rcases h with h | h | h
    · exact Or.inl h
    · exact Or.inr (Or.inl h)
    · exact Or.inr (Or.inr (Or.inl h))
  have liftA : ∀ (x : Except Fault (LIR × CompilationUnit)) (P Q : Prop), Q →
      ((∃ p, x = Except.ok p) ∨ (cu.free_temps = [] ∧ x = Except.error Fault.noFreeTemp) ∨
        ((∃ t rest, cu.free_temps = t :: rest ∧ env.ARM_FPREG t = true) ∧
          x = Except.error Fault.dcheckFailed) ∨
        (value = -2147483648 ∧ x = Except.error Fault.signedOverflow)) →
      ((∃ p, x = Except.ok p) ∨ (cu.free_temps = [] ∧ x = Except.error Fault.noFreeTemp) ∨
        ((∃ t rest, cu.free_temps = t :: rest ∧ env.ARM_FPREG t = true) ∧
          x = Except.error Fault.dcheckFailed) ∨
        (P ∧ (∃ x y, hasOperandCount (env.EncodingMap (cmpVariant x y)) = false) ∧
          x = Except.error Fault.unexpectedOperandCount) ∨
        (Q ∧ value = -2147483648 ∧ x = Except.error Fault.signedOverflow)) := by
    intro x P Q hq h
    rcases h with h | h | h | h
    · exact Or.inl h
    · exact Or.inr (Or.inl h)
    · exact Or.inr (Or.inr (Or.inl h))
    · exact Or.inr (Or.inr (Or.inr (Or.inr ⟨hq, h⟩)))
  unfold OpRegRegImm
  cases op <;> simp only [regRegImmKinds, List.mem_cons, List.mem_singleton, reduceCtorEq,
    or_self, or_false, false_or, List.not_mem_nil] at hop <;>
    simp only [OpRegRegImmWith] <;>
    first
    | exact lift _ _ _ (OpRegRegImmTail_outcome env fuel cu _ _ _ r_dest r_src1 value)
    | exact liftA _ _ _ (by simp)
        (OpRegRegImmAddSub_outcome env fuel cu _ r_dest r_src1 value)
    | exact Or.inl ⟨_, rfl⟩
    | (split_ifs <;> first
        | exact Or.inl ⟨_, rfl⟩
        | exact liftA _ _ _ (by simp)
            (OpRegRegImmAddSub_outcome env fuel cu _ r_dest r_src1 value))
    | skip
  -- compare
  by_cases hm : ModifiedImmediate (toU32 value) ≥ 0
  · rw [if_pos hm]; exact Or.inl ⟨_, rfl⟩
  · rw [if_neg hm]
    unfold AllocTemp
    cases hf : cu.free_temps with
    | nil => right; left; exact ⟨rfl, rfl⟩
    | cons t rest =>
      simp only [bind, Except.bind]
      rcases LoadConstant_outcome env fuel
        { cu with free_temps := rest, temp_trace := cu.temp_trace ++ [TempEvent.acquire t] }
        t value with ⟨p, hp⟩ | ⟨hfp, he⟩
      · rw [hp]
        simp only
        rcases OpRegReg_cmp_outcome env p.2 r_src1 t with ⟨q, hq⟩ | ⟨hn, hq⟩
        · rw [hq]; exact Or.inl ⟨_, rfl⟩
        · rw [hq]; exact Or.inr (Or.inr (Or.inr (Or.inl ⟨trivial, ⟨_, _, hn⟩, rfl⟩)))
      · rw [he]; exact Or.inr (Or.inr (Or.inl ⟨⟨t, rest, rfl, hfp⟩, rfl⟩))

theorem andI_low_mask (value : Int) (k : Nat) (hk : k ≤ 16) :
    andI value (2 ^ k - 1) = value ↔ 0 ≤ value ∧ value < 2 ^ k := by
  unfold andI
  have hp : (2 : Int) ^ k = ((2 ^ k : Nat) : Int) := by push_cast; rfl
  have hle : 2 ^ k ≤ 2 ^ 16 := Nat.pow_le_pow_right (by norm_num) hk
  have hpos : 0 < 2 ^ k := Nat.pow_pos (by norm_num)
  have e : toU32 (2 ^ k - 1) = 2 ^ k - 1 := by
    unfold toU32
    rw [hp]
    norm_num at hle
    omega
  rw [e, Nat.and_pow_two_sub_one_eq_mod]
  have hlt : toU32 value % 2 ^ k < 2 ^ k := Nat.mod_lt _ hpos
  have hs : toS32 (toU32 value % 2 ^ k) = ((toU32 value % 2 ^ k : Nat) : Int) := by
    unfold toS32
    norm_num at hle
    have : toU32 value % 2 ^ k % 4294967296 = toU32 value % 2 ^ k := by omega
    rw [this, if_pos (by omega)]
  rw [hs, hp]
  constructor
  · intro h
    omega
  · rintro ⟨h1, h2⟩
    have : toU32 value = value.toNat := by
      unfold toU32
      congr 1
      norm_num at hle
      omega
    rw [this, Nat.mod_eq_of_lt (by omega)]
    omega

theorem andI_7 (value : Int) : andI value 0x7 = value ↔ 0 ≤ value ∧ value ≤ 7 := by
  have := andI_low_mask value 3 (by norm_num)
  norm_num at this
  rw [this]
  omega

theorem andI_ff (value : Int) : andI value 0xff = value ↔ 0 ≤ value ∧ value ≤ 255 := by
  have := andI_low_mask value 8 (by norm_num)
  norm_num at this
  rw [this]
  omega

theorem toU32_modEq (x : Int) : Int.ModEq (2 ^ 32) ((toU32 x : Nat) : Int) x := by
  unfold Int.ModEq toU32
  norm_num
  omega

/-- When the code after the `switch` materializes the value, the record
returned carries the register-form opcode. -/
theorem OpRegRegImmTail_materialized (env : ArmEnv)
    (lc : CompilationUnit → Int → Int → Except Fault (LIR × CompilationUnit))
    (cu cu1 : CompilationUnit) (opcode alt : ArmOpcode) (mod_imm a b value : Int) (res : LIR)
    (hm : ¬ mod_imm ≥ 0)
    (h : OpRegRegImmTail env lc cu opcode alt mod_imm a b value = Except.ok (res, cu1)) :
    res.opcode = alt := by
  unfold OpRegRegImmTail at h
  rw [if_neg hm, bind_ok_iff] at h
  obtain ⟨⟨r, c0⟩, _, h⟩ := h
  rw [bind_ok_iff] at h
  obtain ⟨⟨cl, c1⟩, _, h⟩ := h
  simp only [pure, Except.pure, Except.ok.injEq, Prod.mk.injEq] at h
  obtain ⟨h, _⟩ := h
  rw [← h]
  split_ifs <;> rfl

/-- Requested effect of an add or subtract of `value`. -/
theorem OpRegRegImmAddSub_forms (env : ArmEnv)
    (lc : CompilationUnit → Int → Int → Except Fault (LIR × CompilationUnit))
    (cu : CompilationUnit) (op : OpKind) (r_dest r_src1 value : Int)
    (hop : op = OpKind.kOpAdd ∨ op = OpKind.kOpSub)
    (h1 : -2147483648 < value) (h2 : value < 2147483648) :
    (((-255 ≤ value ∧ value ≤ 255) ∨ 0 ≤ ModifiedImmediate (toU32 (-value)) ∨
        0 ≤ ModifiedImmediate (toU32 value)) ∧
      ∃ opc imm eff, OpRegRegImmAddSub env lc cu op r_dest r_src1 value
          = Except.ok (NewLIR3 cu opc r_dest r_src1 imm) ∧
        0 ≤ imm ∧ imm ≤ addSubImmBound opc ∧ addSubImmEffect opc imm = some eff ∧
        Int.ModEq (2 ^ 32) eff (if op = OpKind.kOpAdd then value else -value)) ∨
    (¬ ((-255 ≤ value ∧ value ≤ 255) ∨ 0 ≤ ModifiedImmediate (toU32 (-value)) ∨
        0 ≤ ModifiedImmediate (toU32 value)) ∧
      ∀ res cu1, OpRegRegImmAddSub env lc cu op r_dest r_src1 value = Except.ok (res, cu1) →
        res.opcode = ArmOpcode.kThumb2SubRRR ∨ res.opcode = ArmOpcode.kThumb2AddRRR) := by
  have habs : ∀ k : Int, 0 ≤ k → k ≤ 255 →
      ((0 ≤ (if decide (value < 0) = true then -value else value) ∧
        (if decide (value < 0) = true then -value else value) ≤ k) ↔
       (-k ≤ value ∧ value ≤ k)) := by
    intro k hk0 hk
    by_cases hn : value < 0
    · simp only [hn, decide_True, if_true]
      omega
    · simp only [hn, decide_False, Bool.false_eq_true, if_false]; omega
  have hval : ∀ k : Int, 0 ≤ k → k ≤ 255 →
      (0 ≤ (if decide (value < 0) = true then -value else value) ∧
        (if decide (value < 0) = true then -value else value) ≤ k) →
      (if decide (value < 0) = true then -value else value)
        = (if value < 0 then -value else value) := by
    intro k hk0 hk h
    have := (habs k hk0 hk).mp h
    by_cases hn : value < 0
    · simp only [hn, decide_True, if_true]
    · simp only [hn, decide_False, Bool.false_eq_true, if_false]
  have hkind : ∀ (o1 o2 : ArmOpcode) (x : Int),
      addSubImmEffect o1 x = some x → addSubImmEffect o2 x = some (-x) →
      addSubImmBound o1 = addSubImmBound o2 →
      (0 ≤ (if decide (value < 0) = true then -value else value) ∧
        (if decide (value < 0) = true then -value else value) ≤ addSubImmBound o1) →
      addSubImmBound o1 ≤ 255 →
      x = (if decide (value < 0) = true then -value else value) →
      ∃ eff, addSubImmEffect (if op = OpKind.kOpAdd then
            (if decide (value < 0) = true then o2 else o1)
          else (if decide (value < 0) = true then o1 else o2)) x = some eff ∧
        x ≤ addSubImmBound (if op = OpKind.kOpAdd then
            (if decide (value < 0) = true then o2 else o1)
          else (if decide (value < 0) = true then o1 else o2)) ∧
        Int.ModEq (2 ^ 32) eff (if op = OpKind.kOpAdd then value else -value) := by
    intro o1 o2 x e1 e2 eb hb hk hx
    have hv := hval (addSubImmBound o1) (le_trans hb.1 hb.2) hk hb
    rw [← hx] at hv hb
    rcases hop with rfl | rfl <;> by_cases hn : value < 0 <;>
      simp only [hn, decide_True, decide_False, if_true, if_false, Bool.false_eq_true,
        reduceCtorEq] at hv ⊢
    · exact ⟨_, e2, eb ▸ hb.2, by rw [hv]; simp [Int.ModEq]⟩
    · exact ⟨_, e1, hb.2, by rw [hv]⟩
    · exact ⟨_, e1, hb.2, by rw [hv]⟩
    · exact ⟨_, e2, eb ▸ hb.2, by rw [hv]⟩
  have hmin : ¬ value = -2147483648 := by omega
  unfold OpRegRegImmAddSub
  simp only
  rw [if_neg hmin]
  by_cases c3 : (env.ARM_LOWREG r_dest && env.ARM_LOWREG r_src1) = true ∧
      andI (if decide (value < 0) = true then -value else value) 0x7
        = (if decide (value < 0) = true then -value else value)
  · rw [if_pos c3]
    have hb := (andI_7 _).mp c3.2
    have hr := (habs 7 (by norm_num) (by norm_num)).mp hb
    left
    obtain ⟨eff, he, hbd, hm⟩ := hkind ArmOpcode.kThumbAddRRI3 ArmOpcode.kThumbSubRRI3 _ rfl rfl
      rfl hb (by decide) rfl
    exact ⟨Or.inl (by omega), _, _, eff, rfl, hb.1, hbd, he, hm⟩
  · rw [if_neg c3]
    by_cases c8 : andI (if decide (value < 0) = true then -value else value) 0xff
        = (if decide (value < 0) = true then -value else value)
    · rw [if_pos c8]
      have hb := (andI_ff _).mp c8
      have hr := (habs 255 (by norm_num) (by norm_num)).mp hb
      left
      obtain ⟨eff, he, hbd, hm⟩ := hkind ArmOpcode.kThumb2AddRRI12 ArmOpcode.kThumb2SubRRI12 _
        rfl rfl rfl hb (by decide) rfl
      exact ⟨Or.inl hr, _, _, eff, rfl, hb.1, hbd, he, hm⟩
    · rw [if_neg c8]
      have hnot : ¬ (-255 ≤ value ∧ value ≤ 255) := by
        intro h
        exact c8 ((andI_ff _).mpr ((habs 255 (by norm_num) (by norm_num)).mpr h))
      have hfield : ∀ u, u < 2 ^ 32 → ModifiedImmediate u ≤ 4095 := by
        intro u hu
        rcases ModifiedImmediate_result u hu with h | ⟨f, hf, hlt, _⟩
        · rw [h]; norm_num
        · rw [hf]; omega
      by_cases cn : ModifiedImmediate (toU32 (-value)) ≥ 0
      · left
        refine ⟨Or.inr (Or.inl cn), ?_⟩
        have hd := ModifiedImmediate_decode _ (toU32_lt (-value)) cn
        have hme : Int.ModEq (2 ^ 32) ((toU32 (-value) : Nat) : Int) (-value) := by
          exact toU32_modEq _
        simp only [cn, if_true]
        rcases hop with rfl | rfl
        · simp only [if_true, OpRegRegImmTail, cn, pure, Except.pure]
          refine ⟨_, _, _, rfl, cn, hfield _ (toU32_lt _), rfl, ?_⟩
          rw [hd]
          have := hme.neg
          simpa using this
        · simp only [reduceCtorEq, if_false, OpRegRegImmTail, cn, if_true, pure, Except.pure]
          refine ⟨_, _, _, rfl, cn, hfield _ (toU32_lt _), rfl, ?_⟩
          rw [hd]
          exact hme
      · simp only [cn, if_false]
        by_cases cp : ModifiedImmediate (toU32 value) ≥ 0
        · left
          refine ⟨Or.inr (Or.inr cp), ?_⟩
          have hd := ModifiedImmediate_decode _ (toU32_lt value) cp
          have hme := toU32_modEq value
          rcases hop with rfl | rfl
          · simp only [reduceCtorEq, if_false, OpRegRegImmTail, cp, if_true, pure, Except.pure]
            refine ⟨_, _, _, rfl, cp, hfield _ (toU32_lt _), rfl, ?_⟩
            rw [hd]
            exact hme
          · simp only [if_true, OpRegRegImmTail, cp, pure, Except.pure]
            refine ⟨_, _, _, rfl, cp, hfield _ (toU32_lt _), rfl, ?_⟩
            rw [hd]
            exact hme.neg
        · right
          refine ⟨by
            rintro (h | h | h)
            · exact hnot h
            · exact h.elim
            · exact cp h, ?_⟩
          intro res cu1 h
          split_ifs at h
          · exact Or.inl (OpRegRegImmTail_materialized env lc cu cu1 _ _ _ _ _ _ res cp h)
          · exact Or.inr (OpRegRegImmTail_materialized env lc cu cu1 _ _ _ _ _ _ res cp h)

/-! ## Growth of the instruction stream -/

theorem Emits_same (cu cu1 : CompilationUnit) (h1 : cu1.code = cu.code)
    (h2 : cu1.next_id = cu.next_id) : Emits cu [] cu1 :=
  ⟨by rw [h1, List.append_nil], by rw [h2], fun _ h => absurd h (List.not_mem_nil _)⟩

theorem Emits_trans {a b c : CompilationUnit} {n1 n2 : List LIR} (h1 : Emits a n1 b)
    (h2 : Emits b n2 c) : Emits a (n1 ++ n2) c := by
  obtain ⟨a1, a2, a3⟩ := h1
  obtain ⟨b1, b2, b3⟩ := h2
  refine ⟨by rw [b1, a1, List.append_assoc], le_trans a2 b2, ?_⟩
  intro l hl
  rcases List.mem_append.mp hl with h | h
  · exact ⟨(a3 l h).1, lt_of_lt_of_le (a3 l h).2 b2⟩
  · exact ⟨le_trans a2 (b3 l h).1, (b3 l h).2⟩

theorem Emits_congr {a b c : CompilationUnit} {n : List LIR} (h : Emits a n b)
    (h1 : c.code = b.code) (h2 : c.next_id = b.next_id) : Emits a n c := by
  obtain ⟨a1, a2, a3⟩ := h
  exact ⟨by rw [h1, a1], by rw [h2]; exact a2, fun l hl => by rw [h2]; exact a3 l hl⟩

theorem Emits_from {a b c : CompilationUnit} {n : List LIR} (h : Emits b n c)
    (h1 : b.code = a.code) (h2 : b.next_id = a.next_id) : Emits a n c := by
  obtain ⟨a1, a2, a3⟩ := h
  exact ⟨by rw [a1, h1], by rw [← h2]; exact a2, fun l hl => by rw [← h2]; exact a3 l hl⟩

theorem IdsBelow_of_Emits {cu cu1 : CompilationUnit} {new : List LIR} (hw : IdsBelow cu)
    (h : Emits cu new cu1) : IdsBelow cu1 := by
  obtain ⟨a1, a2, a3⟩ := h
  intro l hl
  rw [a1] at hl
  rcases List.mem_append.mp hl with h | h
  · exact lt_of_lt_of_le (hw l h) a2
  · exact (a3 l h).2

theorem Emits_NewLIR1 (cu : CompilationUnit) (o : ArmOpcode) (a : Int) :
    Emits cu [(NewLIR1 cu o a).1] (NewLIR1 cu o a).2 :=
  ⟨rfl, Nat.le_succ _, fun l hl => by
    rw [List.mem_singleton] at hl; subst hl; exact ⟨Nat.le_refl _, Nat.lt_succ_self _⟩⟩

theorem Emits_NewLIR2 (cu : CompilationUnit) (o : ArmOpcode) (a b : Int) :
    Emits cu [(NewLIR2 cu o a b).1] (NewLIR2 cu o a b).2 :=
  ⟨rfl, Nat.le_succ _, fun l hl => by
    rw [List.mem_singleton] at hl; subst hl; exact ⟨Nat.le_refl _, Nat.lt_succ_self _⟩⟩

theorem Emits_NewLIR3 (cu : CompilationUnit) (o : ArmOpcode) (a b c : Int) :
    Emits cu [(NewLIR3 cu o a b c).1] (NewLIR3 cu o a b c).2 :=
  ⟨rfl, Nat.le_succ _, fun l hl => by
    rw [List.mem_singleton] at hl; subst hl; exact ⟨Nat.le_refl _, Nat.lt_succ_self _⟩⟩

theorem Emits_NewLIR4 (cu : CompilationUnit) (o : ArmOpcode) (a b c d : Int) :
    Emits cu [(NewLIR4 cu o a b c d).1] (NewLIR4 cu o a b c d).2 :=
  ⟨rfl, Nat.le_succ _, fun l hl => by
    rw [List.mem_singleton] at hl; subst hl; exact ⟨Nat.le_refl _, Nat.lt_succ_self _⟩⟩

theorem poolEntry_next_id (cu : CompilationUnit) (value : Int) :
    (poolEntry cu value).2.next_id = cu.next_id ∧
    (poolEntry cu value).2.code = cu.code := by
  unfold poolEntry
  split <;> exact ⟨rfl, rfl⟩

theorem Emits_poolLoad (cu : CompilationUnit) (r v : Int) :
    Emits cu [(poolLoad cu r v).1] (poolLoad cu r v).2 := by
  obtain ⟨h1, h2⟩ := poolEntry_next_id cu v
  refine ⟨?_, ?_, ?_⟩
  · show (poolEntry cu v).2.code ++ _ = _
    rw [h2]; rfl
  · show cu.next_id ≤ (poolEntry cu v).2.next_id + 1
    rw [h1]; exact Nat.le_succ _
  · intro l hl
    rw [List.mem_singleton] at hl; subst hl
    show cu.next_id ≤ (poolEntry cu v).2.next_id ∧
      (poolEntry cu v).2.next_id < (poolEntry cu v).2.next_id + 1
    rw [h1]; exact ⟨Nat.le_refl _, Nat.lt_succ_self _⟩

theorem Emits_poolLoadFP (env : ArmEnv) (cu : CompilationUnit) (r v : Int) :
    Emits cu [(poolLoadFP env cu r v).1] (poolLoadFP env cu r v).2 := by
  obtain ⟨h1, h2⟩ := poolEntry_next_id cu v
  refine ⟨?_, ?_, ?_⟩
  · show (poolEntry cu v).2.code ++ _ = _
    rw [h2]; rfl
  · show cu.next_id ≤ (poolEntry cu v).2.next_id + 1
    rw [h1]; exact Nat.le_succ _
  · intro l hl
    rw [List.mem_singleton] at hl; subst hl
    show cu.next_id ≤ (poolEntry cu v).2.next_id ∧
      (poolEntry cu v).2.next_id < (poolEntry cu v).2.next_id + 1
    rw [h1]; exact ⟨Nat.le_refl _, Nat.lt_succ_self _⟩

/-- The constant materializer emits the record it returns and nothing else, and
leaves it without a frame annotation. -/
theorem LoadConstantNoClobber_emits (env : ArmEnv) (fuel : Nat) (cu cu1 : CompilationUnit)
    (r value : Int) (res : LIR)
    (h : LoadConstantNoClobber env fuel cu r value = Except.ok (res, cu1)) :
    Emits cu [res] cu1 := by
  cases hfp : env.ARM_FPREG r with
  | false =>
    rw [LoadConstantNoClobber_core env fuel cu r value hfp] at h
    simp only [Except.ok.injEq] at h
    split_ifs at h <;> (cases h; first
      | exact Emits_NewLIR2 _ _ _ _
      | exact Emits_poolLoad _ _ _)
  | true =>
    rw [LoadConstantNoClobber_eq_body] at h
    unfold LoadConstantNoClobberBody at h
    rw [if_pos hfp] at h
    rcases DCHECK_cases env (env.ARM_SINGLEREG r) with hd | hd
    · have e : LoadFPConstantValue env cu r value = Except.ok (
          if 0 ≤ EncodeImmSingle value then
            NewLIR2 cu ArmOpcode.kThumb2Vmovs_IMM8 r (EncodeImmSingle value)
          else poolLoadFP env cu r value) := by
        unfold LoadFPConstantValue poolLoadFP
        simp only [hd, bind, Except.bind, ge_iff_le, pure, Except.pure]
        split_ifs <;> rfl
      rw [e] at h
      simp only [Except.ok.injEq] at h
      split_ifs at h <;> (cases h; first
        | exact Emits_NewLIR2 _ _ _ _
        | exact Emits_poolLoadFP _ _ _ _)
    · unfold LoadFPConstantValue at h
      simp only [hd, bind, Except.bind] at h
      cases h

theorem OpRegRegRegShift_emits (env : ArmEnv) (cu cu1 : CompilationUnit) (op : OpKind)
    (a b c shift : Int) (res : LIR)
    (h : OpRegRegRegShift env cu op a b c shift = Except.ok (res, cu1)) :
    Emits cu [res] cu1 := by
  unfold OpRegRegRegShift at h
  rw [bind_ok_iff] at h
  obtain ⟨o, _, h⟩ := h
  split_ifs at h
  · simp only [pure, Except.pure, Except.ok.injEq] at h
    have e1 := congrArg Prod.fst h
    have e2 := congrArg Prod.snd h
    simp only at e1 e2
    rw [← e1, ← e2]
    exact Emits_NewLIR4 _ _ _ _ _ _
  · rw [bind_ok_iff] at h
    obtain ⟨_, _, h⟩ := h
    simp only [pure, Except.pure, Except.ok.injEq] at h
    have e1 := congrArg Prod.fst h
    have e2 := congrArg Prod.snd h
    simp only at e1 e2
    rw [← e1, ← e2]
    exact Emits_NewLIR3 _ _ _ _ _

theorem AllocTemp_stream (cu c0 : CompilationUnit) (r : Int)
    (h : AllocTemp cu = Except.ok (r, c0)) : c0.code = cu.code ∧ c0.next_id = cu.next_id := by
  unfold AllocTemp at h
  split at h
  · cases h
  · simp only [Except.ok.injEq, Prod.mk.injEq] at h
    rw [← h.2]; exact ⟨rfl, rfl⟩

theorem BaseIndexedFloat_emits (env : ArmEnv) (cu cu1 : CompilationUnit) (opcode : ArmOpcode)
    (rBase r_index r_reg scale : Int) (res : LIR)
    (h : BaseIndexedFloat env cu opcode rBase r_index r_reg scale = Except.ok (res, cu1)) :
    ∃ pre, Emits cu (pre ++ [res]) cu1 := by
  unfold BaseIndexedFloat at h
  rw [bind_ok_iff] at h
  obtain ⟨⟨r, c0⟩, ha, h⟩ := h
  rw [bind_ok_iff] at h
  obtain ⟨⟨al, c1⟩, hadd, h⟩ := h
  simp only [pure, Except.pure, Except.ok.injEq, Prod.mk.injEq] at h
  obtain ⟨hr, h⟩ := h
  obtain ⟨s1, s2⟩ := AllocTemp_stream cu c0 r ha
  have hs : Emits c0 [al] c1 := by
    split_ifs at hadd
    · simp only [pure, Except.pure, Except.ok.injEq] at hadd
      have e1 := congrArg Prod.fst hadd
      have e2 := congrArg Prod.snd hadd
      simp only at e1 e2
      rw [← e1, ← e2]
      exact Emits_NewLIR4 _ _ _ _ _ _
    · exact OpRegRegRegShift_emits env _ _ _ _ _ _ _ _ hadd
  refine ⟨[al], ?_⟩
  rw [← hr, ← h]
  exact Emits_congr (Emits_trans (Emits_from hs s1 s2) (Emits_NewLIR3 c1 opcode r_reg r 0))
    rfl rfl

theorem emit_emits (cu cu1 : CompilationUnit) (c : Bool) (o : ArmOpcode)
    (a b x s : Int) (res : LIR)
    (h : (if c = true then (pure (NewLIR3 cu o a b x) : Except Fault (LIR × CompilationUnit))
      else pure (NewLIR4 cu o a b x s)) = Except.ok (res, cu1)) :
    ∃ pre, Emits cu (pre ++ [res]) cu1 := by
  refine ⟨[], ?_⟩
  split_ifs at h <;>
  · simp only [pure, Except.pure, Except.ok.injEq] at h
    have e1 := congrArg Prod.fst h
    have e2 := congrArg Prod.snd h
    simp only at e1 e2
    rw [← e1, ← e2]
    first
      | exact Emits_NewLIR3 _ _ _ _ _
      | exact Emits_NewLIR4 _ _ _ _ _ _

theorem LoadBaseIndexed_emits (env : ArmEnv) (cu cu1 : CompilationUnit)
    (rBase r_index r_dest scale : Int) (size : OpSize) (res : LIR)
    (h : LoadBaseIndexed env cu rBase r_index r_dest scale size = Except.ok (res, cu1)) :
    ∃ pre, Emits cu (pre ++ [res]) cu1 := by
  unfold LoadBaseIndexed at h
  rw [bind_ok_iff] at h
  obtain ⟨⟨o, sz⟩, _, h⟩ := h
  cases sz <;> simp only at h <;> first
    | cases h
    | exact BaseIndexedFloat_emits env _ _ _ _ _ _ _ _ h
    | exact emit_emits _ _ _ _ _ _ _ _ _ h

theorem StoreBaseIndexed_emits (env : ArmEnv) (cu cu1 : CompilationUnit)
    (rBase r_index r_src scale : Int) (size : OpSize) (res : LIR)
    (h : StoreBaseIndexed env cu rBase r_index r_src scale size = Except.ok (res, cu1)) :
    ∃ pre, Emits cu (pre ++ [res]) cu1 := by
  unfold StoreBaseIndexed at h
  rw [bind_ok_iff] at h
  obtain ⟨⟨o, sz⟩, _, h⟩ := h
  cases sz <;> simp only at h <;> first
    | cases h
    | exact BaseIndexedFloat_emits env _ _ _ _ _ _ _ _ h
    | exact emit_emits _ _ _ _ _ _ _ _ _ h

/-- Tagging the record that was emitted last leaves the earlier stream alone:
the records it had before the call were allocated earlier and are not the
tagged one. -/
theorem Annotate_emits (cu c : CompilationUnit) (pre : List LIR) (l : LIR) (x : Int)
    (a b : Bool) (hw : IdsBelow cu) (h : Emits cu (pre ++ [l]) c) :
    ∃ pre1, Emits cu (pre1 ++ [(AnnotateDalvikRegAccess c l x a b).1])
        (AnnotateDalvikRegAccess c l x a b).2 ∧
      (AnnotateDalvikRegAccess c l x a b).1.dalvik_reg_access
        = some { reg_id := x, is_load := a, is64bit := b } := by
  obtain ⟨h1, h2, h3⟩ := h
  have hl := h3 l (List.mem_append.mpr (Or.inr (List.mem_singleton.mpr rfl)))
  let tag : LIR → LIR := fun m =>
    { m with dalvik_reg_access := some { reg_id := x, is_load := a, is64bit := b } }
  let f : LIR → LIR := fun m => if m.id = l.id then tag m else m
  have hid : ∀ m, (f m).id = m.id := by
    intro m
    show (if m.id = l.id then tag m else m).id = m.id
    split_ifs <;> rfl
  have hold : cu.code.map f = cu.code := by
    have e : cu.code.map f = cu.code.map id := by
      apply List.map_congr_left
      intro m hm
      have := hw m hm
      show (if m.id = l.id then tag m else m) = m
      rw [if_neg (by omega)]
    rw [e, List.map_id]
  have hfl : f l = tag l := by
    show (if l.id = l.id then tag l else l) = tag l
    rw [if_pos rfl]
  refine ⟨pre.map f, ⟨?_, h2, ?_⟩, rfl⟩
  · show c.code.map f = cu.code ++ (pre.map f ++ [tag l])
    rw [h1, List.map_append, List.map_append, hold, List.map_singleton, hfl]
  · intro m hm
    rcases List.mem_append.mp hm with hm | hm
    · obtain ⟨m0, hm0, rfl⟩ := List.mem_map.mp hm
      rw [hid]
      exact h3 m0 (List.mem_append.mpr (Or.inl hm0))
    · rw [List.mem_singleton] at hm
      subst hm
      exact hl

/-- The record returned by the code after the `switch` of `LoadBaseDispBody` is
the last one emitted, and with the stack pointer as base it carries the frame
annotation of the access. -/
theorem LoadBaseDispTail_emits (env : ArmEnv) (fuel : Nat) (cu cu1 : CompilationUnit)
    (rBase displacement : Int) (size : OpSize) (f : DispForm) (res : LIR) (hw : IdsBelow cu)
    (h : LoadBaseDispTail env fuel cu rBase displacement size f = Except.ok (res, cu1)) :
    (∃ pre, Emits cu (pre ++ [res]) cu1) ∧
    (rBase = env.rARM_SP → FrameTagged res displacement true f.is64bit) := by
  unfold LoadBaseDispTail at h
  rw [bind_ok_iff] at h
  obtain ⟨⟨l, c⟩, hl, h⟩ := h
  have hb : ∃ pre, Emits cu (pre ++ [l]) c := by
    by_cases hs : f.short_form = true
    · rw [if_pos hs] at hl
      simp only [pure, Except.pure, Except.ok.injEq] at hl
      have e1 := congrArg Prod.fst hl
      have e2 := congrArg Prod.snd hl
      simp only at e1 e2
      rw [← e1, ← e2]
      exact ⟨[], Emits_NewLIR3 _ _ _ _ _⟩
    · rw [if_neg hs, bind_ok_iff] at hl
      obtain ⟨⟨r, c0⟩, ha, hl⟩ := hl
      rw [bind_ok_iff] at hl
      obtain ⟨⟨cl, c1⟩, hc, hl⟩ := hl
      rw [bind_ok_iff] at hl
      obtain ⟨⟨ld, c2⟩, hld, hl⟩ := hl
      simp only [pure, Except.pure, Except.ok.injEq, Prod.mk.injEq] at hl
      obtain ⟨hl1, hl2⟩ := hl
      obtain ⟨s1, s2⟩ := AllocTemp_stream cu c0 r ha
      obtain ⟨pre, hp⟩ := LoadBaseIndexed_emits env _ _ _ _ _ _ _ _ hld
      have hk := LoadConstantNoClobber_emits env fuel _ _ _ _ _ hc
      refine ⟨[cl] ++ pre, ?_⟩
      rw [← hl1, ← hl2, List.append_assoc]
      exact Emits_congr (Emits_trans (Emits_from hk s1 s2) hp) rfl rfl
  obtain ⟨pre, hp⟩ := hb
  split_ifs at h with hsp
  · simp only [pure, Except.pure, Except.ok.injEq] at h
    have e1 := congrArg Prod.fst h
    have e2 := congrArg Prod.snd h
    simp only at e1 e2
    obtain ⟨pre1, g1, g2⟩ := Annotate_emits cu c pre l (sarI displacement 2) true f.is64bit hw hp
    rw [← e1, ← e2]
    exact ⟨⟨pre1, g1⟩, fun _ => g2⟩
  · simp only [pure, Except.pure, Except.ok.injEq, Prod.mk.injEq] at h
    rw [← h.1, ← h.2]
    exact ⟨⟨pre, hp⟩, fun h' => absurd h' hsp⟩

/-- The store emitted by the code after the `switch` of `StoreBaseDispBody` is
the last record emitted, and with the stack pointer as base it carries the frame
annotation of the access; the record returned is that store in the short form,
and the constant load otherwise. -/
theorem StoreBaseDispTail_emits (env : ArmEnv) (fuel : Nat) (cu cu1 : CompilationUnit)
    (rBase displacement : Int) (size : OpSize) (f : DispForm) (res : LIR) (hw : IdsBelow cu)
    (h : StoreBaseDispTail env fuel cu rBase displacement size f = Except.ok (res, cu1)) :
    ∃ pre st, Emits cu (pre ++ [st]) cu1 ∧
      (rBase = env.rARM_SP → FrameTagged st displacement false f.is64bit) ∧
      (f.short_form = true → res = st) := by
  unfold StoreBaseDispTail at h
  by_cases hs : f.short_form = true
  · rw [if_pos hs] at h
    simp only at h
    split_ifs at h with hsp
    · simp only [pure, Except.pure, Except.ok.injEq] at h
      have e1 := congrArg Prod.fst h
      have e2 := congrArg Prod.snd h
      simp only at e1 e2
      obtain ⟨pre1, g1, g2⟩ := Annotate_emits cu _ [] _ (sarI displacement 2) false f.is64bit hw
        (Emits_NewLIR3 cu f.opcode f.reg rBase f.encoded_disp)
      rw [← e1, ← e2]
      exact ⟨pre1, _, g1, fun _ => g2, fun _ => rfl⟩
    · simp only [pure, Except.pure, Except.ok.injEq] at h
      have e1 := congrArg Prod.fst h
      have e2 := congrArg Prod.snd h
      simp only at e1 e2
      rw [← e1, ← e2]
      exact ⟨[], _, Emits_NewLIR3 _ _ _ _ _, fun h' => absurd h' hsp, fun _ => rfl⟩
  · rw [if_neg hs, bind_ok_iff] at h
    obtain ⟨⟨r, c0⟩, ha, h⟩ := h
    rw [bind_ok_iff] at h
    obtain ⟨⟨cl, c1⟩, hc, h⟩ := h
    rw [bind_ok_iff] at h
    obtain ⟨⟨st, c2⟩, hst, h⟩ := h
    obtain ⟨s1, s2⟩ := AllocTemp_stream cu c0 r ha
    obtain ⟨pre, hp⟩ := StoreBaseIndexed_emits env _ _ _ _ _ _ _ _ hst
    have hk := LoadConstantNoClobber_emits env fuel _ _ _ _ _ hc
    have hall : Emits cu (([cl] ++ pre) ++ [st]) (FreeTemp c2 r) := by
      rw [List.append_assoc]
      exact Emits_congr (Emits_trans (Emits_from hk s1 s2) hp) rfl rfl
    simp only at h
    split_ifs at h with hsp
    · simp only [pure, Except.pure, Except.ok.injEq, Prod.mk.injEq] at h
      obtain ⟨pre1, g1, g2⟩ := Annotate_emits cu _ _ st (sarI displacement 2) false f.is64bit
        hw hall
      rw [← h.2]
      exact ⟨pre1, _, g1, fun _ => g2, fun h' => absurd h' hs⟩
    · simp only [pure, Except.pure, Except.ok.injEq, Prod.mk.injEq] at h
      rw [← h.2]
      exact ⟨_, _, hall, fun h' => absurd h' hsp, fun h' => absurd h' hs⟩

theorem bind_ok_elim {ε α β : Type} {x : Except ε α} {f : α → Except ε β} {b : β}
    (h : (x >>= f) = Except.ok b) : ∃ a, x = Except.ok a ∧ f a = Except.ok b :=
  (bind_ok_iff x f b).mp h

theorem LoadBaseDispSwitch_is64bit (env : ArmEnv) (rBase d r rh : Int) (size : OpSize)
    (f : DispForm) (h : LoadBaseDispSwitch env rBase d r rh size = Except.ok f) :
    f.is64bit = decide (size = OpSize.kLong ∨ size = OpSize.kDouble) := by
  unfold LoadBaseDispSwitch at h
  cases size <;> simp only [bind, Except.bind, pure, Except.pure] at h <;>
    simp only [reduceCtorEq, or_self, or_true, true_or, decide_True, decide_False] <;>
    (repeat' split at h) <;>
    first
      | (injection h with h; rw [← h])
      | cases h

theorem StoreBaseDispSwitch_is64bit (env : ArmEnv) (rBase d r rh : Int) (size : OpSize)
    (f : DispForm) (h : StoreBaseDispSwitch env rBase d r rh size = Except.ok f) :
    f.is64bit = decide (size = OpSize.kLong ∨ size = OpSize.kDouble) := by
  unfold StoreBaseDispSwitch at h
  cases size <;> simp only [bind, Except.bind, pure, Except.pure] at h <;>
    simp only [reduceCtorEq, or_self, or_true, true_or, decide_True, decide_False] <;>
    (repeat' split at h) <;>
    first
      | (injection h with h; rw [← h])
      | cases h

theorem addI_eq (a b : Int) (h1 : -2147483648 ≤ a + b) (h2 : a + b < 2147483648) :
    addI a b = a + b := by
  unfold addI
  exact toS32_toU32 _ h1 h2

/-- Outside the case of a long or double in core registers, `LoadBaseDispBody`
is its `switch` followed by the code after it, and does not call itself. -/
theorem LoadBaseDispBodyWith_narrow (env : ArmEnv) (fuel : Nat)
    (self : CompilationUnit → Int → Int → Int → Int → OpSize →
      Except Fault (LIR × CompilationUnit))
    (cu : CompilationUnit) (rBase d r rh : Int) (size : OpSize)
    (hn : ¬ ((size = OpSize.kLong ∨ size = OpSize.kDouble) ∧ env.ARM_FPREG r = false)) :
    LoadBaseDispBodyWith env fuel self cu rBase d r rh size
      = (LoadBaseDispSwitch env rBase d r rh size >>=
          LoadBaseDispTail env fuel cu rBase d size) := by
  unfold LoadBaseDispBodyWith
  rw [if_neg]
  rintro ⟨h1, h2⟩
  apply hn
  refine ⟨h1.symm, ?_⟩
  cases h : env.ARM_FPREG r with
  | false => rfl
  | true => exact absurd h h2

theorem StoreBaseDispBodyWith_narrow (env : ArmEnv) (fuel : Nat)
    (self : CompilationUnit → Int → Int → Int → Int → OpSize →
      Except Fault (LIR × CompilationUnit))
    (cu : CompilationUnit) (rBase d r rh : Int) (size : OpSize)
    (hn : ¬ ((size = OpSize.kLong ∨ size = OpSize.kDouble) ∧ env.ARM_FPREG r = false)) :
    StoreBaseDispBodyWith env fuel self cu rBase d r rh size
      = (StoreBaseDispSwitch env rBase d r rh size >>=
          StoreBaseDispTail env fuel cu rBase d size) := by
  unfold StoreBaseDispBodyWith
  rw [if_neg]
  rintro ⟨h1, h2⟩
  apply hn
  refine ⟨h1, ?_⟩
  cases h : env.ARM_FPREG r with
  | false => rfl
  | true => exact absurd h h2

theorem LoadBaseDispBody_narrow (env : ArmEnv) (fuel : Nat)
    (cu : CompilationUnit) (rBase d r rh : Int) (size : OpSize)
    (hn : ¬ ((size = OpSize.kLong ∨ size = OpSize.kDouble) ∧ env.ARM_FPREG r = false)) :
    LoadBaseDispBody env fuel cu rBase d r rh size
      = (LoadBaseDispSwitch env rBase d r rh size >>=
          LoadBaseDispTail env fuel cu rBase d size) :=
  LoadBaseDispBodyWith_narrow env fuel _ cu rBase d r rh size hn

theorem StoreBaseDispBody_narrow (env : ArmEnv) (fuel : Nat)
    (cu : CompilationUnit) (rBase d r rh : Int) (size : OpSize)
    (hn : ¬ ((size = OpSize.kLong ∨ size = OpSize.kDouble) ∧ env.ARM_FPREG r = false)) :
    StoreBaseDispBody env fuel cu rBase d r rh size
      = (StoreBaseDispSwitch env rBase d r rh size >>=
          StoreBaseDispTail env fuel cu rBase d size) :=
  StoreBaseDispBodyWith_narrow env fuel _ cu rBase d r rh size hn

theorem kWord_narrow (env : ArmEnv) (r : Int) :
    ¬ ((OpSize.kWord = OpSize.kLong ∨ OpSize.kWord = OpSize.kDouble) ∧
      env.ARM_FPREG r = false) := by
  rintro ⟨h | h, _⟩ <;> cases h

/-- A long or double in core registers is the word access of the low half
followed by the word access of the high half four bytes further, and the result
of the low half is returned. -/
theorem LoadBaseDispBody_wide (env : ArmEnv) (fuel : Nat)
    (cu : CompilationUnit) (rBase d lo hi : Int) (size : OpSize)
    (hs : size = OpSize.kLong ∨ size = OpSize.kDouble) (hc : env.ARM_FPREG lo = false) :
    LoadBaseDispBody env fuel cu rBase d lo hi size
      = (LoadBaseDispBody env fuel cu rBase d lo (-1) OpSize.kWord >>= fun res =>
          LoadBaseDispBody env fuel res.2 rBase (addI d 4) hi (-1) OpSize.kWord >>= fun h =>
            pure (res.1, h.2)) := by
  have e : ∀ c x r, LoadBaseDispBody env fuel c rBase x r (-1) OpSize.kWord
      = LoadBaseDispBodyWith env fuel (fun _ _ _ _ _ _ => Except.error Fault.outOfFuel)
          c rBase x r (-1) OpSize.kWord := by
    intro c x r
    rw [LoadBaseDispBody_narrow _ _ _ _ _ _ _ _ (kWord_narrow env r),
      LoadBaseDispBodyWith_narrow _ _ _ _ _ _ _ _ _ (kWord_narrow env r)]
  simp only [e]
  conv_lhs => unfold LoadBaseDispBody LoadBaseDispBodyWith
  rw [if_pos ⟨hs.symm, by simp [hc]⟩]
  rfl

theorem StoreBaseDispBody_wide (env : ArmEnv) (fuel : Nat)
    (cu : CompilationUnit) (rBase d lo hi : Int) (size : OpSize)
    (hs : size = OpSize.kLong ∨ size = OpSize.kDouble) (hc : env.ARM_FPREG lo = false) :
    StoreBaseDispBody env fuel cu rBase d lo hi size
      = (StoreBaseDispBody env fuel cu rBase d lo (-1) OpSize.kWord >>= fun res =>
          StoreBaseDispBody env fuel res.2 rBase (addI d 4) hi (-1) OpSize.kWord >>= fun h =>
            pure (res.1, h.2)) := by
  have e : ∀ c x r, StoreBaseDispBody env fuel c rBase x r (-1) OpSize.kWord
      = StoreBaseDispBodyWith env fuel (fun _ _ _ _ _ _ => Except.error Fault.outOfFuel)
          c rBase x r (-1) OpSize.kWord := by
    intro c x r
    rw [StoreBaseDispBody_narrow _ _ _ _ _ _ _ _ (kWord_narrow env r),
      StoreBaseDispBodyWith_narrow _ _ _ _ _ _ _ _ _ (kWord_narrow env r)]
  simp only [e]
  conv_lhs => unfold StoreBaseDispBody StoreBaseDispBodyWith
  rw [if_pos ⟨hs, by simp [hc]⟩]
  rfl

/-- A narrow access emits its records after the stream of the context; the
access itself comes last, is the record returned, and with the stack pointer as
base carries the frame annotation. -/
theorem LoadBaseDispBody_narrow_emits (env : ArmEnv) (fuel : Nat) (cu cu1 : CompilationUnit)
    (rBase d r rh : Int) (size : OpSize) (res : LIR)
    (hn : ¬ ((size = OpSize.kLong ∨ size = OpSize.kDouble) ∧ env.ARM_FPREG r = false))
    (hw : IdsBelow cu)
    (h : LoadBaseDispBody env fuel cu rBase d r rh size = Except.ok (res, cu1)) :
    (∃ pre, Emits cu (pre ++ [res]) cu1) ∧
    (rBase = env.rARM_SP →
      FrameTagged res d true (decide (size = OpSize.kLong ∨ size = OpSize.kDouble))) := by
  rw [LoadBaseDispBody_narrow _ _ _ _ _ _ _ _ hn, bind_ok_iff] at h
  obtain ⟨f, hf, h⟩ := h
  have := LoadBaseDispTail_emits env fuel cu cu1 rBase d size f res hw h
  rw [LoadBaseDispSwitch_is64bit env rBase d r rh size f hf] at this
  exact this

theorem StoreBaseDispBody_narrow_emits (env : ArmEnv) (fuel : Nat) (cu cu1 : CompilationUnit)
    (rBase d r rh : Int) (size : OpSize) (res : LIR)
    (hn : ¬ ((size = OpSize.kLong ∨ size = OpSize.kDouble) ∧ env.ARM_FPREG r = false))
    (hw : IdsBelow cu)
    (h : StoreBaseDispBody env fuel cu rBase d r rh size = Except.ok (res, cu1)) :
    ∃ pre st, Emits cu (pre ++ [st]) cu1 ∧
      (rBase = env.rARM_SP →
        FrameTagged st d false (decide (size = OpSize.kLong ∨ size = OpSize.kDouble))) := by
  rw [StoreBaseDispBody_narrow _ _ _ _ _ _ _ _ hn, bind_ok_iff] at h
  obtain ⟨f, hf, h⟩ := h
  obtain ⟨pre, st, h1, h2, _⟩ := StoreBaseDispTail_emits env fuel cu cu1 rBase d size f res hw h
  rw [StoreBaseDispSwitch_is64bit env rBase d r rh size f hf] at h2
  exact ⟨pre, st, h1, h2⟩

/-! ## 64-bit constants -/

theorem ScanLiteralPoolWideFrom_some (pool : List Int) (i : Nat) (lo hi : Int) (t : Literal)
    (h : ScanLiteralPoolWideFrom i pool lo hi = some t) :
    t.word = lo ∧ i ≤ t.index ∧ pool[t.index - i]? = some lo ∧
      pool[t.index - i + 1]? = some hi := by
  induction pool generalizing i with
  | nil => simp [ScanLiteralPoolWideFrom] at h
  | cons w rest ih =>
    cases rest with
    | nil => simp [ScanLiteralPoolWideFrom] at h
    | cons w2 rest2 =>
      unfold ScanLiteralPoolWideFrom at h
      split_ifs at h with hw
      · cases h
        simp [hw.1, hw.2]
      · obtain ⟨h1, h2, h3, h4⟩ := ih (i + 1) h
        refine ⟨h1, by omega, ?_, ?_⟩
        · have e : t.index - i = (t.index - (i + 1)) + 1 := by omega
          rw [e, List.getElem?_cons_succ]
          exact h3
        · have e : t.index - i + 1 = (t.index - (i + 1) + 1) + 1 := by omega
          rw [e, List.getElem?_cons_succ]
          exact h4

/-- The combined entry handed out by the lookup-or-insert idiom holds the low
word and, next to it, the high word; the pool is untouched on a hit and grows by
the two words on a miss, and the instruction stream is untouched. -/
theorem poolEntryWide_facts (cu : CompilationUnit) (lo hi : Int) :
    (poolEntryWide cu lo hi).1.word = lo ∧
    (poolEntryWide cu lo hi).2.literal_list[(poolEntryWide cu lo hi).1.index]? = some lo ∧
    (poolEntryWide cu lo hi).2.literal_list[(poolEntryWide cu lo hi).1.index + 1]? = some hi ∧
    ((poolEntryWide cu lo hi).2.literal_list = cu.literal_list ∨
      (poolEntryWide cu lo hi).2.literal_list = cu.literal_list ++ [lo, hi]) ∧
    (poolEntryWide cu lo hi).2.code = cu.code ∧
    (poolEntryWide cu lo hi).2.next_id = cu.next_id := by
  unfold poolEntryWide
  split
  · rename_i t ht
    obtain ⟨h1, _, h3, h4⟩ := ScanLiteralPoolWideFrom_some _ _ _ _ _ ht
    exact ⟨h1, by simpa using h3, by simpa using h4, Or.inl rfl, rfl, rfl⟩
  · refine ⟨rfl, ?_, ?_, Or.inr rfl, rfl, rfl⟩
    · show (cu.literal_list ++ [lo, hi])[cu.literal_list.length]? = some lo
      rw [List.getElem?_append_right (Nat.le_refl _)]
      simp
    · show (cu.literal_list ++ [lo, hi])[cu.literal_list.length + 1]? = some hi
      rw [List.getElem?_append_right (Nat.le_succ _)]
      simp

/-- On a core register the opcode, the operands and the word of the pool entry
of the record that `LoadConstantNoClobber` emits do not depend on the
context. -/
theorem LoadConstantNoClobber_core_shape (env : ArmEnv) (fuel : Nat) (c1 c2 : CompilationUnit)
    (r value : Int) (hfp : env.ARM_FPREG r = false) :
    ∃ p1 p2, LoadConstantNoClobber env fuel c1 r value = Except.ok p1 ∧
      LoadConstantNoClobber env fuel c2 r value = Except.ok p2 ∧
      p1.1.opcode = p2.1.opcode ∧ p1.1.operands = p2.1.operands ∧
      p1.1.target.map Literal.word = p2.1.target.map Literal.word := by
  refine ⟨_, _, LoadConstantNoClobber_core env fuel c1 r value hfp,
    LoadConstantNoClobber_core env fuel c2 r value hfp, ?_⟩
  split_ifs
  · exact ⟨rfl, rfl, rfl⟩
  · exact ⟨rfl, rfl, rfl⟩
  · exact ⟨rfl, rfl, rfl⟩
  · exact ⟨rfl, rfl, rfl⟩
  · obtain ⟨_, a2, a3, a4, _⟩ := poolLoad_facts c1 r value
    obtain ⟨_, b2, b3, b4, _⟩ := poolLoad_facts c2 r value
    refine ⟨by rw [a2, b2], by rw [a3, b3], ?_⟩
    rw [a4, b4]
    simp [poolEntry_word]

/-- The magnitude computed at line 404, for a value whose negation is exact,
is at most `k` exactly when the value lies in `-k..k`. -/
theorem abs_value_fits (value k : Int) :
    ((0 ≤ (if decide (value < 0) = true then -value else value) ∧
        (if decide (value < 0) = true then -value else value) ≤ k) ↔
      (-k ≤ value ∧ value ≤ k)) := by
  by_cases hn : value < 0
  · simp only [hn, decide_True, if_true]; omega
  · simp only [hn, decide_False, Bool.false_eq_true, if_false]; omega

/-- Past the 3-bit and the 8-bit magnitude forms, the shared add/subtract path
is the code after the `switch` on the swapped or the plain modified-immediate
form. -/
theorem OpRegRegImmAddSub_large (env : ArmEnv)
    (lc : CompilationUnit → Int → Int → Except Fault (LIR × CompilationUnit))
    (cu : CompilationUnit) (op : OpKind) (r_dest r_src1 value : Int)
    (hmin : value ≠ -2147483648)
    (hmag : ¬ (-255 ≤ value ∧ value ≤ 255)) :
    OpRegRegImmAddSub env lc cu op r_dest r_src1 value =
      (if (if ModifiedImmediate (toU32 (-value)) ≥ 0 then
            (if op = OpKind.kOpAdd then OpKind.kOpSub else OpKind.kOpAdd)
          else op) = OpKind.kOpSub then
        OpRegRegImmTail env lc cu ArmOpcode.kThumb2SubRRI8 ArmOpcode.kThumb2SubRRR
          (if ModifiedImmediate (toU32 (-value)) ≥ 0 then
            ModifiedImmediate (toU32 (-value)) else ModifiedImmediate (toU32 value))
          r_dest r_src1 value
      else
        OpRegRegImmTail env lc cu ArmOpcode.kThumb2AddRRI8 ArmOpcode.kThumb2AddRRR
          (if ModifiedImmediate (toU32 (-value)) ≥ 0 then
            ModifiedImmediate (toU32 (-value)) else ModifiedImmediate (toU32 value))
          r_dest r_src1 value) := by
  have c8 : ¬ andI (if decide (value < 0) = true then -value else value) 0xff
      = (if decide (value < 0) = true then -value else value) := by
    intro h
    exact hmag ((abs_value_fits value 255).mp ((andI_ff _).mp h))
  have c3 : ¬ ((env.ARM_LOWREG r_dest && env.ARM_LOWREG r_src1) = true ∧
      andI (if decide (value < 0) = true then -value else value) 0x7
        = (if decide (value < 0) = true then -value else value)) := by
    rintro ⟨_, h⟩
    have hb := (andI_7 _).mp h
    exact hmag ((abs_value_fits value 255).mp ⟨hb.1, by omega⟩)
  unfold OpRegRegImmAddSub
  simp only
  rw [if_neg hmin, if_neg c3, if_neg c8]

/-- An add that does not meet the add-relative test, and every subtract, is the
shared add/subtract path. -/
theorem OpRegRegImm_shared_path (env : ArmEnv) (fuel : Nat) (cu : CompilationUnit)
    (op : OpKind) (r_dest r_src1 value : Int) (hop : op = OpKind.kOpAdd ∨ op = OpKind.kOpSub)
    (hpath : op = OpKind.kOpSub ∨ ¬ (env.ARM_LOWREG r_dest = true ∧
      (r_src1 = env.r13sp ∨ r_src1 = env.r15pc) ∧ value ≤ 1020 ∧ andI value 0x3 = 0)) :
    OpRegRegImm env fuel cu op r_dest r_src1 value
      = OpRegRegImmAddSub env (LoadConstant env fuel) cu op r_dest r_src1 value := by
  rcases hop with rfl | rfl
  · unfold OpRegRegImm OpRegRegImmWith
    simp only
    have hp : ¬ (env.ARM_LOWREG r_dest = true ∧
        (r_src1 = env.r13sp ∨ r_src1 = env.r15pc) ∧ value ≤ 1020 ∧
        andI value 0x3 = 0) := by
      rcases hpath with h | h
      · cases h
      · exact h
    rw [if_neg (fun h => hp ⟨h.1, Or.inl h.2.1, h.2.2⟩),
      if_neg (fun h => hp ⟨h.1, Or.inr h.2.1, h.2.2⟩)]
  · rfl

/-- `OpRegRegReg` on and, or, xor, adc and sbc: the three-register opcode of the
kind, laid out by the registry entry. -/
theorem OpRegRegReg_general (env : ArmEnv) (c : CompilationUnit) (op : OpKind)
    (r_dest r_src1 t : Int) (imm8 rrr : ArmOpcode) (hk : generalImmForms op = some (imm8, rrr)) :
    OpRegRegReg env c op r_dest r_src1 t =
      (if (env.EncodingMap rrr).IS_QUAD_OP = true then
        Except.ok (NewLIR4 c rrr r_dest r_src1 t 0)
      else
        DCHECK env (env.EncodingMap rrr).IS_TERTIARY_OP >>= fun _ =>
          Except.ok (NewLIR3 c rrr r_dest r_src1 t)) := by
  cases op <;> first
    | (simp [generalImmForms] at hk; done)
    | (have hk2 : _ = (imm8, rrr) := Option.some.inj hk
       have he := congrArg Prod.snd hk2
       simp only at he
       subst he
       rfl)

/-- `OpRegRegImm` on and, or, xor, adc and sbc is the code after the `switch`
with the two opcodes of the kind. -/
theorem OpRegRegImm_general (env : ArmEnv) (fuel : Nat) (cu : CompilationUnit) (op : OpKind)
    (r_dest r_src1 value : Int) (imm8 rrr : ArmOpcode)
    (hk : generalImmForms op = some (imm8, rrr)) :
    OpRegRegImm env fuel cu op r_dest r_src1 value
      = OpRegRegImmTail env (LoadConstant env fuel) cu imm8 rrr
          (ModifiedImmediate (toU32 value)) r_dest r_src1 value := by
  cases op <;> first
    | (simp [generalImmForms] at hk; done)
    | (have hk2 : _ = (imm8, rrr) := Option.some.inj hk
       have h1 := congrArg Prod.fst hk2
       have he := congrArg Prod.snd hk2
       simp only at h1 he
       subst h1; subst he
       rfl)

/-- Where the `switch` of `LoadBaseDispBody` selects no short form, the local
`encoded_disp` still holds the displacement, and the data register is the one
passed in or its pairing into a double. -/
theorem LoadBaseDispSwitch_unscaled (env : ArmEnv) (rBase d r rh : Int) (size : OpSize)
    (f : DispForm) (h : LoadBaseDispSwitch env rBase d r rh size = Except.ok f)
    (hs : f.short_form = false) :
    f.encoded_disp = d ∧ (f.reg = r ∨ f.reg = env.S2d r rh) := by
  unfold LoadBaseDispSwitch at h
  cases hsr : env.ARM_SINGLEREG r <;> cases size <;>
    simp only [hsr, bind, Except.bind, pure, Except.pure, if_true, if_false,
      Bool.false_eq_true] at h <;>
    (repeat' split at h) <;>
    first
      | (injection h with h; subst h
         first
           | exact ⟨rfl, Or.inl rfl⟩
           | exact ⟨rfl, Or.inr rfl⟩
           | exact Bool.noConfusion hs
           | (rename_i hq _
              refine ⟨rfl, Or.inr ?_⟩
              split at hq
              · cases hq
              · injection hq with hq
                exact hq.symm))
      | cases h

theorem StoreBaseDispSwitch_unscaled (env : ArmEnv) (rBase d r rh : Int) (size : OpSize)
    (f : DispForm) (h : StoreBaseDispSwitch env rBase d r rh size = Except.ok f)
    (hs : f.short_form = false) :
    f.encoded_disp = d ∧ (f.reg = r ∨ f.reg = env.S2d r rh) := by
  unfold StoreBaseDispSwitch at h
  cases hsr : env.ARM_SINGLEREG r <;> cases size <;>
    simp only [hsr, bind, Except.bind, pure, Except.pure, if_true, if_false,
      Bool.false_eq_true] at h <;>
    (repeat' split at h) <;>
    first
      | (injection h with h; subst h
         first
           | exact ⟨rfl, Or.inl rfl⟩
           | exact ⟨rfl, Or.inr rfl⟩
           | exact Bool.noConfusion hs
           | (rename_i hq _
              refine ⟨rfl, Or.inr ?_⟩
              split at hq
              · cases hq
              · injection hq with hq
                exact hq.symm))
      | cases h

/-- Without a short form the code after the `switch` of `LoadBaseDispBody` is
the synthesis through a temporary. -/
theorem LoadBaseDispTail_synthesis (env : ArmEnv) (fuel : Nat) (cu : CompilationUnit)
    (rBase d : Int) (size : OpSize) (f : DispForm) (hs : f.short_form = false)
    (he : f.encoded_disp = d) :
    LoadBaseDispTail env fuel cu rBase d size f
      = loadDispSynthesis env fuel cu rBase d f.reg size f.is64bit := by
  unfold LoadBaseDispTail loadDispSynthesis
  simp only [hs, Bool.false_eq_true, if_false, he]
  cases ha : AllocTemp cu with
  | error e => rfl
  | ok t =>
    simp only [bind, Except.bind]
    cases hc : LoadConstant env fuel t.2 t.1 d with
    | error e => rfl
    | ok c =>
      simp only
      cases hl : LoadBaseIndexed env c.2 rBase t.1 f.reg 0 size with
      | error e => rfl
      | ok ld => rfl

theorem StoreBaseDispTail_synthesis (env : ArmEnv) (fuel : Nat) (cu : CompilationUnit)
    (rBase d : Int) (size : OpSize) (f : DispForm) (hs : f.short_form = false)
    (he : f.encoded_disp = d) :
    StoreBaseDispTail env fuel cu rBase d size f
      = storeDispSynthesis env fuel cu rBase d f.reg size f.is64bit := by
  unfold StoreBaseDispTail storeDispSynthesis
  simp only [hs, Bool.false_eq_true, if_false, he]

/-- The tests of lines 808-809 and 813-814 as written: a word or single load
into a compact core register from the program counter, or from the stack
pointer, with a displacement in `0..1020` of any alignment, selects the compact
relative form with the displacement shifted right by two. -/
theorem LoadBaseDispSwitch_relative (env : ArmEnv) (rBase d r rh : Int) (size : OpSize)
    (hsz : size = OpSize.kWord ∨ size = OpSize.kSingle)
    (hcore : env.ARM_FPREG r = false) (hlow : env.ARM_LOWREG r = true)
    (h0 : 0 ≤ d) (h1 : d ≤ 1020) :
    (rBase = env.r15pc →
      LoadBaseDispSwitch env rBase d r rh size = Except.ok
        { opcode := ArmOpcode.kThumbLdrPcRel, short_form := true, encoded_disp := sarI d 2,
          reg := r, is64bit := false }) ∧
    (rBase = env.r13sp → rBase ≠ env.r15pc →
      LoadBaseDispSwitch env rBase d r rh size = Except.ok
        { opcode := ArmOpcode.kThumbLdrSpRel, short_form := true, encoded_disp := sarI d 2,
          reg := r, is64bit := false }) := by
  constructor
  · intro hb
    unfold LoadBaseDispSwitch
    rcases hsz with rfl | rfl <;>
      simp [hcore, hlow, hb, h0, h1, pure, Except.pure]
  · intro hb hne
    unfold LoadBaseDispSwitch
    rcases hsz with rfl | rfl <;>
      (simp only [hcore, hlow, h0, h1, pure, Except.pure, Bool.false_eq_true, if_false,
        true_and, and_true, ge_iff_le]
       rw [if_neg hne, if_pos hb])

/-- The tests of lines 786, 802, 919 and 929 as written: with a floating-point
data register every displacement up to 1020, negative ones included, selects
the short form with the displacement shifted right by two. -/
theorem DispSwitch_float_short (env : ArmEnv) (rBase d r rh : Int) (size : OpSize)
    (hsz : size = OpSize.kWord ∨ size = OpSize.kSingle)
    (hfp : env.ARM_FPREG r = true) (h1 : d ≤ 1020) :
    LoadBaseDispSwitch env rBase d r rh size = Except.ok
      { opcode := ArmOpcode.kThumb2Vldrs, short_form := true, encoded_disp := sarI d 2,
        reg := r, is64bit := false } ∧
    (env.ARM_SINGLEREG r = true →
      StoreBaseDispSwitch env rBase d r rh size = Except.ok
        { opcode := ArmOpcode.kThumb2Vstrs, short_form := true, encoded_disp := sarI d 2,
          reg := r, is64bit := false }) := by
  constructor
  · unfold LoadBaseDispSwitch
    rcases hsz with rfl | rfl <;> simp [hfp, h1, pure, Except.pure]
  · intro hs
    unfold StoreBaseDispSwitch
    rcases hsz with rfl | rfl <;>
      simp [hfp, h1, hs, pure, Except.pure, bind, Except.bind, DCHECK]

/-- The compare case of `OpRegImm` as written (lines 545-553 and 560-561): on a
compact register a negative value down to `-255` is emitted as `kThumbCmpRI8`
with the magnitude as operand. -/
theorem OpRegImm_cmp_negative (env : ArmEnv) (fuel : Nat) (cu : CompilationUnit)
    (r value : Int) (hlow : env.ARM_LOWREG r = true) (h1 : -255 ≤ value) (h2 : value < 0) :
    OpRegImm env fuel cu OpKind.kOpCmp r value
      = Except.ok (NewLIR2 cu ArmOpcode.kThumbCmpRI8 r (-value)) := by
  have hmin : ¬ value = -2147483648 := by omega
  have hsf : andI (-value) 0xff = -value := (andI_ff _).mpr ⟨by omega, by omega⟩
  unfold OpRegImm OpRegImmWith OpRegImmSwitch
  simp [h2, hmin, hsf, hlow, bind, Except.bind, pure, Except.pure]

/-- The add and subtract cases of `OpRegImm` as written: on a compact register
that is not the stack pointer with a small non-negative value, a value in
`-255..255` is emitted as `kThumbAddRI8` or `kThumbSubRI8`, flipped for a negative
value, with the magnitude as operand. -/
theorem OpRegImm_add_sub_short (env : ArmEnv) (fuel : Nat) (cu : CompilationUnit)
    (op : OpKind) (r value : Int) (hop : op = OpKind.kOpAdd ∨ op = OpKind.kOpSub)
    (hlow : env.ARM_LOWREG r = true) (h1 : -255 ≤ value) (h2 : value ≤ 255)
    (hsp : ¬ (0 ≤ value ∧ r = env.r13sp ∧ value ≤ 508)) :
    OpRegImm env fuel cu op r value
      = Except.ok (NewLIR2 cu
          (if (op = OpKind.kOpAdd ↔ 0 ≤ value) then ArmOpcode.kThumbAddRI8
            else ArmOpcode.kThumbSubRI8)
          r (if value < 0 then -value else value)) := by
  have hmin : ¬ value = -2147483648 := by omega
  unfold OpRegImm OpRegImmWith OpRegImmSwitch
  by_cases hn : value < 0
  · have hsf : andI (-value) 0xff = -value := (andI_ff _).mpr ⟨by omega, by omega⟩
    have h0 : ¬ 0 ≤ value := by omega
    rcases hop with rfl | rfl <;>
      simp [hn, h0, hmin, hsf, hlow, bind, Except.bind, pure, Except.pure]
  · have hsf : andI value 0xff = value := (andI_ff _).mpr ⟨by omega, by omega⟩
    have h0 : 0 ≤ value := by omega
    have hsp2 : ¬ (r = env.r13sp ∧ value ≤ 508) := fun h => hsp ⟨h0, h⟩
    rcases hop with rfl | rfl <;>
      simp [hn, h0, hmin, hsf, hlow, hsp2, bind, Except.bind, pure, Except.pure]

/-! ## The context-keeping `OpRegRegImm` agrees with `OpRegRegImm` -/

theorem OpRegRegImmTailRun_drop (env : ArmEnv)
    (lc : CompilationUnit → Int → Int → Except Fault (LIR × CompilationUnit))
    (cu : CompilationUnit) (opcode alt : ArmOpcode) (mod_imm a b value : Int) :
    dropAbortContext (OpRegRegImmTailRun env lc cu opcode alt mod_imm a b value)
      = OpRegRegImmTail env lc cu opcode alt mod_imm a b value := by
  unfold OpRegRegImmTailRun OpRegRegImmTail
  by_cases hm : mod_imm ≥ 0
  · rw [if_pos hm, if_pos hm]; rfl
  · rw [if_neg hm, if_neg hm]
    cases ha : AllocTemp cu with
    | error f => rfl
    | ok t =>
      simp only [bind, Except.bind]
      cases hl : lc t.2 t.1 value with
      | error f => rfl
      | ok c => rfl

theorem OpRegRegImmAddSubRun_drop (env : ArmEnv)
    (lc : CompilationUnit → Int → Int → Except Fault (LIR × CompilationUnit))
    (cu : CompilationUnit) (op : OpKind) (a b value : Int) :
    dropAbortContext (OpRegRegImmAddSubRun env lc cu op a b value)
      = OpRegRegImmAddSub env lc cu op a b value := by
  unfold OpRegRegImmAddSubRun OpRegRegImmAddSub
  simp only
  split_ifs <;> first
    | rfl
    | exact OpRegRegImmTailRun_drop env lc cu _ _ _ a b value

/-- Forgetting the context of an abort, the context-keeping `OpRegRegImm` is
`OpRegRegImm`. -/
theorem OpRegRegImmRunWith_drop (env : ArmEnv)
    (lc : CompilationUnit → Int → Int → Except Fault (LIR × CompilationUnit))
    (cu : CompilationUnit) (op : OpKind) (a b value : Int) :
    dropAbortContext (OpRegRegImmRunWith env lc cu op a b value)
      = OpRegRegImmWith env lc cu op a b value := by
  unfold OpRegRegImmRunWith OpRegRegImmWith
  cases op <;> simp only <;> first
    | rfl
    | exact OpRegRegImmTailRun_drop env lc cu _ _ _ a b value
    | exact OpRegRegImmAddSubRun_drop env lc cu _ a b value
    | (split_ifs <;> first
        | rfl
        | exact OpRegRegImmAddSubRun_drop env lc cu _ a b value)
    | skip
  -- compare
  by_cases hm : ModifiedImmediate (toU32 value) ≥ 0
  · rw [if_pos hm, if_pos hm]; rfl
  · rw [if_neg hm, if_neg hm]
    cases ha : AllocTemp cu with
    | error f => rfl
    | ok t =>
      simp only [bind, Except.bind]
      cases hl : lc t.2 t.1 value with
      | error f => rfl
      | ok c =>
        simp only
        cases ho : OpRegReg env c.2 OpKind.kOpCmp b t.1 with
        | error f => rfl
        | ok o => rfl

theorem OpRegRegImmRun_drop (env : ArmEnv) (fuel : Nat) (cu : CompilationUnit) (op : OpKind)
    (a b value : Int) :
    dropAbortContext (OpRegRegImmRun env fuel cu op a b value)
      = OpRegRegImm env fuel cu op a b value :=
  OpRegRegImmRunWith_drop env _ cu op a b value

/-- A context-keeping outcome whose context-dropping image returns is that
return. -/
theorem dropAbortContext_ok (x : Except Fault LIR × CompilationUnit) (res : LIR)
    (cu1 : CompilationUnit) (h : dropAbortContext x = Except.ok (res, cu1)) :
    x = (Except.ok res, cu1) := by
  obtain ⟨r, c⟩ := x
  cases r with
  | error f => cases h
  | ok a =>
    simp only [dropAbortContext, Except.ok.injEq, Prod.mk.injEq] at h
    rw [h.1, h.2]

/-! ## Contracts of `ModifiedImmediate` -/

/-- C1: for every 32-bit `v`, a field `f ≠ -1` returned by `ModifiedImmediate v`
lies in `0..4095` and the Thumb2 modified-immediate decode of `f` is `v`. -/
theorem ModifiedImmediate_round_trip (v : Nat) (hv : v < 2 ^ 32) (f : Int)
    (hf : ModifiedImmediate v = f) (hne : f ≠ -1) :
    0 ≤ f ∧ f < 4096 ∧ ThumbExpandImm f.toNat = v := by
  rcases ModifiedImmediate_result v hv with h | ⟨g, hg, hlt, hd⟩
  · exact absurd (hf.symm.trans h) hne
  · have e : f = (g : Int) := hf.symm.trans hg
    subst e
    refine ⟨Int.ofNat_nonneg _, by exact_mod_cast hlt, ?_⟩
    simpa using hd

theorem ModifiedImmediate_round_trip_witness :
    (0 ≤ (0xFF : Int) ∧ (0xFF : Int) < 4096 ∧ ThumbExpandImm (0xFF : Int).toNat = 0x000000FF) ∧
    (0 ≤ (0x1FF : Int) ∧ (0x1FF : Int) < 4096 ∧ ThumbExpandImm (0x1FF : Int).toNat = 0x00FF00FF) ∧
    (0 ≤ (0x2FF : Int) ∧ (0x2FF : Int) < 4096 ∧ ThumbExpandImm (0x2FF : Int).toNat = 0xFF00FF00) :=
  ⟨ModifiedImmediate_round_trip 0x000000FF (by norm_num) 0xFF (by decide) (by decide),
   ModifiedImmediate_round_trip 0x00FF00FF (by norm_num) 0x1FF (by decide) (by decide),
   ModifiedImmediate_round_trip 0xFF00FF00 (by norm_num) 0x2FF (by decide) (by decide)⟩

/-- C2: for every word `v`, `ModifiedImmediate v` returns `-1` only if no field
in `0..4095` decodes to `v`; whenever some field decodes to `v` the result is a
non-negative field. -/
theorem ModifiedImmediate_complete (v : Nat) :
    (ModifiedImmediate v = -1 → ∀ f, f < 4096 → ThumbExpandImm f ≠ v) ∧
    ((∃ f, f < 4096 ∧ ThumbExpandImm f = v) → 0 ≤ ModifiedImmediate v) := by
  constructor
  · intro h f _ hd
    have := ModifiedImmediate_nonneg_of_decode f
    rw [hd, h] at this
    exact absurd this (by decide)
  · rintro ⟨f, _, hd⟩
    rw [← hd]
    exact ModifiedImmediate_nonneg_of_decode f

theorem ModifiedImmediate_complete_witness :
    ModifiedImmediate 0x00000101 = -1 ∧ (∀ f, f < 4096 → ThumbExpandImm f ≠ 0x00000101) ∧
    0 ≤ ModifiedImmediate 0x0003FC00 :=
  ⟨by decide,
   (ModifiedImmediate_complete 0x00000101).1 (by decide),
   (ModifiedImmediate_complete 0x0003FC00).2 ⟨0xB7F, by decide, by decide⟩⟩

/-- C3 (as stated, refuted): `ModifiedImmediate 0xFFFFFFFF` is not the field `0xFF`. -/
theorem ModifiedImmediate_allOnes_ne_ff : ModifiedImmediate 0xFFFFFFFF ≠ 0xFF := by decide

/-- C3 (amended): `ModifiedImmediate 0xFFFFFFFF` returns the field `0x3FF`, the
byte `0xFF` replicated in all four positions, which decodes to `0xFFFFFFFF`;
the rotated form is not reached, and with leading and trailing zero counts both
`0` it would not apply. -/
theorem ModifiedImmediate_allOnes :
    ModifiedImmediate 0xFFFFFFFF = 0x3FF ∧
    (0xFFFFFFFF : Nat) = (((0xFFFFFFFF &&& 0xff) <<< 24) ||| ((0xFFFFFFFF &&& 0xff) <<< 16) |||
      ((0xFFFFFFFF &&& 0xff) <<< 8) ||| (0xFFFFFFFF &&& 0xff)) % 4294967296 ∧
    ThumbExpandImm 0x3FF = 0xFFFFFFFF ∧
    LeadingZeros 0xFFFFFFFF = 0 ∧ zTrailing 0xFFFFFFFF = 0 := by
  refine ⟨by decide, by decide, by decide, by decide, by decide⟩

/-! ## Contracts of the floating-point immediate encoders -/

/-- C4: for every 32-bit pattern `v`, `EncodeImmSingle` fails when a low 19 bit is
set and otherwise succeeds exactly when bits 30..25 are `100000` or `011111`;
on success the result is the byte `(bit31<<7) | (bit29<<6) | bits24..19`, whose
expansion `a : NOT(b) : bbbbb : cdefgh : 0^19` is `v`; every byte is the
encoding of its own expansion, so exactly 256 patterns are accepted. -/
theorem EncodeImmSingle_contract :
    (∀ v, v < 2 ^ 32 →
      (v % 2 ^ 19 ≠ 0 → EncodeImmSingle (toS32 v) = -1) ∧
      (v % 2 ^ 19 = 0 →
        (EncodeImmSingle (toS32 v) ≠ -1 ↔ (v / 2 ^ 25 % 64 = 32 ∨ v / 2 ^ 25 % 64 = 31))) ∧
      (EncodeImmSingle (toS32 v) ≠ -1 →
        ∃ e : Nat, EncodeImmSingle (toS32 v) = (e : Int) ∧ e < 256 ∧
          e = ((v / 2 ^ 31 % 2) <<< 7) ||| ((v / 2 ^ 29 % 2) <<< 6) ||| (v / 2 ^ 19 % 64) ∧
          VFPExpandImm32 e = v)) ∧
    (∀ e, e < 256 →
      VFPExpandImm32 e < 2 ^ 32 ∧ EncodeImmSingle (toS32 (VFPExpandImm32 e)) = (e : Int)) ∧
    (Finset.filter (fun v => EncodeImmSingle (toS32 v) ≠ -1) (Finset.range (2 ^ 32))).card
      = 256 := by
  refine ⟨?_, EncodeImmSingle_expand, EncodeImmSingle_accepted_card⟩
  intro v hv
  refine ⟨?_, ?_, ?_⟩
  · intro h
    rw [EncodeImmSingle_eq v hv]
    norm_num at h
    rw [if_pos h]
  · intro h
    rw [EncodeImmSingle_eq v hv]
    have e25 : (2 : Nat) ^ 25 = 33554432 := by norm_num
    have e19 : (2 : Nat) ^ 19 = 524288 := by norm_num
    rw [e25]
    rw [e19] at h
    split_ifs with h1 h2
    · omega
    · constructor
      · intro _; omega
      · intro _; omega
    · constructor
      · intro hc; exact absurd rfl hc
      · intro hc; omega
  · intro h
    have := EncodeImmSingle_success v hv h
    norm_num
    exact this

theorem EncodeImmSingle_contract_witness :
    EncodeImmSingle (toS32 0x3F800001) = -1 ∧
    (EncodeImmSingle (toS32 0x3F800000) ≠ -1 ↔
      ((0x3F800000 : Nat) / 2 ^ 25 % 64 = 32 ∨ (0x3F800000 : Nat) / 2 ^ 25 % 64 = 31)) ∧
    EncodeImmSingle (toS32 (VFPExpandImm32 0x70)) = ((0x70 : Nat) : Int) :=
  ⟨(EncodeImmSingle_contract.1 0x3F800001 (by norm_num)).1 (by decide),
   (EncodeImmSingle_contract.1 0x3F800000 (by norm_num)).2.1 (by decide),
   (EncodeImmSingle_contract.2.1 0x70 (by decide)).2⟩

/-- C5: for every pair of 32-bit words `(lo, hi)`, `EncodeImmDouble` fails when
`lo ≠ 0` or a low 16 bit of `hi` is set, and otherwise succeeds exactly when bits
30..22 of `hi` are `100000000` or `011111111`; on success the result is the byte
`(bit31<<7) | (bit29<<6) | bits21..16` of `hi`, whose expansion
`a : NOT(b) : bbbbbbbb : cdefgh : 0^16` is `hi`, with `lo = 0`; conversely every
byte is the encoding of its own expansion. -/
theorem EncodeImmDouble_contract :
    (∀ lo hi, lo < 2 ^ 32 → hi < 2 ^ 32 →
      (lo ≠ 0 ∨ hi % 2 ^ 16 ≠ 0 → EncodeImmDouble (toS32 lo) (toS32 hi) = -1) ∧
      (lo = 0 → hi % 2 ^ 16 = 0 →
        (EncodeImmDouble (toS32 lo) (toS32 hi) ≠ -1 ↔
          (hi / 2 ^ 22 % 512 = 256 ∨ hi / 2 ^ 22 % 512 = 255))) ∧
      (EncodeImmDouble (toS32 lo) (toS32 hi) ≠ -1 →
        ∃ e : Nat, EncodeImmDouble (toS32 lo) (toS32 hi) = (e : Int) ∧ e < 256 ∧
          e = ((hi / 2 ^ 31 % 2) <<< 7) ||| ((hi / 2 ^ 29 % 2) <<< 6) ||| (hi / 2 ^ 16 % 64) ∧
          VFPExpandImm64High e = hi ∧ lo = 0)) ∧
    (∀ e, e < 256 →
      VFPExpandImm64High e < 2 ^ 32 ∧
        EncodeImmDouble (toS32 0) (toS32 (VFPExpandImm64High e)) = (e : Int)) := by
  have e22 : (2 : Nat) ^ 22 = 4194304 := by norm_num
  have e16 : (2 : Nat) ^ 16 = 65536 := by norm_num
  have e31 : (2 : Nat) ^ 31 = 2147483648 := by norm_num
  have e29 : (2 : Nat) ^ 29 = 536870912 := by norm_num
  constructor
  · intro lo hi hlo hhi
    rw [e22, e16, e31, e29]
    unfold EncodeImmDouble
    by_cases hz : lo = 0
    · have hz' : toS32 lo = 0 := (toS32_eq_zero lo hlo).mpr hz
      rw [if_pos hz']
      refine ⟨?_, ?_, ?_⟩
      · intro h
        rw [EncodeImmDoubleHigh_eq hi hhi]
        rcases h with h | h
        · exact absurd hz h
        · rw [if_pos h]
      · intro _ h
        rw [EncodeImmDoubleHigh_eq hi hhi]
        split_ifs with h1 h2
        · omega
        · constructor
          · intro _; omega
          · intro _; omega
        · constructor
          · intro hc; exact absurd rfl hc
          · intro hc; omega
      · intro h
        obtain ⟨e, h1, h2, h3, h4⟩ := EncodeImmDoubleHigh_success hi hhi h
        exact ⟨e, h1, h2, h3, h4, hz⟩
    · have hz' : ¬ toS32 lo = 0 := fun h => hz ((toS32_eq_zero lo hlo).mp h)
      rw [if_neg hz']
      refine ⟨fun _ => rfl, fun h => absurd h hz, fun h => absurd rfl h⟩
  · intro e he
    obtain ⟨h1, h2⟩ := EncodeImmDoubleHigh_expand e he
    refine ⟨h1, ?_⟩
    unfold EncodeImmDouble
    rw [if_pos (by decide)]
    exact h2

theorem EncodeImmDouble_contract_witness :
    EncodeImmDouble (toS32 1) (toS32 0x3FF00000) = -1 ∧
    (EncodeImmDouble (toS32 0) (toS32 0x3FF00000) ≠ -1 ↔
      ((0x3FF00000 : Nat) / 2 ^ 22 % 512 = 256 ∨ (0x3FF00000 : Nat) / 2 ^ 22 % 512 = 255)) ∧
    EncodeImmDouble (toS32 0) (toS32 (VFPExpandImm64High 0x70)) = ((0x70 : Nat) : Int) :=
  ⟨(EncodeImmDouble_contract.1 1 0x3FF00000 (by norm_num) (by norm_num)).1
      (Or.inl (by decide)),
   (EncodeImmDouble_contract.1 0 0x3FF00000 (by norm_num) (by norm_num)).2.1 rfl (by decide),
   (EncodeImmDouble_contract.2 0x70 (by decide)).2⟩

/-! ## Contracts of the constant materializer -/

/-- C6: net effect of `LoadConstantNoClobber`.  For every 32-bit `value` and
every destination register (a core register, compact or not, or a
single-precision float register) the call returns, it emits exactly one record,
and that record, read per opcode (immediate, decode of the modified-immediate
field, complement of that decode, zero-extended 16-bit immediate, expansion of
the float byte, or the word of the referenced pool entry), leaves exactly
`value` in the destination.  The follow-up add is never emitted, because the
pool entry used always holds `value` itself. -/
theorem LoadConstantNoClobber_net_effect (env : ArmEnv) (fuel : Nat) (cu : CompilationUnit)
    (r value : Int) (h1 : -2147483648 ≤ value) (h2 : value < 2147483648)
    (hreg : env.ARM_FPREG r = true → env.ARM_SINGLEREG r = true) :
    ∃ res cu1, LoadConstantNoClobber env fuel cu r value = Except.ok (res, cu1) ∧
      cu1.code = cu.code ++ [res] ∧
      loadedValue cu1.literal_list res = some (r, toU32 value) := by
  obtain ⟨res, cu1, hok, hcode, hval⟩ :=
    LoadConstantNoClobber_loads env fuel cu r value h1 h2 hreg
  exact ⟨res, cu1, hok, hcode, hval⟩

theorem LoadConstantNoClobber_net_effect_witness :
    ∃ res cu1, LoadConstantNoClobber thumb2Env 0 emptyUnit 9 (-2) = Except.ok (res, cu1) ∧
      cu1.code = emptyUnit.code ++ [res] ∧
      loadedValue cu1.literal_list res = some (9, toU32 (-2)) :=
  LoadConstantNoClobber_net_effect thumb2Env 0 emptyUnit 9 (-2) (by decide) (by decide)
    (by decide)

/-- C7: decision order of `LoadConstantNoClobber` for a non-floating destination,
first match wins and each case emits exactly one record: (1) compact register
and `0 <= v <= 255`: `kThumbMovImm(r, v)`; (2) `ModifiedImmediate(v) = m >= 0`:
`kThumb2MovImmShift(r, m)`; (3) `ModifiedImmediate(~v) = m >= 0`:
`kThumb2MvnImm12(r, m)`; (4) `(v & 0xffff) == v`: `kThumb2MovImm16(r, v)`;
(5) otherwise one PC-relative load of the pool entry holding `v`.  The literal
pool is referenced or grown only when `v` is outside `0..65535` and neither `v`
nor `~v` is a modified immediate. -/
theorem LoadConstantNoClobber_decision (env : ArmEnv) (fuel : Nat) (cu : CompilationUnit)
    (r value : Int) (hfp : env.ARM_FPREG r = false) :
    ∃ res cu1, LoadConstantNoClobber env fuel cu r value = Except.ok (res, cu1) ∧
      cu1.code = cu.code ++ [res] ∧
      (if env.ARM_LOWREG r = true ∧ 0 ≤ value ∧ value ≤ 255 then
        res.opcode = ArmOpcode.kThumbMovImm ∧ res.operands = [r, value, 0, 0, 0] ∧
          res.target = none ∧ cu1.literal_list = cu.literal_list
      else if 0 ≤ ModifiedImmediate (toU32 value) then
        res.opcode = ArmOpcode.kThumb2MovImmShift ∧
          res.operands = [r, ModifiedImmediate (toU32 value), 0, 0, 0] ∧
          res.target = none ∧ cu1.literal_list = cu.literal_list
      else if 0 ≤ ModifiedImmediate (toU32 (notI value)) then
        res.opcode = ArmOpcode.kThumb2MvnImm12 ∧
          res.operands = [r, ModifiedImmediate (toU32 (notI value)), 0, 0, 0] ∧
          res.target = none ∧ cu1.literal_list = cu.literal_list
      else if andI value 0xffff = value then
        res.opcode = ArmOpcode.kThumb2MovImm16 ∧ res.operands = [r, value, 0, 0, 0] ∧
          res.target = none ∧ cu1.literal_list = cu.literal_list
      else
        res.opcode = ArmOpcode.kThumb2LdrPcRel12 ∧ res.operands = [r, 0, 0, 0, 0] ∧
          ∃ t, res.target = some t ∧ t.word = value ∧
            cu1.literal_list[t.index]? = some value ∧
            (cu1.literal_list = cu.literal_list ∨
              cu1.literal_list = cu.literal_list ++ [value])) ∧
      ((res.target ≠ none ∨ cu1.literal_list ≠ cu.literal_list) →
        ¬ (0 ≤ value ∧ value ≤ 65535) ∧ ModifiedImmediate (toU32 value) < 0 ∧
          ModifiedImmediate (toU32 (notI value)) < 0) := by
  have e := LoadConstantNoClobber_core env fuel cu r value hfp
  by_cases h1 : env.ARM_LOWREG r = true ∧ 0 ≤ value ∧ value ≤ 255
  · rw [if_pos h1] at e
    obtain ⟨a1, a2, a3, a4, a5, _, _⟩ := NewLIR2_facts cu ArmOpcode.kThumbMovImm r value
    refine ⟨_, _, e, a1, ?_, ?_⟩
    · rw [if_pos h1]; exact ⟨a2, a3, a4, a5⟩
    · rintro (h | h)
      · exact absurd a4 h
      · exact absurd a5 h
  rw [if_neg h1] at e
  by_cases h2 : 0 ≤ ModifiedImmediate (toU32 value)
  · rw [if_pos h2] at e
    obtain ⟨a1, a2, a3, a4, a5, _, _⟩ :=
      NewLIR2_facts cu ArmOpcode.kThumb2MovImmShift r (ModifiedImmediate (toU32 value))
    refine ⟨_, _, e, a1, ?_, ?_⟩
    · rw [if_neg h1, if_pos h2]; exact ⟨a2, a3, a4, a5⟩
    · rintro (h | h)
      · exact absurd a4 h
      · exact absurd a5 h
  rw [if_neg h2] at e
  by_cases h3 : 0 ≤ ModifiedImmediate (toU32 (notI value))
  · rw [if_pos h3] at e
    obtain ⟨a1, a2, a3, a4, a5, _, _⟩ :=
      NewLIR2_facts cu ArmOpcode.kThumb2MvnImm12 r (ModifiedImmediate (toU32 (notI value)))
    refine ⟨_, _, e, a1, ?_, ?_⟩
    · rw [if_neg h1, if_neg h2, if_pos h3]; exact ⟨a2, a3, a4, a5⟩
    · rintro (h | h)
      · exact absurd a4 h
      · exact absurd a5 h
  rw [if_neg h3] at e
  by_cases h4 : andI value 0xffff = value
  · rw [if_pos h4] at e
    obtain ⟨a1, a2, a3, a4, a5, _, _⟩ := NewLIR2_facts cu ArmOpcode.kThumb2MovImm16 r value
    refine ⟨_, _, e, a1, ?_, ?_⟩
    · rw [if_neg h1, if_neg h2, if_neg h3, if_pos h4]; exact ⟨a2, a3, a4, a5⟩
    · rintro (h | h)
      · exact absurd a4 h
      · exact absurd a5 h
  rw [if_neg h4] at e
  obtain ⟨a1, a2, a3, a4, a5, _, _⟩ := poolLoad_facts cu r value
  refine ⟨_, _, e, a1, ?_, ?_⟩
  · rw [if_neg h1, if_neg h2, if_neg h3, if_neg h4]
    have g1 : (poolLoad cu r value).2.literal_list[(poolEntry cu value).1.index]?
        = some value := by
      rw [a5]; exact poolEntry_get cu value
    have g2 : (poolLoad cu r value).2.literal_list = cu.literal_list ∨
        (poolLoad cu r value).2.literal_list = cu.literal_list ++ [value] := by
      rw [a5]
      rcases poolEntry_list cu value with h | h
      · exact Or.inl h.1
      · exact Or.inr h.1
    exact ⟨a2, a3, (poolEntry cu value).1, a4, poolEntry_word cu value, g1, g2⟩
  · intro _
    exact ⟨fun h => h4 ((andI_ffff value).mpr h), by omega, by omega⟩

theorem LoadConstantNoClobber_decision_witness :
    ∃ res cu1, LoadConstantNoClobber thumb2Env 0 emptyUnit 0 0x12345678 = Except.ok (res, cu1) ∧
      cu1.code = emptyUnit.code ++ [res] ∧
      res.opcode = ArmOpcode.kThumb2LdrPcRel12 ∧ res.operands = [0, 0, 0, 0, 0] ∧
      cu1.literal_list = [0x12345678] := by
  obtain ⟨res, cu1, h1, h2, h3, _⟩ :=
    LoadConstantNoClobber_decision thumb2Env 0 emptyUnit 0 0x12345678 (by decide)
  refine ⟨res, cu1, h1, h2, ?_⟩
  rw [if_neg (by decide), if_neg (by decide), if_neg (by decide), if_neg (by decide)] at h3
  obtain ⟨a1, a2, t, _, _, _, a6⟩ := h3
  refine ⟨a1, a2, ?_⟩
  rcases a6 with h | h
  · exfalso
    have e : LoadConstantNoClobber thumb2Env 0 emptyUnit 0 0x12345678
        = Except.ok (poolLoad emptyUnit 0 0x12345678) :=
      LoadConstantNoClobber_core thumb2Env 0 emptyUnit 0 0x12345678 (by decide)
    rw [e] at h1
    cases h1
    revert h
    decide
  · exact h

/-- C8: literal-pool reuse.  After a call of `LoadConstantNoClobber` that takes
the literal-pool path for `v1`, and any growth of the pool, a call that takes
the literal-pool path for `v2` references the same entry and does not grow the
pool when `v2 = v1`, and references a distinct entry when `v2 ≠ v1`; each load
references an entry that holds its value. -/
theorem LoadConstantNoClobber_pool_reuse (env : ArmEnv) (fuel : Nat)
    (cu cuLater : CompilationUnit) (r1 v1 r2 v2 : Int)
    (hreg1 : env.ARM_FPREG r1 = true → env.ARM_SINGLEREG r1 = true)
    (hreg2 : env.ARM_FPREG r2 = true → env.ARM_SINGLEREG r2 = true)
    (hp1 : reachesLiteralPool env r1 v1 = true) (hp2 : reachesLiteralPool env r2 v2 = true) :
    ∃ res1 cu1 t1, LoadConstantNoClobber env fuel cu r1 v1 = Except.ok (res1, cu1) ∧
      res1.target = some t1 ∧ cu1.literal_list[t1.index]? = some v1 ∧
      (cu1.literal_list <+: cuLater.literal_list →
        ∃ res2 cu2 t2, LoadConstantNoClobber env fuel cuLater r2 v2 = Except.ok (res2, cu2) ∧
          res2.target = some t2 ∧ cu2.literal_list[t2.index]? = some v2 ∧
          (v2 = v1 → t2 = t1 ∧ cu2.literal_list = cuLater.literal_list) ∧
          (v2 ≠ v1 → t2.index ≠ t1.index)) := by
  obtain ⟨res1, cu1, e1, _, ht1, hl1⟩ :=
    LoadConstantNoClobber_pool_path env fuel cu r1 v1 hreg1 hp1
  have hg1 : cu1.literal_list[(poolEntry cu v1).1.index]? = some v1 := by
    rw [hl1]; exact poolEntry_get cu v1
  refine ⟨res1, cu1, (poolEntry cu v1).1, e1, ht1, hg1, ?_⟩
  intro hpre
  obtain ⟨res2, cu2, e2, _, ht2, hl2⟩ :=
    LoadConstantNoClobber_pool_path env fuel cuLater r2 v2 hreg2 hp2
  have hg2 : cu2.literal_list[(poolEntry cuLater v2).1.index]? = some v2 := by
    rw [hl2]; exact poolEntry_get cuLater v2
  refine ⟨res2, cu2, (poolEntry cuLater v2).1, e2, ht2, hg2, ?_, ?_⟩
  · intro hv
    subst hv
    have hs : ScanLiteralPool cu1.literal_list v2 0 = some (poolEntry cu v2).1 := by
      rw [hl1]; exact poolEntry_scan cu v2
    have := poolEntry_of_extension cu1 cuLater v2 _ hs hpre
    rw [hl2, this]
    exact ⟨rfl, rfl⟩
  · intro hv hidx
    have hpre2 : cu1.literal_list <+: cu2.literal_list := by
      rw [hl2]
      exact List.IsPrefix.trans hpre (poolEntry_extends cuLater v2)
    have := getElem?_of_extension _ _ _ _ hpre2 hg1
    rw [← hidx, hg2] at this
    exact hv (Option.some.inj this)

theorem LoadConstantNoClobber_pool_reuse_witness :
    ∃ res1 cu1 t1,
      LoadConstantNoClobber thumb2Env 0 emptyUnit 0 0x12345678 = Except.ok (res1, cu1) ∧
      res1.target = some t1 ∧ cu1.literal_list[t1.index]? = some 0x12345678 ∧
      (cu1.literal_list <+: [0x12345678, 0x23456789] →
        ∃ res2 cu2 t2,
          LoadConstantNoClobber thumb2Env 0
            { emptyUnit with literal_list := [0x12345678, 0x23456789] } 9 0x12345678
              = Except.ok (res2, cu2) ∧
          res2.target = some t2 ∧ cu2.literal_list[t2.index]? = some 0x12345678 ∧
          ((0x12345678 : Int) = 0x12345678 →
            t2 = t1 ∧ cu2.literal_list = [0x12345678, 0x23456789]) ∧
          ((0x12345678 : Int) ≠ 0x12345678 → t2.index ≠ t1.index)) :=
  LoadConstantNoClobber_pool_reuse thumb2Env 0 emptyUnit
    { emptyUnit with literal_list := [0x12345678, 0x23456789] } 0 0x12345678 9 0x12345678
    (by decide) (by decide) (by decide) (by decide)

/-! ## Contracts of the selectors -/

/-- C9: temporary-register balance.  On every input on which they return,
`OpRegRegImm`, `LoadBaseIndexed`, `StoreBaseIndexed`, `LoadBaseDispBody` and
`StoreBaseDispBody` leave the temporary-register pool as they found it, and the
acquire and release events of the call, nested calls included, are balanced:
every register obtained from `AllocTemp` is passed to `FreeTemp` exactly once
before the call returns.  A call that does not return aborts in the code: the
embedding never stops it for lack of unfolding depth. -/
theorem temp_register_balance (env : ArmEnv) (fuel : Nat) :
    (∀ cu op r_dest r_src1 value,
      NoFuelFault (OpRegRegImm env fuel cu op r_dest r_src1 value) ∧
      ∀ res cu1, OpRegRegImm env fuel cu op r_dest r_src1 value = Except.ok (res, cu1) →
        TempBalanced cu cu1) ∧
    (∀ cu rBase r_index r_dest scale size,
      NoFuelFault (LoadBaseIndexed env cu rBase r_index r_dest scale size) ∧
      ∀ res cu1, LoadBaseIndexed env cu rBase r_index r_dest scale size
        = Except.ok (res, cu1) → TempBalanced cu cu1) ∧
    (∀ cu rBase r_index r_src scale size,
      NoFuelFault (StoreBaseIndexed env cu rBase r_index r_src scale size) ∧
      ∀ res cu1, StoreBaseIndexed env cu rBase r_index r_src scale size
        = Except.ok (res, cu1) → TempBalanced cu cu1) ∧
    (∀ cu rBase displacement r_dest r_dest_hi size,
      NoFuelFault (LoadBaseDispBody env fuel cu rBase displacement r_dest r_dest_hi size) ∧
      ∀ res cu1, LoadBaseDispBody env fuel cu rBase displacement r_dest r_dest_hi size
        = Except.ok (res, cu1) → TempBalanced cu cu1) ∧
    (∀ cu rBase displacement r_src r_src_hi size,
      NoFuelFault (StoreBaseDispBody env fuel cu rBase displacement r_src r_src_hi size) ∧
      ∀ res cu1, StoreBaseDispBody env fuel cu rBase displacement r_src r_src_hi size
        = Except.ok (res, cu1) → TempBalanced cu cu1) := by
  refine ⟨?_, ?_, ?_, ?_, ?_⟩
  · intro cu op a b v
    exact ⟨NoFuelFault_OpRegRegImm env fuel cu op a b v,
      fun res cu1 h => OpRegRegImm_balanced env fuel cu cu1 op a b v res h⟩
  · intro cu b i d s sz
    exact ⟨NoFuelFault_LoadBaseIndexed env cu b i d s sz,
      fun res cu1 h => LoadBaseIndexed_balanced env cu cu1 b i d s sz res h⟩
  · intro cu b i d s sz
    exact ⟨NoFuelFault_StoreBaseIndexed env cu b i d s sz,
      fun res cu1 h => StoreBaseIndexed_balanced env cu cu1 b i d s sz res h⟩
  · intro cu b d r rh sz
    exact ⟨NoFuelFault_LoadBaseDispBody env fuel cu b d r rh sz,
      fun res cu1 h => LoadBaseDispBody_balanced env fuel cu cu1 b d r rh sz res h⟩
  · intro cu b d r rh sz
    exact ⟨NoFuelFault_StoreBaseDispBody env fuel cu b d r rh sz,
      fun res cu1 h => StoreBaseDispBody_balanced env fuel cu cu1 b d r rh sz res h⟩

theorem temp_register_balance_witness :
    ∃ res cu1,
      StoreBaseDispBody thumb2Env 0 emptyUnit 13 5000 2 3 OpSize.kLong = Except.ok (res, cu1) ∧
      cu1.temp_trace = [TempEvent.acquire 0, TempEvent.release 0, TempEvent.acquire 0,
        TempEvent.release 0] ∧
      TempBalanced emptyUnit cu1 := by
  have h : ∃ p, StoreBaseDispBody thumb2Env 0 emptyUnit 13 5000 2 3 OpSize.kLong
      = Except.ok p ∧ p.2.temp_trace = [TempEvent.acquire 0, TempEvent.release 0,
        TempEvent.acquire 0, TempEvent.release 0] := by
    refine ⟨_, rfl, ?_⟩
    decide
  obtain ⟨⟨res, cu1⟩, h1, h2⟩ := h
  exact ⟨res, cu1, h1, h2,
    ((temp_register_balance thumb2Env 0).2.2.2.2 emptyUnit 13 5000 2 3 OpSize.kLong).2
      res cu1 h1⟩

/-- C10: displacement thresholds of `LoadBaseDisp` with base and destination both
compact core registers.  Word size, 4-aligned `d`: `0 <= d < 128` emits the
single compact load `kThumbLdrRRI5` with field `d / 4`, `128 <= d < 4092` the
single extended load `kThumb2LdrRRI12` with field `d`, and any other `d` takes
the synthesis path (one constant load of `d` into a temporary, then an indexed
load).  Unsigned half-word, 2-aligned `d`: the compact form `kThumbLdrhRRI5`
with field `d / 2` exactly for `0 <= d < 64`; unsigned byte: the compact form
`kThumbLdrbRRI5` exactly for `0 <= d < 32`; both with the extended 12-bit form
up to `d < 4092` and synthesis otherwise. -/
theorem LoadBaseDisp_thresholds (env : ArmEnv) (fuel : Nat) (cu : CompilationUnit)
    (rBase r_dest d : Int)
    (hb : env.ARM_LOWREG rBase = true) (hd : env.ARM_LOWREG r_dest = true)
    (hcore : env.ARM_FPREG r_dest = false) (hpc : rBase ≠ env.r15pc)
    (hsp13 : rBase ≠ env.r13sp) (hsp : rBase ≠ env.rARM_SP)
    (h1 : -2147483648 ≤ d) (h2 : d < 2147483648) :
    (andI d 0x3 = 0 →
      LoadDispThresholds env fuel cu rBase r_dest d OpSize.kWord 128 2
        ArmOpcode.kThumbLdrRRI5 ArmOpcode.kThumb2LdrRRI12
        ArmOpcode.kThumbLdrRRR ArmOpcode.kThumb2LdrRRR) ∧
    (andI d 0x1 = 0 →
      LoadDispThresholds env fuel cu rBase r_dest d OpSize.kUnsignedHalf 64 1
        ArmOpcode.kThumbLdrhRRI5 ArmOpcode.kThumb2LdrhRRI12
        ArmOpcode.kThumbLdrhRRR ArmOpcode.kThumb2LdrhRRR) ∧
    LoadDispThresholds env fuel cu rBase r_dest d OpSize.kUnsignedByte 32 0
      ArmOpcode.kThumbLdrbRRI5 ArmOpcode.kThumb2LdrbRRI12
      ArmOpcode.kThumbLdrbRRR ArmOpcode.kThumb2LdrbRRR := by
  obtain ⟨sw1, sw2, sw3⟩ := LoadBaseDispSwitch_compact env rBase r_dest d hb hd hcore hpc hsp13
  refine ⟨?_, ?_, ?_⟩
  · intro ha
    exact LoadDispThresholds_of_switch env fuel cu rBase r_dest d OpSize.kWord 128 2 _ _ _ _
      hb hd hsp h1 h2 (by decide) (by decide) (by decide) (by decide) (sw1 ha)
      (fun x t => (LoadBaseIndexed_core env x rBase t r_dest hcore).1)
  · intro ha
    exact LoadDispThresholds_of_switch env fuel cu rBase r_dest d OpSize.kUnsignedHalf 64 1
      _ _ _ _ hb hd hsp h1 h2 (by decide) (by decide) (by decide) (by decide) (sw2 ha)
      (fun x t => (LoadBaseIndexed_core env x rBase t r_dest hcore).2.1)
  · have e : sarI d 0 = d := by simp [sarI_eq_div]
    refine LoadDispThresholds_of_switch env fuel cu rBase r_dest d OpSize.kUnsignedByte 32 0
      _ _ _ _ hb hd hsp h1 h2 (by decide) (by decide) (by decide) (by decide) ?_
      (fun x t => (LoadBaseIndexed_core env x rBase t r_dest hcore).2.2)
    rw [e]
    exact sw3

theorem LoadBaseDisp_thresholds_witness :
    LoadBaseDisp thumb2Env 0 emptyUnit 1 124 2 OpSize.kWord
      = Except.ok (NewLIR3 emptyUnit ArmOpcode.kThumbLdrRRI5 2 1 (124 / 2 ^ 2)) ∧
    LoadBaseDisp thumb2Env 0 emptyUnit 1 128 2 OpSize.kWord
      = Except.ok (NewLIR3 emptyUnit ArmOpcode.kThumb2LdrRRI12 2 1 128) ∧
    (∃ c ld cu1, LoadBaseDisp thumb2Env 0 emptyUnit 1 4096 2 OpSize.kWord = Except.ok (ld, cu1) ∧
      cu1.code = emptyUnit.code ++ [c, ld] ∧
      loadedValue cu1.literal_list c = some (0, toU32 4096) ∧
      ld.opcode = (if thumb2Env.ARM_LOWREG 0 = true then ArmOpcode.kThumbLdrRRR
        else ArmOpcode.kThumb2LdrRRR) ∧
      ld.operands = [2, 1, 0, 0, 0] ∧ cu1.free_temps = emptyUnit.free_temps) ∧
    LoadBaseDisp thumb2Env 0 emptyUnit 1 62 2 OpSize.kUnsignedHalf
      = Except.ok (NewLIR3 emptyUnit ArmOpcode.kThumbLdrhRRI5 2 1 (62 / 2 ^ 1)) ∧
    LoadBaseDisp thumb2Env 0 emptyUnit 1 64 2 OpSize.kUnsignedHalf
      = Except.ok (NewLIR3 emptyUnit ArmOpcode.kThumb2LdrhRRI12 2 1 64) ∧
    LoadBaseDisp thumb2Env 0 emptyUnit 1 31 2 OpSize.kUnsignedByte
      = Except.ok (NewLIR3 emptyUnit ArmOpcode.kThumbLdrbRRI5 2 1 (31 / 2 ^ 0)) ∧
    LoadBaseDisp thumb2Env 0 emptyUnit 1 32 2 OpSize.kUnsignedByte
      = Except.ok (NewLIR3 emptyUnit ArmOpcode.kThumb2LdrbRRI12 2 1 32) :=
  ⟨((LoadBaseDisp_thresholds thumb2Env 0 emptyUnit 1 2 124 (by decide) (by decide) (by decide)
      (by decide) (by decide) (by decide) (by decide) (by decide)).1 (by decide)).1
      ⟨by decide, by decide⟩,
   ((LoadBaseDisp_thresholds thumb2Env 0 emptyUnit 1 2 128 (by decide) (by decide) (by decide)
      (by decide) (by decide) (by decide) (by decide) (by decide)).1 (by decide)).2.1
      ⟨by decide, by decide⟩,
   ((LoadBaseDisp_thresholds thumb2Env 0 emptyUnit 1 2 4096 (by decide) (by decide) (by decide)
      (by decide) (by decide) (by decide) (by decide) (by decide)).1 (by decide)).2.2
      (Or.inr (by decide)) 0 [1, 2, 3] rfl (by decide),
   ((LoadBaseDisp_thresholds thumb2Env 0 emptyUnit 1 2 62 (by decide) (by decide) (by decide)
      (by decide) (by decide) (by decide) (by decide) (by decide)).2.1 (by decide)).1
      ⟨by decide, by decide⟩,
   ((LoadBaseDisp_thresholds thumb2Env 0 emptyUnit 1 2 64 (by decide) (by decide) (by decide)
      (by decide) (by decide) (by decide) (by decide) (by decide)).2.1 (by decide)).2.1
      ⟨by decide, by decide⟩,
   ((LoadBaseDisp_thresholds thumb2Env 0 emptyUnit 1 2 31 (by decide) (by decide) (by decide)
      (by decide) (by decide) (by decide) (by decide) (by decide)).2.2).1
      ⟨by decide, by decide⟩,
   ((LoadBaseDisp_thresholds thumb2Env 0 emptyUnit 1 2 32 (by decide) (by decide) (by decide)
      (by decide) (by decide) (by decide) (by decide) (by decide)).2.2).2.1
      ⟨by decide, by decide⟩⟩

/-- C11, counterexample: a long loaded from the frame into the core registers
`r2` and `r3` is emitted as two loads, and both carry the width flag clear,
although the requested size is long. -/
theorem LoadBaseDispWide_core_frame_tags :
    thumb2Env.rARM_SP = 13 ∧ thumb2Env.ARM_FPREG 2 = false ∧
    ∃ res cu1, LoadBaseDispWide thumb2Env 0 emptyUnit 13 8 2 3 = Except.ok (res, cu1) ∧
      cu1.code.map (fun l => (l.opcode, l.dalvik_reg_access))
        = [(ArmOpcode.kThumbLdrSpRel, some { reg_id := 2, is_load := true, is64bit := false }),
           (ArmOpcode.kThumbLdrSpRel, some { reg_id := 3, is_load := true, is64bit := false })] :=
  ⟨rfl, rfl, _, _, rfl, by decide⟩

/-- C11, amended: frame annotation of stack-pointer-relative accesses.  For
every call of `LoadBaseDispBody` (reached from `LoadBaseDisp` and
`LoadBaseDispWide`) and of `StoreBaseDispBody` (reached from `StoreBaseDisp` and
`StoreBaseDispWide`) whose base is the stack pointer and that returns, in the
short form and on the synthesis path alike: an access that is not a long or
double in core registers emits its memory access last, and that record carries
the slot index `displacement >> 2` (the quotient by four rounded down), the
load/store flag of the call, and the width flag set exactly when the size is
long or double; a long or double in core registers emits two word accesses, the
low half at `displacement` and the high half four bytes further, each annotated
with its own slot index, the load/store flag of the call and the width flag
clear. -/
theorem stack_frame_tags (env : ArmEnv) (fuel : Nat) (cu : CompilationUnit)
    (rBase d r rh : Int) (size : OpSize) (hsp : rBase = env.rARM_SP) (hw : IdsBelow cu) :
    (∀ res cu1, LoadBaseDispBody env fuel cu rBase d r rh size = Except.ok (res, cu1) →
      (¬ ((size = OpSize.kLong ∨ size = OpSize.kDouble) ∧ env.ARM_FPREG r = false) →
        ∃ pre, cu1.code = cu.code ++ (pre ++ [res]) ∧
          FrameTagged res d true (decide (size = OpSize.kLong ∨ size = OpSize.kDouble))) ∧
      ((size = OpSize.kLong ∨ size = OpSize.kDouble) ∧ env.ARM_FPREG r = false →
        ∃ n1 n2 hi, cu1.code = cu.code ++ (n1 ++ [res]) ++ (n2 ++ [hi]) ∧
          FrameTagged res d true false ∧ FrameTagged hi (addI d 4) true false)) ∧
    (∀ res cu1, StoreBaseDispBody env fuel cu rBase d r rh size = Except.ok (res, cu1) →
      (¬ ((size = OpSize.kLong ∨ size = OpSize.kDouble) ∧ env.ARM_FPREG r = false) →
        ∃ pre st, cu1.code = cu.code ++ (pre ++ [st]) ∧
          FrameTagged st d false (decide (size = OpSize.kLong ∨ size = OpSize.kDouble))) ∧
      ((size = OpSize.kLong ∨ size = OpSize.kDouble) ∧ env.ARM_FPREG r = false →
        ∃ n1 lo n2 hi, cu1.code = cu.code ++ (n1 ++ [lo]) ++ (n2 ++ [hi]) ∧
          FrameTagged lo d false false ∧ FrameTagged hi (addI d 4) false false)) ∧
    LoadBaseDisp env fuel cu rBase d r size
      = LoadBaseDispBody env fuel cu rBase d r (-1) size ∧
    LoadBaseDispWide env fuel cu rBase d r rh
      = LoadBaseDispBody env fuel cu rBase d r rh OpSize.kLong ∧
    StoreBaseDisp env fuel cu rBase d r size
      = StoreBaseDispBody env fuel cu rBase d r (-1) size ∧
    StoreBaseDispWide env fuel cu rBase d r rh
      = StoreBaseDispBody env fuel cu rBase d r rh OpSize.kLong ∧
    sarI d 2 = d / 4 := by
  refine ⟨?_, ?_, rfl, rfl, rfl, rfl, by rw [sarI_eq_div]; norm_num⟩
  · intro res cu1 h
    constructor
    · intro hn
      obtain ⟨⟨pre, g⟩, ht⟩ := LoadBaseDispBody_narrow_emits env fuel cu cu1 rBase d r rh size
        res hn hw h
      exact ⟨pre, g.1, ht hsp⟩
    · rintro ⟨hs, hc⟩
      rw [LoadBaseDispBody_wide env fuel cu rBase d r rh size hs hc, bind_ok_iff] at h
      obtain ⟨⟨l1, c1⟩, h1, h⟩ := h
      rw [bind_ok_iff] at h
      obtain ⟨⟨l2, c2⟩, h2, h⟩ := h
      simp only [pure, Except.pure, Except.ok.injEq, Prod.mk.injEq] at h
      obtain ⟨e1, e2⟩ := h
      subst e1; subst e2
      obtain ⟨⟨n1, g1⟩, t1⟩ := LoadBaseDispBody_narrow_emits env fuel cu c1 rBase d r (-1)
        OpSize.kWord l1 (kWord_narrow env r) hw h1
      obtain ⟨⟨n2, g2⟩, t2⟩ := LoadBaseDispBody_narrow_emits env fuel c1 c2 rBase (addI d 4) rh
        (-1) OpSize.kWord l2 (kWord_narrow env rh) (IdsBelow_of_Emits hw g1) h2
      refine ⟨n1, n2, l2, by rw [g2.1, g1.1], ?_, ?_⟩
      · simpa using t1 hsp
      · simpa using t2 hsp
  · intro res cu1 h
    constructor
    · intro hn
      obtain ⟨pre, st, g, ht⟩ := StoreBaseDispBody_narrow_emits env fuel cu cu1 rBase d r rh size
        res hn hw h
      exact ⟨pre, st, g.1, ht hsp⟩
    · rintro ⟨hs, hc⟩
      rw [StoreBaseDispBody_wide env fuel cu rBase d r rh size hs hc, bind_ok_iff] at h
      obtain ⟨⟨l1, c1⟩, h1, h⟩ := h
      rw [bind_ok_iff] at h
      obtain ⟨⟨l2, c2⟩, h2, h⟩ := h
      obtain ⟨n1, s1, g1, t1⟩ := StoreBaseDispBody_narrow_emits env fuel cu c1 rBase d r (-1)
        OpSize.kWord l1 (kWord_narrow env r) hw h1
      obtain ⟨n2, s2, g2, t2⟩ := StoreBaseDispBody_narrow_emits env fuel c1 c2 rBase (addI d 4)
        rh (-1) OpSize.kWord l2 (kWord_narrow env rh) (IdsBelow_of_Emits hw g1) h2
      simp only [pure, Except.pure, Except.ok.injEq, Prod.mk.injEq] at h
      obtain ⟨e1, e2⟩ := h
      subst e1; subst e2
      refine ⟨n1, s1, n2, s2, by rw [g2.1, g1.1], ?_, ?_⟩
      · simpa using t1 hsp
      · simpa using t2 hsp

theorem stack_frame_tags_witness :
    ∃ res cu1 pre,
      StoreBaseDispBody thumb2Env 0 emptyUnit 13 5000 96 (-1) OpSize.kDouble
        = Except.ok (res, cu1) ∧
      ∃ st, cu1.code = emptyUnit.code ++ (pre ++ [st]) ∧
        FrameTagged st 5000 false
          (decide (OpSize.kDouble = OpSize.kLong ∨ OpSize.kDouble = OpSize.kDouble)) ∧
        st.opcode = ArmOpcode.kThumb2Vstrd := by
  have hw : IdsBelow emptyUnit := fun l hl => absurd hl (List.not_mem_nil l)
  have e : ∃ p, StoreBaseDispBody thumb2Env 0 emptyUnit 13 5000 96 (-1) OpSize.kDouble
      = Except.ok p ∧
      ∀ st ∈ p.2.code.getLast?, st.opcode = ArmOpcode.kThumb2Vstrd := ⟨_, rfl, by decide⟩
  obtain ⟨⟨res, cu1⟩, h0, ho⟩ := e
  obtain ⟨pre, st, a1, a2⟩ :=
    ((stack_frame_tags thumb2Env 0 emptyUnit 13 5000 96 (-1) OpSize.kDouble rfl hw).2.1
      res cu1 h0).1 (by decide)
  refine ⟨res, cu1, pre, h0, st, a1, a2, ho st ?_⟩
  rw [a1]
  simp

/-- Add and subtract with an immediate preserve the meaning wherever the
negation of the value is exact.  For an add or a subtract of a 32-bit value `v`
other than `INT_MIN`, whenever `OpRegRegImm` returns one of the six immediate
forms of the shared add/subtract path (`kThumbAddRRI3`, `kThumbSubRRI3`,
`kThumb2AddRRI12`, `kThumb2SubRRI12`, `kThumb2AddRRI8`, `kThumb2SubRRI8`), that
record is the only one emitted, its third operand is non-negative and fits the
field of the form, and what the instruction adds (the operand for an add
opcode, minus the operand for a subtract opcode, the operand being decoded by
the modified-immediate rule for the RRI8 forms) is congruent modulo `2^32` to
`+v` for an add and `-v` for a subtract.  Such a form is returned whenever the
shared path is reached and `|v| ≤ 255` or `-v` or `v` is a modified immediate. -/
theorem OpRegRegImm_add_sub_meaning (env : ArmEnv) (fuel : Nat) (cu : CompilationUnit)
    (op : OpKind) (r_dest r_src1 value : Int) (hop : op = OpKind.kOpAdd ∨ op = OpKind.kOpSub)
    (h1 : -2147483648 < value) (h2 : value < 2147483648) :
    (∀ res cu1, OpRegRegImm env fuel cu op r_dest r_src1 value = Except.ok (res, cu1) →
      (addSubImmEffect res.opcode 0).isSome = true →
      ∃ imm eff, (res, cu1) = NewLIR3 cu res.opcode r_dest r_src1 imm ∧
        0 ≤ imm ∧ imm ≤ addSubImmBound res.opcode ∧
        addSubImmEffect res.opcode imm = some eff ∧
        Int.ModEq (2 ^ 32) eff (if op = OpKind.kOpAdd then value else -value)) ∧
    ((op = OpKind.kOpSub ∨ ¬ (env.ARM_LOWREG r_dest = true ∧
        (r_src1 = env.r13sp ∨ r_src1 = env.r15pc) ∧ value ≤ 1020 ∧ andI value 0x3 = 0)) →
      ((-255 ≤ value ∧ value ≤ 255) ∨ 0 ≤ ModifiedImmediate (toU32 (-value)) ∨
        0 ≤ ModifiedImmediate (toU32 value)) →
      ∃ res cu1, OpRegRegImm env fuel cu op r_dest r_src1 value = Except.ok (res, cu1) ∧
        (addSubImmEffect res.opcode 0).isSome = true) := by
  have hform := OpRegRegImmAddSub_forms env (LoadConstant env fuel) cu op r_dest r_src1 value
    hop h1 h2
  have hsome : ∀ o x y, addSubImmEffect o x = some y → (addSubImmEffect o 0).isSome = true := by
    intro o x y h
    cases o <;> first | rfl | (simp [addSubImmEffect] at h)
  have shared : ∀ res cu1,
      OpRegRegImmAddSub env (LoadConstant env fuel) cu op r_dest r_src1 value
        = Except.ok (res, cu1) →
      (addSubImmEffect res.opcode 0).isSome = true →
      ∃ imm eff, (res, cu1) = NewLIR3 cu res.opcode r_dest r_src1 imm ∧
        0 ≤ imm ∧ imm ≤ addSubImmBound res.opcode ∧
        addSubImmEffect res.opcode imm = some eff ∧
        Int.ModEq (2 ^ 32) eff (if op = OpKind.kOpAdd then value else -value) := by
    intro res cu1 h hs
    rcases hform with ⟨_, opc, imm, eff, he, hi⟩ | ⟨_, hm⟩
    · rw [he] at h
      injection h with h
      have ho : res.opcode = opc := by
        have e := congrArg Prod.fst h
        simp only at e
        rw [← e]; rfl
      rw [ho]
      exact ⟨imm, eff, h.symm, hi⟩
    · rcases hm res cu1 h with ho | ho <;> rw [ho] at hs <;> cases hs
  constructor
  · intro res cu1 h hs
    rcases hop with rfl | rfl
    · unfold OpRegRegImm OpRegRegImmWith at h
      simp only at h
      split_ifs at h
      · injection h with h
        have e := congrArg Prod.fst h
        simp only at e
        rw [← e] at hs
        cases hs
      · injection h with h
        have e := congrArg Prod.fst h
        simp only at e
        rw [← e] at hs
        cases hs
      · exact shared res cu1 h hs
    · exact shared res cu1 h hs
  · intro hpath hc
    rcases hform with ⟨_, opc, imm, eff, he, _, _, hi, _⟩ | ⟨hn, _⟩
    · have hr : OpRegRegImm env fuel cu op r_dest r_src1 value
          = OpRegRegImmAddSub env (LoadConstant env fuel) cu op r_dest r_src1 value := by
        rcases hop with rfl | rfl
        · unfold OpRegRegImm OpRegRegImmWith
          simp only
          have hp : ¬ (env.ARM_LOWREG r_dest = true ∧
              (r_src1 = env.r13sp ∨ r_src1 = env.r15pc) ∧ value ≤ 1020 ∧
              andI value 0x3 = 0) := by
            rcases hpath with h | h
            · cases h
            · exact h
          rw [if_neg (fun h => hp ⟨h.1, Or.inl h.2.1, h.2.2⟩),
            if_neg (fun h => hp ⟨h.1, Or.inr h.2.1, h.2.2⟩)]
        · rfl
      rw [hr, he]
      exact ⟨_, _, rfl, hsome opc imm eff hi⟩
    · exact absurd hc hn

/-- C12, failing input: an add or a subtract of `INT_MIN`.  The value has a
modified-immediate form and so has its negation modulo `2^32`, so an immediate
form is what the shared add/subtract path is to emit; but the path works on
`abs_value` and `mod_imm_neg`, computed at lines 404 and 409 as `-value`, a
signed overflow for `INT_MIN`.  The behaviour of the program is undefined
there: the operand is not known to be non-negative, and the call has no
outcome that the source fixes. -/
theorem OpRegRegImm_add_sub_int_min :
    0 ≤ ModifiedImmediate (toU32 (-2147483648)) ∧
    OpRegRegImm thumb2Env 0 emptyUnit OpKind.kOpAdd 1 2 (-2147483648)
      = Except.error Fault.signedOverflow ∧
    OpRegRegImm thumb2Env 0 emptyUnit OpKind.kOpSub 1 2 (-2147483648)
      = Except.error Fault.signedOverflow ∧
    OpRegRegImmRun thumb2Env 0 emptyUnit OpKind.kOpAdd 1 2 (-2147483648)
      = (Except.error Fault.signedOverflow, emptyUnit) :=
  ⟨by decide, rfl, rfl, rfl⟩

/-! ## Register-register-immediate selector -/

/-- The test of lines 430-431 as written: a compact destination, the stack
pointer as source, and an offset that is at most 1020 and a multiple of four,
of either sign, give the add-relative form with the offset shifted right by
two. -/
theorem OpRegRegImm_add_sp_relative (env : ArmEnv) (fuel : Nat) (cu : CompilationUnit)
    (r_dest r_src1 value : Int) (hl : env.ARM_LOWREG r_dest = true) (hs : r_src1 = env.r13sp)
    (h1 : value ≤ 1020) (h2 : andI value 0x3 = 0) :
    OpRegRegImm env fuel cu OpKind.kOpAdd r_dest r_src1 value
      = Except.ok (NewLIR3 cu ArmOpcode.kThumbAddSpRel r_dest r_src1 (sarI value 2)) := by
  unfold OpRegRegImm OpRegRegImmWith
  simp only
  rw [if_pos ⟨hl, hs, h1, h2⟩]
  rfl

/-- C13, the code at the failing input: an add of `-4` to the stack pointer into
the compact register `r1` emits `kThumbAddSpRel` with the operand `-1`, which is
outside `0..255`. -/
theorem OpRegRegImm_add_relative_negative :
    thumb2Env.ARM_LOWREG 1 = true ∧ thumb2Env.r13sp = 13 ∧
    ∃ res cu1, OpRegRegImm thumb2Env 0 emptyUnit OpKind.kOpAdd 1 13 (-4)
        = Except.ok (res, cu1) ∧
      res.opcode = ArmOpcode.kThumbAddSpRel ∧ res.operands = [1, 13, -1, 0, 0] ∧
      cu1.code = [res] :=
  ⟨rfl, rfl, _, _, rfl, rfl, rfl, rfl⟩

/-- C14: `LoadConstantValueWide`.  With a core low register the call is
`LoadConstantNoClobber(lo_reg, lo)` followed, in the context that leaves, by
`LoadConstantNoClobber(hi_reg, hi)`, and returns the record of the low half;
with a core high register too both halves return, exactly two records are
emitted, and the opcode, the operands and the pool word of the second are those
that `LoadConstantNoClobber(hi_reg, hi)` emits from the context before the call,
so the high half takes nothing from the low half.  With a floating-point low
register exactly one record is emitted: `kThumb2Vmovd_IMM8` with the encoded byte
when `EncodeImmDouble(lo, hi)` succeeds, otherwise one `kThumb2Vldrd` relative to
the program counter whose target is the combined pool entry holding `lo` and
then `hi`, found in the pool or added to it. -/
theorem LoadConstantValueWide_contract (env : ArmEnv) (fuel : Nat) (cu : CompilationUnit)
    (lo_reg hi_reg lo hi : Int) :
    (env.ARM_FPREG lo_reg = false →
      LoadConstantValueWide env fuel cu lo_reg hi_reg lo hi
        = (LoadConstantNoClobber env fuel cu lo_reg lo >>= fun res =>
            LoadConstantNoClobber env fuel res.2 hi_reg hi >>= fun h =>
              pure (res.1, h.2)) ∧
      (env.ARM_FPREG hi_reg = false →
        ∃ a c1 b cu1 b0 c0,
          LoadConstantNoClobber env fuel cu lo_reg lo = Except.ok (a, c1) ∧
          LoadConstantNoClobber env fuel c1 hi_reg hi = Except.ok (b, cu1) ∧
          LoadConstantValueWide env fuel cu lo_reg hi_reg lo hi = Except.ok (a, cu1) ∧
          cu1.code = cu.code ++ [a, b] ∧
          LoadConstantNoClobber env fuel cu hi_reg hi = Except.ok (b0, c0) ∧
          b.opcode = b0.opcode ∧ b.operands = b0.operands ∧
          b.target.map Literal.word = b0.target.map Literal.word)) ∧
    (env.ARM_FPREG lo_reg = true →
      (0 ≤ EncodeImmDouble lo hi →
        LoadConstantValueWide env fuel cu lo_reg hi_reg lo hi
          = Except.ok (NewLIR2 cu ArmOpcode.kThumb2Vmovd_IMM8 (env.S2d lo_reg hi_reg)
              (EncodeImmDouble lo hi)) ∧
        (NewLIR2 cu ArmOpcode.kThumb2Vmovd_IMM8 (env.S2d lo_reg hi_reg)
              (EncodeImmDouble lo hi)).2.code
          = cu.code ++ [(NewLIR2 cu ArmOpcode.kThumb2Vmovd_IMM8 (env.S2d lo_reg hi_reg)
              (EncodeImmDouble lo hi)).1]) ∧
      (EncodeImmDouble lo hi < 0 →
        ∃ res cu1 t, LoadConstantValueWide env fuel cu lo_reg hi_reg lo hi
            = Except.ok (res, cu1) ∧
          cu1.code = cu.code ++ [res] ∧
          res.opcode = ArmOpcode.kThumb2Vldrd ∧
          res.operands = [env.S2d lo_reg hi_reg, env.r15pc, 0, 0, 0] ∧
          res.target = some t ∧
          cu1.literal_list[t.index]? = some lo ∧ cu1.literal_list[t.index + 1]? = some hi ∧
          (cu1.literal_list = cu.literal_list ∨
            cu1.literal_list = cu.literal_list ++ [lo, hi]))) := by
  constructor
  · intro hlo
    have e : LoadConstantValueWide env fuel cu lo_reg hi_reg lo hi
        = (LoadConstantNoClobber env fuel cu lo_reg lo >>= fun res =>
            LoadConstantNoClobber env fuel res.2 hi_reg hi >>= fun h =>
              pure (res.1, h.2)) := by
      unfold LoadConstantValueWide
      simp only [hlo, Bool.false_eq_true, if_false]
    refine ⟨e, ?_⟩
    intro hhi
    obtain ⟨p1, _, h1, _, _⟩ := LoadConstantNoClobber_core_shape env fuel cu cu lo_reg lo hlo
    obtain ⟨p2, p0, h2, h0, s1, s2, s3⟩ :=
      LoadConstantNoClobber_core_shape env fuel p1.2 cu hi_reg hi hhi
    have g1 := LoadConstantNoClobber_emits env fuel cu p1.2 lo_reg lo p1.1 h1
    have g2 := LoadConstantNoClobber_emits env fuel p1.2 p2.2 hi_reg hi p2.1 h2
    refine ⟨p1.1, p1.2, p2.1, p2.2, p0.1, p0.2, h1, h2, ?_, ?_, h0, s1, s2, s3⟩
    · rw [e, h1]
      simp only [bind, Except.bind]
      rw [h2]
      rfl
    · rw [g2.1, g1.1]
      simp
  · intro hlo
    constructor
    · intro hc
      refine ⟨?_, rfl⟩
      unfold LoadConstantValueWide
      simp only [hlo, if_true, ge_iff_le, hc, pure, Except.pure]
    · intro hc
      obtain ⟨_, f2, f3, f4, f5, f6⟩ := poolEntryWide_facts cu lo hi
      have e : ∃ p, LoadConstantValueWide env fuel cu lo_reg hi_reg lo hi = Except.ok p ∧
          p.2.code = (poolEntryWide cu lo hi).2.code ++ [p.1] ∧
          p.1.opcode = ArmOpcode.kThumb2Vldrd ∧
          p.1.operands = [env.S2d lo_reg hi_reg, env.r15pc, 0, 0, 0] ∧
          p.1.target = some (poolEntryWide cu lo hi).1 ∧
          p.2.literal_list = (poolEntryWide cu lo hi).2.literal_list := by
        unfold LoadConstantValueWide
        simp only [hlo, if_true, ge_iff_le, not_le.mpr hc, if_false, pure, Except.pure]
        exact ⟨_, rfl, rfl, rfl, rfl, rfl, rfl⟩
      obtain ⟨⟨res, cu1⟩, e1, e2, e3, e4, e5, e6⟩ := e
      simp only at e2 e3 e4 e5 e6
      refine ⟨res, cu1, (poolEntryWide cu lo hi).1, e1, ?_, e3, e4, e5, ?_, ?_, ?_⟩
      · rw [e2, f5]
      · rw [e6]; exact f2
      · rw [e6]; exact f3
      · rw [e6]; exact f4

theorem LoadConstantValueWide_contract_witness :
    (∃ a c1 b cu1 b0 c0,
      LoadConstantNoClobber thumb2Env 0 emptyUnit 2 305419896 = Except.ok (a, c1) ∧
      LoadConstantNoClobber thumb2Env 0 c1 3 1000 = Except.ok (b, cu1) ∧
      LoadConstantValueWide thumb2Env 0 emptyUnit 2 3 305419896 1000 = Except.ok (a, cu1) ∧
      cu1.code = emptyUnit.code ++ [a, b] ∧
      LoadConstantNoClobber thumb2Env 0 emptyUnit 3 1000 = Except.ok (b0, c0) ∧
      b.opcode = b0.opcode ∧ b.operands = b0.operands ∧
      b.target.map Literal.word = b0.target.map Literal.word) ∧
    (∃ res cu1 t, LoadConstantValueWide thumb2Env 0 emptyUnit 32 33 5 1072693248
        = Except.ok (res, cu1) ∧
      cu1.code = emptyUnit.code ++ [res] ∧
      res.opcode = ArmOpcode.kThumb2Vldrd ∧
      res.operands = [thumb2Env.S2d 32 33, thumb2Env.r15pc, 0, 0, 0] ∧
      res.target = some t ∧
      cu1.literal_list[t.index]? = some 5 ∧ cu1.literal_list[t.index + 1]? = some 1072693248 ∧
      (cu1.literal_list = emptyUnit.literal_list ∨
        cu1.literal_list = emptyUnit.literal_list ++ [5, 1072693248])) :=
  ⟨((LoadConstantValueWide_contract thumb2Env 0 emptyUnit 2 3 305419896 1000).1
      (by decide)).2 (by decide),
   ((LoadConstantValueWide_contract thumb2Env 0 emptyUnit 32 33 5 1072693248).2
      (by decide)).2 (by decide)⟩

/-! ## Wide accesses and frame annotation -/

/-- C15: decomposition of a wide access.  For size long or double with a core
data register, `LoadBaseDispBody(base, d, lo, hi)` is the word load of `lo` at
`d` followed, in the context that load leaves, by the word load of `hi` at
`d + 4`, and returns the result of the low half; each half is chosen by the
word rules (the `switch` at size word, then the code after it).  From a context
whose records were allocated before, the stream after the call is the stream
before it followed by the records of the low half and then by those of the high
half.  `StoreBaseDispBody` does the same with word stores.  The sum `d + 4` is
the machine sum, which is `d + 4` whenever that is an `int`. -/
theorem wide_access_decomposition (env : ArmEnv) (fuel : Nat) (cu : CompilationUnit)
    (rBase d lo hi : Int) (size : OpSize)
    (hs : size = OpSize.kLong ∨ size = OpSize.kDouble) (hc : env.ARM_FPREG lo = false) :
    (LoadBaseDispBody env fuel cu rBase d lo hi size
      = (LoadBaseDispBody env fuel cu rBase d lo (-1) OpSize.kWord >>= fun res =>
          LoadBaseDispBody env fuel res.2 rBase (addI d 4) hi (-1) OpSize.kWord >>= fun h =>
            pure (res.1, h.2))) ∧
    (∀ res cu1, IdsBelow cu →
      LoadBaseDispBody env fuel cu rBase d lo hi size = Except.ok (res, cu1) →
      ∃ c1 h n1 n2,
        LoadBaseDispBody env fuel cu rBase d lo (-1) OpSize.kWord = Except.ok (res, c1) ∧
        LoadBaseDispBody env fuel c1 rBase (addI d 4) hi (-1) OpSize.kWord
          = Except.ok (h, cu1) ∧
        Emits cu (n1 ++ [res]) c1 ∧ Emits c1 (n2 ++ [h]) cu1 ∧
        cu1.code = cu.code ++ (n1 ++ [res]) ++ (n2 ++ [h])) ∧
    (StoreBaseDispBody env fuel cu rBase d lo hi size
      = (StoreBaseDispBody env fuel cu rBase d lo (-1) OpSize.kWord >>= fun res =>
          StoreBaseDispBody env fuel res.2 rBase (addI d 4) hi (-1) OpSize.kWord >>= fun h =>
            pure (res.1, h.2))) ∧
    (∀ res cu1, IdsBelow cu →
      StoreBaseDispBody env fuel cu rBase d lo hi size = Except.ok (res, cu1) →
      ∃ c1 h n1 n2,
        StoreBaseDispBody env fuel cu rBase d lo (-1) OpSize.kWord = Except.ok (res, c1) ∧
        StoreBaseDispBody env fuel c1 rBase (addI d 4) hi (-1) OpSize.kWord
          = Except.ok (h, cu1) ∧
        Emits cu n1 c1 ∧ Emits c1 n2 cu1 ∧ n1 ≠ [] ∧ n2 ≠ [] ∧
        cu1.code = cu.code ++ n1 ++ n2) ∧
    (∀ c x r, LoadBaseDispBody env fuel c rBase x r (-1) OpSize.kWord
      = (LoadBaseDispSwitch env rBase x r (-1) OpSize.kWord >>=
          LoadBaseDispTail env fuel c rBase x OpSize.kWord)) ∧
    (∀ c x r, StoreBaseDispBody env fuel c rBase x r (-1) OpSize.kWord
      = (StoreBaseDispSwitch env rBase x r (-1) OpSize.kWord >>=
          StoreBaseDispTail env fuel c rBase x OpSize.kWord)) ∧
    (-2147483648 ≤ d → d + 4 < 2147483648 → addI d 4 = d + 4) := by
  refine ⟨LoadBaseDispBody_wide env fuel cu rBase d lo hi size hs hc, ?_,
    StoreBaseDispBody_wide env fuel cu rBase d lo hi size hs hc, ?_,
    fun c x r => LoadBaseDispBody_narrow _ _ _ _ _ _ _ _ (kWord_narrow env r),
    fun c x r => StoreBaseDispBody_narrow _ _ _ _ _ _ _ _ (kWord_narrow env r),
    fun h1 h2 => addI_eq d 4 (by omega) h2⟩
  · intro res cu1 hw h
    rw [LoadBaseDispBody_wide env fuel cu rBase d lo hi size hs hc, bind_ok_iff] at h
    obtain ⟨⟨l1, c1⟩, h1, h⟩ := h
    rw [bind_ok_iff] at h
    obtain ⟨⟨l2, c2⟩, h2, h⟩ := h
    simp only [pure, Except.pure, Except.ok.injEq, Prod.mk.injEq] at h
    obtain ⟨e1, e2⟩ := h
    subst e1; subst e2
    obtain ⟨⟨n1, g1⟩, _⟩ := LoadBaseDispBody_narrow_emits env fuel cu c1 rBase d lo (-1)
      OpSize.kWord l1 (kWord_narrow env lo) hw h1
    obtain ⟨⟨n2, g2⟩, _⟩ := LoadBaseDispBody_narrow_emits env fuel c1 c2 rBase (addI d 4) hi (-1)
      OpSize.kWord l2 (kWord_narrow env hi) (IdsBelow_of_Emits hw g1) h2
    refine ⟨c1, l2, n1, n2, h1, h2, g1, g2, ?_⟩
    rw [g2.1, g1.1]
  · intro res cu1 hw h
    rw [StoreBaseDispBody_wide env fuel cu rBase d lo hi size hs hc, bind_ok_iff] at h
    obtain ⟨⟨l1, c1⟩, h1, h⟩ := h
    rw [bind_ok_iff] at h
    obtain ⟨⟨l2, c2⟩, h2, h⟩ := h
    simp only [pure, Except.pure, Except.ok.injEq, Prod.mk.injEq] at h
    obtain ⟨e1, e2⟩ := h
    subst e1; subst e2
    obtain ⟨n1, s1, g1, _⟩ := StoreBaseDispBody_narrow_emits env fuel cu c1 rBase d lo (-1)
      OpSize.kWord l1 (kWord_narrow env lo) hw h1
    obtain ⟨n2, s2, g2, _⟩ := StoreBaseDispBody_narrow_emits env fuel c1 c2 rBase (addI d 4) hi
      (-1) OpSize.kWord l2 (kWord_narrow env hi) (IdsBelow_of_Emits hw g1) h2
    refine ⟨c1, l2, _, _, h1, h2, g1, g2, by simp, by simp, ?_⟩
    rw [g2.1, g1.1]

theorem wide_access_decomposition_witness :
    ∃ res cu1 c1 h n1 n2,
      LoadBaseDispBody thumb2Env 0 emptyUnit 13 8 2 9 OpSize.kLong = Except.ok (res, cu1) ∧
      LoadBaseDispBody thumb2Env 0 emptyUnit 13 8 2 (-1) OpSize.kWord = Except.ok (res, c1) ∧
      LoadBaseDispBody thumb2Env 0 c1 13 (addI 8 4) 9 (-1) OpSize.kWord = Except.ok (h, cu1) ∧
      Emits emptyUnit (n1 ++ [res]) c1 ∧ Emits c1 (n2 ++ [h]) cu1 ∧
      cu1.code = emptyUnit.code ++ (n1 ++ [res]) ++ (n2 ++ [h]) ∧
      res.opcode = ArmOpcode.kThumbLdrSpRel ∧ h.opcode = ArmOpcode.kThumb2LdrRRI12 := by
  have hw : IdsBelow emptyUnit := fun l hl => absurd hl (List.not_mem_nil l)
  have e : ∃ p, LoadBaseDispBody thumb2Env 0 emptyUnit 13 8 2 9 OpSize.kLong = Except.ok p ∧
      p.1.opcode = ArmOpcode.kThumbLdrSpRel := ⟨_, rfl, rfl⟩
  obtain ⟨⟨res, cu1⟩, h0, ho⟩ := e
  obtain ⟨c1, h, n1, n2, a1, a2, a3, a4, a5⟩ :=
    (wide_access_decomposition thumb2Env 0 emptyUnit 13 8 2 9 OpSize.kLong (Or.inl rfl)
      (by decide)).2.1 res cu1 hw h0
  refine ⟨res, cu1, c1, h, n1, n2, h0, a1, a2, a3, a4, a5, ho, ?_⟩
  have e2 : ∃ p, LoadBaseDispBody thumb2Env 0 emptyUnit 13 8 2 (-1) OpSize.kWord = Except.ok p ∧
      ∀ q, LoadBaseDispBody thumb2Env 0 p.2 13 (addI 8 4) 9 (-1) OpSize.kWord = Except.ok q →
        q.1.opcode = ArmOpcode.kThumb2LdrRRI12 := by
    refine ⟨_, rfl, ?_⟩
    intro q hq
    injection hq with hq
    rw [← hq]
    rfl
  obtain ⟨p, hp, hq⟩ := e2
  rw [a1] at hp
  injection hp with hp
  rw [← hp] at hq
  exact hq (h, cu1) a2

/-- C16: kind domain of `OpRegRegImm`.  For every kind among lsl, lsr, asr, ror,
add, sub, adc, sbc, or, and, xor, mul and cmp the call returns an instruction
whenever the head of the temporary-register pool is a core register, the
registry gives the four compact compare opcodes an operand count and, for an
add or a subtract, the value is not `INT_MIN`; without those it can only abort
for lack of a temporary, on the register-class assertion of the constant load,
or on the registry entry of the compare, or be the add or subtract of
`INT_MIN`, whose negation the source leaves undefined; never a bad kind.  For
every other kind the call is the bad-kind abort of the `default` case, and the
context at that abort is the context the call was entered with: no instruction
has been emitted and no temporary acquired, whatever the context and the
constant materializer are.  The context-keeping model in which this is stated
is `OpRegRegImm` once the context of an abort is forgotten. -/
theorem OpRegRegImm_kind_domain (env : ArmEnv) (fuel : Nat) (cu : CompilationUnit)
    (op : OpKind) (r_dest r_src1 value : Int) :
    dropAbortContext (OpRegRegImmRun env fuel cu op r_dest r_src1 value)
      = OpRegRegImm env fuel cu op r_dest r_src1 value ∧
    (op ∈ regRegImmKinds →
      ((∃ p, OpRegRegImm env fuel cu op r_dest r_src1 value = Except.ok p) ∨
        (cu.free_temps = [] ∧
          OpRegRegImm env fuel cu op r_dest r_src1 value = Except.error Fault.noFreeTemp) ∨
        ((∃ t rest, cu.free_temps = t :: rest ∧ env.ARM_FPREG t = true) ∧
          OpRegRegImm env fuel cu op r_dest r_src1 value = Except.error Fault.dcheckFailed) ∨
        (op = OpKind.kOpCmp ∧
          (∃ x y, hasOperandCount (env.EncodingMap (cmpVariant x y)) = false) ∧
          OpRegRegImm env fuel cu op r_dest r_src1 value
            = Except.error Fault.unexpectedOperandCount) ∨
        ((op = OpKind.kOpAdd ∨ op = OpKind.kOpSub) ∧ value = -2147483648 ∧
          OpRegRegImm env fuel cu op r_dest r_src1 value
            = Except.error Fault.signedOverflow)) ∧
      (∀ t rest, cu.free_temps = t :: rest → env.ARM_FPREG t = false →
        (∀ x y, hasOperandCount (env.EncodingMap (cmpVariant x y)) = true) →
        (op = OpKind.kOpAdd ∨ op = OpKind.kOpSub → value ≠ -2147483648) →
        ∃ res cu1, OpRegRegImm env fuel cu op r_dest r_src1 value = Except.ok (res, cu1) ∧
          OpRegRegImmRun env fuel cu op r_dest r_src1 value = (Except.ok res, cu1))) ∧
    (op ∉ regRegImmKinds →
      OpRegRegImmRun env fuel cu op r_dest r_src1 value = (Except.error Fault.badOpcode, cu) ∧
      OpRegRegImm env fuel cu op r_dest r_src1 value = Except.error Fault.badOpcode ∧
      ∀ lc cu0,
        OpRegRegImmRunWith env lc cu0 op r_dest r_src1 value
          = (Except.error Fault.badOpcode, cu0) ∧
        OpRegRegImmWith env lc cu0 op r_dest r_src1 value = Except.error Fault.badOpcode) := by
  have hdrop := OpRegRegImmRun_drop env fuel cu op r_dest r_src1 value
  refine ⟨hdrop, ?_, ?_⟩
  · intro hop
    have h := OpRegRegImm_outcome env fuel cu op r_dest r_src1 value hop
    refine ⟨h, ?_⟩
    intro t rest hf hc hm hv
    rcases h with ⟨⟨res, cu1⟩, h⟩ | ⟨h, _⟩ | ⟨⟨t1, r1, h, h1⟩, _⟩ | ⟨_, ⟨x, y, h⟩, _⟩ |
      ⟨ho, hmin, _⟩
    · refine ⟨res, cu1, h, ?_⟩
      rw [← hdrop] at h
      exact dropAbortContext_ok _ res cu1 h
    · rw [hf] at h; cases h
    · rw [hf] at h
      injection h with h2 h3
      rw [← h2, hc] at h1
      cases h1
    · rw [hm x y] at h; cases h
    · exact absurd hmin (hv ho)
  · intro hop
    have key : ∀ lc cu0,
        OpRegRegImmRunWith env lc cu0 op r_dest r_src1 value
          = (Except.error Fault.badOpcode, cu0) ∧
        OpRegRegImmWith env lc cu0 op r_dest r_src1 value
          = Except.error Fault.badOpcode := by
      intro lc cu0
      cases op <;> first
        | exact ⟨rfl, rfl⟩
        | exact absurd (by simp [regRegImmKinds]) hop
    exact ⟨(key _ _).1, (key _ _).2, key⟩

theorem OpRegRegImm_kind_domain_witness :
    (∃ res cu1, OpRegRegImm thumb2Env 0 emptyUnit OpKind.kOpMul 1 2 100000
        = Except.ok (res, cu1) ∧
      OpRegRegImmRun thumb2Env 0 emptyUnit OpKind.kOpMul 1 2 100000 = (Except.ok res, cu1)) ∧
    (∃ res cu1, OpRegRegImm thumb2Env 0 emptyUnit OpKind.kOpCmp 1 2 100000
        = Except.ok (res, cu1) ∧
      OpRegRegImmRun thumb2Env 0 emptyUnit OpKind.kOpCmp 1 2 100000 = (Except.ok res, cu1)) ∧
    (∃ res cu1, OpRegRegImm thumb2Env 0 emptyUnit OpKind.kOpAdd 1 2 100000
        = Except.ok (res, cu1) ∧
      OpRegRegImmRun thumb2Env 0 emptyUnit OpKind.kOpAdd 1 2 100000 = (Except.ok res, cu1)) ∧
    OpRegRegImmRun thumb2Env 0 emptyUnit OpKind.kOpRsub 1 2 5
      = (Except.error Fault.badOpcode, emptyUnit) ∧
    OpRegRegImmRun thumb2Env 0 emptyUnit OpKind.kOpBic 1 2 5
      = (Except.error Fault.badOpcode, emptyUnit) :=
  ⟨((OpRegRegImm_kind_domain thumb2Env 0 emptyUnit OpKind.kOpMul 1 2 100000).2.1
      (by decide)).2 0 [1, 2, 3] rfl (by decide) (by decide) (by decide),
   ((OpRegRegImm_kind_domain thumb2Env 0 emptyUnit OpKind.kOpCmp 1 2 100000).2.1
      (by decide)).2 0 [1, 2, 3] rfl (by decide) (by decide) (by decide),
   ((OpRegRegImm_kind_domain thumb2Env 0 emptyUnit OpKind.kOpAdd 1 2 100000).2.1
      (by decide)).2 0 [1, 2, 3] rfl (by decide) (by decide) (by decide),
   ((OpRegRegImm_kind_domain thumb2Env 0 emptyUnit OpKind.kOpRsub 1 2 5).2.2 (by decide)).1,
   ((OpRegRegImm_kind_domain thumb2Env 0 emptyUnit OpKind.kOpBic 1 2 5).2.2 (by decide)).1⟩

theorem and_one_shiftLeft_eq_zero (x k : Nat) : x &&& (1 <<< k) = 0 ↔ x.testBit k = false := by
  rw [Nat.one_shiftLeft]
  constructor
  · intro h
    have := congrArg (fun n => Nat.testBit n k) h
    simpa [Nat.testBit_and, Nat.testBit_two_pow_self] using this
  · intro h
    apply Nat.eq_of_testBit_eq
    intro j
    rw [Nat.testBit_and, Nat.testBit_two_pow, Nat.zero_testBit]
    by_cases hj : k = j
    · subst hj; simp [h]
    · simp [hj]

/-! ## Register copies and 64-bit constants -/

/-- C17: no-op marking of `FpRegCopy`.  Every record that `FpRegCopy` returns
has its `is_nop` flag set exactly when `r_dest = r_src` and the bit
`kSafeOptimizations` of `disable_opt` is clear; it carries the operands
`(r_dest, r_src)`, and is allocated without being appended: the instruction
stream is as before the call.  The call returns for every pair of registers of
matching double-ness of which one is a floating-point register, and for every
pair when assertions are compiled out. -/
theorem FpRegCopy_nop_marking (env : ArmEnv) (kSafeOptimizations : Nat) (cu : CompilationUnit)
    (r_dest r_src : Int) :
    (∀ res cu1, FpRegCopy env kSafeOptimizations cu r_dest r_src = Except.ok (res, cu1) →
      (res.is_nop = true ↔
        (r_dest = r_src ∧ cu.disable_opt.testBit kSafeOptimizations = false)) ∧
      res.operands = [r_dest, r_src, 0, 0, 0] ∧
      cu1.code = cu.code ∧ res.id = cu.next_id ∧
      cu1 = { cu with next_id := cu.next_id + 1 }) ∧
    (env.ARM_DOUBLEREG r_dest = env.ARM_DOUBLEREG r_src →
      (env.ARM_DOUBLEREG r_dest = true ∨ env.ARM_SINGLEREG r_dest = true ∨
        env.ARM_SINGLEREG r_src = true) →
      ∃ res cu1, FpRegCopy env kSafeOptimizations cu r_dest r_src = Except.ok (res, cu1)) ∧
    (env.kIsDebugBuild = false →
      ∃ res cu1, FpRegCopy env kSafeOptimizations cu r_dest r_src = Except.ok (res, cu1)) := by
  refine ⟨?_, ?_, ?_⟩
  · intro res cu1 h
    unfold FpRegCopy at h
    rw [bind_ok_iff] at h
    obtain ⟨_, _, h⟩ := h
    rw [bind_ok_iff] at h
    obtain ⟨opcode, _, h⟩ := h
    simp only at h
    rw [← and_one_shiftLeft_eq_zero]
    by_cases hc : cu.disable_opt &&& 1 <<< kSafeOptimizations = 0 ∧ r_dest = r_src
    · rw [if_pos hc] at h
      simp only [pure, Except.pure, Except.ok.injEq, Prod.mk.injEq] at h
      obtain ⟨hr, hu⟩ := h
      rw [← hr, ← hu]
      exact ⟨⟨fun _ => ⟨hc.2, hc.1⟩, fun _ => rfl⟩, rfl, rfl, rfl, rfl⟩
    · rw [if_neg hc] at h
      simp only [pure, Except.pure, Except.ok.injEq] at h
      have e1 := congrArg Prod.fst h
      have e2 := congrArg Prod.snd h
      simp only at e1 e2
      rw [← e1, ← e2]
      refine ⟨⟨fun hn => ?_, fun hh => absurd ⟨hh.2, hh.1⟩ hc⟩, rfl, rfl, rfl, rfl⟩
      simp [RawLIR] at hn
  · intro hd hs
    unfold FpRegCopy FpRegCopyOpcode DCHECK
    simp only [hd, decide_True, Bool.not_true, Bool.and_false, Bool.false_eq_true, if_false,
      bind, Except.bind, pure, Except.pure]
    rw [hd] at hs
    cases h1 : env.ARM_DOUBLEREG r_src <;> cases h2 : env.ARM_SINGLEREG r_dest <;>
      cases h3 : env.ARM_SINGLEREG r_src <;> cases h4 : env.kIsDebugBuild <;>
      simp [h1, h2, h3] at hs ⊢ <;> split_ifs <;> exact ⟨_, _, rfl⟩
  · intro hk
    unfold FpRegCopy FpRegCopyOpcode DCHECK
    simp only [hk, Bool.false_and, Bool.false_eq_true, if_false, bind, Except.bind, pure,
      Except.pure]
    cases h1 : env.ARM_DOUBLEREG r_dest <;> cases h2 : env.ARM_SINGLEREG r_dest <;>
      simp <;> split_ifs <;> exact ⟨_, _, rfl⟩

theorem FpRegCopy_nop_marking_witness :
    ∃ res cu1, FpRegCopy thumb2Env 3 emptyUnit 32 32 = Except.ok (res, cu1) ∧
      res.opcode = ArmOpcode.kThumb2Vmovs ∧
      (res.is_nop = true ↔ ((32 : Int) = 32 ∧ emptyUnit.disable_opt.testBit 3 = false)) ∧
      res.operands = [32, 32, 0, 0, 0] ∧
      cu1.code = emptyUnit.code ∧ res.id = emptyUnit.next_id ∧
      cu1 = { emptyUnit with next_id := emptyUnit.next_id + 1 } :=
  ⟨_, _, rfl, rfl, (FpRegCopy_nop_marking thumb2Env 3 emptyUnit 32 32).1 _ _ rfl⟩

/-! ## Register-register selector -/

/-- C18, counterexample: in a build with assertions a shift-left with
`shift = 3` selects no opcode, neither the compact `kThumbLslRR` nor the
extended `kThumb2LslRRR`: the `DCHECK_EQ(shift, 0)` that opens its case fails. -/
theorem OpRegRegShift_lsl_shifted :
    thumb2Env.kIsDebugBuild = true ∧
    regRegForms OpKind.kOpLsl = some (ArmOpcode.kThumbLslRR, ArmOpcode.kThumb2LslRRR) ∧
    OpRegRegShiftSwitch thumb2Env emptyUnit OpKind.kOpLsl 1 2 3
      = Except.error Fault.dcheckFailed ∧
    OpRegRegShift thumb2Env emptyUnit OpKind.kOpLsl 1 2 3 = Except.error Fault.dcheckFailed :=
  ⟨rfl, rfl, rfl, rfl⟩

/-- C18, amended: compact versus extended opcode in `OpRegRegShift`.  For every
kind among adc, and, bic, cmn, xor, mul, mvn, neg, or, sbc, tst, lsl, lsr, asr,
ror, add and sub, with `c` its compact and `e` its extended opcode (two
different opcodes): whatever the switch selects is `c` when `shift = 0` and
both registers are compact and is `e` otherwise, and the record that
`OpRegRegShift` returns carries that opcode; the switch does select that opcode
whenever `shift = 0`, or assertions are compiled out, or the case of the kind
has no `DCHECK_EQ(shift, 0)`; and in the remaining case, a kind among cmn, mul,
neg, lsl, lsr, asr and ror with `shift ≠ 0` in a build with assertions, the
assertion fails, no opcode is selected and the call does not return. -/
theorem OpRegRegShift_compact_choice (env : ArmEnv) (cu : CompilationUnit) (op : OpKind)
    (a b shift : Int) (c e : ArmOpcode) (hk : regRegForms op = some (c, e)) :
    c ≠ e ∧
    (∀ sel, OpRegRegShiftSwitch env cu op a b shift = Except.ok sel →
      sel = Selected.opcode
        (if shift = 0 ∧ env.ARM_LOWREG a = true ∧ env.ARM_LOWREG b = true then c else e)) ∧
    (∀ res cu1, OpRegRegShift env cu op a b shift = Except.ok (res, cu1) →
      res.opcode =
        (if shift = 0 ∧ env.ARM_LOWREG a = true ∧ env.ARM_LOWREG b = true then c else e)) ∧
    ((shift = 0 ∨ env.kIsDebugBuild = false ∨ shiftAsserted op = false) →
      OpRegRegShiftSwitch env cu op a b shift = Except.ok (Selected.opcode
        (if shift = 0 ∧ env.ARM_LOWREG a = true ∧ env.ARM_LOWREG b = true then c else e))) ∧
    ((shift ≠ 0 ∧ env.kIsDebugBuild = true ∧ shiftAsserted op = true) →
      OpRegRegShiftSwitch env cu op a b shift = Except.error Fault.dcheckFailed ∧
      OpRegRegShift env cu op a b shift = Except.error Fault.dcheckFailed) ∧
    (shiftAsserted op = true ↔
      op = OpKind.kOpCmn ∨ op = OpKind.kOpMul ∨ op = OpKind.kOpNeg ∨ op = OpKind.kOpLsl ∨
      op = OpKind.kOpLsr ∨ op = OpKind.kOpAsr ∨ op = OpKind.kOpRor) := by
  have hsw := regRegForms_switch env cu op a b shift c e hk
  refine ⟨?_, hsw.1, ?_, hsw.2, ?_, ?_⟩
  · intro hce
    subst hce
    cases op <;> simp [regRegForms] at hk <;>
      (obtain ⟨h1, h2⟩ := hk; rw [← h1] at h2; cases h2)
  · intro res cu1 hr
    have hb : ∃ sel, OpRegRegShiftSwitch env cu op a b shift = Except.ok sel := by
      unfold OpRegRegShift at hr
      cases hs : OpRegRegShiftSwitch env cu op a b shift with
      | error f => rw [hs] at hr; cases hr
      | ok sel => exact ⟨sel, rfl⟩
    obtain ⟨sel, hs⟩ := hb
    have h1 := hsw.1 sel hs
    rw [h1] at hs
    exact OpRegRegShift_opcode env cu op a b shift _ hs res cu1 hr
  · rintro ⟨hs, hd, ha⟩
    exact OpRegRegShift_asserted_shift env cu op a b shift hs hd ha
  · cases op <;> simp [shiftAsserted]

theorem OpRegRegShift_compact_choice_witness :
    regRegForms OpKind.kOpAdd = some (ArmOpcode.kThumbAddRRR, ArmOpcode.kThumb2AddRRR) ∧
    OpRegRegShiftSwitch thumb2Env emptyUnit OpKind.kOpAdd 1 2 0
      = Except.ok (Selected.opcode ArmOpcode.kThumbAddRRR) ∧
    OpRegRegShiftSwitch thumb2Env emptyUnit OpKind.kOpAdd 1 9 0
      = Except.ok (Selected.opcode ArmOpcode.kThumb2AddRRR) ∧
    OpRegRegShiftSwitch thumb2Env emptyUnit OpKind.kOpAdd 1 2 3
      = Except.ok (Selected.opcode ArmOpcode.kThumb2AddRRR) ∧
    OpRegRegShiftSwitch thumb2Env emptyUnit OpKind.kOpRor 1 2 0
      = Except.ok (Selected.opcode ArmOpcode.kThumbRorRR) ∧
    (OpRegRegShiftSwitch thumb2Env emptyUnit OpKind.kOpRor 1 2 3
        = Except.error Fault.dcheckFailed ∧
      OpRegRegShift thumb2Env emptyUnit OpKind.kOpRor 1 2 3
        = Except.error Fault.dcheckFailed) :=
  ⟨rfl,
   (OpRegRegShift_compact_choice thumb2Env emptyUnit OpKind.kOpAdd 1 2 0 _ _ rfl).2.2.2.1
     (Or.inl rfl),
   (OpRegRegShift_compact_choice thumb2Env emptyUnit OpKind.kOpAdd 1 9 0 _ _ rfl).2.2.2.1
     (Or.inl rfl),
   (OpRegRegShift_compact_choice thumb2Env emptyUnit OpKind.kOpAdd 1 2 3 _ _ rfl).2.2.2.1
     (Or.inr (Or.inr rfl)),
   (OpRegRegShift_compact_choice thumb2Env emptyUnit OpKind.kOpRor 1 2 0 _ _ rfl).2.2.2.1
     (Or.inl rfl),
   (OpRegRegShift_compact_choice thumb2Env emptyUnit OpKind.kOpRor 1 2 3 _ _ rfl).2.2.2.2.1
     ⟨by decide, rfl, rfl⟩⟩

/-- C19: the four register-class variants of move and of compare with
`shift = 0`.  For every pair of registers `OpRegRegShift` selects exactly one
opcode: for a move `kThumbMovRR` when both are compact, `kThumbMovRR_H2H` when
neither is, `kThumbMovRR_H2L` when only the destination is, `kThumbMovRR_L2H`
when only the source is; for a compare `kThumbCmpRR`, `kThumbCmpHH`,
`kThumbCmpLH` and `kThumbCmpHL` in the same four cases. -/
theorem OpRegRegShift_four_variants (env : ArmEnv) (cu : CompilationUnit) (a b : Int) :
    OpRegRegShiftSwitch env cu OpKind.kOpMov a b 0
      = Except.ok (Selected.opcode (movVariant (env.ARM_LOWREG a) (env.ARM_LOWREG b))) ∧
    OpRegRegShiftSwitch env cu OpKind.kOpCmp a b 0
      = Except.ok (Selected.opcode (cmpVariant (env.ARM_LOWREG a) (env.ARM_LOWREG b))) ∧
    (∀ res cu1, OpRegRegShift env cu OpKind.kOpMov a b 0 = Except.ok (res, cu1) →
      res.opcode = movVariant (env.ARM_LOWREG a) (env.ARM_LOWREG b)) ∧
    (∀ res cu1, OpRegRegShift env cu OpKind.kOpCmp a b 0 = Except.ok (res, cu1) →
      res.opcode = cmpVariant (env.ARM_LOWREG a) (env.ARM_LOWREG b)) := by
  have h1 : OpRegRegShiftSwitch env cu OpKind.kOpMov a b 0
      = Except.ok (Selected.opcode (movVariant (env.ARM_LOWREG a) (env.ARM_LOWREG b))) := by
    simp only [OpRegRegShiftSwitch, DCHECK, bind, Except.bind, pure, Except.pure, movVariant]
    cases env.ARM_LOWREG a <;> cases env.ARM_LOWREG b <;> cases env.kIsDebugBuild <;> simp
  have h2 : OpRegRegShiftSwitch env cu OpKind.kOpCmp a b 0
      = Except.ok (Selected.opcode (cmpVariant (env.ARM_LOWREG a) (env.ARM_LOWREG b))) := by
    simp only [OpRegRegShiftSwitch, pure, Except.pure, cmpVariant]
    cases env.ARM_LOWREG a <;> cases env.ARM_LOWREG b <;> simp
  exact ⟨h1, h2, fun res cu1 hr => OpRegRegShift_opcode env cu _ a b 0 _ h1 res cu1 hr,
    fun res cu1 hr => OpRegRegShift_opcode env cu _ a b 0 _ h2 res cu1 hr⟩

/-- C20, counterexample: a compare with `shift = 1` in a build with assertions
fails no assertion; `kThumb2CmpRR` is selected and emitted with the shift as
third operand. -/
theorem OpRegRegShift_cmp_shifted :
    thumb2Env.kIsDebugBuild = true ∧
    OpRegRegShiftSwitch thumb2Env emptyUnit OpKind.kOpCmp 1 2 1
      = Except.ok (Selected.opcode ArmOpcode.kThumb2CmpRR) ∧
    OpRegRegShift thumb2Env emptyUnit OpKind.kOpCmp 1 2 1
      = Except.ok (NewLIR3 emptyUnit ArmOpcode.kThumb2CmpRR 1 2 1) :=
  ⟨rfl, rfl, rfl⟩

/-- C20, amended: in a build with assertions a move or a multiply with
`shift ≠ 0` fails its `DCHECK_EQ(shift, 0)`: no opcode is selected and the call
does not return.  A compare has no such assertion: with `shift ≠ 0` it selects
the extended compare `kThumb2CmpRR`, in every build. -/
theorem OpRegRegShift_shift_precondition (env : ArmEnv) (cu : CompilationUnit)
    (a b shift : Int) (hs : shift ≠ 0) :
    (env.kIsDebugBuild = true →
      OpRegRegShiftSwitch env cu OpKind.kOpMov a b shift = Except.error Fault.dcheckFailed ∧
      OpRegRegShift env cu OpKind.kOpMov a b shift = Except.error Fault.dcheckFailed ∧
      OpRegRegShiftSwitch env cu OpKind.kOpMul a b shift = Except.error Fault.dcheckFailed ∧
      OpRegRegShift env cu OpKind.kOpMul a b shift = Except.error Fault.dcheckFailed) ∧
    OpRegRegShiftSwitch env cu OpKind.kOpCmp a b shift
      = Except.ok (Selected.opcode ArmOpcode.kThumb2CmpRR) := by
  constructor
  · intro hd
    have h1 : OpRegRegShiftSwitch env cu OpKind.kOpMov a b shift
        = Except.error Fault.dcheckFailed := by
      simp [OpRegRegShiftSwitch, DCHECK, bind, Except.bind, hd, hs]
    have h2 : OpRegRegShiftSwitch env cu OpKind.kOpMul a b shift
        = Except.error Fault.dcheckFailed := by
      simp [OpRegRegShiftSwitch, DCHECK, bind, Except.bind, hd, hs]
    refine ⟨h1, ?_, h2, ?_⟩
    · unfold OpRegRegShift; rw [h1]; rfl
    · unfold OpRegRegShift; rw [h2]; rfl
  · simp [OpRegRegShiftSwitch, hs, pure, Except.pure]

theorem OpRegRegShift_shift_precondition_witness :
    (thumb2Env.kIsDebugBuild = true →
      OpRegRegShiftSwitch thumb2Env emptyUnit OpKind.kOpMov 1 2 3
        = Except.error Fault.dcheckFailed ∧
      OpRegRegShift thumb2Env emptyUnit OpKind.kOpMov 1 2 3 = Except.error Fault.dcheckFailed ∧
      OpRegRegShiftSwitch thumb2Env emptyUnit OpKind.kOpMul 1 2 3
        = Except.error Fault.dcheckFailed ∧
      OpRegRegShift thumb2Env emptyUnit OpKind.kOpMul 1 2 3 = Except.error Fault.dcheckFailed) ∧
    OpRegRegShiftSwitch thumb2Env emptyUnit OpKind.kOpCmp 1 2 3
      = Except.ok (Selected.opcode ArmOpcode.kThumb2CmpRR) :=
  OpRegRegShift_shift_precondition thumb2Env emptyUnit 1 2 3 (by decide)

/-! ## Operand layout and immediate forms -/

/-- C21, counterexample: a test of `r9` against `r2` without shift selects
`kThumb2TstRR`, whose registry entry is ternary with a shift as third field; the
operands emitted are `(dest, src2, shift)` with the shift `0` as third operand,
not `(dest, dest, src2)`.  An add of two compact registers selects
`kThumbAddRRR`, ternary with a register as third field, and that one is emitted
with the destination duplicated. -/
theorem OpRegRegShift_ternary_layout_example :
    (thumb2Env.EncodingMap ArmOpcode.kThumb2TstRR).IS_BINARY_OP = false ∧
    (thumb2Env.EncodingMap ArmOpcode.kThumb2TstRR).IS_TERTIARY_OP = true ∧
    (thumb2Env.EncodingMap ArmOpcode.kThumb2TstRR).field2_kFmtShift = true ∧
    (∃ res cu1, OpRegRegShift thumb2Env emptyUnit OpKind.kOpTst 9 2 0 = Except.ok (res, cu1) ∧
      res.opcode = ArmOpcode.kThumb2TstRR ∧ res.operands = [9, 2, 0, 0, 0] ∧
      res.operands ≠ [9, 9, 2, 0, 0]) ∧
    (thumb2Env.EncodingMap ArmOpcode.kThumbAddRRR).IS_TERTIARY_OP = true ∧
    (thumb2Env.EncodingMap ArmOpcode.kThumbAddRRR).field2_kFmtShift = false ∧
    (∃ res cu1, OpRegRegShift thumb2Env emptyUnit OpKind.kOpAdd 1 2 0 = Except.ok (res, cu1) ∧
      res.opcode = ArmOpcode.kThumbAddRRR ∧ res.operands = [1, 1, 2, 0, 0]) :=
  ⟨rfl, rfl, rfl, ⟨_, _, rfl, rfl, rfl, by decide⟩, rfl, rfl, ⟨_, _, rfl, rfl, rfl⟩⟩

/-- C21, amended: ternary operand layout of `OpRegRegShift`.  When the opcode
selected has a ternary registry entry (and not a binary one, which is tested
first): if the entry marks its third field as a shift, the operands emitted are
`(dest, src2, shift)`, the shift being the explicit third operand also when it
is `0`; if the third field is not so marked, the destination is duplicated as
the first source and the operands are `(dest, dest, src2)`. -/
theorem OpRegRegShift_ternary_layout (env : ArmEnv) (cu : CompilationUnit) (op : OpKind)
    (r_dest_src1 r_src2 shift : Int) (o : ArmOpcode)
    (hsel : OpRegRegShiftSwitch env cu op r_dest_src1 r_src2 shift
      = Except.ok (Selected.opcode o))
    (hb : (env.EncodingMap o).IS_BINARY_OP = false)
    (ht : (env.EncodingMap o).IS_TERTIARY_OP = true) :
    ((env.EncodingMap o).field2_kFmtShift = true →
      OpRegRegShift env cu op r_dest_src1 r_src2 shift
        = Except.ok (NewLIR3 cu o r_dest_src1 r_src2 shift) ∧
      (NewLIR3 cu o r_dest_src1 r_src2 shift).1.operands = [r_dest_src1, r_src2, shift, 0, 0]) ∧
    ((env.EncodingMap o).field2_kFmtShift = false →
      OpRegRegShift env cu op r_dest_src1 r_src2 shift
        = Except.ok (NewLIR3 cu o r_dest_src1 r_dest_src1 r_src2) ∧
      (NewLIR3 cu o r_dest_src1 r_dest_src1 r_src2).1.operands
        = [r_dest_src1, r_dest_src1, r_src2, 0, 0]) := by
  constructor
  · intro hf
    refine ⟨?_, rfl⟩
    unfold OpRegRegShift
    rw [hsel]
    simp [bind, Except.bind, hb, ht, hf, pure, Except.pure]
  · intro hf
    refine ⟨?_, rfl⟩
    unfold OpRegRegShift
    rw [hsel]
    simp [bind, Except.bind, hb, ht, hf, pure, Except.pure]

theorem OpRegRegShift_ternary_layout_witness :
    OpRegRegShift thumb2Env emptyUnit OpKind.kOpCmp 9 2 3
      = Except.ok (NewLIR3 emptyUnit ArmOpcode.kThumb2CmpRR 9 2 3) ∧
    (NewLIR3 emptyUnit ArmOpcode.kThumb2CmpRR 9 2 3).1.operands = [9, 2, 3, 0, 0] :=
  (OpRegRegShift_ternary_layout thumb2Env emptyUnit OpKind.kOpCmp 9 2 3 ArmOpcode.kThumb2CmpRR
    rfl rfl rfl).1 rfl

/-- C22, counterexample.  For `v = 0x01000000`, whose magnitude does not fit in 8
bits, both `ModifiedImmediate(v)` and `ModifiedImmediate(-v)` succeed, and the
add is emitted swapped, as `kThumb2SubRRI8` with the field of `-v`.  For
`v = 256`, where `ModifiedImmediate(v)` succeeds and `ModifiedImmediate(-v)`
fails, an add to a compact register from the stack pointer is emitted in the
add-relative form `kThumbAddSpRel` with operand `64`, not as `kThumb2AddRRI8`
with `ModifiedImmediate(v)`.  For `v = INT_MIN`, where `ModifiedImmediate(v)`
succeeds, `-v` is a signed overflow and the source fixes no outcome. -/
theorem OpRegRegImm_swap_although_plain :
    (0 ≤ ModifiedImmediate (toU32 16777216) ∧
      ModifiedImmediate (toU32 (-16777216)) = 1151 ∧
      ∃ res cu1, OpRegRegImm thumb2Env 0 emptyUnit OpKind.kOpAdd 1 2 16777216
          = Except.ok (res, cu1) ∧
        res.opcode = ArmOpcode.kThumb2SubRRI8 ∧ res.operands = [1, 2, 1151, 0, 0] ∧
        cu1.code = [res]) ∧
    (0 ≤ ModifiedImmediate (toU32 256) ∧ ModifiedImmediate (toU32 (-256)) < 0 ∧
      OpRegRegImm thumb2Env 0 emptyUnit OpKind.kOpAdd 1 13 256
        = Except.ok (NewLIR3 emptyUnit ArmOpcode.kThumbAddSpRel 1 13 64)) ∧
    (0 ≤ ModifiedImmediate (toU32 (-2147483648)) ∧
      OpRegRegImm thumb2Env 0 emptyUnit OpKind.kOpSub 1 2 (-2147483648)
        = Except.error Fault.signedOverflow) :=
  ⟨⟨by decide, by decide, _, _, rfl, rfl, rfl, rfl⟩, ⟨by decide, by decide, rfl⟩,
    ⟨by decide, rfl⟩⟩

/-- C22, amended: negated-immediate swap in the add and subtract of
`OpRegRegImm`.  For a subtract, or an add that does not take the add-relative
form of lines 430-434, and a value `v` other than `INT_MIN` whose magnitude does
not fit in 8 bits: whenever `ModifiedImmediate(-v)` succeeds the operation is
swapped (add to subtract, subtract to add) and the field of `-v` is emitted,
whether or not `ModifiedImmediate(v)` succeeds; the unswapped opcode with
`ModifiedImmediate(v)` is emitted when `ModifiedImmediate(-v)` fails and
`ModifiedImmediate(v)` succeeds. -/
theorem OpRegRegImm_negated_swap (env : ArmEnv) (fuel : Nat) (cu : CompilationUnit)
    (op : OpKind) (r_dest r_src1 value : Int) (hop : op = OpKind.kOpAdd ∨ op = OpKind.kOpSub)
    (hmin : value ≠ -2147483648)
    (hmag : ¬ (-255 ≤ value ∧ value ≤ 255))
    (hpath : op = OpKind.kOpSub ∨ ¬ (env.ARM_LOWREG r_dest = true ∧
      (r_src1 = env.r13sp ∨ r_src1 = env.r15pc) ∧ value ≤ 1020 ∧ andI value 0x3 = 0)) :
    (0 ≤ ModifiedImmediate (toU32 (-value)) →
      OpRegRegImm env fuel cu op r_dest r_src1 value
        = Except.ok (NewLIR3 cu
            (if op = OpKind.kOpAdd then ArmOpcode.kThumb2SubRRI8 else ArmOpcode.kThumb2AddRRI8)
            r_dest r_src1 (ModifiedImmediate (toU32 (-value))))) ∧
    (ModifiedImmediate (toU32 (-value)) < 0 → 0 ≤ ModifiedImmediate (toU32 value) →
      OpRegRegImm env fuel cu op r_dest r_src1 value
        = Except.ok (NewLIR3 cu
            (if op = OpKind.kOpAdd then ArmOpcode.kThumb2AddRRI8 else ArmOpcode.kThumb2SubRRI8)
            r_dest r_src1 (ModifiedImmediate (toU32 value)))) := by
  have e := OpRegRegImm_shared_path env fuel cu op r_dest r_src1 value hop hpath
  rw [OpRegRegImmAddSub_large env _ cu op r_dest r_src1 value hmin hmag] at e
  refine ⟨?_, ?_⟩
  · intro hn
    rw [e]
    rcases hop with rfl | rfl <;>
      simp [hn, OpRegRegImmTail, pure, Except.pure]
  · intro hn hp
    rw [e]
    rcases hop with rfl | rfl <;>
      simp [not_le.mpr hn, hp, OpRegRegImmTail, pure, Except.pure]

theorem OpRegRegImm_negated_swap_witness :
    OpRegRegImm thumb2Env 0 emptyUnit OpKind.kOpSub 1 2 (-16711935)
        = Except.ok (NewLIR3 emptyUnit
            (if OpKind.kOpSub = OpKind.kOpAdd then ArmOpcode.kThumb2SubRRI8
              else ArmOpcode.kThumb2AddRRI8)
            1 2 (ModifiedImmediate (toU32 (-(-16711935))))) ∧
    OpRegRegImm thumb2Env 0 emptyUnit OpKind.kOpAdd 1 13 4096
        = Except.ok (NewLIR3 emptyUnit
            (if OpKind.kOpAdd = OpKind.kOpAdd then ArmOpcode.kThumb2AddRRI8
              else ArmOpcode.kThumb2SubRRI8)
            1 13 (ModifiedImmediate (toU32 4096))) :=
  ⟨(OpRegRegImm_negated_swap thumb2Env 0 emptyUnit OpKind.kOpSub 1 2 (-16711935) (Or.inr rfl)
      (by decide) (by decide) (Or.inl rfl)).1 (by decide),
   (OpRegRegImm_negated_swap thumb2Env 0 emptyUnit OpKind.kOpAdd 1 13 4096 (Or.inl rfl)
      (by decide) (by decide) (Or.inr (by decide))).2 (by decide) (by decide)⟩

/-- C23: general immediate operations of `OpRegRegImm`.  For and, or, xor, adc
and sbc, with `imm8` the 8-bit-modified-immediate opcode and `rrr` the
three-register opcode of the kind: if `ModifiedImmediate(v) = m ≥ 0` exactly one
record is emitted, `imm8` with operands `(dest, src1, m)`.  Otherwise, with `t`
the temporary that `AllocTemp` hands out, `c` the record by which `LoadConstant`
materializes `v` into `t`, and `rec` the record that `OpRegRegReg(kind, dest,
src1, t)` emits after it, the call returns `rec`, the records emitted are `c`
then `rec`, and the context is the one `OpRegRegReg` leaves with `t` released.
Whenever the registry gives `rrr` four or three fields, or assertions are
compiled out, the call is equal to the description `generalImmSpec`, also in
whether it returns. -/
theorem OpRegRegImm_general_immediate (env : ArmEnv) (fuel : Nat) (cu : CompilationUnit)
    (op : OpKind) (r_dest r_src1 value : Int) (imm8 rrr : ArmOpcode)
    (hk : generalImmForms op = some (imm8, rrr)) :
    (0 ≤ ModifiedImmediate (toU32 value) →
      OpRegRegImm env fuel cu op r_dest r_src1 value
        = Except.ok (NewLIR3 cu imm8 r_dest r_src1 (ModifiedImmediate (toU32 value))) ∧
      (NewLIR3 cu imm8 r_dest r_src1 (ModifiedImmediate (toU32 value))).2.code
        = cu.code ++ [(NewLIR3 cu imm8 r_dest r_src1 (ModifiedImmediate (toU32 value))).1] ∧
      (NewLIR3 cu imm8 r_dest r_src1 (ModifiedImmediate (toU32 value))).1.operands
        = [r_dest, r_src1, ModifiedImmediate (toU32 value), 0, 0]) ∧
    (ModifiedImmediate (toU32 value) < 0 →
      ∀ t c0 c c1 rec c2, AllocTemp cu = Except.ok (t, c0) →
        LoadConstant env fuel c0 t value = Except.ok (c, c1) →
        OpRegRegReg env c1 op r_dest r_src1 t = Except.ok (rec, c2) →
        OpRegRegImm env fuel cu op r_dest r_src1 value = Except.ok (rec, FreeTemp c2 t) ∧
        (FreeTemp c2 t).code = cu.code ++ [c, rec] ∧ rec.opcode = rrr ∧
        (FreeTemp c2 t).free_temps = cu.free_temps) ∧
    ((env.EncodingMap rrr).IS_QUAD_OP = true ∨ (env.EncodingMap rrr).IS_TERTIARY_OP = true ∨
        env.kIsDebugBuild = false →
      OpRegRegImm env fuel cu op r_dest r_src1 value
        = generalImmSpec env fuel cu op imm8 r_dest r_src1 value) := by
  have e := OpRegRegImm_general env fuel cu op r_dest r_src1 value imm8 rrr hk
  refine ⟨?_, ?_, ?_⟩
  · intro hm
    refine ⟨?_, rfl, rfl⟩
    rw [e]
    unfold OpRegRegImmTail
    rw [if_pos hm]
    rfl
  · intro hm t c0 c c1 rec c2 ha hc hr
    have hrr := OpRegRegReg_general env c1 op r_dest r_src1 t imm8 rrr hk
    rw [hr] at hrr
    have hrec : (rec, c2) = (if (env.EncodingMap rrr).IS_QUAD_OP = true then
        NewLIR4 c1 rrr r_dest r_src1 t 0 else NewLIR3 c1 rrr r_dest r_src1 t) := by
      by_cases hq : (env.EncodingMap rrr).IS_QUAD_OP = true
      · rw [if_pos hq] at hrr ⊢
        injection hrr
      · rw [if_neg hq] at hrr ⊢
        rcases DCHECK_cases env (env.EncodingMap rrr).IS_TERTIARY_OP with hd | hd
        · rw [hd] at hrr
          injection hrr
        · rw [hd] at hrr
          cases hrr
    have hfin : OpRegRegImm env fuel cu op r_dest r_src1 value
        = Except.ok (rec, FreeTemp c2 t) := by
      rw [e]
      unfold OpRegRegImmTail
      rw [if_neg (not_le.mpr hm), ha]
      simp only [bind, Except.bind]
      rw [hc]
      simp only [pure, Except.pure]
      rw [← hrec]
    obtain ⟨s1, s2⟩ := AllocTemp_stream cu c0 t ha
    have g1 := LoadConstantNoClobber_emits env fuel c0 c1 t value c hc
    have g2 : Emits c1 [rec] c2 := by
      have h1 := congrArg Prod.fst hrec
      have h2 := congrArg Prod.snd hrec
      simp only at h1 h2
      rw [h1, h2]
      split_ifs
      · exact Emits_NewLIR4 _ _ _ _ _ _
      · exact Emits_NewLIR3 _ _ _ _ _
    have ho : rec.opcode = rrr := by
      have h1 := congrArg Prod.fst hrec
      simp only at h1
      rw [h1]
      split_ifs <;> rfl
    refine ⟨hfin, ?_, ho, ?_⟩
    · show c2.code = _
      rw [g2.1, g1.1, s1]
      simp
    · have b := OpRegRegImm_balanced env fuel cu (FreeTemp c2 t) op r_dest r_src1 value rec hfin
      exact b.1
  · intro hreg
    rw [e]
    unfold OpRegRegImmTail generalImmSpec
    by_cases hm : ModifiedImmediate (toU32 value) ≥ 0
    · rw [if_pos hm, if_pos hm]
    · rw [if_neg hm, if_neg hm]
      cases ha : AllocTemp cu with
      | error f => rfl
      | ok t =>
        simp only [bind, Except.bind]
        cases hc : LoadConstant env fuel t.2 t.1 value with
        | error f => rfl
        | ok c =>
          simp only
          rw [OpRegRegReg_general env c.2 op r_dest r_src1 t.1 imm8 rrr hk]
          by_cases hq : (env.EncodingMap rrr).IS_QUAD_OP = true
          · simp only [hq, if_true]
          · have hd : DCHECK env (env.EncodingMap rrr).IS_TERTIARY_OP = Except.ok () := by
              unfold DCHECK
              rcases hreg with h | h | h
              · exact absurd h hq
              · simp [h]
              · simp [h]
            simp only [hq, if_false, hd, Bool.false_eq_true, bind, Except.bind]

theorem OpRegRegImm_general_immediate_witness :
    OpRegRegImm thumb2Env 0 emptyUnit OpKind.kOpAnd 1 2 100000
      = generalImmSpec thumb2Env 0 emptyUnit OpKind.kOpAnd ArmOpcode.kThumb2AndRRI8 1 2 100000 ∧
    (∃ res cu1, OpRegRegImm thumb2Env 0 emptyUnit OpKind.kOpAnd 1 2 100000
        = Except.ok (res, cu1) ∧
      cu1.code.map (fun l => (l.opcode, l.operands))
        = [(ArmOpcode.kThumb2LdrPcRel12, [0, 0, 0, 0, 0]),
           (ArmOpcode.kThumb2AndRRR, [1, 2, 0, 0, 0])] ∧
      cu1.temp_trace = [TempEvent.acquire 0, TempEvent.release 0]) :=
  ⟨(OpRegRegImm_general_immediate thumb2Env 0 emptyUnit OpKind.kOpAnd 1 2 100000 _ _ rfl).2.2
      (Or.inl rfl),
   ⟨_, _, rfl, by decide, by decide⟩⟩

/-- C24, the code at the failing input: a word load into the compact register
`r1` from the stack pointer at the displacement `2`, which is not a multiple of
four, is given the compact relative form `kThumbLdrSpRel` with the field `0`, so
that four times the field is not the displacement; the same holds from the
program counter with `kThumbLdrPcRel`. -/
theorem LoadBaseDisp_relative_unaligned :
    thumb2Env.ARM_LOWREG 1 = true ∧ thumb2Env.ARM_FPREG 1 = false ∧
    thumb2Env.r13sp = 13 ∧ thumb2Env.r15pc = 15 ∧
    (∃ res cu1, LoadBaseDisp thumb2Env 0 emptyUnit 13 2 1 OpSize.kWord = Except.ok (res, cu1) ∧
      res.opcode = ArmOpcode.kThumbLdrSpRel ∧ res.operands = [1, 13, 0, 0, 0] ∧
      cu1.code = [res] ∧ cu1.temp_trace = []) ∧
    (∃ res cu1, LoadBaseDisp thumb2Env 0 emptyUnit 15 2 1 OpSize.kWord = Except.ok (res, cu1) ∧
      res.opcode = ArmOpcode.kThumbLdrPcRel ∧ res.operands = [1, 15, 0, 0, 0] ∧
      cu1.code = [res] ∧ cu1.temp_trace = []) :=
  ⟨rfl, rfl, rfl, rfl, ⟨_, _, rfl, rfl, rfl, rfl, rfl⟩, ⟨_, _, rfl, rfl, rfl, rfl, rfl⟩⟩

/-- C25, the code at the failing input: a single-precision load and a
single-precision store of `s0` at the displacement `-4` from `r1` are emitted in
the short form, one record with the field `-1` and no temporary register, not
through the synthesis. -/
theorem BaseDisp_float_negative_short :
    thumb2Env.ARM_FPREG 32 = true ∧ thumb2Env.ARM_SINGLEREG 32 = true ∧
    (∃ res cu1, LoadBaseDisp thumb2Env 0 emptyUnit 1 (-4) 32 OpSize.kSingle
        = Except.ok (res, cu1) ∧
      res.opcode = ArmOpcode.kThumb2Vldrs ∧ res.operands = [32, 1, -1, 0, 0] ∧
      cu1.code = [res] ∧ cu1.temp_trace = []) ∧
    (∃ res cu1, StoreBaseDisp thumb2Env 0 emptyUnit 1 (-4) 32 OpSize.kSingle
        = Except.ok (res, cu1) ∧
      res.opcode = ArmOpcode.kThumb2Vstrs ∧ res.operands = [32, 1, -1, 0, 0] ∧
      cu1.code = [res] ∧ cu1.temp_trace = []) :=
  ⟨rfl, rfl, ⟨_, _, rfl, rfl, rfl, rfl, rfl⟩, ⟨_, _, rfl, rfl, rfl, rfl, rfl⟩⟩

/-! ## Displacement forms -/

/-- C26: displacement synthesis fallback.  For every size, register class and
displacement for which the `switch` of `LoadBaseDispBody` selects no short form
(a long or double in core registers is two word accesses, each of which is such
a call), the call is `loadDispSynthesis`: the displacement itself, never a
shifted one, is materialized by `LoadConstant` into the temporary that
`AllocTemp` hands out, `LoadBaseIndexed(base, t, reg, 0, size)` follows in the
context that leaves, and `t` is released; `reg` is the data register, paired
into a double where the `switch` does so.  A returning call goes through these
three stages, and the record of the constant load, read per opcode, leaves the
displacement in `t`.  `StoreBaseDispBody` does the same with
`StoreBaseIndexed`. -/
theorem displacement_synthesis (env : ArmEnv) (fuel : Nat) (cu : CompilationUnit)
    (rBase d r rh : Int) (size : OpSize)
    (hn : ¬ ((size = OpSize.kLong ∨ size = OpSize.kDouble) ∧ env.ARM_FPREG r = false)) :
    (∀ f, LoadBaseDispSwitch env rBase d r rh size = Except.ok f → f.short_form = false →
      f.encoded_disp = d ∧ (f.reg = r ∨ f.reg = env.S2d r rh) ∧
      LoadBaseDispBody env fuel cu rBase d r rh size
        = loadDispSynthesis env fuel cu rBase d f.reg size f.is64bit ∧
      ∀ res cu1, LoadBaseDispBody env fuel cu rBase d r rh size = Except.ok (res, cu1) →
        ∃ t c0 c c1 ld c2, AllocTemp cu = Except.ok (t, c0) ∧
          LoadConstant env fuel c0 t d = Except.ok (c, c1) ∧
          LoadBaseIndexed env c1 rBase t f.reg 0 size = Except.ok (ld, c2) ∧
          c1.code = cu.code ++ [c] ∧
          (env.ARM_FPREG t = false → -2147483648 ≤ d → d < 2147483648 →
            loadedValue c1.literal_list c = some (t, toU32 d))) ∧
    (∀ f, StoreBaseDispSwitch env rBase d r rh size = Except.ok f → f.short_form = false →
      f.encoded_disp = d ∧ (f.reg = r ∨ f.reg = env.S2d r rh) ∧
      StoreBaseDispBody env fuel cu rBase d r rh size
        = storeDispSynthesis env fuel cu rBase d f.reg size f.is64bit ∧
      ∀ res cu1, StoreBaseDispBody env fuel cu rBase d r rh size = Except.ok (res, cu1) →
        ∃ t c0 c c1 st c2, AllocTemp cu = Except.ok (t, c0) ∧
          LoadConstant env fuel c0 t d = Except.ok (c, c1) ∧
          StoreBaseIndexed env c1 rBase t f.reg 0 size = Except.ok (st, c2) ∧
          c1.code = cu.code ++ [c] ∧
          (env.ARM_FPREG t = false → -2147483648 ≤ d → d < 2147483648 →
            loadedValue c1.literal_list c = some (t, toU32 d))) := by
  have hload : ∀ (c0 : CompilationUnit) (t : Int) (c : LIR) (c1 : CompilationUnit),
      c0.code = cu.code → LoadConstant env fuel c0 t d = Except.ok (c, c1) →
      c1.code = cu.code ++ [c] ∧
      (env.ARM_FPREG t = false → -2147483648 ≤ d → d < 2147483648 →
        loadedValue c1.literal_list c = some (t, toU32 d)) := by
    intro c0 t c c1 hcode hc
    refine ⟨?_, ?_⟩
    · rw [(LoadConstantNoClobber_emits env fuel c0 c1 t d c hc).1, hcode]
    · intro hfp h1 h2
      obtain ⟨res, cu1, e, _, hv⟩ := LoadConstantNoClobber_loads env fuel c0 t d h1 h2
        (fun h => by rw [hfp] at h; cases h)
      have e2 : LoadConstantNoClobber env fuel c0 t d = Except.ok (c, c1) := hc
      rw [e] at e2
      injection e2 with e2
      injection e2 with e3 e4
      rw [← e3, ← e4]
      exact hv
  constructor
  · intro f hf hs
    obtain ⟨he, hr⟩ := LoadBaseDispSwitch_unscaled env rBase d r rh size f hf hs
    have e : LoadBaseDispBody env fuel cu rBase d r rh size
        = loadDispSynthesis env fuel cu rBase d f.reg size f.is64bit := by
      rw [LoadBaseDispBody_narrow _ _ _ _ _ _ _ _ hn, hf]
      exact LoadBaseDispTail_synthesis env fuel cu rBase d size f hs he
    refine ⟨he, hr, e, ?_⟩
    intro res cu1 h
    rw [e] at h
    unfold loadDispSynthesis at h
    rw [bind_ok_iff] at h
    obtain ⟨⟨t, c0⟩, ha, h⟩ := h
    rw [bind_ok_iff] at h
    obtain ⟨⟨c, c1⟩, hc, h⟩ := h
    rw [bind_ok_iff] at h
    obtain ⟨⟨ld, c2⟩, hl, h⟩ := h
    obtain ⟨g1, g2⟩ := hload c0 t c c1 (AllocTemp_stream cu c0 t ha).1 hc
    exact ⟨t, c0, c, c1, ld, c2, ha, hc, hl, g1, g2⟩
  · intro f hf hs
    obtain ⟨he, hr⟩ := StoreBaseDispSwitch_unscaled env rBase d r rh size f hf hs
    have e : StoreBaseDispBody env fuel cu rBase d r rh size
        = storeDispSynthesis env fuel cu rBase d f.reg size f.is64bit := by
      rw [StoreBaseDispBody_narrow _ _ _ _ _ _ _ _ hn, hf]
      exact StoreBaseDispTail_synthesis env fuel cu rBase d size f hs he
    refine ⟨he, hr, e, ?_⟩
    intro res cu1 h
    rw [e] at h
    unfold storeDispSynthesis at h
    rw [bind_ok_iff] at h
    obtain ⟨⟨t, c0⟩, ha, h⟩ := h
    rw [bind_ok_iff] at h
    obtain ⟨⟨c, c1⟩, hc, h⟩ := h
    rw [bind_ok_iff] at h
    obtain ⟨⟨st, c2⟩, hl, h⟩ := h
    obtain ⟨g1, g2⟩ := hload c0 t c c1 (AllocTemp_stream cu c0 t ha).1 hc
    exact ⟨t, c0, c, c1, st, c2, ha, hc, hl, g1, g2⟩

theorem displacement_synthesis_witness :
    LoadBaseDispBody thumb2Env 0 emptyUnit 1 5000 2 (-1) OpSize.kWord
      = loadDispSynthesis thumb2Env 0 emptyUnit 1 5000 2 OpSize.kWord false ∧
    (∃ res cu1, LoadBaseDispBody thumb2Env 0 emptyUnit 1 5000 2 (-1) OpSize.kWord
        = Except.ok (res, cu1) ∧
      cu1.code.map (fun l => (l.opcode, l.operands))
        = [(ArmOpcode.kThumb2MovImm16, [0, 5000, 0, 0, 0]),
           (ArmOpcode.kThumbLdrRRR, [2, 1, 0, 0, 0])]) :=
  ⟨((displacement_synthesis thumb2Env 0 emptyUnit 1 5000 2 (-1) OpSize.kWord (by decide)).1
      { opcode := ArmOpcode.kThumbBkpt, short_form := false, encoded_disp := 5000, reg := 2,
        is64bit := false } rfl rfl).2.2.1,
   ⟨_, _, rfl, by decide⟩⟩

/-- C27, the code at the failing input: a compare of the compact register `r1`
with `-5` is emitted as `kThumbCmpRI8` with the immediate operand `5`. -/
theorem OpRegImm_cmp_minus_five :
    thumb2Env.ARM_LOWREG 1 = true ∧
    OpRegImm thumb2Env 0 emptyUnit OpKind.kOpCmp 1 (-5)
      = Except.ok (NewLIR2 emptyUnit ArmOpcode.kThumbCmpRI8 1 5) ∧
    (NewLIR2 emptyUnit ArmOpcode.kThumbCmpRI8 1 5).1.operands = [1, 5, 0, 0, 0] ∧
    (NewLIR2 emptyUnit ArmOpcode.kThumbCmpRI8 1 5).2.code
      = [(NewLIR2 emptyUnit ArmOpcode.kThumbCmpRI8 1 5).1] :=
  ⟨rfl, rfl, rfl, rfl⟩

end Art
